import Mathlib

/-!
# Generic-messaging channel subsystem (`sphcs_genmsg.c`)

A shallow embedding of the card-side generic-messaging driver: the service
registry, the channel table with its reference counts, the byte-stream read
and write paths, and the two-sided close / hangup state machine.

Conventions of the embedding

* A C pointer to a `channel_data` is the channel's `channel_id`; the hash
  table `s_genmsg.channel_hash` is the list of the channel objects it links,
  newest first (`hash_add` links at the head of a bucket).
* An `ida` is the list of the ids it has handed out.
* Everything the driver does to its collaborators (page pool, response
  queue, DMA scheduler, hardware command channel) is appended to a log of
  `genmsg_effect`s, oldest first.
* What the collaborators answer (an allocation failing, a copy to user space
  faulting, a wait being interrupted) is an explicit argument.
* A function that sleeps in `wait_event_interruptible` with its condition
  false and no signal pending has no result: it returns `none`.
-/

namespace Genmsg

/-! ## Constants -/

/-- Capacity of the registry: `#define SPH_MAX_GENERIC_SERVICES (32UL + 256UL)`. -/
def SPH_MAX_GENERIC_SERVICES : Nat := 32 + 256

/-- From `ipc_protocol.h`: `#define NNP_PAGE_SHIFT 12`. -/
def NNP_PAGE_SHIFT : Nat := 12

/-- From `ipc_protocol.h`: `#define NNP_PAGE_SIZE (1<<NNP_PAGE_SHIFT)`. -/
def NNP_PAGE_SIZE : Nat := 2 ^ NNP_PAGE_SHIFT

/-- Width of a `u32`. -/
def U32_MOD : Nat := 2 ^ 32

/-- Linux error numbers used by the driver. -/
def EIO_errno : Int := 5
def EBADF_errno : Int := 9
def ENOMEM_errno : Int := 12
def EFAULT_errno : Int := 14
def EEXIST_errno : Int := 17
def ENODEV_errno : Int := 19
def EINVAL_errno : Int := 22
def ENOSPC_errno : Int := 28
def EPIPE_errno : Int := 32
def ERESTARTSYS_errno : Int := 512

/-- Status `SPHCS_DMA_STATUS_*` as passed to a completion callback. -/
inductive dma_status
  | SPHCS_DMA_STATUS_DONE
  | SPHCS_DMA_STATUS_FAILED
  deriving DecidableEq, Repr

/-! ## Data model -/

/-- The hardware command/response channel a message arrived on
(`struct sphcs_cmd_chan`, owned by a collaborator): its address and the
fields the driver reads. A NULL pointer is the all-zero value. -/
structure sphcs_cmd_chan where
  ptr : Nat
  protocol_id : Nat
  privileged : Bool
  deriving DecidableEq, Repr

/-- Model of `union h2c_GenericMessaging`: the bit fields of the two 64-bit words. -/
structure h2c_GenericMessaging where
  opcode : Nat
  size : Nat
  connect : Bool
  hangup : Bool
  host_pfn : Nat
  host_client_id : Nat
  card_client_id : Nat
  host_page_hndl : Nat
  service_list_req : Bool
  privileged : Bool
  deriving DecidableEq, Repr

/-- Model of `union c2h_ChanGenericMessaging`: the fields the driver assigns; a field
that is not assigned keeps the 0 of `msg.value = 0`. -/
structure c2h_ChanGenericMessaging where
  chan_id : Nat
  rb_id : Nat
  size : Nat
  connect : Bool
  hangup : Bool
  no_such_service : Bool
  card_client_id : Nat
  deriving DecidableEq, Repr

/-- Model of `union c2h_ChanServiceListMsg`: the fields the driver assigns. -/
structure c2h_ChanServiceListMsg where
  chan_id : Nat
  rb_id : Nat
  failure : Nat
  num_services : Nat
  size : Nat
  deriving DecidableEq, Repr

/-- Model of `struct genmsg_dma_command_data`. `vptr` is the staged local page (its
bytes), `none` for a NULL pointer; `channel` is the target channel. -/
structure genmsg_dma_command_data where
  vptr : Option (List Nat)
  dma_page_hndl : Nat
  dma_addr : Nat
  host_dma_addr : Nat
  channel : Option Nat
  msg : h2c_GenericMessaging
  cmd_chan : sphcs_cmd_chan
  deriving DecidableEq, Repr

/-- Model of `struct pending_packet`. -/
structure pending_packet where
  dma_data : genmsg_dma_command_data
  is_hangup_command : Bool
  deriving DecidableEq, Repr

/-- Model of `enum channel_close_state`. -/
inductive channel_close_state
  | _chnl_open
  | _chnl_preclose
  | _chnl_close_ready
  | _chnl_close_done
  deriving DecidableEq, Repr

open channel_close_state

/-- Model of `struct channel_data` (locks and wait queues have no fields here). -/
structure channel_data where
  ref : Nat
  host_client_id : Nat
  fd : Int
  is_privileged : Bool
  pending_read_packets : List pending_packet
  current_read_packet : Option pending_packet
  current_read_size : Nat
  n_read_dma_req : Nat
  cmd_chan : sphcs_cmd_chan
  channel_id : Nat
  closing : channel_close_state
  hanging_up : Bool
  io_error : Bool
  write_host_page_valid : Bool
  write_host_page_hndl : Nat
  write_host_page_addr : Nat
  write_page_hndl : Nat
  write_page_addr : Nat
  write_page_vptr : Option (List Nat)
  n_write_dma_req : Nat
  deriving DecidableEq, Repr

/-- Model of `struct service_data`. -/
structure service_data where
  id : Int
  host_client_handle : Nat
  pending_connections : List pending_packet
  deriving DecidableEq, Repr

/-- Model of `struct sphcs_genmsg_service_list`: the id allocator and the three slot
arrays, indexed by slot number. A stored name is the allocated buffer, the
name's bytes followed by its NUL. -/
structure sphcs_genmsg_service_list where
  ida : List Nat
  service_name : Nat → Option (List Nat)
  service_name_len : Nat → Nat
  service_data : Nat → Option service_data
  num_services : Nat

/-- Model of `struct dma_req_user_data`. -/
structure dma_req_user_data where
  dma_page_hndl : Nat
  host_dma_page_hndl : Nat
  dma_vptr : Option (List Nat)
  xfer_size : Nat
  param1 : Nat
  channel : Option Nat
  cmd_chan : Option sphcs_cmd_chan
  deriving DecidableEq, Repr

/-- Which `file_operations` table a `struct file` carries. -/
inductive file_operations
  | sphcs_genmsg_chan_fops
  | sphcs_genmsg_fops
  | other_fops
  deriving DecidableEq, Repr

/-- What the driver does to its collaborators, and three marks on the
channel's own lifecycle (`set_close_done`, `owner_put`, `kfree_channel`). -/
inductive genmsg_effect
  /-- call `dma_page_pool_set_page_free(pool, hndl)` -/
  | page_free (hndl : Nat)
  /-- call `sphcs_msg_scheduler_queue_add_msg(cmd_chan->respq, &msg, 1)` -/
  | respq_msg (cmd_chan : sphcs_cmd_chan) (msg : c2h_ChanGenericMessaging)
  /-- a service-list response queued on `cmd_chan->respq` -/
  | respq_service_list (cmd_chan : sphcs_cmd_chan) (msg : c2h_ChanServiceListMsg)
  /-- call `sphcs_cmd_chan_put(cmd_chan)` -/
  | cmd_chan_put (cmd_chan : sphcs_cmd_chan)
  /-- call `sphcs_cmd_chan_get(cmd_chan)` -/
  | cmd_chan_get (cmd_chan : sphcs_cmd_chan)
  /-- call `sphcs_cmd_chan_update_cmd_head(cmd_chan, 0, NNP_PAGE_SIZE)` -/
  | cmd_head_update (cmd_chan : sphcs_cmd_chan)
  /-- assignment `cmd_chan->destroy_cb = NULL` -/
  | destroy_cb_clear (cmd_chan : sphcs_cmd_chan)
  /-- assignment `cmd_chan->destroy_cb = sphcs_chan_genmsg_hangup` with its context -/
  | destroy_cb_set (cmd_chan : sphcs_cmd_chan) (ctx : Nat)
  /-- call `sphcs_dma_sched_start_xfer_single`, host to card, for a command;
  `queued` tells whether the scheduler took the request -/
  | dma_h2c (dma_data : genmsg_dma_command_data) (size : Nat) (queued : Bool)
  /-- call `sphcs_dma_sched_start_xfer_single`, card to host -/
  | dma_c2h (req : dma_req_user_data) (queued : Bool)
  /-- call `host_rb_update_free_space(rb, NNP_PAGE_SIZE)` -/
  | host_rb_update_free_space (cmd_chan : sphcs_cmd_chan)
  /-- the assignment `channel->closing = _chnl_close_done` -/
  | set_close_done (channel_id : Nat)
  /-- the `channel_put` of the reference that `kref_init` created -/
  | owner_put (channel_id : Nat)
  /-- function `free_channel` ran to its `kfree(channel)` -/
  | kfree_channel (channel_id : Nat)
  /-- an `NNP_ASSERT` whose condition was false -/
  | assert_failed (line : Nat)
  /-- a `kref_put` on a count that is already zero -/
  | refcount_underflow (channel_id : Nat)
  /-- an access through a pointer to a channel that is no longer allocated -/
  | use_after_free (channel_id : Nat)
  deriving DecidableEq, Repr

/-- Model of `struct genmsg_global_data` together with the registry and the log of
effects: the state every entry point of the driver works on. -/
structure genmsg_state where
  channel_hash : List channel_data
  channel_ida : List Nat
  service_list : sphcs_genmsg_service_list
  log : List genmsg_effect

/-- A `struct file`: its operations table and its `private_data`, a channel
pointer for a channel file. -/
structure file where
  f_op : file_operations
  private_data : Option Nat
  deriving DecidableEq, Repr

/-- The channel pointer in `f->private_data`. Channel ids start at 1, so a
NULL `private_data` is the id 0, which no channel has. -/
def file.channel (f : file) : Nat := f.private_data.getD 0

/-- The all-zero `h2c_GenericMessaging` of a `kzalloc`. -/
def h2c_zero : h2c_GenericMessaging :=
  { opcode := 0, size := 0, connect := false, hangup := false, host_pfn := 0,
    host_client_id := 0, card_client_id := 0, host_page_hndl := 0,
    service_list_req := false, privileged := false }

/-- The all-zero `c2h_ChanGenericMessaging` of `msg.value = 0`. -/
def c2h_zero : c2h_ChanGenericMessaging :=
  { chan_id := 0, rb_id := 0, size := 0, connect := false, hangup := false,
    no_such_service := false, card_client_id := 0 }

/-- The NULL `sphcs_cmd_chan` pointer. -/
def null_cmd_chan : sphcs_cmd_chan := { ptr := 0, protocol_id := 0, privileged := false }

/-! ## Helpers: log, table, id allocator, waits -/

/-- Append one effect to the log. -/
def emit (s : genmsg_state) (e : genmsg_effect) : genmsg_state :=
  { s with log := s.log ++ [e] }

/-- Dereference a channel pointer: the object linked under that id. -/
def chan_lookup (h : List channel_data) (channel : Nat) : Option channel_data :=
  h.find? (fun c => decide (c.channel_id = channel))

/-- Write an object back through its pointer. -/
def chan_store : List channel_data → channel_data → List channel_data
  | [], _ => []
  | x :: xs, c =>
    if x.channel_id = c.channel_id then c :: xs else x :: chan_store xs c

/-- Write the object `c` back into the state. -/
def set_channel (s : genmsg_state) (c : channel_data) : genmsg_state :=
  { s with channel_hash := chan_store s.channel_hash c }

/-- Kernel `hash_add`: link at the head. -/
def hash_add (h : List channel_data) (c : channel_data) : List channel_data :=
  c :: h

/-- Kernel `hash_del`: unlink the object. -/
def hash_del (h : List channel_data) (channel : Nat) : List channel_data :=
  h.eraseP (fun c => decide (c.channel_id = channel))

/-- Kernel `ida_simple_get(ida, start, end, gfp)`: the lowest id of
`[start, end)` that is not handed out, `none` (`-ENOSPC`) when there is none. -/
def ida_simple_get (ida : List Nat) (start stop : Nat) : Option Nat :=
  (List.range' start (stop - start)).find? (fun i => decide (i ∉ ida))

/-- The allocator after `ida_simple_get` handed out `id`. -/
def ida_insert (ida : List Nat) (id : Nat) : List Nat := id :: ida

/-- Kernel `ida_simple_remove(ida, id)`. -/
def ida_simple_remove (ida : List Nat) (id : Nat) : List Nat :=
  ida.erase id

/-- Kernel `wait_event_interruptible(wq, cond)`: 0 once the condition holds,
`-ERESTARTSYS` when a signal arrives first, no result while it sleeps. -/
def wait_event_interruptible (cond interrupted : Bool) : Option Int :=
  if cond then some 0 else if interrupted then some (-ERESTARTSYS_errno) else none

/-! ## Channel table and reference count -/

/-- Source `free_channel`, lines 163-180. -/
def free_channel (s : genmsg_state) (channel : channel_data) : genmsg_state :=
  let s := if channel.closing = _chnl_close_done ∧ channel.hanging_up = true then s
           else emit s (.assert_failed 169)
  let s := emit s (.destroy_cb_clear channel.cmd_chan)
  let s := emit s (.cmd_chan_put channel.cmd_chan)
  let s := { s with channel_hash := hash_del s.channel_hash channel.channel_id }
  let s := { s with channel_ida := ida_simple_remove s.channel_ida channel.channel_id }
  emit s (.kfree_channel channel.channel_id)

/-- Source `channel_put`, lines 182-185: `kref_put(&chan->ref, free_channel)`. -/
def channel_put (s : genmsg_state) (chan : Nat) : genmsg_state :=
  match chan_lookup s.channel_hash chan with
  | none => emit s (.use_after_free chan)
  | some c =>
    if c.ref = 0 then emit s (.refcount_underflow chan)
    else if c.ref = 1 then
      free_channel (set_channel s { c with ref := 0 }) { c with ref := 0 }
    else set_channel s { c with ref := c.ref - 1 }

/-- Source `find_channel`, lines 187-208: the channel with a reference taken,
`none` when no channel has the id or its count is already zero. -/
def find_channel (s : genmsg_state) (channel_id : Nat) :
    Option channel_data × genmsg_state :=
  match chan_lookup s.channel_hash channel_id with
  | none => (none, s)
  | some c =>
    if c.ref = 0 then (none, s)
    else (some { c with ref := c.ref + 1 }, set_channel s { c with ref := c.ref + 1 })

/-! ## Channel file operations -/

/-- Source `is_channel_file`, lines 607-610. -/
def is_channel_file (f : file) : Bool :=
  decide (f.f_op = file_operations.sphcs_genmsg_chan_fops)

/-- Lines 243-251 of `sphcs_genmsg_chan_release`: free every packet of the
local list, returning the page of each one that is not a hangup marker. -/
def release_pending_packets (s : genmsg_state) : List pending_packet → genmsg_state
  | [] => s
  | pend :: rest =>
    release_pending_packets
      (if pend.is_hangup_command then s else emit s (.page_free pend.dma_data.dma_page_hndl))
      rest

/-- Lines 231-251 of `sphcs_genmsg_chan_release`: under `read_lock` enter
`_chnl_preclose` and move the queue and the current packet to a local list;
then free that list. -/
def sphcs_genmsg_chan_release_preclose (s : genmsg_state) (channel : Nat) : genmsg_state :=
  match chan_lookup s.channel_hash channel with
  | none => emit s (.use_after_free channel)
  | some c =>
    let pending_read_packets :=
      c.pending_read_packets ++
        (match c.current_read_packet with
         | some p => [p]
         | none => [])
    let c := { c with closing := _chnl_preclose,
                      pending_read_packets := [],
                      current_read_packet := none }
    release_pending_packets (set_channel s c) pending_read_packets

/-- Lines 253-278 of `sphcs_genmsg_chan_release`: wait for the outbound DMA
counter, return the write page still held, send the hangup notice. -/
def sphcs_genmsg_chan_release_notify (s : genmsg_state) (channel : Nat)
    (interrupted : Bool) : Option genmsg_state :=
  match chan_lookup s.channel_hash channel with
  | none => some (emit s (.use_after_free channel))
  | some c =>
    match wait_event_interruptible (decide (c.n_write_dma_req = 0)) interrupted with
    | none => none
    | some _ =>
      let s := if c.write_page_vptr.isSome then emit s (.page_free c.write_page_hndl) else s
      some (emit s (.respq_msg c.cmd_chan
        { c2h_zero with chan_id := c.cmd_chan.protocol_id, rb_id := 0, size := 0,
                        hangup := true, card_client_id := c.channel_id }))

/-- Lines 280-291 of `sphcs_genmsg_chan_release`: under `read_lock` enter
`_chnl_close_ready`; when `hanging_up` is set go on to `_chnl_close_done`
and drop the owning reference. -/
def sphcs_genmsg_chan_release_finish (s : genmsg_state) (channel : Nat) : genmsg_state :=
  match chan_lookup s.channel_hash channel with
  | none => emit s (.use_after_free channel)
  | some c =>
    let c := { c with closing := _chnl_close_ready }
    if c.hanging_up then
      let c := { c with closing := _chnl_close_done }
      let s := emit (set_channel s c) (.set_close_done channel)
      channel_put (emit s (.owner_put channel)) channel
    else
      set_channel s c

/-- Source `sphcs_genmsg_chan_release`, lines 221-294. -/
def sphcs_genmsg_chan_release (s : genmsg_state) (f : file) (interrupted : Bool) :
    Option (Int × genmsg_state) :=
  if !is_channel_file f then some (-EINVAL_errno, s)
  else
    let channel := f.channel
    let s := sphcs_genmsg_chan_release_preclose s channel
    match sphcs_genmsg_chan_release_notify s channel interrupted with
    | none => none
    | some s => some (0, sphcs_genmsg_chan_release_finish s channel)

/-- What a read hands back: the return value and the bytes it copied into
the caller's buffer. -/
structure read_result where
  ret : Int
  data : List Nat
  deriving DecidableEq, Repr

/-- Lines 330-366 of `sphcs_genmsg_chan_read`, with `pkt` the current read
packet of `c`. `not_copied` is what `copy_to_user` returns. -/
def chan_read_current (s : genmsg_state) (c : channel_data) (pkt : pending_packet)
    (size not_copied : Nat) : read_result × genmsg_state :=
  let read_size := (pkt.dma_data.msg.size + 1 + U32_MOD - c.current_read_size) % U32_MOD
  match pkt.dma_data.vptr with
  | none =>
    /- it must be a hangup packet -/
    let s := if pkt.is_hangup_command then s else emit s (.assert_failed 335)
    (⟨0, []⟩, set_channel s { c with current_read_packet := none, current_read_size := 0 })
  | some page =>
    if read_size = 0 then
      let s := if pkt.is_hangup_command then s else emit s (.assert_failed 335)
      (⟨0, []⟩, set_channel s { c with current_read_packet := none, current_read_size := 0 })
    else
      let read_size := if size < read_size then size else read_size
      let ret := read_size - min not_copied read_size
      let data := (page.drop c.current_read_size).take ret
      let c := { c with current_read_size := (c.current_read_size + ret) % U32_MOD }
      /- free the current read packet if all was read -/
      let (s, c) :=
        if c.current_read_size ≥ pkt.dma_data.msg.size + 1 then
          (emit s (.page_free pkt.dma_data.dma_page_hndl),
           { c with current_read_packet := none, current_read_size := 0 })
        else (s, c)
      if ret = 0 then (⟨-EFAULT_errno, data⟩, set_channel s c)
      else (⟨(ret : Int), data⟩, set_channel s c)

/-- Source `sphcs_genmsg_chan_read`, lines 296-367. -/
def sphcs_genmsg_chan_read (s : genmsg_state) (f : file) (size : Nat)
    (interrupted : Bool) (not_copied : Nat) : Option (read_result × genmsg_state) :=
  if !is_channel_file f then some (⟨-EINVAL_errno, []⟩, s)
  else
    match chan_lookup s.channel_hash f.channel with
    | none => some (⟨0, []⟩, emit s (.use_after_free f.channel))
    | some c =>
      if c.io_error then some (⟨-EIO_errno, []⟩, s)
      else
        match c.current_read_packet with
        | some pkt => some (chan_read_current s c pkt size not_copied)
        | none =>
          /- wait for a pending read packets -/
          match wait_event_interruptible (!c.pending_read_packets.isEmpty) interrupted with
          | none => none
          | some ret =>
            if ret < 0 then some (⟨ret, []⟩, s)
            else
              match c.pending_read_packets with
              | [] => some (⟨0, []⟩, emit s (.assert_failed 320))
              | pkt :: rest =>
                let c := { c with current_read_packet := some pkt,
                                  pending_read_packets := rest,
                                  current_read_size := 0 }
                some (chan_read_current s c pkt size not_copied)

/-- What the collaborators answer in one round of the write loop. -/
structure write_env where
  /-- return value of `host_rb_wait_free_space` -/
  rb_n : Int
  /-- its `chunk_size` output -/
  rb_chunk_size : Nat
  /-- its address output -/
  rb_addr : Nat
  /-- return value of `dma_page_pool_get_free_page` -/
  page_ret : Int
  page_hndl : Nat
  page_vptr : List Nat
  page_addr : Nat
  /-- return value of `copy_from_user`: the bytes not copied -/
  copy_ret : Nat
  /-- return value of `sphcs_dma_sched_start_xfer_single` -/
  dma_ret : Int
  deriving DecidableEq, Repr

/-- What the `do ... while` of `sphcs_genmsg_chan_write` leaves behind. -/
structure write_loop_result where
  s : genmsg_state
  c : channel_data
  n_written : Nat
  ret : Int

/-- Lines 394-474 of `sphcs_genmsg_chan_write`: the `do ... while` loop, one
round per unit of fuel; `round` counts the rounds done, `env round` answers
for the collaborators in this round. -/
def chan_write_loop : Nat → (Nat → write_env) → List Nat → Nat → Nat →
    write_loop_result → write_loop_result
  | 0, _, _, _, _, r => r
  | fuel + 1, env, buf, size, round, ⟨s, c, n_written, ret⟩ =>
    let e := env round
    if c.hanging_up then ⟨s, c, n_written, -EPIPE_errno⟩
    else
      /- Need to have a host response page for sending data to host -/
      let host :=
        if !c.write_host_page_valid then
          let c := { c with write_host_page_addr := e.rb_addr }
          if e.rb_n ≠ 1 ∨ e.rb_chunk_size ≠ NNP_PAGE_SIZE then (false, s, c)
          else (true, emit s (.host_rb_update_free_space c.cmd_chan),
                { c with write_host_page_valid := true })
        else (true, s, c)
      match host with
      | (false, s, c) => ⟨s, c, n_written, ret⟩
      | (true, s, c) =>
        /- need to have local dma address for copying data from user -/
        let page :=
          match c.write_page_vptr with
          | some _ => (true, c, ret)
          | none =>
            if e.page_ret < 0 then (false, c, e.page_ret)
            else (true, { c with write_page_hndl := e.page_hndl,
                                 write_page_vptr := some e.page_vptr,
                                 write_page_addr := e.page_addr }, e.page_ret)
        match page with
        | (false, c, ret) => ⟨s, c, n_written, ret⟩
        | (true, c, _) =>
          let write_size := min (size - n_written) NNP_PAGE_SIZE
          let copied := write_size - min e.copy_ret write_size
          let staged := Option.map
            (fun pg => ((buf.drop n_written).take copied) ++ pg.drop copied) c.write_page_vptr
          let c := { c with write_page_vptr := staged }
          if e.copy_ret ≠ 0 then ⟨s, c, n_written, (e.copy_ret : Int)⟩
          else
            /- start DMA for transfering the copied packet to host -/
            let dma_req_data : dma_req_user_data :=
              { dma_page_hndl := c.write_page_hndl,
                host_dma_page_hndl := c.write_host_page_hndl,
                dma_vptr := c.write_page_vptr,
                xfer_size := write_size,
                param1 := 0,
                channel := some c.channel_id,
                cmd_chan := none }
            /- Increment number of write dma requests -/
            let c := { c with n_write_dma_req := c.n_write_dma_req + 1 }
            let s := emit s (.dma_c2h dma_req_data (decide (0 ≤ e.dma_ret)))
            if e.dma_ret < 0 then ⟨s, c, n_written, e.dma_ret⟩
            else
              let n_written := n_written + write_size
              /- mark that we used the local and host write pages -/
              let c := { c with write_page_vptr := none, write_host_page_valid := false }
              if n_written < size then
                chan_write_loop fuel env buf size (round + 1) ⟨s, c, n_written, e.dma_ret⟩
              else ⟨s, c, n_written, e.dma_ret⟩

/-- Source `sphcs_genmsg_chan_write`, lines 369-482. `buf` is the caller's
buffer, `size` the byte count asked for. The loop runs at most `size` rounds
because each completed round hands off at least one byte. -/
def sphcs_genmsg_chan_write (s : genmsg_state) (f : file) (buf : List Nat) (size : Nat)
    (env : Nat → write_env) : Int × genmsg_state :=
  if !is_channel_file f then (-EINVAL_errno, s)
  else
    match chan_lookup s.channel_hash f.channel with
    | none => (0, emit s (.use_after_free f.channel))
    | some c =>
      if c.io_error then (-EIO_errno, s)
      /- do not send a zero size data packet -/
      else if size = 0 then (0, s)
      else
        let r := chan_write_loop size env buf size 0 ⟨s, c, 0, 0⟩
        let s := set_channel r.s r.c
        if r.n_written = 0 then (r.ret, s) else ((r.n_written : Int), s)

/-! ## Service registry -/

/-- C library `memcmp(a, b, n)`: the difference of the first pair of bytes
that differ among the first `n`, 0 when there is none. A buffer that ends
before a difference is found counts as different: with NUL-terminated names
that hold no other NUL the comparison never gets there. -/
def memcmp : List Nat → List Nat → Nat → Int
  | _, _, 0 => 0
  | a :: as, b :: bs, n + 1 => if a = b then memcmp as bs n else (a : Int) - (b : Int)
  | [], _, _ + 1 => -1
  | _ :: _, [], _ + 1 => 1

/-- C library `strlen`: the number of bytes before the first NUL. -/
def strlen : List Nat → Nat
  | [] => 0
  | b :: bs => if b = 0 then 0 else strlen bs + 1

/-- Source `init_service_list`, lines 619-631: the `kzalloc`ed registry. -/
def init_service_list : sphcs_genmsg_service_list :=
  { ida := [],
    service_name := fun _ => none,
    service_name_len := fun _ => 0,
    service_data := fun _ => none,
    num_services := 0 }

/-- The scan of lines 661-669 of `add_service`: is there a slot whose name
compares equal to `service_name` over `service_name_len + 1` bytes. -/
def add_service_exists (l : sphcs_genmsg_service_list) (service_name : List Nat)
    (service_name_len : Nat) : Bool :=
  (List.range SPH_MAX_GENERIC_SERVICES).any (fun i =>
    match l.service_name i with
    | some stored => decide (memcmp stored service_name (service_name_len + 1) = 0)
    | none => false)

/-- Source `add_service`, lines 648-677. The result is the service id or a
negative error code. -/
def add_service (l : sphcs_genmsg_service_list) (service_name : List Nat)
    (service_name_len : Nat) (service : service_data) : Int × sphcs_genmsg_service_list :=
  match ida_simple_get l.ida 0 SPH_MAX_GENERIC_SERVICES with
  | none => (-ENOSPC_errno, l)
  | some service_id =>
    let l := { l with ida := ida_insert l.ida service_id }
    /- if service with same name already exists, return error -/
    if add_service_exists l service_name service_name_len then
      (-EEXIST_errno, { l with ida := ida_simple_remove l.ida service_id })
    else
      ((service_id : Int),
       { l with
         service_name := Function.update l.service_name service_id (some service_name),
         service_name_len := Function.update l.service_name_len service_id service_name_len,
         service_data := Function.update l.service_data service_id (some service),
         num_services := (l.num_services + 1) % U32_MOD })

/-- Lines 700-713 of `delete_service`: answer and free every pending
connection of the service that goes away. -/
def delete_service_drain (NNP_IPC_GENMSG_BAD_CLIENT_ID : Nat) (s : genmsg_state) :
    List pending_packet → genmsg_state
  | [] => s
  | p :: rest =>
    /- Send connect reply message back to host -/
    let s := emit s (.respq_msg p.dma_data.cmd_chan
      { c2h_zero with rb_id := 0, connect := true,
                      card_client_id := NNP_IPC_GENMSG_BAD_CLIENT_ID,
                      chan_id := p.dma_data.cmd_chan.protocol_id })
    let s := emit s (.cmd_chan_put p.dma_data.cmd_chan)
    let s := emit s (.page_free p.dma_data.dma_page_hndl)
    delete_service_drain NNP_IPC_GENMSG_BAD_CLIENT_ID s rest

/-- Source `delete_service`, lines 679-725. The slot of `service_data` keeps
its pointer: only the local variable is set to NULL. -/
def delete_service (NNP_IPC_GENMSG_BAD_CLIENT_ID : Nat) (s : genmsg_state)
    (service_id : Nat) : genmsg_state :=
  let l := s.service_list
  let s :=
    match l.service_name service_id with
    | none => s
    | some _ =>
      let pending :=
        match l.service_data service_id with
        | some sd => sd.pending_connections
        | none => []
      let s := delete_service_drain NNP_IPC_GENMSG_BAD_CLIENT_ID s pending
      let l := s.service_list
      { s with service_list :=
        { l with
          service_data := Function.update l.service_data service_id
            ((l.service_data service_id).map
              (fun (sd : service_data) => { sd with pending_connections := [] })),
          service_name := Function.update l.service_name service_id none,
          service_name_len := Function.update l.service_name_len service_id 0,
          num_services := (l.num_services + U32_MOD - 1) % U32_MOD } }
  let l := s.service_list
  { s with service_list := { l with ida := ida_simple_remove l.ida service_id } }

/-- Source `find_service`, lines 727-745: the first slot whose name has the
length `name_len` and the same `name_len` bytes; the result is the slot that
holds the service. -/
def find_service (l : sphcs_genmsg_service_list) (service_name : List Nat)
    (name_len : Nat) : Option Nat :=
  (List.range SPH_MAX_GENERIC_SERVICES).find? (fun i =>
    match l.service_name i with
    | some stored =>
      decide (l.service_name_len i = name_len) && decide (memcmp stored service_name name_len = 0)
    | none => false)

/-- What `build_service_list_packet` leaves behind: its return value, the
buffer and `*out_service_count`. -/
structure service_list_packet where
  ret : Int
  buf : List Nat
  out_service_count : Nat
  deriving DecidableEq, Repr

/-- First loop of `build_service_list_packet`, lines 759-762, in `unsigned int`. -/
def service_list_needed_size (l : sphcs_genmsg_service_list) : Nat :=
  (List.range SPH_MAX_GENERIC_SERVICES).foldl (fun needed_size i =>
    match l.service_name i with
    | some _ => (needed_size + (l.service_name_len i + 1)) % U32_MOD
    | none => needed_size) 0

/-- Second loop of `build_service_list_packet`, lines 765-771: the bytes
written and the number of names. -/
def service_list_fill (l : sphcs_genmsg_service_list) : List Nat × Nat :=
  (List.range SPH_MAX_GENERIC_SERVICES).foldl (fun acc i =>
    match l.service_name i with
    | some stored => (acc.1 ++ stored.take (l.service_name_len i + 1), (acc.2 + 1) % U32_MOD)
    | none => acc) ([], 0)

/-- The value of an `unsigned int` converted to `int`. -/
def int_of_u32 (x : Nat) : Int :=
  if x % U32_MOD < 2 ^ 31 then ((x % U32_MOD : Nat) : Int) else ((x % U32_MOD : Nat) : Int) - (U32_MOD : Int)

/-- Source `build_service_list_packet`, lines 747-786. -/
def build_service_list_packet (l : sphcs_genmsg_service_list) (buf : List Nat)
    (bufsize : Nat) (out_service_count : Nat) : service_list_packet :=
  let needed_size := service_list_needed_size l
  if bufsize ≥ needed_size then
    let filled := service_list_fill l
    { ret := (filled.1.length : Int),
      buf := filled.1 ++ buf.drop filled.1.length,
      out_service_count := filled.2 }
  else
    /- buffer is too small - return the negative value of the size needed -/
    { ret := int_of_u32 (U32_MOD - needed_size),
      buf := buf,
      out_service_count := out_service_count }

/-- What the collaborators answer while one inbound command, or one
completion, is handled. -/
structure cmd_env where
  /-- a signal ends a `wait_event_interruptible` -/
  wait_interrupted : Bool
  /-- the `kzalloc` of a `pending_packet` succeeds -/
  pend_alloc : Bool
  /-- return value of `dma_page_pool_get_free_page` and its outputs -/
  page_ret : Int
  page_hndl : Nat
  page_vptr : List Nat
  page_addr : Nat
  /-- return value of `host_rb_wait_free_space` and its outputs -/
  rb_n : Int
  rb_chunk_size : Nat
  rb_addr : Nat
  /-- return value of `sphcs_dma_sched_start_xfer_single` -/
  dma_ret : Int
  deriving DecidableEq, Repr

/-- Source `send_service_list_dma_completed_chan`, lines 788-819. -/
def send_service_list_dma_completed_chan (s : genmsg_state) (user_data : dma_req_user_data)
    (status : dma_status) : Int × genmsg_state :=
  let cmd_chan := user_data.cmd_chan.getD null_cmd_chan
  let msg2 : c2h_ChanServiceListMsg :=
    { chan_id := cmd_chan.protocol_id, rb_id := 0, failure := 0, num_services := 0, size := 0 }
  let msg2 :=
    if status = dma_status.SPHCS_DMA_STATUS_FAILED then { msg2 with failure := 1 }
    else { msg2 with num_services := user_data.param1,
                     size := (user_data.xfer_size + U32_MOD - 1) % U32_MOD }
  let s := emit s (.respq_service_list cmd_chan msg2)
  let s := emit s (.page_free user_data.dma_page_hndl)
  (0, emit s (.cmd_chan_put cmd_chan))

/-- The `fail:` label of `send_service_list_to_host`, lines 894-905. -/
def send_service_list_fail (s : genmsg_state) (cmd_chan : sphcs_cmd_chan)
    (fail_code : Nat) (ret : Int) : Int × genmsg_state :=
  let s := emit s (.respq_service_list cmd_chan
    { chan_id := cmd_chan.protocol_id, rb_id := 0, failure := fail_code,
      num_services := 0, size := 0 })
  (ret, emit s (.cmd_chan_put cmd_chan))

/-- Source `send_service_list_to_host`, lines 821-906. `xfer_size` is a
`u32`, so the test `xfer_size < 0` is the test of a number that is not
negative. -/
def send_service_list_to_host (s : genmsg_state) (cmd_chan : sphcs_cmd_chan)
    (env : cmd_env) : Int × genmsg_state :=
  if s.service_list.num_services < 1 then
    /- send empty service list response message to host -/
    let s := emit s (.respq_service_list cmd_chan
      { chan_id := cmd_chan.protocol_id, rb_id := 0, failure := 0,
        num_services := 0, size := 0 })
    (0, emit s (.cmd_chan_put cmd_chan))
  else if env.page_ret ≠ 0 then send_service_list_fail s cmd_chan 2 env.page_ret
  else
    let pkt := build_service_list_packet s.service_list env.page_vptr NNP_PAGE_SIZE 0
    let xfer_size : Nat := (pkt.ret % (U32_MOD : Int)).toNat
    if (xfer_size : Int) < 0 then send_service_list_fail s cmd_chan 3 (-ENOSPC_errno)
    else if env.rb_n ≠ 1 ∨ env.rb_chunk_size ≠ NNP_PAGE_SIZE then
      send_service_list_fail s cmd_chan 2 env.page_ret
    else
      let s := emit s (.host_rb_update_free_space cmd_chan)
      let dma_req_data : dma_req_user_data :=
        { dma_page_hndl := env.page_hndl, host_dma_page_hndl := 0,
          dma_vptr := some pkt.buf, xfer_size := xfer_size,
          param1 := pkt.out_service_count, channel := none, cmd_chan := some cmd_chan }
      (0, emit s (.dma_c2h dma_req_data (decide (0 ≤ env.dma_ret))))

/-! ## Service file operations -/

/-- Source `is_service_file`, lines 1175-1178. -/
def is_service_file (f : file) : Bool :=
  decide (f.f_op = file_operations.sphcs_genmsg_fops)

/-- Source `sphcs_genmsg_release`, lines 921-936; the file goes away. -/
def sphcs_genmsg_release (NNP_IPC_GENMSG_BAD_CLIENT_ID : Nat) (s : genmsg_state)
    (f : file) : Int × genmsg_state :=
  if !is_service_file f then (-EINVAL_errno, s)
  else
    match f.private_data with
    | some service => (0, delete_service NNP_IPC_GENMSG_BAD_CLIENT_ID s service)
    | none => (0, s)

/-- What the collaborators answer during `process_register_service`. -/
structure register_env where
  /-- the global `g_the_sphcs` is set -/
  sphcs_present : Bool
  /-- return values of the two `copy_from_user` -/
  copy_req_ret : Nat
  copy_name_ret : Nat
  /-- the `kmalloc` of the name and the `kzalloc` of the service succeed -/
  name_alloc : Bool
  service_alloc : Bool
  deriving DecidableEq, Repr

/-- Source `process_register_service`, lines 938-998. `name_len` is
`req.name_len`, `name` the bytes that follow the request in user memory. The
file after the call is the third component. -/
def process_register_service (s : genmsg_state) (f : file) (name_len : Nat)
    (name : List Nat) (env : register_env) : Int × genmsg_state × file :=
  if !env.sphcs_present then (-ENODEV_errno, s, f)
  else if env.copy_req_ret ≠ 0 then (-EFAULT_errno, s, f)
  else if name_len = 0 ∨ name_len > SPH_MAX_GENERIC_SERVICES then (-EINVAL_errno, s, f)
  else if !env.name_alloc then (-ENOMEM_errno, s, f)
  else if env.copy_name_ret ≠ 0 then (-EIO_errno, s, f)
  else
    let service_name := name.take name_len ++ [0]
    if strlen service_name ≠ name_len then (-EINVAL_errno, s, f)
    else if !env.service_alloc then (-ENOMEM_errno, s, f)
    else
      let service : service_data := { id := 0, host_client_handle := 0, pending_connections := [] }
      let (ret, l) := add_service s.service_list service_name name_len service
      if ret < 0 then (ret, { s with service_list := l }, f)
      else
        let slots := Function.update l.service_data ret.toNat (some { service with id := ret })
        let l := { l with service_data := slots }
        (0, { s with service_list := l }, { f with private_data := some ret.toNat })

/-- What the collaborators answer during `process_accept_client`. -/
structure accept_env where
  /-- a signal ends the wait for a connection -/
  wait_interrupted : Bool
  /-- the `kzalloc` of the channel succeeds -/
  channel_alloc : Bool
  /-- return value of `anon_inode_getfd` -/
  fd : Int
  /-- return value of `copy_to_user` -/
  copy_ret : Nat
  deriving DecidableEq, Repr

/-- The `done:` label of `process_accept_client`, lines 1095-1119. -/
def accept_done (NNP_IPC_GENMSG_BAD_CLIENT_ID : Nat) (s : genmsg_state)
    (pend : pending_packet) (channel : Option channel_data) (ret : Int) :
    Int × genmsg_state :=
  let s :=
    match channel with
    | some c => emit s (.destroy_cb_set pend.dma_data.cmd_chan c.channel_id)
    | none => s
  /- send connect reply message back to host -/
  let s := emit s (.respq_msg pend.dma_data.cmd_chan
    { c2h_zero with chan_id := pend.dma_data.cmd_chan.protocol_id, rb_id := 0, connect := true,
                    card_client_id :=
                      match channel with
                      | some c => c.channel_id
                      | none => NNP_IPC_GENMSG_BAD_CLIENT_ID })
  let s := if channel.isNone then emit s (.cmd_chan_put pend.dma_data.cmd_chan) else s
  (ret, emit s (.page_free pend.dma_data.dma_page_hndl))

/-- The `kzalloc`ed channel of `process_accept_client` once its id and the
fields of lines 1047-1049 are set. -/
def accept_new_channel (pend : pending_packet) (channel_id : Nat) : channel_data :=
  { ref := 0, host_client_id := pend.dma_data.msg.host_client_id, fd := 0,
    is_privileged := pend.dma_data.msg.privileged,
    pending_read_packets := [], current_read_packet := none, current_read_size := 0,
    n_read_dma_req := 0, cmd_chan := pend.dma_data.cmd_chan, channel_id := channel_id,
    closing := _chnl_open, hanging_up := false, io_error := false,
    write_host_page_valid := false, write_host_page_hndl := 0, write_host_page_addr := 0,
    write_page_hndl := 0, write_page_addr := 0, write_page_vptr := none,
    n_write_dma_req := 0 }

/-- Source `process_accept_client`, lines 1000-1120. The service pointer in
`f->private_data` is the slot of the service. The second component of the
result is the descriptor written to the caller, when it was written. -/
def process_accept_client (NNP_IPC_GENMSG_BAD_CLIENT_ID : Nat) (s : genmsg_state)
    (f : file) (env : accept_env) : Option (Int × Option Int × genmsg_state) :=
  match f.private_data with
  | none => some (-EBADF_errno, none, s)
  | some service =>
    match s.service_list.service_data service with
    | none => some (-EBADF_errno, none, emit s (.use_after_free service))
    | some sd =>
      /- wait for a pending connection -/
      match wait_event_interruptible (!sd.pending_connections.isEmpty) env.wait_interrupted with
      | none => none
      | some ret =>
        if ret ≠ 0 then some (ret, none, s)
        else
          match sd.pending_connections with
          | [] => some (0, none, emit s (.assert_failed 1019))
          | pend :: rest =>
            let l := s.service_list
            let slots := Function.update l.service_data service
              (some { sd with pending_connections := rest })
            let s := { s with service_list := { l with service_data := slots } }
            if !env.channel_alloc then
              let r := accept_done NNP_IPC_GENMSG_BAD_CLIENT_ID s pend none (-ENOMEM_errno)
              some (r.1, none, r.2)
            else
              match ida_simple_get s.channel_ida 1 (NNP_IPC_GENMSG_BAD_CLIENT_ID - 1) with
              | none =>
                let r := accept_done NNP_IPC_GENMSG_BAD_CLIENT_ID s pend none (-ENOSPC_errno)
                some (r.1, none, r.2)
              | some id =>
                let s := { s with channel_ida := ida_insert s.channel_ida id }
                let channel := accept_new_channel pend id
                let s := { s with channel_hash := hash_add s.channel_hash channel }
                let channel := { channel with fd := env.fd }
                if env.fd < 0 then
                  /- free_id: -/
                  let s := { s with channel_hash := hash_del s.channel_hash id }
                  let s := { s with channel_ida := ida_simple_remove s.channel_ida id }
                  let r := accept_done NNP_IPC_GENMSG_BAD_CLIENT_ID s pend none env.fd
                  some (r.1, none, r.2)
                else
                  /- Reference count initialized to 1 for inode private_data -/
                  let channel := { channel with ref := 1 }
                  let s := set_channel s channel
                  if env.copy_ret ≠ 0 then
                    /- free_all: free_id: -/
                    let s := { s with channel_hash := hash_del s.channel_hash id }
                    let s := { s with channel_ida := ida_simple_remove s.channel_ida id }
                    let r := accept_done NNP_IPC_GENMSG_BAD_CLIENT_ID s pend none
                      (env.copy_ret : Int)
                    some (r.1, none, r.2)
                  else
                    let r := accept_done NNP_IPC_GENMSG_BAD_CLIENT_ID s pend (some channel) 0
                    some (r.1, some env.fd, r.2)

/-! ## DMA completion callbacks -/

/-- Source `chan_response_dma_completed`, lines 1187-1228. -/
def chan_response_dma_completed (s : genmsg_state) (user_data : dma_req_user_data)
    (status : dma_status) : Int × genmsg_state :=
  match chan_lookup s.channel_hash (user_data.channel.getD 0) with
  | none => (0, emit s (.use_after_free (user_data.channel.getD 0)))
  | some c =>
    let (s, c) :=
      if status = dma_status.SPHCS_DMA_STATUS_FAILED then
        /- mark io_error on channel - next read/write will fail -/
        (s, { c with io_error := true })
      else
        /- send the packet to host -/
        (emit s (.respq_msg c.cmd_chan
          { c2h_zero with chan_id := c.cmd_chan.protocol_id, rb_id := 0,
                          size := (user_data.xfer_size + U32_MOD - 1) % U32_MOD,
                          card_client_id := c.channel_id }), c)
    /- return the local dma page back to the dma pool -/
    let s := emit s (.page_free user_data.dma_page_hndl)
    /- Decrement pending write dma requests - wake threads waiting for it -/
    let c := { c with n_write_dma_req := c.n_write_dma_req - 1 }
    (0, set_channel s c)

/-- Source `handle_cmd_dma_failed`, lines 1230-1265. -/
def handle_cmd_dma_failed (NNP_IPC_GENMSG_BAD_CLIENT_ID : Nat) (s : genmsg_state)
    (dma_data : genmsg_dma_command_data) : genmsg_state :=
  let s :=
    if dma_data.msg.connect then
      let s := emit s (.cmd_head_update dma_data.cmd_chan)
      emit s (.respq_msg dma_data.cmd_chan
        { c2h_zero with chan_id := dma_data.cmd_chan.protocol_id, rb_id := 0, connect := true,
                        no_such_service := true,
                        card_client_id := NNP_IPC_GENMSG_BAD_CLIENT_ID })
    else
      match dma_data.channel with
      | none => s
      | some channel =>
        let s := emit s (.cmd_head_update dma_data.cmd_chan)
        match chan_lookup s.channel_hash channel with
        | none => emit s (.use_after_free channel)
        | some c =>
          /- mark io_error on channel - next read/write will fail -/
          let c := if c.closing = _chnl_open then { c with io_error := true } else c
          let c := { c with n_read_dma_req := (c.n_read_dma_req + U32_MOD - 1) % U32_MOD }
          set_channel s c
  /- return back dma page to pool -/
  let s := emit s (.page_free dma_data.dma_page_hndl)
  emit s (.cmd_chan_put dma_data.cmd_chan)

/-- The `u32` stored little-endian in the first four bytes of a page. -/
def page_u32 (page : List Nat) : Nat :=
  page.getD 0 0 + 2 ^ 8 * page.getD 1 0 + 2 ^ 16 * page.getD 2 0 + 2 ^ 24 * page.getD 3 0

/-- Source `sphcs_genmsg_cmd_dma_complete_callback`, lines 1270-1362. -/
def sphcs_genmsg_cmd_dma_complete_callback (NNP_IPC_GENMSG_BAD_CLIENT_ID : Nat)
    (s : genmsg_state) (dma_data : genmsg_dma_command_data) (status : dma_status)
    (pend_alloc : Bool) : Int × genmsg_state :=
  if status = dma_status.SPHCS_DMA_STATUS_FAILED then
    (-1, handle_cmd_dma_failed NNP_IPC_GENMSG_BAD_CLIENT_ID s dma_data)
  else if dma_data.msg.connect then
    /- This is a connect request - route to a service -/
    let page := dma_data.vptr.getD []
    let name_len := page_u32 page
    let name := page.drop 4
    match find_service s.service_list name name_len with
    | some service =>
      if !pend_alloc then (-1, handle_cmd_dma_failed NNP_IPC_GENMSG_BAD_CLIENT_ID s dma_data)
      else
        /- insert into the connection pending list -/
        let pend : pending_packet := { dma_data := dma_data, is_hangup_command := false }
        let l := s.service_list
        let slots := Function.update l.service_data service
          ((l.service_data service).map (fun (sd : service_data) =>
            { sd with pending_connections := sd.pending_connections ++ [pend] }))
        (0, { s with service_list := { l with service_data := slots } })
    | none =>
      /- service not found - send connect failed reply message back to host -/
      (-1, handle_cmd_dma_failed NNP_IPC_GENMSG_BAD_CLIENT_ID s dma_data)
  else
    /- this is a generic packet - route to a channel -/
    if !pend_alloc then (-1, handle_cmd_dma_failed NNP_IPC_GENMSG_BAD_CLIENT_ID s dma_data)
    else
      match chan_lookup s.channel_hash (dma_data.channel.getD 0) with
      | none => (-1, emit s (.use_after_free (dma_data.channel.getD 0)))
      | some c =>
        let pend : pending_packet := { dma_data := dma_data, is_hangup_command := false }
        if c.closing ≠ _chnl_open then
          (-1, handle_cmd_dma_failed NNP_IPC_GENMSG_BAD_CLIENT_ID s dma_data)
        else
          /- insert into the channel's pending read packets -/
          let c := { c with pending_read_packets := c.pending_read_packets ++ [pend] }
          let c := if c.n_read_dma_req ≠ 0 then { c with n_read_dma_req := c.n_read_dma_req - 1 }
                   else c
          let s := set_channel s c
          let s := emit s (.cmd_head_update dma_data.cmd_chan)
          (0, emit s (.cmd_chan_put dma_data.cmd_chan))

/-! ## Inbound commands -/

/-- The `kzalloc`ed hangup marker of lines 1427-1435: the request copied into
`msg`, everything else zero, in particular a NULL `vptr`. -/
def hangup_marker (req : h2c_GenericMessaging) : pending_packet :=
  { dma_data := { vptr := none, dma_page_hndl := 0, dma_addr := 0, host_dma_addr := 0,
                  channel := none, msg := req, cmd_chan := null_cmd_chan },
    is_hangup_command := true }

/-- Lines 1416-1484 of `process_genmsg_command`: the hangup packet of a
channel, after the wait for its inbound DMA counter. `channel` is the channel
`find_channel` returned, with the reference it took. -/
def genmsg_hangup_rest (s : genmsg_state) (channel : Nat) (req : h2c_GenericMessaging)
    (cmd_chan : sphcs_cmd_chan) (pend_alloc : Bool) : Int × genmsg_state :=
  let s := emit s (.cmd_chan_put cmd_chan)
  match chan_lookup s.channel_hash channel with
  | none => (0, emit s (.use_after_free channel))
  | some c =>
    /- Do not process two hangup messages -/
    if c.hanging_up then (0, channel_put s channel)
    else
      let pend : Option pending_packet := if pend_alloc then some (hangup_marker req) else none
      let s := if c.n_read_dma_req > 0 then emit s (.assert_failed 1441) else s
      /- check again hang up with the lock -/
      if c.hanging_up then (0, channel_put s channel)
      else
        let c := { c with hanging_up := true }
        let s := emit s (.destroy_cb_clear c.cmd_chan)
        if c.closing = _chnl_open then
          /- channel is not yet closing add empty read packet -/
          match pend with
          | some pend =>
            let pend := { pend with dma_data := { pend.dma_data with cmd_chan := cmd_chan } }
            let c := { c with pending_read_packets := c.pending_read_packets ++ [pend] }
            (0, channel_put (set_channel s c) channel)
          | none => (-1, channel_put (set_channel s c) channel)
        else if c.closing = _chnl_preclose then
          (0, channel_put (set_channel s c) channel)
        else if c.closing = _chnl_close_ready then
          let c := { c with closing := _chnl_close_done }
          let s := emit (set_channel s c) (.set_close_done channel)
          let s := channel_put (emit s (.owner_put channel)) channel
          /- Remove ref from find_channel() -/
          (0, channel_put s channel)
        else
          (0, channel_put (set_channel s c) channel)

/-- Lines 1497-1543 of `process_genmsg_command`: stage a local page and start
the DMA that fetches the frame. -/
def genmsg_fetch (NNP_IPC_GENMSG_BAD_CLIENT_ID : Nat) (s : genmsg_state)
    (req : h2c_GenericMessaging) (cmd_chan : sphcs_cmd_chan) (channel : Option Nat)
    (env : cmd_env) : Int × genmsg_state :=
  if env.page_ret ≠ 0 then
    let s := emit s (.cmd_head_update cmd_chan)
    (env.page_ret, emit s (.cmd_chan_put cmd_chan))
  else
    let dma_data : genmsg_dma_command_data :=
      { vptr := some env.page_vptr, dma_page_hndl := env.page_hndl, dma_addr := env.page_addr,
        host_dma_addr := (req.host_pfn * 2 ^ NNP_PAGE_SHIFT) % 2 ^ 64,
        channel := channel, msg := req, cmd_chan := cmd_chan }
    let bump : Bool × genmsg_state :=
      match channel with
      | none => (false, s)
      | some ch =>
        match chan_lookup s.channel_hash ch with
        | none => (false, emit s (.use_after_free ch))
        | some c =>
          let c := { c with n_read_dma_req := (c.n_read_dma_req + 1) % U32_MOD }
          (c.hanging_up, set_channel s c)
    match bump with
    | (true, s) => (-1, handle_cmd_dma_failed NNP_IPC_GENMSG_BAD_CLIENT_ID s dma_data)
    | (false, s) =>
      /- start DMA xfer to bring the packet -/
      let s := emit s (.dma_h2c dma_data (req.size + 1) (decide (env.dma_ret = 0)))
      if env.dma_ret ≠ 0 then
        (0, handle_cmd_dma_failed NNP_IPC_GENMSG_BAD_CLIENT_ID s dma_data)
      else (0, s)

/-- Source `process_genmsg_command`, lines 1368-1544. -/
def process_genmsg_command (NNP_IPC_GENMSG_BAD_CLIENT_ID : Nat) (s : genmsg_state)
    (req : h2c_GenericMessaging) (cmd_chan : sphcs_cmd_chan) (env : cmd_env) :
    Option (Int × genmsg_state) :=
  if !req.hangup && !req.service_list_req && decide (req.host_pfn = 0) then
    /- This is a protocol error - should not happen!!! -/
    some (-1, emit s (.cmd_chan_put cmd_chan))
  else if req.service_list_req then
    /- send host updated service list -/
    some (0, (send_service_list_to_host s cmd_chan env).2)
  else if !req.connect then
    match find_channel s req.card_client_id with
    | (none, s) =>
      /- This is a protocol error - should not happen!!! -/
      let s := if !req.hangup then emit s (.cmd_head_update cmd_chan) else s
      some (0, emit s (.cmd_chan_put cmd_chan))
    | (some c, s) =>
      if c.cmd_chan ≠ cmd_chan then
        /- reused card_client_id -/
        some (0, emit (channel_put s c.channel_id) (.cmd_chan_put cmd_chan))
      else if req.hangup then
        /- handle hangup packet -/
        match wait_event_interruptible (decide (c.n_read_dma_req = 0)) env.wait_interrupted with
        | none => none
        | some _ => some (genmsg_hangup_rest s c.channel_id req cmd_chan env.pend_alloc)
      else
        /- Remove ref from find_channel() -/
        let s := channel_put s c.channel_id
        some (genmsg_fetch NNP_IPC_GENMSG_BAD_CLIENT_ID s req cmd_chan (some c.channel_id) env)
  else if req.hangup then
    some (-1, emit s (.cmd_chan_put cmd_chan))
  else
    some (genmsg_fetch NNP_IPC_GENMSG_BAD_CLIENT_ID s req cmd_chan none env)

/-- Source `sphcs_chan_genmsg_hangup`, lines 1613-1626: the destroy callback
of the hardware channel, a hangup packet made up on the card. -/
def sphcs_chan_genmsg_hangup (NNP_IPC_GENMSG_BAD_CLIENT_ID : Nat) (s : genmsg_state)
    (cmd_chan : sphcs_cmd_chan) (cb_ctx : Nat) (env : cmd_env) : Option genmsg_state :=
  let old_msg := { h2c_zero with hangup := true, host_client_id := cmd_chan.protocol_id % 2 ^ 12,
                                 card_client_id := cb_ctx % 2 ^ 12 }
  let s := emit s (.cmd_chan_get cmd_chan)
  (process_genmsg_command NNP_IPC_GENMSG_BAD_CLIENT_ID s old_msg cmd_chan env).map (·.2)

/-! ## Observers used in the statements -/

/-- The reference count of the channel with this id, 0 when there is none. -/
def chan_ref (s : genmsg_state) (channel : Nat) : Nat :=
  match chan_lookup s.channel_hash channel with
  | some c => c.ref
  | none => 0

/-- No two channels of the table have the same id. -/
def table_nodup (s : genmsg_state) : Prop :=
  (s.channel_hash.map (fun c => c.channel_id)).Nodup

instance (s : genmsg_state) : Decidable (table_nodup s) := by
  unfold table_nodup; infer_instance

/-- The marker that a hangup packet arriving on `cmd_chan` queues on an open
channel (lines 1427-1435 and 1459). -/
def queued_hangup_marker (req : h2c_GenericMessaging) (cmd_chan : sphcs_cmd_chan) :
    pending_packet :=
  { hangup_marker req with dma_data := { (hangup_marker req).dma_data with cmd_chan := cmd_chan } }

/-- The pages that freeing a local list of packets returns to the pool. -/
def released_pages (l : List pending_packet) : List genmsg_effect :=
  (l.filter (fun p => !p.is_hangup_command)).map (fun p => .page_free p.dma_data.dma_page_hndl)

/-! ## A local close racing with hangup packets -/

/-- One step of a local close of a channel that races with hangup packets
for it: the three parts of `sphcs_genmsg_chan_release` (the two sections
under `read_lock` and the wait-and-notify part between them) and the handling
of one hangup packet by `process_genmsg_command`. -/
inductive close_event
  | release_preclose
  | release_notify (interrupted : Bool)
  | release_finish
  | hangup (req : h2c_GenericMessaging) (env : cmd_env)
  deriving DecidableEq, Repr

/-- The position of a step within the local close, `none` for a hangup packet. -/
def close_event.local_step : close_event → Option Nat
  | .release_preclose => some 0
  | .release_notify _ => some 1
  | .release_finish => some 2
  | .hangup _ _ => none

/-- Whether a step is a hangup packet. -/
def close_event.is_hangup : close_event → Bool
  | .hangup _ _ => true
  | _ => false

/-- A hangup packet of the trace is a hangup packet for `channel`. -/
def close_event.addressed (channel : Nat) : close_event → Bool
  | .hangup req _ =>
    req.hangup && !req.connect && !req.service_list_req && decide (req.card_client_id = channel)
  | _ => true

/-- Run one step. Hangup packets arrive on the hardware channel `cmd_chan`. -/
def close_step (B : Nat) (channel : Nat) (cmd_chan : sphcs_cmd_chan) (s : genmsg_state) :
    close_event → Option genmsg_state
  | .release_preclose => some (sphcs_genmsg_chan_release_preclose s channel)
  | .release_notify interrupted => sphcs_genmsg_chan_release_notify s channel interrupted
  | .release_finish => some (sphcs_genmsg_chan_release_finish s channel)
  | .hangup req env => (process_genmsg_command B s req cmd_chan env).map (fun r => r.2)

/-- Run a trace of steps; `none` when a step sleeps for ever. -/
def close_run (B : Nat) (channel : Nat) (cmd_chan : sphcs_cmd_chan) :
    genmsg_state → List close_event → Option genmsg_state
  | s, [] => some s
  | s, e :: t =>
    match close_step B channel cmd_chan s e with
    | none => none
    | some s' => close_run B channel cmd_chan s' t

/-- The trace is an interleaving of one local close (its three parts in
order) with one or more hangup packets for `channel`. -/
def close_interleaving (channel : Nat) (t : List close_event) : Prop :=
  t.filterMap close_event.local_step = [0, 1, 2] ∧
  t.all (close_event.addressed channel) = true ∧
  t.any close_event.is_hangup = true

instance (channel : Nat) (t : List close_event) : Decidable (close_interleaving channel t) := by
  unfold close_interleaving; infer_instance

/-- The effects that show a broken reference count or free: a failed
assertion, a `kref_put` below zero, an access to a freed channel. -/
def genmsg_effect.is_fault : genmsg_effect → Bool
  | .assert_failed _ => true
  | .refcount_underflow _ => true
  | .use_after_free _ => true
  | _ => false

/-- Where the race of a local close with hangup packets stands. -/
inductive close_phase
  | opened (hanging_up : Bool)
  | preclosed (hanging_up : Bool)
  | notified (hanging_up : Bool)
  | ready
  | destroyed
  deriving DecidableEq, Repr

/-- The parts of the local close that are still to come. -/
def close_phase.remaining : close_phase → List Nat
  | .opened _ => [0, 1, 2]
  | .preclosed _ => [1, 2]
  | .notified _ => [2]
  | .ready => []
  | .destroyed => []

/-- Whether a hangup packet has been seen. -/
def close_phase.hung : close_phase → Bool
  | .opened h => h
  | .preclosed h => h
  | .notified h => h
  | .ready => false
  | .destroyed => true

/-- The phase after one step. -/
def close_phase.next : close_phase → close_event → close_phase
  | .opened h, .release_preclose => .preclosed h
  | .preclosed h, .release_notify _ => .notified h
  | .notified h, .release_finish => if h then .destroyed else .ready
  | .opened _, .hangup _ _ => .opened true
  | .preclosed _, .hangup _ _ => .preclosed true
  | .notified _, .hangup _ _ => .notified true
  | .ready, .hangup _ _ => .destroyed
  | ph, _ => ph

/-- The closing state of the channel in a phase in which it exists. -/
def close_phase.closing : close_phase → channel_close_state
  | .opened _ => _chnl_open
  | .preclosed _ => _chnl_preclose
  | .notified _ => _chnl_preclose
  | .ready => _chnl_close_ready
  | .destroyed => _chnl_close_done

/-- How often the log records the transition into `_chnl_close_done`, the
release of the owning reference and the `kfree` of `channel`, and how many
faults it records. -/
def close_counts (channel : Nat) (log : List genmsg_effect) : Nat × Nat × Nat × Nat :=
  (log.count (.set_close_done channel), log.count (.owner_put channel),
   log.count (.kfree_channel channel), log.countP genmsg_effect.is_fault)

/-- The state matches the phase: the channel exists with the phase's closing
state and flag and with the owning reference only, or it is gone; the log has
`k` destructions more than `base`. -/
def phase_holds (channel : Nat) (cmd_chan : sphcs_cmd_chan) (base : Nat × Nat × Nat × Nat)
    (ph : close_phase) (s : genmsg_state) : Prop :=
  table_nodup s ∧
  match ph with
  | .destroyed =>
    chan_lookup s.channel_hash channel = none ∧
    close_counts channel s.log = (base.1 + 1, base.2.1 + 1, base.2.2.1 + 1, base.2.2.2)
  | ph =>
    (∃ c, chan_lookup s.channel_hash channel = some c ∧ c.closing = ph.closing ∧
      c.hanging_up = ph.hung ∧ c.ref = 1 ∧ c.n_read_dma_req = 0 ∧ c.n_write_dma_req = 0 ∧
      c.cmd_chan = cmd_chan) ∧
    close_counts channel s.log = base

/-! ## Reading the byte stream -/

/-- The payload of a packet: the first `size + 1` bytes of its page. -/
def packet_payload (p : pending_packet) : List Nat :=
  (p.dma_data.vptr.getD []).take (p.dma_data.msg.size + 1)

/-- A data packet as the DMA completion queues it: it has a page, its size
field fits 12 bits and the page holds the `size + 1` bytes of the payload. -/
def data_packet (p : pending_packet) : Prop :=
  p.dma_data.vptr.isSome = true ∧ p.dma_data.msg.size < 2 ^ 12 ∧
    p.dma_data.msg.size + 1 ≤ (p.dma_data.vptr.getD []).length

instance (p : pending_packet) : Decidable (data_packet p) := by
  unfold data_packet; infer_instance

/-- The channel after a read took `n` bytes from the packet `pkt` at offset
`off`, with `rest` the queue behind that packet. -/
def chan_after_read (c : channel_data) (pkt : pending_packet) (off n : Nat)
    (rest : List pending_packet) : channel_data :=
  if off + n ≥ pkt.dma_data.msg.size + 1 then
    { c with pending_read_packets := rest, current_read_packet := none, current_read_size := 0 }
  else
    { c with pending_read_packets := rest, current_read_packet := some pkt,
             current_read_size := off + n }

/-- The pages a read returns to the pool when it took `n` bytes from the
packet `pkt` at offset `off`. -/
def pages_after_read (pkt : pending_packet) (off n : Nat) : List genmsg_effect :=
  if off + n ≥ pkt.dma_data.msg.size + 1 then [.page_free pkt.dma_data.dma_page_hndl] else []

/-- The packet the next read takes its bytes from: the current packet, or the
head of `queue` when there is none. -/
def next_packet (c : channel_data) (queue : List pending_packet) : Option pending_packet :=
  match c.current_read_packet with
  | some p => some p
  | none => queue.head?

/-- The bytes of that packet which no read has returned yet. -/
def packet_remaining (c : channel_data) (queue : List pending_packet) : Nat :=
  match c.current_read_packet, queue with
  | some p, _ => p.dma_data.msg.size + 1 - c.current_read_size
  | none, p :: _ => p.dma_data.msg.size + 1
  | none, [] => 0

/-- The bytes no read has returned yet: the rest of the current packet, then
the payloads of the data packets `queue`, oldest first. -/
def unread (c : channel_data) (queue : List pending_packet) : List Nat :=
  (match c.current_read_packet with
   | some p => (packet_payload p).drop c.current_read_size
   | none => []) ++ (queue.map packet_payload).flatten

/-- The channel of the channel file `f` is `c`, its `io_error` flag is clear,
its queue holds the data packets `queue` followed by `tail`, and its current
packet, when it has one, is a data packet that is not yet read to its end. -/
def read_ready (s : genmsg_state) (f : file) (c : channel_data)
    (queue tail : List pending_packet) : Prop :=
  is_channel_file f = true ∧
  chan_lookup s.channel_hash f.channel = some c ∧
  c.io_error = false ∧
  c.pending_read_packets = queue ++ tail ∧
  (∀ p ∈ queue, data_packet p) ∧
  (∀ p, c.current_read_packet = some p →
    data_packet p ∧ c.current_read_size < p.dma_data.msg.size + 1)

/-- Successive reads on `f` with the given buffer sizes, every copy to the
caller succeeding and no signal arriving: the results, up to the first read
that finds nothing to read and so sleeps. -/
def chan_read_seq : genmsg_state → file → List Nat → List read_result × genmsg_state
  | s, _, [] => ([], s)
  | s, f, size :: rest =>
    match sphcs_genmsg_chan_read s f size false 0 with
    | none => ([], s)
    | some (r, s') => ((r :: (chan_read_seq s' f rest).1), (chan_read_seq s' f rest).2)

/-! ## Concrete inputs -/

/-- A hardware channel. -/
def demo_cmd_chan : sphcs_cmd_chan := { ptr := 64, protocol_id := 3, privileged := false }

/-- A data frame of two bytes, 10 and 20, in the page with handle 5. -/
def demo_packet : pending_packet :=
  { dma_data := { vptr := some [10, 20, 0, 0], dma_page_hndl := 5, dma_addr := 0,
                  host_dma_addr := 0, channel := some 1,
                  msg := { h2c_zero with size := 1, host_pfn := 8, card_client_id := 1 },
                  cmd_chan := demo_cmd_chan },
    is_hangup_command := false }

/-- The channel with id 1 as `process_accept_client` creates it. -/
def demo_channel : channel_data :=
  { ref := 1, host_client_id := 2, fd := 7, is_privileged := false,
    pending_read_packets := [], current_read_packet := none, current_read_size := 0,
    n_read_dma_req := 0, cmd_chan := demo_cmd_chan, channel_id := 1,
    closing := _chnl_open, hanging_up := false, io_error := false,
    write_host_page_valid := false, write_host_page_hndl := 0, write_host_page_addr := 0,
    write_page_hndl := 0, write_page_addr := 0, write_page_vptr := none,
    n_write_dma_req := 0 }

/-- A state whose only channel is `c`, with an empty registry and log. -/
def demo_state (c : channel_data) : genmsg_state :=
  { channel_hash := [c], channel_ida := [c.channel_id], service_list := init_service_list,
    log := [] }

/-- The file of the channel with id 1. -/
def demo_file : file :=
  { f_op := file_operations.sphcs_genmsg_chan_fops, private_data := some 1 }

/-- A hangup packet for the channel with id 1. -/
def demo_hangup : h2c_GenericMessaging :=
  { h2c_zero with hangup := true, card_client_id := 1 }

/-- A data packet for the channel with id 1. -/
def demo_data : h2c_GenericMessaging :=
  { h2c_zero with size := 1, host_pfn := 8, card_client_id := 1 }

/-- Collaborators that grant everything. -/
def demo_env : cmd_env :=
  { wait_interrupted := false, pend_alloc := true, page_ret := 0, page_hndl := 9,
    page_vptr := [0, 0, 0, 0], page_addr := 0, rb_n := 1, rb_chunk_size := 4096, rb_addr := 0,
    dma_ret := 0 }

/-! ## Well-formed registries -/

/-- The number of slots of the registry that hold a name. -/
def registered_count (l : sphcs_genmsg_service_list) : Nat :=
  ((List.range SPH_MAX_GENERIC_SERVICES).filter (fun i => (l.service_name i).isSome)).length

/-- What `init_service_list`, `add_service` (called with a C string, as
`process_register_service` does) and `delete_service` keep true of the
registry: the allocator holds each id once and only ids below the capacity;
a slot with a name has its id allocated; a stored name is a buffer of
non-NUL bytes closed by one NUL, and the stored length is the number of those
bytes; `num_services` counts the slots with a name. -/
def registry_wf (l : sphcs_genmsg_service_list) : Prop :=
  l.ida.Nodup ∧
  (∀ i ∈ l.ida, i < SPH_MAX_GENERIC_SERVICES) ∧
  (∀ i, (l.service_name i).isSome = true → i ∈ l.ida) ∧
  (∀ i stored, l.service_name i = some stored →
    ∃ name : List Nat, stored = name ++ [0] ∧ 0 ∉ name ∧ l.service_name_len i = name.length) ∧
  l.num_services = registered_count l

/-- A service as `process_register_service` allocates it. -/
def demo_service : service_data := { id := 0, host_client_handle := 0, pending_connections := [] }

/-- The registry after the name "A" was registered in the empty registry. -/
def demo_service_list : sphcs_genmsg_service_list :=
  { init_service_list with
    ida := [0],
    service_name := Function.update init_service_list.service_name 0 (some ([65] ++ [0])),
    service_name_len := Function.update init_service_list.service_name_len 0 1,
    service_data := Function.update init_service_list.service_data 0 (some demo_service),
    num_services := 1 }

/-- The name of slot `i` in the full registry: two non-NUL bytes. -/
def full_name (i : Nat) : List Nat := [1 + i % 255, 1 + i / 255]

/-- A registry with all 288 slots taken, slot `i` by `full_name i`. -/
def full_service_list : sphcs_genmsg_service_list :=
  { ida := List.range SPH_MAX_GENERIC_SERVICES,
    service_name := fun i =>
      if i < SPH_MAX_GENERIC_SERVICES then some (full_name i ++ [0]) else none,
    service_name_len := fun i => if i < SPH_MAX_GENERIC_SERVICES then 2 else 0,
    service_data := fun i =>
      if i < SPH_MAX_GENERIC_SERVICES then
        some { id := (i : Int), host_client_handle := 0, pending_connections := [] }
      else none,
    num_services := SPH_MAX_GENERIC_SERVICES }

/-! ## The driver as a transition system -/

/-- A handler of a hangup packet that is asleep in the wait of line 1414: it
holds the reference that `find_channel` took on `channel`. -/
structure parked_hangup where
  channel : Nat
  req : h2c_GenericMessaging
  cmd_chan : sphcs_cmd_chan
  deriving DecidableEq, Repr

/-- The state of the driver: its data and the hangup handlers that sleep. -/
structure driver_state where
  g : genmsg_state
  parked : List parked_hangup

/-- The state after `sphcs_init_genmsg_interface`, lines 1664-1717. -/
def driver_init : driver_state :=
  { g := { channel_hash := [], channel_ida := [], service_list := init_service_list, log := [] },
    parked := [] }

/-- One atomic action of the driver. Every entry point is one action, called
with any arguments and any answers of the collaborators, except the two that
sleep in the middle with state in hand: `sphcs_genmsg_chan_release` is its
three parts, and the handling of a hangup packet by `process_genmsg_command`
may also be split at its wait into `hangup_park` (lines 1392-1406) and
`hangup_resume` (lines 1414-1484). The kernel releases a file once, after it
was set up by a successful accept: the local close starts on a channel in
`_chnl_open` only, and its later parts run on a channel in `_chnl_preclose`. -/
inductive driver_step (B : Nat) : driver_state → driver_state → Prop
  | register (d : driver_state) (f : file) (name_len : Nat) (name : List Nat)
      (env : register_env) :
      driver_step B d { d with g := (process_register_service d.g f name_len name env).2.1 }
  | service_release (d : driver_state) (f : file) :
      driver_step B d { d with g := (sphcs_genmsg_release B d.g f).2 }
  | accept (d : driver_state) (f : file) (env : accept_env) (r : Int × Option Int × genmsg_state) :
      process_accept_client B d.g f env = some r →
      driver_step B d { d with g := r.2.2 }
  | read (d : driver_state) (f : file) (size : Nat) (i : Bool) (nc : Nat)
      (r : read_result × genmsg_state) :
      sphcs_genmsg_chan_read d.g f size i nc = some r →
      driver_step B d { d with g := r.2 }
  | write (d : driver_state) (f : file) (buf : List Nat) (size : Nat) (env : Nat → write_env) :
      driver_step B d { d with g := (sphcs_genmsg_chan_write d.g f buf size env).2 }
  | release_preclose (d : driver_state) (channel : Nat) (c : channel_data) :
      chan_lookup d.g.channel_hash channel = some c → c.closing = _chnl_open →
      driver_step B d { d with g := sphcs_genmsg_chan_release_preclose d.g channel }
  | release_notify (d : driver_state) (channel : Nat) (c : channel_data) (i : Bool)
      (g' : genmsg_state) :
      chan_lookup d.g.channel_hash channel = some c → c.closing = _chnl_preclose →
      sphcs_genmsg_chan_release_notify d.g channel i = some g' →
      driver_step B d { d with g := g' }
  | release_finish (d : driver_state) (channel : Nat) (c : channel_data) :
      chan_lookup d.g.channel_hash channel = some c → c.closing = _chnl_preclose →
      driver_step B d { d with g := sphcs_genmsg_chan_release_finish d.g channel }
  | command (d : driver_state) (req : h2c_GenericMessaging) (cmd_chan : sphcs_cmd_chan)
      (env : cmd_env) (r : Int × genmsg_state) :
      process_genmsg_command B d.g req cmd_chan env = some r →
      driver_step B d { d with g := r.2 }
  | hangup_park (d : driver_state) (req : h2c_GenericMessaging) (cmd_chan : sphcs_cmd_chan)
      (c : channel_data) (g1 : genmsg_state) :
      req.hangup = true → req.connect = false → req.service_list_req = false →
      find_channel d.g req.card_client_id = (some c, g1) → c.cmd_chan = cmd_chan →
      driver_step B d { g := g1, parked := ⟨c.channel_id, req, cmd_chan⟩ :: d.parked }
  | hangup_resume (d : driver_state) (p : parked_hangup) (c : channel_data) (i alloc : Bool) :
      p ∈ d.parked → chan_lookup d.g.channel_hash p.channel = some c →
      wait_event_interruptible (decide (c.n_read_dma_req = 0)) i ≠ none →
      driver_step B d
        { g := (genmsg_hangup_rest d.g p.channel p.req p.cmd_chan alloc).2,
          parked := d.parked.erase p }
  | cmd_chan_get (d : driver_state) (cmd_chan : sphcs_cmd_chan) :
      driver_step B d { d with g := emit d.g (.cmd_chan_get cmd_chan) }
  | cmd_dma_complete (d : driver_state) (dma_data : genmsg_dma_command_data)
      (status : dma_status) (alloc : Bool) :
      driver_step B d
        { d with g := (sphcs_genmsg_cmd_dma_complete_callback B d.g dma_data status alloc).2 }
  | response_dma_complete (d : driver_state) (user_data : dma_req_user_data)
      (status : dma_status) :
      driver_step B d { d with g := (chan_response_dma_completed d.g user_data status).2 }
  | service_list_dma_complete (d : driver_state) (user_data : dma_req_user_data)
      (status : dma_status) :
      driver_step B d
        { d with g := (send_service_list_dma_completed_chan d.g user_data status).2 }

/-- The states the driver can be in: those that a series of actions leads to
from the initial state. -/
def driver_reachable (B : Nat) (d : driver_state) : Prop :=
  Relation.ReflTransGen (driver_step B) driver_init d

/-- What the reference-count reasoning reads of a channel. -/
structure chan_key where
  id : Nat
  ref : Nat
  closing : channel_close_state
  hanging_up : Bool
  deriving DecidableEq, Repr

/-- The key of a channel. -/
def channel_data.key (c : channel_data) : chan_key :=
  { id := c.channel_id, ref := c.ref, closing := c.closing, hanging_up := c.hanging_up }

/-- The keys of the table. -/
def table_keys (g : genmsg_state) : List chan_key := g.channel_hash.map channel_data.key

/-- The number of sleeping hangup handlers that hold a reference on `id`. -/
def parked_on (parked : List parked_hangup) (id : Nat) : Nat :=
  (parked.map (fun p => p.channel)).count id

/-- The invariant of the driver, in the middle of an action whose code holds
`held id` references on the channel `id`. No two channels share an id and
every id in use is allocated. The count of a channel is the owning reference,
held until the channel enters `_chnl_close_done`, plus one per sleeping hangup
handler, plus the references the running code holds; it is at least one. A
channel enters `_chnl_close_done` with `hanging_up` set. A sleeping handler's
channel is in the table. The assertion of `free_channel` has not failed. -/
def driver_inv_held (held : Nat → Nat) (d : driver_state) : Prop :=
  ((table_keys d.g).map (fun k => k.id)).Nodup ∧
  (∀ k ∈ table_keys d.g, k.id ∈ d.g.channel_ida) ∧
  (∀ k ∈ table_keys d.g,
    k.ref = (if k.closing = _chnl_close_done then 0 else 1) + parked_on d.parked k.id
      + held k.id) ∧
  (∀ k ∈ table_keys d.g, k.closing = _chnl_close_done → k.hanging_up = true) ∧
  (∀ k ∈ table_keys d.g, 1 ≤ k.ref) ∧
  (∀ p ∈ d.parked, ∃ k ∈ table_keys d.g, k.id = p.channel) ∧
  genmsg_effect.assert_failed 169 ∉ d.g.log

/-- The invariant of the driver between two actions, when no code holds a
reference. -/
def driver_inv (d : driver_state) : Prop := driver_inv_held (fun _ => 0) d

/-- One more reference held on `id`. -/
def held_inc (held : Nat → Nat) (id : Nat) : Nat → Nat :=
  fun j => if j = id then held j + 1 else held j

/-- One reference less held on `id`. -/
def held_dec (held : Nat → Nat) (id : Nat) : Nat → Nat :=
  fun j => if j = id then held j - 1 else held j

/-- The step from `g` to `g'` leaves the keys of the table and the allocated
channel ids as they are and adds no failure of the assertion of
`free_channel` to the log. -/
def frame (g g' : genmsg_state) : Prop :=
  table_keys g' = table_keys g ∧ g'.channel_ida = g.channel_ida ∧
  (genmsg_effect.assert_failed 169 ∈ g'.log → genmsg_effect.assert_failed 169 ∈ g.log)

/-- What a round of the write loop may change: the log (never by a failed
assertion) and fields of the channel other than its key and `io_error`. -/
def write_keeps (r r' : write_loop_result) : Prop :=
  r'.s.channel_hash = r.s.channel_hash ∧ r'.s.channel_ida = r.s.channel_ida ∧
  (genmsg_effect.assert_failed 169 ∈ r'.s.log → genmsg_effect.assert_failed 169 ∈ r.s.log) ∧
  r'.c.key = r.c.key ∧ r'.c.io_error = r.c.io_error

/-- Every channel of `g'` is a channel of `g`, and one whose `io_error` flag
was set in `g` has it set in `g'`. -/
def io_keeps (g g' : genmsg_state) : Prop :=
  ∀ c' ∈ g'.channel_hash, ∃ c ∈ g.channel_hash,
    c.channel_id = c'.channel_id ∧ (c.io_error = true → c'.io_error = true)


/-! ## A life of one channel -/

/-- The file of `/dev/sphcs_genmsg` before a service is registered on it. -/
def trace_service_file : file :=
  { f_op := file_operations.sphcs_genmsg_fops, private_data := none }

/-- The service file once slot 0 is registered on it. -/
def trace_registered_file : file :=
  { f_op := file_operations.sphcs_genmsg_fops, private_data := some 0 }

/-- Collaborators of `process_register_service` that grant everything. -/
def trace_register_env : register_env :=
  { sphcs_present := true, copy_req_ret := 0, copy_name_ret := 0, name_alloc := true,
    service_alloc := true }

/-- The fetched frame of a connect request for the service "A". -/
def trace_connect : genmsg_dma_command_data :=
  { vptr := some [1, 0, 0, 0, 65], dma_page_hndl := 5, dma_addr := 0, host_dma_addr := 0,
    channel := none,
    msg := { h2c_zero with connect := true, host_pfn := 8, host_client_id := 2 },
    cmd_chan := demo_cmd_chan }

/-- Collaborators of `process_accept_client` that grant everything. -/
def trace_accept_env : accept_env :=
  { wait_interrupted := false, channel_alloc := true, fd := 7, copy_ret := 0 }

/-- The service "A" is registered. -/
def trace_d1 : driver_state :=
  { driver_init with
    g := (process_register_service driver_init.g trace_service_file 1 [65]
            trace_register_env).2.1 }

/-- A connect request for it has arrived. -/
def trace_d2 : driver_state :=
  { trace_d1 with
    g := (sphcs_genmsg_cmd_dma_complete_callback 4095 trace_d1.g trace_connect
            dma_status.SPHCS_DMA_STATUS_DONE true).2 }

/-- The service accepted it: channel 1 exists. -/
def trace_d3 : driver_state :=
  { trace_d2 with
    g := ((process_accept_client 4095 trace_d2.g trace_registered_file trace_accept_env).getD
            (0, none, trace_d2.g)).2.2 }

/-- The host hung up. -/
def trace_d4 : driver_state :=
  { trace_d3 with
    g := ((process_genmsg_command 4095 trace_d3.g demo_hangup demo_cmd_chan demo_env).getD
            (0, trace_d3.g)).2 }

/-- The file of the channel is being released: first locked section. -/
def trace_d5 : driver_state :=
  { trace_d4 with g := sphcs_genmsg_chan_release_preclose trace_d4.g 1 }

/-- The hangup notice went out. -/
def trace_d6 : driver_state :=
  { trace_d5 with g := (sphcs_genmsg_chan_release_notify trace_d5.g 1 false).getD trace_d5.g }

/-- The release is over: the channel is freed. -/
def trace_d7 : driver_state :=
  { trace_d6 with g := sphcs_genmsg_chan_release_finish trace_d6.g 1 }

/-- A driver action after which the channel `id` is still in the table. -/
def driver_step_keeping (B : Nat) (id : Nat) (d d' : driver_state) : Prop :=
  driver_step B d d' ∧ (chan_lookup d'.g.channel_hash id).isSome = true

/-- The request of an outbound DMA of two bytes for channel 1. -/
def trace_response : dma_req_user_data :=
  { dma_page_hndl := 6, host_dma_page_hndl := 0, dma_vptr := some [1, 2], xfer_size := 2,
    param1 := 0, channel := some 1, cmd_chan := none }

/-- After `trace_d3`, an outbound DMA of channel 1 failed: `io_error` is set. -/
def trace_e4 : driver_state :=
  { trace_d3 with
    g := (chan_response_dma_completed trace_d3.g trace_response
            dma_status.SPHCS_DMA_STATUS_FAILED).2 }

/-- Then a data packet for channel 1 arrived from the host. -/
def trace_e5 : driver_state :=
  { trace_e4 with
    g := ((process_genmsg_command 4095 trace_e4.g demo_data demo_cmd_chan demo_env).getD
            (0, trace_e4.g)).2 }

/-! ## Registries the driver builds -/

/-- No two slots of the registry hold the same name: `add_service` refuses a
name that a slot holds. -/
def registry_distinct (l : sphcs_genmsg_service_list) : Prop :=
  ∀ i j stored, l.service_name i = some stored → l.service_name j = some stored → i = j

/-- A state with the registry `demo_service_list`, no channel and an empty log. -/
def demo_registry_state : genmsg_state :=
  { channel_hash := [], channel_ida := [], service_list := demo_service_list, log := [] }

/-- The state `s` with the frame `d` appended at the tail of the queue of the
service `sd` in slot `i`. -/
def queued_on (s : genmsg_state) (i : Nat) (sd : service_data)
    (d : genmsg_dma_command_data) : genmsg_state :=
  let pend : pending_packet := { dma_data := d, is_hangup_command := false }
  let sd' : service_data := { sd with pending_connections := sd.pending_connections ++ [pend] }
  let slots := Function.update s.service_list.service_data i (some sd')
  { s with service_list := { s.service_list with service_data := slots } }

/-- The negative connect acknowledgement of `handle_cmd_dma_failed`, sent on
the hardware channel `cmd_chan`. -/
def no_such_service_ack (B : Nat) (cmd_chan : sphcs_cmd_chan) : genmsg_effect :=
  .respq_msg cmd_chan
    { c2h_zero with chan_id := cmd_chan.protocol_id, connect := true, no_such_service := true,
                    card_client_id := B }

/-- The stored names of the registry (each with its closing NUL) in ascending
slot order. -/
def registered_names (l : sphcs_genmsg_service_list) : List (List Nat) :=
  (List.range SPH_MAX_GENERIC_SERVICES).filterMap l.service_name

/-- The service list as it goes on the wire: every registered name followed
by its NUL, in ascending slot order. Its length is the sum over the registered
names of (name length + 1). -/
def service_list_bytes (l : sphcs_genmsg_service_list) : List Nat :=
  (registered_names l).flatten

/-- Every stored name length is one that `process_register_service` lets
through (line 954). -/
def registry_bounded (l : sphcs_genmsg_service_list) : Prop :=
  ∀ i, l.service_name_len i ≤ SPH_MAX_GENERIC_SERVICES

/-! ## Accept, in its two parts -/

/-- Lines 1002-1021 of `process_accept_client`: wait for a pending connection
and take the first one off the queue of the service. The result is the
return value so far, the connection taken (when one was) and the state. -/
def accept_pop (s : genmsg_state) (f : file) (env : accept_env) :
    Option (Int × Option pending_packet × genmsg_state) :=
  match f.private_data with
  | none => some (-EBADF_errno, none, s)
  | some service =>
    match s.service_list.service_data service with
    | none => some (-EBADF_errno, none, emit s (.use_after_free service))
    | some sd =>
      /- wait for a pending connection -/
      match wait_event_interruptible (!sd.pending_connections.isEmpty) env.wait_interrupted with
      | none => none
      | some ret =>
        if ret ≠ 0 then some (ret, none, s)
        else
          match sd.pending_connections with
          | [] => some (0, none, emit s (.assert_failed 1019))
          | pend :: rest =>
            let l := s.service_list
            let slots := Function.update l.service_data service
              (some { sd with pending_connections := rest })
            some (0, some pend, { s with service_list := { l with service_data := slots } })

/-- Lines 1023-1119 of `process_accept_client`: make the channel for the
connection `pend` and answer the host. -/
def accept_channel (NNP_IPC_GENMSG_BAD_CLIENT_ID : Nat) (s : genmsg_state)
    (pend : pending_packet) (env : accept_env) : Int × Option Int × genmsg_state :=
  if !env.channel_alloc then
    let r := accept_done NNP_IPC_GENMSG_BAD_CLIENT_ID s pend none (-ENOMEM_errno)
    (r.1, none, r.2)
  else
    match ida_simple_get s.channel_ida 1 (NNP_IPC_GENMSG_BAD_CLIENT_ID - 1) with
    | none =>
      let r := accept_done NNP_IPC_GENMSG_BAD_CLIENT_ID s pend none (-ENOSPC_errno)
      (r.1, none, r.2)
    | some id =>
      let s := { s with channel_ida := ida_insert s.channel_ida id }
      let channel := accept_new_channel pend id
      let s := { s with channel_hash := hash_add s.channel_hash channel }
      let channel := { channel with fd := env.fd }
      if env.fd < 0 then
        /- free_id: -/
        let s := { s with channel_hash := hash_del s.channel_hash id }
        let s := { s with channel_ida := ida_simple_remove s.channel_ida id }
        let r := accept_done NNP_IPC_GENMSG_BAD_CLIENT_ID s pend none env.fd
        (r.1, none, r.2)
      else
        /- Reference count initialized to 1 for inode private_data -/
        let channel := { channel with ref := 1 }
        let s := set_channel s channel
        if env.copy_ret ≠ 0 then
          /- free_all: free_id: -/
          let s := { s with channel_hash := hash_del s.channel_hash id }
          let s := { s with channel_ida := ida_simple_remove s.channel_ida id }
          let r := accept_done NNP_IPC_GENMSG_BAD_CLIENT_ID s pend none (env.copy_ret : Int)
          (r.1, none, r.2)
        else
          let r := accept_done NNP_IPC_GENMSG_BAD_CLIENT_ID s pend (some channel) 0
          (r.1, some env.fd, r.2)

/-- What happens to a service: a connect frame for it was fetched, or its
owner calls accept. -/
inductive conn_event
  | arrive (d : genmsg_dma_command_data) (alloc : Bool)
  | accept (env : accept_env)

/-- The connections that a series of events hands to the service: the frames
whose pending-connection record was allocated, in arrival order. -/
def conn_arrivals : List conn_event → List pending_packet
  | [] => []
  | .arrive d true :: evs => { dma_data := d, is_hangup_command := false } :: conn_arrivals evs
  | .arrive _ false :: evs => conn_arrivals evs
  | .accept _ :: evs => conn_arrivals evs

/-- Run a series of events on the service of the file `f`: each fetched frame
goes through `sphcs_genmsg_cmd_dma_complete_callback`, each accept through
`process_accept_client` in its two parts; an accept that would sleep is left
out. The result is the connections that the accepts took, in the order in
which they took them, and the final state. -/
def conn_run (B : Nat) (f : file) : genmsg_state → List conn_event →
    List pending_packet × genmsg_state
  | s, [] => ([], s)
  | s, .arrive d alloc :: evs =>
    conn_run B f
      (sphcs_genmsg_cmd_dma_complete_callback B s d dma_status.SPHCS_DMA_STATUS_DONE alloc).2 evs
  | s, .accept env :: evs =>
    match accept_pop s f env with
    | none => conn_run B f s evs
    | some (_, none, s1) => conn_run B f s1 evs
    | some (_, some pend, s1) =>
      let r := conn_run B f (accept_channel B s1 pend env).2.2 evs
      (pend :: r.1, r.2)

/-- The slot `i` holds a service whose queue of pending connections is `q`. -/
def service_queue (s : genmsg_state) (i : Nat) (q : List pending_packet) : Prop :=
  ∃ sd, s.service_list.service_data i = some sd ∧ sd.pending_connections = q

/-- The fetched frame `d` is a connect request for the name `N`: the connect
bit is set and the page holds the length of `N` in its first four bytes and
`N` after them. -/
def connect_frame_for (N : List Nat) (d : genmsg_dma_command_data) : Prop :=
  d.msg.connect = true ∧
  ∃ page tail, d.vptr = some page ∧ page_u32 page = N.length ∧ page.drop 4 = N ++ tail

/-- The connect acknowledgement of `process_accept_client` (lines 1101-1109)
for the connection `pend`, carrying `card_client_id`. -/
def connect_ack (pend : pending_packet) (card_client_id : Nat) : genmsg_effect :=
  .respq_msg pend.dma_data.cmd_chan
    { c2h_zero with chan_id := pend.dma_data.cmd_chan.protocol_id, connect := true,
                    card_client_id := card_client_id }

/-- The channel that a successful `process_accept_client` leaves in the table
for the connection `pend`, with the id `id` and the descriptor `fd`. -/
def accepted_channel (pend : pending_packet) (id : Nat) (fd : Int) : channel_data :=
  { accept_new_channel pend id with fd := fd, ref := 1 }

/-- What `delete_service` does for one pending connection (lines 702-712):
the connect reply with the sentinel id on the connection's hardware channel,
the release of the reference on that channel, the return of the staged page. -/
def drain_reply (B : Nat) (p : pending_packet) : List genmsg_effect :=
  [connect_ack p B, .cmd_chan_put p.dma_data.cmd_chan, .page_free p.dma_data.dma_page_hndl]

/-- The state `trace_d2` (the service "A" with one pending connection) after
the service is unregistered. -/
def trace_f3 : genmsg_state := delete_service 4095 trace_d2.g 0

/-- The messages put on response queues, in log order, each with the hardware
channel it goes to. -/
def log_replies : List genmsg_effect → List (sphcs_cmd_chan × c2h_ChanGenericMessaging)
  | [] => []
  | .respq_msg cmd_chan msg :: l => (cmd_chan, msg) :: log_replies l
  | _ :: l => log_replies l

/-- The pages returned to the pool, in log order. -/
def log_pages_freed : List genmsg_effect → List Nat
  | [] => []
  | .page_free hndl :: l => hndl :: log_pages_freed l
  | _ :: l => log_pages_freed l

/-- The hardware channels on which a reference was dropped, in log order. -/
def log_chan_puts : List genmsg_effect → List sphcs_cmd_chan
  | [] => []
  | .cmd_chan_put cmd_chan :: l => cmd_chan :: log_chan_puts l
  | _ :: l => log_chan_puts l

/-- The connect reply of `delete_service` and of a failed accept for a
connection that arrived on `cmd_chan`: the connect bit, the sentinel id, and
every other bit clear. -/
def negative_connect_reply (B : Nat) (cmd_chan : sphcs_cmd_chan) : c2h_ChanGenericMessaging :=
  { c2h_zero with chan_id := cmd_chan.protocol_id, connect := true, card_client_id := B }

/-- A packet with the connect, hangup and service-list-request bits all set. -/
def demo_all_bits : h2c_GenericMessaging :=
  { h2c_zero with connect := true, hangup := true, service_list_req := true }

/-- The hardware channel of another connection. -/
def demo_other_chan : sphcs_cmd_chan := { ptr := 128, protocol_id := 4, privileged := false }

/-- The fetched frame of a data packet for channel 1, as `genmsg_fetch` sets
it up. -/
def demo_fetch : genmsg_dma_command_data :=
  { vptr := some [10, 20, 0, 0], dma_page_hndl := 5, dma_addr := 0, host_dma_addr := 0,
    channel := some 1, msg := demo_data, cmd_chan := demo_cmd_chan }

/-- The channel 1 while its file is being released, with one inbound DMA in
flight. -/
def demo_closing_channel : channel_data :=
  { demo_channel with closing := _chnl_preclose, n_read_dma_req := 1 }

/-- The name of slot `i` in the registry `wide_service_list`: sixteen non-NUL
bytes, the first two telling the slots apart. -/
def wide_name (i : Nat) : List Nat := full_name i ++ List.replicate 14 7

/-- A registry with all 288 slots taken, slot `i` by `wide_name i`: its list
takes 288 * 17 = 4896 bytes, more than a page. -/
def wide_service_list : sphcs_genmsg_service_list :=
  { ida := List.range SPH_MAX_GENERIC_SERVICES,
    service_name := fun i =>
      if i < SPH_MAX_GENERIC_SERVICES then some (wide_name i ++ [0]) else none,
    service_name_len := fun i => if i < SPH_MAX_GENERIC_SERVICES then 16 else 0,
    service_data := fun i =>
      if i < SPH_MAX_GENERIC_SERVICES then
        some { id := (i : Int), host_client_handle := 0, pending_connections := [] }
      else none,
    num_services := SPH_MAX_GENERIC_SERVICES }

/-- A state with the registry `wide_service_list`, no channel and an empty log. -/
def wide_registry_state : genmsg_state :=
  { channel_hash := [], channel_ida := [], service_list := wide_service_list, log := [] }

/-- After `trace_d3`, a data packet for channel 1 arrived from the host: its
fetch is in flight. -/
def trace_h4 : driver_state :=
  { trace_d3 with
    g := ((process_genmsg_command 4095 trace_d3.g demo_data demo_cmd_chan demo_env).getD
            (0, trace_d3.g)).2 }

/-- The hangup notice that `sphcs_genmsg_chan_release` sends for the channel
`c` (lines 268-278). -/
def hangup_notice (c : channel_data) : genmsg_effect :=
  .respq_msg c.cmd_chan
    { c2h_zero with chan_id := c.cmd_chan.protocol_id, rb_id := 0, size := 0,
                    hangup := true, card_client_id := c.channel_id }

/-- Collaborators of a write that grant everything. -/
def demo_write_env : write_env :=
  { rb_n := 1, rb_chunk_size := 4096, rb_addr := 0, page_ret := 0, page_hndl := 6,
    page_vptr := [0, 0, 0, 0], page_addr := 0, copy_ret := 0, dma_ret := 0 }

/-- The outbound requests that the log shows as taken by the DMA scheduler. -/
def log_c2h_queued : List genmsg_effect → List dma_req_user_data
  | [] => []
  | .dma_c2h req true :: rest => req :: log_c2h_queued rest
  | _ :: rest => log_c2h_queued rest

/-- The paths of `sphcs_genmsg_cmd_dma_complete_callback` that end in
`handle_cmd_dma_failed`: the DMA failed (line 1274), the pending record was
not allocated (lines 1296 and 1324), no service has the name of a connect
frame (line 1313), the channel of a data frame is no longer open (line 1335). -/
def inbound_dropped (s : genmsg_state) (d : genmsg_dma_command_data) (status : dma_status)
    (pend_alloc : Bool) : Bool :=
  decide (status = dma_status.SPHCS_DMA_STATUS_FAILED) || !pend_alloc ||
  (d.msg.connect &&
    (find_service s.service_list ((d.vptr.getD []).drop 4) (page_u32 (d.vptr.getD []))).isNone) ||
  (!d.msg.connect &&
    match chan_lookup s.channel_hash (d.channel.getD 0) with
    | some c => decide (c.closing ≠ _chnl_open)
    | none => false)

/-- What `sphcs_genmsg_cmd_dma_complete_callback` appends to the log. -/
def inbound_out (B : Nat) (s : genmsg_state) (d : genmsg_dma_command_data)
    (status : dma_status) (pend_alloc : Bool) : List genmsg_effect :=
  (sphcs_genmsg_cmd_dma_complete_callback B s d status pend_alloc).2.log.drop s.log.length

/-- The packets that the channels of the table hold: for each channel its
queue and its current packet. -/
def channel_queues (s : genmsg_state) : List (List pending_packet × Option pending_packet) :=
  s.channel_hash.map (fun c => (c.pending_read_packets, c.current_read_packet))

/-- The data frame `d` appended at the tail of the queue of the channel `c`,
one inbound DMA fewer in flight (lines 1340-1343). -/
def data_queued (c : channel_data) (d : genmsg_dma_command_data) : channel_data :=
  { c with pending_read_packets :=
             c.pending_read_packets ++ [{ dma_data := d, is_hangup_command := false }],
           n_read_dma_req := c.n_read_dma_req - 1 }

/-- The packets that `sphcs_genmsg_chan_release` moves to its local list
(lines 236-241): the queue, then the packet that was being read. -/
def release_list (c : channel_data) : List pending_packet :=
  c.pending_read_packets ++
    (match c.current_read_packet with
     | some p => [p]
     | none => [])

/-- What the last locked section of `sphcs_genmsg_chan_release` logs for the
channel `c`: nothing unless the host hung up already. -/
def release_tail (c : channel_data) : List genmsg_effect :=
  if c.hanging_up then
    [.set_close_done c.channel_id, .owner_put c.channel_id] ++
      (if c.ref = 1 then [.destroy_cb_clear c.cmd_chan, .cmd_chan_put c.cmd_chan,
                          .kfree_channel c.channel_id] else [])
  else []

/-- The channel 1 with a hangup marker and a data frame queued, the data frame
`demo_packet` partially read, and a write page held. -/
def demo_busy_channel : channel_data :=
  { demo_channel with
    pending_read_packets :=
      [hangup_marker demo_hangup,
       { demo_packet with dma_data := { demo_packet.dma_data with dma_page_hndl := 11 } }],
    current_read_packet := some demo_packet, current_read_size := 1,
    write_page_hndl := 6, write_page_vptr := some [0, 0, 0, 0] }

/-- The outbound requests of the log, in log order, each with the answer of
the DMA scheduler. -/
def log_c2h : List genmsg_effect → List (dma_req_user_data × Bool)
  | [] => []
  | .dma_c2h req queued :: rest => (req, queued) :: log_c2h rest
  | _ :: rest => log_c2h rest

/-- Of each outbound request of the log: its channel, its size, the bytes of
its page that the transfer carries, and whether the scheduler took it. -/
def c2h_view (l : List genmsg_effect) : List (Option Nat × Nat × Option (List Nat) × Bool) :=
  (log_c2h l).map (fun r =>
    (r.1.channel, r.1.xfer_size, r.1.dma_vptr.map (List.take r.1.xfer_size), r.2))

/-- The push of the caller bytes from offset `off` up to the next page
boundary or the end of the `size` bytes, for the channel `ch`, taken by the
scheduler. -/
def write_chunk (ch : Nat) (buf : List Nat) (size off : Nat) :
    Option Nat × Nat × Option (List Nat) × Bool :=
  (some ch, min (size - off) NNP_PAGE_SIZE,
   some ((buf.drop off).take (min (size - off) NNP_PAGE_SIZE)), true)

/-- The pushes of the caller bytes from offset `nw` on, a page each. -/
def write_chunks (ch : Nat) (buf : List Nat) (size nw : Nat) :
    List (Option Nat × Nat × Option (List Nat) × Bool) :=
  (List.range ((size - nw + (NNP_PAGE_SIZE - 1)) / NNP_PAGE_SIZE)).map
    (fun i => write_chunk ch buf size (nw + NNP_PAGE_SIZE * i))

/-- Every step of a round of the write loop succeeds: the host slot, the
local page, the user copy and the DMA submission. -/
def write_env_ok (e : write_env) : Prop :=
  e.rb_n = 1 ∧ e.rb_chunk_size = NNP_PAGE_SIZE ∧ 0 ≤ e.page_ret ∧ e.copy_ret = 0 ∧ 0 ≤ e.dma_ret

instance (e : write_env) : Decidable (write_env_ok e) := by
  unfold write_env_ok; infer_instance

/-- The `while (n_written < size)` at the end of a round of the write loop:
another round, or the result as it is. -/
def chan_write_next (fuel : Nat) (env : Nat → write_env) (buf : List Nat) (size round : Nat)
    (r : write_loop_result) : write_loop_result :=
  if r.n_written < size then chan_write_loop fuel env buf size (round + 1) r else r


/-! ## Scatter lists: `dma_calc_and_gen_lli` of `sphcs_hw_utils.c` -/

/-- The number of values of a `uint64_t` or a `dma_addr_t`. -/
def U64_MOD : Nat := 2 ^ 64

/-- Kernel `U32_MAX`. -/
def U32_MAX : Nat := 2 ^ 32 - 1

/-- Model of `struct scatterlist`: the two fields that `dma_calc_and_gen_lli`
reads. A scatter list is the list of its entries, `sg_next` its tail. -/
structure scatterlist where
  dma_address : Nat
  length : Nat
  deriving DecidableEq, Repr

/-- Model of the local `struct region` of `dma_calc_and_gen_lli`. -/
structure region where
  dma_address : Nat
  length : Nat
  deriving DecidableEq, Repr

/-- A data element: source address, destination address, size. -/
structure data_elem where
  src : Nat
  dst : Nat
  size : Nat
  deriving DecidableEq, Repr

/-- The local variables of `dma_calc_and_gen_lli`, with the data elements
built so far (one for each `num_of_elements++`) and the calls of
`set_data_elem` made so far. -/
structure lli_state where
  src_reg : region
  dst_reg : region
  next_srcSgl : List scatterlist
  next_dstSgl : List scatterlist
  total_size : Nat
  num_of_elements : Nat
  lliBuf : Option Nat
  elems : List data_elem
  calls : List (Nat × data_elem)
  deriving DecidableEq, Repr

/-- Lines 41-45 of `dma_calc_and_gen_lli`: skip the destination entries that
end before `dst_offset`. -/
def skip_dst (dst_offset : Nat) : Nat → List scatterlist → Nat × List scatterlist
  | curr_dst_offset, [] => (curr_dst_offset, [])
  | curr_dst_offset, e :: rest =>
    if (curr_dst_offset + e.length) % U64_MOD < dst_offset then
      skip_dst dst_offset ((curr_dst_offset + e.length) % U64_MOD) rest
    else (curr_dst_offset, e :: rest)

/-- Lines 72-82: join the source entries that follow the region without a
gap, as long as the length fits 32 bits. -/
def join_src (src_reg : region) : List scatterlist → region × List scatterlist
  | [] => (src_reg, [])
  | e :: rest =>
    if e.dma_address = (src_reg.dma_address + src_reg.length) % U64_MOD ∧
        src_reg.length + e.length ≤ U32_MAX then
      join_src { src_reg with length := src_reg.length + e.length } rest
    else (src_reg, e :: rest)

/-- Lines 95-106: join the destination entries that follow the region without
a gap, as long as the length fits 32 bits and the region is shorter than the
source region. -/
def join_dst (src_reg dst_reg : region) : List scatterlist → region × List scatterlist
  | [] => (dst_reg, [])
  | e :: rest =>
    if e.dma_address = (dst_reg.dma_address + dst_reg.length) % U64_MOD ∧
        dst_reg.length + e.length ≤ U32_MAX ∧ dst_reg.length < src_reg.length then
      join_dst src_reg { dst_reg with length := dst_reg.length + e.length } rest
    else (dst_reg, e :: rest)

/-- Lines 63-83: set up the next source region if the current one is at its
end; `none` is the `break` of line 65. -/
def setup_src (st : lli_state) : Option lli_state :=
  if st.src_reg.length = 0 then
    match st.next_srcSgl with
    | [] => none
    | e :: rest =>
      let r := join_src { dma_address := e.dma_address, length := e.length } rest
      some { st with src_reg := r.1, next_srcSgl := r.2 }
  else some st

/-- Lines 86-107: set up the next destination region if the current one is at
its end; `none` is the `break` of line 88. -/
def setup_dst (st : lli_state) : Option lli_state :=
  if st.dst_reg.length = 0 then
    match st.next_dstSgl with
    | [] => none
    | e :: rest =>
      let r := join_dst st.src_reg { dma_address := e.dma_address, length := e.length } rest
      some { st with dst_reg := r.1, next_dstSgl := r.2 }
  else some st

/-- Lines 115-119 and 128-132: `if (lliBuf) lliBuf = set_data_elem(...)`. -/
def put_elem (set_data_elem : Nat → data_elem → Option Nat) (st : lli_state)
    (e : data_elem) : lli_state :=
  match st.lliBuf with
  | some p => { st with lliBuf := set_data_elem p e, elems := st.elems ++ [e],
                        calls := st.calls ++ [(p, e)] }
  | none => { st with elems := st.elems ++ [e] }

/-- Lines 110-137: build the next data element from the smaller region. -/
def build_elem (max_xfer_size : Nat) (set_data_elem : Nat → data_elem → Option Nat)
    (st : lli_state) : lli_state :=
  let st := { st with num_of_elements := (st.num_of_elements + 1) % U32_MOD }
  if st.src_reg.length < st.dst_reg.length then
    let src_reg : region :=
      if max_xfer_size ≠ 0 ∧ (st.total_size + st.src_reg.length) % U64_MOD ≥ max_xfer_size then
        { st.src_reg with length := (max_xfer_size + U64_MOD - st.total_size) % U64_MOD % U32_MOD }
      else st.src_reg
    let st := put_elem set_data_elem st
      { src := src_reg.dma_address, dst := st.dst_reg.dma_address, size := src_reg.length }
    { st with
      total_size := (st.total_size + src_reg.length) % U64_MOD,
      dst_reg := { dma_address := (st.dst_reg.dma_address + src_reg.length) % U64_MOD,
                   length := (st.dst_reg.length + U32_MOD - src_reg.length) % U32_MOD },
      src_reg := { src_reg with length := 0 } }
  else
    let dst_reg : region :=
      if max_xfer_size ≠ 0 ∧ (st.total_size + st.dst_reg.length) % U64_MOD ≥ max_xfer_size then
        { st.dst_reg with length := (max_xfer_size + U64_MOD - st.total_size) % U64_MOD % U32_MOD }
      else st.dst_reg
    let st := put_elem set_data_elem st
      { src := st.src_reg.dma_address, dst := dst_reg.dma_address, size := dst_reg.length }
    { st with
      total_size := (st.total_size + dst_reg.length) % U64_MOD,
      src_reg := { dma_address := (st.src_reg.dma_address + dst_reg.length) % U64_MOD,
                   length := (st.src_reg.length + U32_MOD - dst_reg.length) % U32_MOD },
      dst_reg := { dst_reg with length := 0 } }

/-- Lines 61-138: the `do ... while` loop, one round per unit of fuel; `none`
when the fuel runs out before the loop ends. -/
def lli_loop (max_xfer_size : Nat) (set_data_elem : Nat → data_elem → Option Nat) :
    Nat → lli_state → Option lli_state
  | 0, _ => none
  | fuel + 1, st =>
    match setup_src st with
    | none => some st
    | some st =>
      match setup_dst st with
      | none => some st
      | some st =>
        let st := build_elem max_xfer_size set_data_elem st
        if max_xfer_size = 0 ∨ st.total_size < max_xfer_size then
          lli_loop max_xfer_size set_data_elem fuel st
        else some st

/-- What `dma_calc_and_gen_lli` hands back: its return value, the value it
stores in `*transfer_size`, the data elements it built and the calls of
`set_data_elem` it made. -/
structure lli_result where
  num_of_elements : Nat
  transfer_size : Nat
  elems : List data_elem
  calls : List (Nat × data_elem)
  deriving DecidableEq, Repr

/-- Source `dma_calc_and_gen_lli`, `sphcs_hw_utils.c` lines 13-144. `lliPtr`
is `none` for a NULL pointer; `set_data_elem` returns the next position in the
buffer. Each round of the loop takes a new entry of one of the two lists or
ends the loop, so one round more than the entries of both lists is enough
fuel; `none` would mean that it was not. -/
def dma_calc_and_gen_lli (srcSgt dstSgt : List scatterlist) (lliPtr : Option Nat)
    (dst_offset max_xfer_size : Nat) (set_data_elem : Nat → data_elem → Option Nat) :
    Option lli_result :=
  let st : lli_state :=
    { src_reg := { dma_address := 0, length := 0 },
      dst_reg := { dma_address := 0, length := 0 },
      next_srcSgl := srcSgt, next_dstSgl := dstSgt, total_size := 0, num_of_elements := 0,
      lliBuf := lliPtr, elems := [], calls := [] }
  /- setup first dst region according to dst_offset -/
  let first : Option lli_state :=
    if dst_offset > 0 then
      match skip_dst dst_offset 0 dstSgt with
      | (_, []) => none
      | (curr_dst_offset, e :: rest) =>
        let skip := (dst_offset + U64_MOD - curr_dst_offset) % U64_MOD
        some { st with
          dst_reg := { dma_address := (e.dma_address + skip) % U64_MOD,
                       length := (e.length + U64_MOD - skip) % U64_MOD % U32_MOD },
          next_dstSgl := rest }
    else some st
  match first with
  | none =>
    /- done if dst_offset is larger than dst sg_table size -/
    some { num_of_elements := 0, transfer_size := 0, elems := [], calls := [] }
  | some st =>
    (lli_loop max_xfer_size set_data_elem (srcSgt.length + dstSgt.length + 1) st).map
      (fun st => { num_of_elements := st.num_of_elements, transfer_size := st.total_size,
                   elems := st.elems, calls := st.calls })

/-- The bytes of a scatter list. -/
def sg_bytes (l : List scatterlist) : Nat := (l.map (fun e => e.length)).sum

/-- The entries of a scatter list have 32-bit lengths. -/
def sg_u32 (l : List scatterlist) : Prop := ∀ e ∈ l, e.length < U32_MOD

instance (l : List scatterlist) : Decidable (sg_u32 l) := by
  unfold sg_u32; infer_instance


/-- What holds at the head of each round of the loop of `dma_calc_and_gen_lli`:
lengths fit 32 bits, and the bytes transferred so far together with the bytes
that the rest of the two lists can still pair up are `M`. -/
def lli_inv (M : Nat) (st : lli_state) : Prop :=
  sg_u32 st.next_srcSgl ∧ sg_u32 st.next_dstSgl ∧
  st.src_reg.length < U32_MOD ∧ st.dst_reg.length < U32_MOD ∧
  st.total_size + min (st.src_reg.length + sg_bytes st.next_srcSgl)
      (st.dst_reg.length + sg_bytes st.next_dstSgl) = M

/-- A bound on the rounds that the loop of `dma_calc_and_gen_lli` still runs:
the entries not yet taken, and the regions in use. -/
def lli_measure (st : lli_state) : Nat :=
  st.next_srcSgl.length + st.next_dstSgl.length +
    (if st.src_reg.length = 0 then 0 else 1) + (if st.dst_reg.length = 0 then 0 else 1)

/-- The local variables of `dma_calc_and_gen_lli` apart from `lliBuf`, with the
data elements built. -/
def lli_core (st : lli_state) :
    region × region × List scatterlist × List scatterlist × Nat × Nat × List data_elem :=
  (st.src_reg, st.dst_reg, st.next_srcSgl, st.next_dstSgl, st.total_size, st.num_of_elements,
   st.elems)


/-- The bytes that a source and a destination list can pair up when the
destination is entered at `dst_offset`, cut at `max_xfer_size` unless that is
0. -/
def lli_expected (srcSgt dstSgt : List scatterlist) (dst_offset max_xfer_size : Nat) : Nat :=
  if max_xfer_size = 0 then min (sg_bytes srcSgt) (sg_bytes dstSgt - dst_offset)
  else min (min (sg_bytes srcSgt) (sg_bytes dstSgt - dst_offset)) max_xfer_size

/-- Of a result of `dma_calc_and_gen_lli`: the return value, `*transfer_size`
and the data elements built. -/
def lli_view (r : lli_result) : Nat × Nat × List data_elem :=
  (r.num_of_elements, r.transfer_size, r.elems)

/-- A `set_data_elem` that advances the buffer by one element. -/
def demo_set_data_elem (p : Nat) (_ : data_elem) : Option Nat := some (p + 1)

/-! ## Lemmas on the channel table -/

theorem chan_lookup_id {h : List channel_data} {id : Nat} {c : channel_data}
    (hl : chan_lookup h id = some c) : c.channel_id = id := by
  unfold chan_lookup at hl
  have := List.find?_some hl
  simpa using this

theorem chan_lookup_mem {h : List channel_data} {id : Nat} {c : channel_data}
    (hl : chan_lookup h id = some c) : c ∈ h := by
  unfold chan_lookup at hl
  exact List.mem_of_find?_eq_some hl

theorem chan_lookup_store_self {h : List channel_data} {id : Nat} {c c' : channel_data}
    (hl : chan_lookup h id = some c) (hid : c'.channel_id = id) :
    chan_lookup (chan_store h c') id = some c' := by
  induction h with
  | nil => simp [chan_lookup] at hl
  | cons x xs ih =>
    unfold chan_store
    by_cases hx : x.channel_id = c'.channel_id
    · simp [hx, chan_lookup, hid]
    · have hx' : x.channel_id ≠ id := by rw [← hid]; exact hx
      simp only [hx, if_false]
      simp only [chan_lookup, List.find?_cons, hx', decide_False] at hl ⊢
      exact ih hl

theorem chan_lookup_store {h : List channel_data} {id : Nat} {c' : channel_data}
    (hid : c'.channel_id = id) (hs : (chan_lookup h id).isSome = true) :
    chan_lookup (chan_store h c') id = some c' := by
  cases hc : chan_lookup h id with
  | none => simp [hc] at hs
  | some c => exact chan_lookup_store_self hc hid

theorem chan_lookup_store_other {h : List channel_data} {id : Nat} {c' : channel_data}
    (hid : c'.channel_id ≠ id) :
    chan_lookup (chan_store h c') id = chan_lookup h id := by
  induction h with
  | nil => simp [chan_store]
  | cons x xs ih =>
    unfold chan_store
    by_cases hx : x.channel_id = c'.channel_id
    · have hx' : x.channel_id ≠ id := by rw [hx]; exact hid
      simp [hx, chan_lookup, hid, hx']
    · simp only [hx, if_false]
      by_cases hx' : x.channel_id = id
      · simp [chan_lookup, hx']
      · simp only [chan_lookup, List.find?_cons, hx', decide_False] at ih ⊢
        exact ih

theorem chan_lookup_hash_del_self {h : List channel_data} {id : Nat}
    (hnd : (h.map (fun c => c.channel_id)).Nodup) :
    chan_lookup (hash_del h id) id = none := by
  induction h with
  | nil => simp [hash_del, chan_lookup]
  | cons x xs ih =>
    simp only [List.map_cons, List.nodup_cons] at hnd
    by_cases hx : x.channel_id = id
    · simp only [hash_del, List.eraseP_cons, hx, decide_True, cond_true]
      simp only [chan_lookup, List.find?_eq_none, decide_eq_true_eq]
      intro y hy hyid
      apply hnd.1
      rw [hx, ← hyid]
      exact List.mem_map_of_mem _ hy
    · have := ih hnd.2
      simp only [hash_del, List.eraseP_cons, hx, decide_False, cond_false] at this ⊢
      simp only [chan_lookup, List.find?_cons, hx, decide_False] at this ⊢
      exact this

theorem chan_store_ids (h : List channel_data) (c : channel_data) :
    (chan_store h c).map (fun c => c.channel_id) = h.map (fun c => c.channel_id) := by
  induction h with
  | nil => simp [chan_store]
  | cons x xs ih =>
    unfold chan_store
    by_cases hx : x.channel_id = c.channel_id
    · simp [hx]
    · simp [hx, ih]

theorem chan_store_store (h : List channel_data) (c1 c2 : channel_data)
    (hid : c1.channel_id = c2.channel_id) :
    chan_store (chan_store h c1) c2 = chan_store h c2 := by
  induction h with
  | nil => simp [chan_store]
  | cons x xs ih =>
    by_cases hx : x.channel_id = c1.channel_id
    · have hx2 : x.channel_id = c2.channel_id := hx.trans hid
      simp [chan_store, hx, hx2, hid]
    · have hx2 : ¬ x.channel_id = c2.channel_id := fun h => hx (h.trans hid.symm)
      simp [chan_store, hx, hx2, ih]

theorem chan_store_same {h : List channel_data} {id : Nat} {c : channel_data}
    (hl : chan_lookup h id = some c) : chan_store h c = h := by
  induction h with
  | nil => simp [chan_store]
  | cons x xs ih =>
    by_cases hx : x.channel_id = id
    · simp only [chan_lookup, List.find?_cons, hx, decide_True] at hl
      cases hl
      simp [chan_store]
    · have hc := chan_lookup_id hl
      simp only [chan_lookup, List.find?_cons, hx, decide_False] at hl
      have hx2 : ¬ x.channel_id = c.channel_id := by rw [hc]; exact hx
      simp only [chan_store, hx2, if_false]
      rw [ih hl]

@[simp] theorem emit_channel_hash (s : genmsg_state) (e : genmsg_effect) :
    (emit s e).channel_hash = s.channel_hash := rfl
@[simp] theorem emit_log (s : genmsg_state) (e : genmsg_effect) :
    (emit s e).log = s.log ++ [e] := rfl
@[simp] theorem emit_channel_ida (s : genmsg_state) (e : genmsg_effect) :
    (emit s e).channel_ida = s.channel_ida := rfl
@[simp] theorem emit_service_list (s : genmsg_state) (e : genmsg_effect) :
    (emit s e).service_list = s.service_list := rfl
@[simp] theorem set_channel_hash (s : genmsg_state) (c : channel_data) :
    (set_channel s c).channel_hash = chan_store s.channel_hash c := rfl
@[simp] theorem set_channel_log (s : genmsg_state) (c : channel_data) :
    (set_channel s c).log = s.log := rfl
@[simp] theorem set_channel_ida (s : genmsg_state) (c : channel_data) :
    (set_channel s c).channel_ida = s.channel_ida := rfl
@[simp] theorem set_channel_service_list (s : genmsg_state) (c : channel_data) :
    (set_channel s c).service_list = s.service_list := rfl

/-! ## Lemmas on the reference count -/

theorem channel_put_many (s : genmsg_state) (channel : Nat) (c : channel_data)
    (hl : chan_lookup s.channel_hash channel = some c) (href : 2 ≤ c.ref) :
    channel_put s channel = set_channel s { c with ref := c.ref - 1 } := by
  have h0 : c.ref ≠ 0 := by omega
  have h1 : c.ref ≠ 1 := by omega
  simp [channel_put, hl, h0, h1]

theorem channel_put_last (s : genmsg_state) (channel : Nat) (c : channel_data)
    (hl : chan_lookup s.channel_hash channel = some c) (href : c.ref = 1) :
    channel_put s channel
      = free_channel (set_channel s { c with ref := 0 }) { c with ref := 0 } := by
  simp [channel_put, hl, href]

theorem release_finish_clear (s : genmsg_state) (channel : Nat) (c : channel_data)
    (hl : chan_lookup s.channel_hash channel = some c) (hh : c.hanging_up = false) :
    sphcs_genmsg_chan_release_finish s channel
      = set_channel s { c with closing := _chnl_close_ready } := by
  simp [sphcs_genmsg_chan_release_finish, hl, hh]

theorem release_finish_set (s : genmsg_state) (channel : Nat) (c : channel_data)
    (hl : chan_lookup s.channel_hash channel = some c) (hh : c.hanging_up = true) :
    sphcs_genmsg_chan_release_finish s channel
      = channel_put (emit (emit (set_channel s { c with closing := _chnl_close_done })
          (.set_close_done channel)) (.owner_put channel)) channel := by
  simp [sphcs_genmsg_chan_release_finish, hl, hh]

theorem hash_del_store (h : List channel_data) (c : channel_data) (id : Nat)
    (hid : c.channel_id = id) :
    hash_del (chan_store h c) id = hash_del h id := by
  subst hid
  induction h with
  | nil => simp [chan_store]
  | cons x xs ih =>
    by_cases hx : x.channel_id = c.channel_id
    · simp [chan_store, hash_del, hx]
    · simp only [chan_store, hx, if_false, hash_del, List.eraseP_cons, decide_False, cond_false]
      simp only [hash_del] at ih
      rw [ih]

/-- The local close finds `hanging_up` set on the last reference: the channel
is destroyed. -/
theorem release_finish_last (s : genmsg_state) (channel : Nat) (c : channel_data)
    (hl : chan_lookup s.channel_hash channel = some c) (hh : c.hanging_up = true)
    (href : c.ref = 1) :
    sphcs_genmsg_chan_release_finish s channel
      = { s with channel_hash := hash_del s.channel_hash channel,
                 channel_ida := ida_simple_remove s.channel_ida channel,
                 log := s.log ++ [.set_close_done channel, .owner_put channel,
                    .destroy_cb_clear c.cmd_chan, .cmd_chan_put c.cmd_chan,
                    .kfree_channel channel] } := by
  have hid := chan_lookup_id hl
  simp [sphcs_genmsg_chan_release_finish, hl, hh, channel_put, chan_lookup_store,
    href, free_channel, emit, set_channel, chan_store_store, hash_del_store, hid]

/-- The local close finds `hanging_up` set while other references are held:
the owning reference goes, the channel stays. -/
theorem release_finish_held (s : genmsg_state) (channel : Nat) (c : channel_data)
    (hl : chan_lookup s.channel_hash channel = some c) (hh : c.hanging_up = true)
    (href : 2 ≤ c.ref) :
    sphcs_genmsg_chan_release_finish s channel
      = { s with channel_hash := chan_store s.channel_hash
                   { c with closing := _chnl_close_done, ref := c.ref - 1 },
                 log := s.log ++ [.set_close_done channel, .owner_put channel] } := by
  have hid := chan_lookup_id hl
  have h0 : c.ref ≠ 0 := by omega
  have h1 : c.ref ≠ 1 := by omega
  simp [sphcs_genmsg_chan_release_finish, hl, hh, channel_put, chan_lookup_store,
    h0, h1, emit, set_channel, chan_store_store, hid]
/-! ## The hangup packet, case by case -/

theorem wait_done (i : Bool) : wait_event_interruptible true i = some 0 := by
  simp [wait_event_interruptible]

/-- A hangup packet for a channel that is already hanging up changes nothing
but the reference of the hardware channel it came with. -/
theorem hangup_again (B : Nat) (s : genmsg_state) (req : h2c_GenericMessaging)
    (cmd_chan : sphcs_cmd_chan) (env : cmd_env) (c : channel_data)
    (hl : chan_lookup s.channel_hash req.card_client_id = some c) (href : 1 ≤ c.ref)
    (hh : c.hanging_up = true) (hreq : req.hangup = true) (hconn : req.connect = false)
    (hsl : req.service_list_req = false) (hcc : c.cmd_chan = cmd_chan)
    (hn : c.n_read_dma_req = 0) :
    process_genmsg_command B s req cmd_chan env
      = some (0, { s with log := s.log ++ [.cmd_chan_put cmd_chan] }) := by
  have hid := chan_lookup_id hl
  have h0 : c.ref ≠ 0 := by omega
  simp [process_genmsg_command, hreq, hconn, hsl, find_channel, hl, h0, hcc, hn, wait_done,
    genmsg_hangup_rest, chan_lookup_store, hid, hh, channel_put, emit, set_channel,
    chan_store_store]
  rw [← hcc, ← hid, ← hh, ← hn]
  exact chan_store_same hl

/-- The first hangup packet of an open channel. -/
theorem hangup_open (B : Nat) (s : genmsg_state) (req : h2c_GenericMessaging)
    (cmd_chan : sphcs_cmd_chan) (env : cmd_env) (c : channel_data)
    (hl : chan_lookup s.channel_hash req.card_client_id = some c) (href : 1 ≤ c.ref)
    (hh : c.hanging_up = false) (hreq : req.hangup = true) (hconn : req.connect = false)
    (hsl : req.service_list_req = false) (hcc : c.cmd_chan = cmd_chan)
    (hn : c.n_read_dma_req = 0) (hcl : c.closing = _chnl_open) :
    process_genmsg_command B s req cmd_chan env
      = some (if env.pend_alloc then 0 else -1,
          { s with
            channel_hash := chan_store s.channel_hash
              { c with hanging_up := true,
                       pending_read_packets := c.pending_read_packets ++
                         (if env.pend_alloc then [queued_hangup_marker req cmd_chan] else []) },
            log := s.log ++ [.cmd_chan_put cmd_chan, .destroy_cb_clear cmd_chan] }) := by
  have hid := chan_lookup_id hl
  have h0 : c.ref ≠ 0 := by omega
  cases ha : env.pend_alloc <;>
  simp [process_genmsg_command, hreq, hconn, hsl, find_channel, hl, h0, hcc, hn, wait_done,
    genmsg_hangup_rest, chan_lookup_store, hid, hh, channel_put, emit, set_channel,
    chan_store_store, hcl, ha, queued_hangup_marker]

/-- The first hangup packet of a channel whose local close is under way. -/
theorem hangup_preclose (B : Nat) (s : genmsg_state) (req : h2c_GenericMessaging)
    (cmd_chan : sphcs_cmd_chan) (env : cmd_env) (c : channel_data)
    (hl : chan_lookup s.channel_hash req.card_client_id = some c) (href : 1 ≤ c.ref)
    (hh : c.hanging_up = false) (hreq : req.hangup = true) (hconn : req.connect = false)
    (hsl : req.service_list_req = false) (hcc : c.cmd_chan = cmd_chan)
    (hn : c.n_read_dma_req = 0) (hcl : c.closing = _chnl_preclose) :
    process_genmsg_command B s req cmd_chan env
      = some (0,
          { s with
            channel_hash := chan_store s.channel_hash { c with hanging_up := true },
            log := s.log ++ [.cmd_chan_put cmd_chan, .destroy_cb_clear cmd_chan] }) := by
  have hid := chan_lookup_id hl
  have h0 : c.ref ≠ 0 := by omega
  simp [process_genmsg_command, hreq, hconn, hsl, find_channel, hl, h0, hcc, hn, wait_done,
    genmsg_hangup_rest, chan_lookup_store, hid, hh, channel_put, emit, set_channel,
    chan_store_store, hcl]

/-- The first hangup packet of a channel whose local close is finished, when
no other reference is held: the channel is destroyed. -/
theorem hangup_ready_last (B : Nat) (s : genmsg_state) (req : h2c_GenericMessaging)
    (cmd_chan : sphcs_cmd_chan) (env : cmd_env) (c : channel_data)
    (hl : chan_lookup s.channel_hash req.card_client_id = some c) (href : c.ref = 1)
    (hh : c.hanging_up = false) (hreq : req.hangup = true) (hconn : req.connect = false)
    (hsl : req.service_list_req = false) (hcc : c.cmd_chan = cmd_chan)
    (hn : c.n_read_dma_req = 0) (hcl : c.closing = _chnl_close_ready) :
    process_genmsg_command B s req cmd_chan env
      = some (0,
          { s with
            channel_hash := hash_del s.channel_hash req.card_client_id,
            channel_ida := ida_simple_remove s.channel_ida req.card_client_id,
            log := s.log ++ [.cmd_chan_put cmd_chan, .destroy_cb_clear cmd_chan,
              .set_close_done req.card_client_id, .owner_put req.card_client_id,
              .destroy_cb_clear cmd_chan, .cmd_chan_put cmd_chan,
              .kfree_channel req.card_client_id] }) := by
  have hid := chan_lookup_id hl
  simp [process_genmsg_command, hreq, hconn, hsl, find_channel, hl, href, hcc, hn, wait_done,
    genmsg_hangup_rest, chan_lookup_store, hid, hh, channel_put, emit, set_channel,
    chan_store_store, hcl, free_channel, hash_del_store]

/-- The first hangup packet of a channel whose local close is finished, while
other references are held. -/
theorem hangup_ready_held (B : Nat) (s : genmsg_state) (req : h2c_GenericMessaging)
    (cmd_chan : sphcs_cmd_chan) (env : cmd_env) (c : channel_data)
    (hl : chan_lookup s.channel_hash req.card_client_id = some c) (href : 2 ≤ c.ref)
    (hh : c.hanging_up = false) (hreq : req.hangup = true) (hconn : req.connect = false)
    (hsl : req.service_list_req = false) (hcc : c.cmd_chan = cmd_chan)
    (hn : c.n_read_dma_req = 0) (hcl : c.closing = _chnl_close_ready) :
    process_genmsg_command B s req cmd_chan env
      = some (0,
          { s with
            channel_hash := chan_store s.channel_hash
              { c with hanging_up := true, closing := _chnl_close_done, ref := c.ref - 1 },
            log := s.log ++ [.cmd_chan_put cmd_chan, .destroy_cb_clear cmd_chan,
              .set_close_done req.card_client_id, .owner_put req.card_client_id] }) := by
  have hid := chan_lookup_id hl
  have h0 : c.ref ≠ 0 := by omega
  have h1 : c.ref ≠ 1 := by omega
  have h2 : c.ref + 1 - 1 - 1 = c.ref - 1 := by omega
  simp [process_genmsg_command, hreq, hconn, hsl, find_channel, hl, h0, h1, hcc, hn, wait_done,
    genmsg_hangup_rest, chan_lookup_store, hid, hh, channel_put, emit, set_channel,
    chan_store_store, hcl, h2]

/-- A hangup packet for an id that no channel has. -/
theorem hangup_unknown (B : Nat) (s : genmsg_state) (req : h2c_GenericMessaging)
    (cmd_chan : sphcs_cmd_chan) (env : cmd_env)
    (hl : chan_lookup s.channel_hash req.card_client_id = none)
    (hreq : req.hangup = true) (hconn : req.connect = false)
    (hsl : req.service_list_req = false) :
    process_genmsg_command B s req cmd_chan env
      = some (0, { s with log := s.log ++ [.cmd_chan_put cmd_chan] }) := by
  simp [process_genmsg_command, hreq, hconn, hsl, find_channel, hl, emit]
/-! ## The local close, part by part -/

theorem release_pending_packets_eq (s : genmsg_state) (l : List pending_packet) :
    release_pending_packets s l = { s with log := s.log ++ released_pages l } := by
  induction l generalizing s with
  | nil => simp [release_pending_packets, released_pages]
  | cons p rest ih =>
    cases hp : p.is_hangup_command <;>
      simp [release_pending_packets, hp, ih, released_pages, emit]

theorem release_preclose_eq (s : genmsg_state) (channel : Nat) (c : channel_data)
    (hl : chan_lookup s.channel_hash channel = some c) :
    sphcs_genmsg_chan_release_preclose s channel
      = { s with
          channel_hash := chan_store s.channel_hash
            { c with closing := _chnl_preclose, pending_read_packets := [],
                     current_read_packet := none },
          log := s.log ++ released_pages (c.pending_read_packets ++
            (match c.current_read_packet with
             | some p => [p]
             | none => [])) } := by
  simp [sphcs_genmsg_chan_release_preclose, hl, release_pending_packets_eq, set_channel]

theorem release_notify_eq (s : genmsg_state) (channel : Nat) (c : channel_data) (i : Bool)
    (hl : chan_lookup s.channel_hash channel = some c) (hw : c.n_write_dma_req = 0) :
    sphcs_genmsg_chan_release_notify s channel i
      = some { s with
          log := s.log ++ (if c.write_page_vptr.isSome then [.page_free c.write_page_hndl] else [])
            ++ [.respq_msg c.cmd_chan
                 { c2h_zero with chan_id := c.cmd_chan.protocol_id, hangup := true,
                                 card_client_id := c.channel_id }] } := by
  cases hv : c.write_page_vptr <;>
    simp [sphcs_genmsg_chan_release_notify, hl, hw, wait_done, emit, hv, c2h_zero]
/-! ## The race of a local close with hangup packets -/

theorem table_nodup_store {s : genmsg_state} {h : List channel_data} {c : channel_data}
    {ida : List Nat} {log : List genmsg_effect} (hn : table_nodup s)
    (hh : h = chan_store s.channel_hash c) :
    table_nodup { s with channel_hash := h, channel_ida := ida, log := log } := by
  subst hh
  simpa [table_nodup, chan_store_ids] using hn

theorem table_nodup_del {s : genmsg_state} {id : Nat}
    {ida : List Nat} {log : List genmsg_effect} (hn : table_nodup s) :
    table_nodup { s with channel_hash := hash_del s.channel_hash id,
                         channel_ida := ida, log := log } := by
  unfold table_nodup at *
  exact List.Nodup.sublist (List.Sublist.map _ (List.eraseP_sublist _)) hn

theorem table_nodup_log {s : genmsg_state} {log : List genmsg_effect} (hn : table_nodup s) :
    table_nodup { s with log := log } := hn

theorem close_counts_released (channel : Nat) (log : List genmsg_effect)
    (l : List pending_packet) :
    close_counts channel (log ++ released_pages l) = close_counts channel log := by
  induction l with
  | nil => simp [released_pages]
  | cons p rest ih =>
    have hsplit : released_pages (p :: rest) =
        (if p.is_hangup_command then [] else [genmsg_effect.page_free p.dma_data.dma_page_hndl])
          ++ released_pages rest := by
      cases hp : p.is_hangup_command <;> simp [released_pages, hp]
    rw [hsplit]
    simp only [close_counts, List.count_append, List.countP_append, Prod.mk.injEq] at ih ⊢
    cases hp : p.is_hangup_command <;>
      simp [ih, List.count_cons, genmsg_effect.is_fault]

theorem phase_preclose (channel : Nat) (cc : sphcs_cmd_chan) (base : Nat × Nat × Nat × Nat)
    (h : Bool) (s : genmsg_state) (hp : phase_holds channel cc base (.opened h) s) :
    phase_holds channel cc base (.preclosed h) (sphcs_genmsg_chan_release_preclose s channel) := by
  obtain ⟨hnd, ⟨c, hl, hcl, hh, href, hnr, hnw, hcc⟩, hcnt⟩ := hp
  have hid := chan_lookup_id hl
  rw [release_preclose_eq s channel c hl]
  refine ⟨table_nodup_store hnd rfl,
    ⟨_, chan_lookup_store (by simpa using hid) (by simp [hl]), ?_⟩, ?_⟩
  · simp_all [close_phase.closing, close_phase.hung]
  · simp [close_counts_released, hcnt]

theorem phase_notify (channel : Nat) (cc : sphcs_cmd_chan) (base : Nat × Nat × Nat × Nat)
    (h i : Bool) (s : genmsg_state) (hp : phase_holds channel cc base (.preclosed h) s) :
    ∃ s', sphcs_genmsg_chan_release_notify s channel i = some s' ∧
      phase_holds channel cc base (.notified h) s' := by
  obtain ⟨hnd, ⟨c, hl, hcl, hh, href, hnr, hnw, hcc⟩, hcnt⟩ := hp
  rw [release_notify_eq s channel c i hl hnw]
  refine ⟨_, rfl, table_nodup_log hnd, ⟨c, hl, ?_⟩, ?_⟩
  · simp_all [close_phase.closing, close_phase.hung]
  · rw [← hcnt]
    cases hv : c.write_page_vptr <;>
      simp [close_counts, List.count_append, List.count_cons, genmsg_effect.is_fault]

theorem phase_finish (channel : Nat) (cc : sphcs_cmd_chan) (base : Nat × Nat × Nat × Nat)
    (h : Bool) (s : genmsg_state) (hp : phase_holds channel cc base (.notified h) s) :
    phase_holds channel cc base (if h then .destroyed else .ready)
      (sphcs_genmsg_chan_release_finish s channel) := by
  obtain ⟨hnd, ⟨c, hl, hcl, hh, href, hnr, hnw, hcc⟩, hcnt⟩ := hp
  have hid := chan_lookup_id hl
  cases h with
  | false =>
    rw [release_finish_clear s channel c hl (by simpa [close_phase.hung] using hh)]
    refine ⟨table_nodup_store hnd rfl,
      ⟨_, chan_lookup_store (by simpa using hid) (by simp [hl]), ?_⟩, ?_⟩
    · simp_all [close_phase.closing, close_phase.hung]
    · simpa using hcnt
  | true =>
    rw [release_finish_last s channel c hl (by simpa [close_phase.hung] using hh) href]
    refine ⟨table_nodup_del hnd, chan_lookup_hash_del_self hnd, ?_⟩
    subst hcnt
    simp [close_counts, List.count_append, List.count_cons, genmsg_effect.is_fault]

theorem phase_hangup (B channel : Nat) (cc : sphcs_cmd_chan) (base : Nat × Nat × Nat × Nat)
    (ph : close_phase) (s : genmsg_state) (req : h2c_GenericMessaging) (env : cmd_env)
    (hp : phase_holds channel cc base ph s)
    (hreq : req.hangup = true) (hconn : req.connect = false)
    (hsl : req.service_list_req = false) (hch : req.card_client_id = channel) :
    ∃ r, process_genmsg_command B s req cc env = some r ∧
      phase_holds channel cc base (ph.next (.hangup req env)) r.2 := by
  subst hch
  cases ph with
  | destroyed =>
    obtain ⟨hnd, hl, hcnt⟩ := hp
    rw [hangup_unknown B s req cc env hl hreq hconn hsl]
    refine ⟨_, rfl, table_nodup_log hnd, hl, ?_⟩
    rw [← hcnt]
    simp [close_counts, List.count_append, List.count_cons, genmsg_effect.is_fault]
  | ready =>
    obtain ⟨hnd, ⟨c, hl, hcl, hh, href, hnr, hnw, hcc⟩, hcnt⟩ := hp
    rw [hangup_ready_last B s req cc env c hl href (by simpa [close_phase.hung] using hh)
      hreq hconn hsl hcc hnr (by simpa [close_phase.closing] using hcl)]
    refine ⟨_, rfl, table_nodup_del hnd, chan_lookup_hash_del_self hnd, ?_⟩
    subst hcnt
    simp [close_counts, List.count_append, List.count_cons, genmsg_effect.is_fault]
  | opened h =>
    obtain ⟨hnd, ⟨c, hl, hcl, hh, href, hnr, hnw, hcc⟩, hcnt⟩ := hp
    have hid := chan_lookup_id hl
    cases h with
    | true =>
      rw [hangup_again B s req cc env c hl (by omega) (by simpa [close_phase.hung] using hh)
        hreq hconn hsl hcc hnr]
      refine ⟨_, rfl, table_nodup_log hnd, ⟨c, hl, hcl, ?_⟩, ?_⟩
      · simp_all [close_phase.next, close_phase.hung]
      · subst hcnt
        simp [close_counts, List.count_append, List.count_cons, genmsg_effect.is_fault]
    | false =>
      rw [hangup_open B s req cc env c hl (by omega) (by simpa [close_phase.hung] using hh)
        hreq hconn hsl hcc hnr (by simpa [close_phase.closing] using hcl)]
      refine ⟨_, rfl, table_nodup_store hnd rfl,
        ⟨_, chan_lookup_store (by simpa using hid) (by simp [hl]), ?_⟩, ?_⟩
      · simp_all [close_phase.next, close_phase.hung, close_phase.closing]
      · subst hcnt
        simp [close_counts, List.count_append, List.count_cons, genmsg_effect.is_fault]
  | preclosed h =>
    obtain ⟨hnd, ⟨c, hl, hcl, hh, href, hnr, hnw, hcc⟩, hcnt⟩ := hp
    have hid := chan_lookup_id hl
    cases h with
    | true =>
      rw [hangup_again B s req cc env c hl (by omega) (by simpa [close_phase.hung] using hh)
        hreq hconn hsl hcc hnr]
      refine ⟨_, rfl, table_nodup_log hnd, ⟨c, hl, hcl, ?_⟩, ?_⟩
      · simp_all [close_phase.next, close_phase.hung]
      · subst hcnt
        simp [close_counts, List.count_append, List.count_cons, genmsg_effect.is_fault]
    | false =>
      rw [hangup_preclose B s req cc env c hl (by omega) (by simpa [close_phase.hung] using hh)
        hreq hconn hsl hcc hnr (by simpa [close_phase.closing] using hcl)]
      refine ⟨_, rfl, table_nodup_store hnd rfl,
        ⟨_, chan_lookup_store (by simpa using hid) (by simp [hl]), ?_⟩, ?_⟩
      · simp_all [close_phase.next, close_phase.hung, close_phase.closing]
      · subst hcnt
        simp [close_counts, List.count_append, List.count_cons, genmsg_effect.is_fault]
  | notified h =>
    obtain ⟨hnd, ⟨c, hl, hcl, hh, href, hnr, hnw, hcc⟩, hcnt⟩ := hp
    have hid := chan_lookup_id hl
    cases h with
    | true =>
      rw [hangup_again B s req cc env c hl (by omega) (by simpa [close_phase.hung] using hh)
        hreq hconn hsl hcc hnr]
      refine ⟨_, rfl, table_nodup_log hnd, ⟨c, hl, hcl, ?_⟩, ?_⟩
      · simp_all [close_phase.next, close_phase.hung]
      · subst hcnt
        simp [close_counts, List.count_append, List.count_cons, genmsg_effect.is_fault]
    | false =>
      rw [hangup_preclose B s req cc env c hl (by omega) (by simpa [close_phase.hung] using hh)
        hreq hconn hsl hcc hnr (by simpa [close_phase.closing] using hcl)]
      refine ⟨_, rfl, table_nodup_store hnd rfl,
        ⟨_, chan_lookup_store (by simpa using hid) (by simp [hl]), ?_⟩, ?_⟩
      · simp_all [close_phase.next, close_phase.hung, close_phase.closing]
      · subst hcnt
        simp [close_counts, List.count_append, List.count_cons, genmsg_effect.is_fault]
theorem close_run_sim (B channel : Nat) (cc : sphcs_cmd_chan) (base : Nat × Nat × Nat × Nat)
    (t : List close_event) :
    ∀ (ph : close_phase) (s : genmsg_state), phase_holds channel cc base ph s →
      t.filterMap close_event.local_step = ph.remaining →
      t.all (close_event.addressed channel) = true →
      ∃ s', close_run B channel cc s t = some s' ∧
        ∃ ph', phase_holds channel cc base ph' s' ∧
          ((ph.hung = true ∨ t.any close_event.is_hangup = true) → ph' = .destroyed) := by
  induction t with
  | nil =>
    intro ph s hp hrem _
    refine ⟨s, rfl, ph, hp, ?_⟩
    cases ph <;> simp_all [close_phase.remaining, close_phase.hung]
  | cons e t ih =>
    intro ph s hp hrem hall
    simp only [List.all_cons, Bool.and_eq_true] at hall
    obtain ⟨he, hall⟩ := hall
    cases e with
    | release_preclose =>
      cases ph <;> simp [close_event.local_step, close_phase.remaining] at hrem
      rename_i h
      obtain ⟨s', hrun, ph', hph', hd⟩ :=
        ih (.preclosed h) _ (phase_preclose channel cc base h s hp)
          (by simpa [close_phase.remaining] using hrem) hall
      exact ⟨s', by simpa [close_run, close_step] using hrun, ph', hph',
        by simpa [close_phase.hung, close_event.is_hangup] using hd⟩
    | release_notify i =>
      cases ph <;> simp [close_event.local_step, close_phase.remaining] at hrem
      rename_i h
      obtain ⟨s1, hs1, hp1⟩ := phase_notify channel cc base h i s hp
      obtain ⟨s', hrun, ph', hph', hd⟩ :=
        ih (.notified h) s1 hp1 (by simpa [close_phase.remaining] using hrem) hall
      exact ⟨s', by simpa [close_run, close_step, hs1] using hrun, ph', hph',
        by simpa [close_phase.hung, close_event.is_hangup] using hd⟩
    | release_finish =>
      cases ph <;> simp [close_event.local_step, close_phase.remaining] at hrem
      rename_i h
      have hp1 := phase_finish channel cc base h s hp
      obtain ⟨s', hrun, ph', hph', hd⟩ :=
        ih _ _ hp1 (by cases h <;> simpa [close_phase.remaining] using hrem) hall
      refine ⟨s', by simpa [close_run, close_step] using hrun, ph', hph', ?_⟩
      intro hh
      apply hd
      cases h <;> simp_all [close_phase.hung, close_event.is_hangup]
    | hangup req env =>
      simp only [close_event.addressed, Bool.and_eq_true, Bool.not_eq_true', decide_eq_true_eq]
        at he
      obtain ⟨⟨⟨hreq, hconn⟩, hsl⟩, hch⟩ := he
      obtain ⟨r, hr, hp1⟩ := phase_hangup B channel cc base ph s req env hp hreq hconn hsl hch
      obtain ⟨s', hrun, ph', hph', hd⟩ :=
        ih _ _ hp1 (by
          cases ph <;> simpa [close_phase.remaining, close_phase.next, close_event.local_step]
            using hrem) hall
      refine ⟨s', by simpa [close_run, close_step, hr] using hrun, ph', hph', ?_⟩
      intro _
      apply hd
      left
      cases ph <;> simp [close_phase.next, close_phase.hung]

/-- Claim C1. A local close of an open channel (its two sections under
`read_lock`, with the wait-and-notify part between them as a step of its own)
interleaved in any order with one or more hangup packets for the channel: the
run never gets stuck, the transition into `_chnl_close_done` is taken exactly
once, the owning reference is released exactly once, the channel is freed
exactly once and is gone from the table, and no reference-count fault, failed
assertion or access to a freed channel is recorded. -/
theorem close_hangup_exactly_once (B : Nat) (s : genmsg_state) (channel : Nat)
    (c : channel_data) (t : List close_event)
    (hnd : table_nodup s)
    (hl : chan_lookup s.channel_hash channel = some c)
    (hopen : c.closing = _chnl_open) (hh : c.hanging_up = false) (href : c.ref = 1)
    (hnr : c.n_read_dma_req = 0) (hnw : c.n_write_dma_req = 0)
    (ht : close_interleaving channel t) :
    ∃ s', close_run B channel c.cmd_chan s t = some s' ∧
      s'.log.count (.set_close_done channel) = s.log.count (.set_close_done channel) + 1 ∧
      s'.log.count (.owner_put channel) = s.log.count (.owner_put channel) + 1 ∧
      s'.log.count (.kfree_channel channel) = s.log.count (.kfree_channel channel) + 1 ∧
      s'.log.countP genmsg_effect.is_fault = s.log.countP genmsg_effect.is_fault ∧
      chan_lookup s'.channel_hash channel = none := by
  obtain ⟨hloc, hall, hany⟩ := ht
  have hp : phase_holds channel c.cmd_chan (close_counts channel s.log) (.opened false) s :=
    ⟨hnd, ⟨c, hl, hopen, hh, href, hnr, hnw, rfl⟩, rfl⟩
  obtain ⟨s', hrun, ph', hph', hd⟩ :=
    close_run_sim B channel c.cmd_chan _ t _ s hp (by simpa [close_phase.remaining] using hloc) hall
  have hdes := hd (Or.inr hany)
  subst hdes
  obtain ⟨_, hnone, hcnt⟩ := hph'
  simp only [close_counts, Prod.mk.injEq] at hcnt
  exact ⟨s', hrun, hcnt.1, hcnt.2.1, hcnt.2.2.1, hcnt.2.2.2, hnone⟩
theorem chan_ref_of_lookup {s : genmsg_state} {id : Nat} {c : channel_data}
    (hl : chan_lookup s.channel_hash id = some c) : chan_ref s id = c.ref := by
  simp [chan_ref, hl]

/-- Claim C3. At the final locked section of `sphcs_genmsg_chan_release`, in
whatever state the channel is by then: when `hanging_up` is set, the channel
goes to `_chnl_close_done` and the owning reference is released (the count
drops by one, and the channel is freed when that was the last reference);
when it is clear, the channel goes to `_chnl_close_ready`, nothing is logged,
no reference is released and the channel stays in the table, and the hangup
packet that arrives next on its hardware channel takes it to
`_chnl_close_done` and frees it. -/
theorem release_final_check (B : Nat) (s : genmsg_state) (channel : Nat) (c : channel_data)
    (hnd : table_nodup s)
    (hl : chan_lookup s.channel_hash channel = some c) (href : 1 ≤ c.ref) :
    (c.hanging_up = true →
      (sphcs_genmsg_chan_release_finish s channel).log
        = s.log ++ [.set_close_done channel, .owner_put channel] ++
            (if c.ref = 1 then [.destroy_cb_clear c.cmd_chan, .cmd_chan_put c.cmd_chan,
                                .kfree_channel channel] else []) ∧
      chan_lookup (sphcs_genmsg_chan_release_finish s channel).channel_hash channel
        = (if c.ref = 1 then none
           else some { c with closing := _chnl_close_done, ref := c.ref - 1 }) ∧
      chan_ref (sphcs_genmsg_chan_release_finish s channel) channel + 1 = chan_ref s channel) ∧
    (c.hanging_up = false →
      (sphcs_genmsg_chan_release_finish s channel).log = s.log ∧
      chan_lookup (sphcs_genmsg_chan_release_finish s channel).channel_hash channel
        = some { c with closing := _chnl_close_ready } ∧
      chan_ref (sphcs_genmsg_chan_release_finish s channel) channel = chan_ref s channel ∧
      ∀ (req : h2c_GenericMessaging) (env : cmd_env),
        req.hangup = true → req.connect = false → req.service_list_req = false →
        req.card_client_id = channel → c.n_read_dma_req = 0 → c.ref = 1 →
        ∃ s', process_genmsg_command B (sphcs_genmsg_chan_release_finish s channel)
                req c.cmd_chan env = some (0, s') ∧
          chan_lookup s'.channel_hash channel = none ∧
          s'.log = s.log ++ [.cmd_chan_put c.cmd_chan, .destroy_cb_clear c.cmd_chan,
            .set_close_done channel, .owner_put channel,
            .destroy_cb_clear c.cmd_chan, .cmd_chan_put c.cmd_chan,
            .kfree_channel channel]) := by
  have hid := chan_lookup_id hl
  constructor
  · intro hh
    by_cases h1 : c.ref = 1
    · rw [release_finish_last s channel c hl hh h1]
      refine ⟨by simp [h1], ?_, ?_⟩
      · simpa [h1] using chan_lookup_hash_del_self hnd
      · have hnone : chan_lookup (hash_del s.channel_hash channel) channel = none :=
          chan_lookup_hash_del_self hnd
        simp [chan_ref, hl, h1, hnone]
    · rw [release_finish_held s channel c hl hh (by omega)]
      refine ⟨by simp [h1], ?_, ?_⟩
      · simpa [h1] using chan_lookup_store (by simpa using hid) (by simp [hl])
      · have hst : chan_lookup (chan_store s.channel_hash
            { c with closing := _chnl_close_done, ref := c.ref - 1 }) channel = some _ :=
          chan_lookup_store (by simpa using hid) (by simp [hl])
        simp only [chan_ref, hst, hl]
        show c.ref - 1 + 1 = c.ref
        omega
  · intro hh
    rw [release_finish_clear s channel c hl hh]
    have hst : chan_lookup (chan_store s.channel_hash { c with closing := _chnl_close_ready })
        channel = some _ := chan_lookup_store (by simpa using hid) (by simp [hl])
    refine ⟨rfl, hst, by simp [chan_ref, hst, hl], ?_⟩
    intro req env hreq hconn hsl hch hnr h1
    subst hch
    have := hangup_ready_last B (set_channel s { c with closing := _chnl_close_ready }) req
      c.cmd_chan env { c with closing := _chnl_close_ready } hst h1 hh hreq hconn hsl rfl hnr rfl
    rw [this]
    refine ⟨_, rfl, ?_, rfl⟩
    simp only [set_channel_hash]
    rw [hash_del_store _ _ _ (by simpa using hid)]
    exact chan_lookup_hash_del_self hnd

/-- Claim C4. The first hangup packet of a live channel, arriving on the
channel's own hardware channel with no inbound DMA in flight, sets
`hanging_up`. An open channel stays open (and gets the marker at the tail of
its queue when the marker could be allocated); a channel in `_chnl_preclose`
changes in nothing else; a channel in `_chnl_close_ready` goes to
`_chnl_close_done` and loses the owning reference, which frees it when no
other reference is held. The reference count ends one lower in the
`_chnl_close_ready` case and unchanged in the other two. -/
theorem hangup_first_packet (B : Nat) (s : genmsg_state) (req : h2c_GenericMessaging)
    (cmd_chan : sphcs_cmd_chan) (env : cmd_env) (c : channel_data)
    (hnd : table_nodup s)
    (hl : chan_lookup s.channel_hash req.card_client_id = some c) (href : 1 ≤ c.ref)
    (hh : c.hanging_up = false) (hreq : req.hangup = true) (hconn : req.connect = false)
    (hsl : req.service_list_req = false) (hcc : c.cmd_chan = cmd_chan)
    (hn : c.n_read_dma_req = 0) :
    ∃ r, process_genmsg_command B s req cmd_chan env = some r ∧
      (c.closing = _chnl_open →
        chan_lookup r.2.channel_hash req.card_client_id
          = some { c with hanging_up := true,
                          pending_read_packets := c.pending_read_packets ++
                            (if env.pend_alloc then [queued_hangup_marker req cmd_chan]
                             else []) } ∧
        chan_ref r.2 req.card_client_id = chan_ref s req.card_client_id) ∧
      (c.closing = _chnl_preclose →
        chan_lookup r.2.channel_hash req.card_client_id = some { c with hanging_up := true } ∧
        chan_ref r.2 req.card_client_id = chan_ref s req.card_client_id) ∧
      (c.closing = _chnl_close_ready →
        chan_lookup r.2.channel_hash req.card_client_id
          = (if c.ref = 1 then none
             else some { c with hanging_up := true, closing := _chnl_close_done,
                                ref := c.ref - 1 }) ∧
        r.2.log = s.log ++ [.cmd_chan_put cmd_chan, .destroy_cb_clear cmd_chan,
            .set_close_done req.card_client_id, .owner_put req.card_client_id] ++
            (if c.ref = 1 then [.destroy_cb_clear cmd_chan, .cmd_chan_put cmd_chan,
                                .kfree_channel req.card_client_id] else []) ∧
        chan_ref r.2 req.card_client_id + 1 = chan_ref s req.card_client_id) := by
  have hid := chan_lookup_id hl
  have hcases : c.closing = _chnl_open ∨ c.closing = _chnl_preclose ∨
      c.closing = _chnl_close_ready ∨ c.closing = _chnl_close_done := by
    cases c.closing <;> simp
  rcases hcases with hcl | hcl | hcl | hcl
  · rw [hangup_open B s req cmd_chan env c hl href hh hreq hconn hsl hcc hn hcl]
    refine ⟨_, rfl, ?_, by simp [hcl], by simp [hcl]⟩
    intro _
    have hst := @chan_lookup_store s.channel_hash req.card_client_id
      { c with hanging_up := true,
               pending_read_packets := c.pending_read_packets ++
                 (if env.pend_alloc then [queued_hangup_marker req cmd_chan] else []) }
      (by simpa using hid) (by simp [hl])
    exact ⟨hst, by simp [chan_ref, hst, hl]⟩
  · rw [hangup_preclose B s req cmd_chan env c hl href hh hreq hconn hsl hcc hn hcl]
    refine ⟨_, rfl, by simp [hcl], ?_, by simp [hcl]⟩
    intro _
    have hst := @chan_lookup_store s.channel_hash req.card_client_id
      { c with hanging_up := true } (by simpa using hid) (by simp [hl])
    exact ⟨hst, by simp [chan_ref, hst, hl]⟩
  · by_cases h1 : c.ref = 1
    · rw [hangup_ready_last B s req cmd_chan env c hl h1 hh hreq hconn hsl hcc hn hcl]
      refine ⟨_, rfl, by simp [hcl], by simp [hcl], ?_⟩
      intro _
      have hnone : chan_lookup (hash_del s.channel_hash req.card_client_id)
          req.card_client_id = none := chan_lookup_hash_del_self hnd
      exact ⟨by simpa [h1] using hnone, by simp [h1], by simp [chan_ref, hnone, hl, h1]⟩
    · rw [hangup_ready_held B s req cmd_chan env c hl (by omega) hh hreq hconn hsl hcc hn hcl]
      refine ⟨_, rfl, by simp [hcl], by simp [hcl], ?_⟩
      intro _
      have hst := @chan_lookup_store s.channel_hash req.card_client_id
        { c with hanging_up := true, closing := _chnl_close_done, ref := c.ref - 1 }
        (by simpa using hid) (by simp [hl])
      refine ⟨by simpa [h1] using hst, by simp [h1], ?_⟩
      simp only [chan_ref, hst, hl]
      show c.ref - 1 + 1 = c.ref
      omega
  · have h0 : c.ref ≠ 0 := by omega
    obtain ⟨r, hr⟩ : ∃ r, process_genmsg_command B s req cmd_chan env = some r := by
      simp [process_genmsg_command, hreq, hconn, hsl, find_channel, hl, h0, hcc, hn, wait_done]
    exact ⟨r, hr, by simp [hcl], by simp [hcl], by simp [hcl]⟩
/-- Claim C6. A hangup packet for a channel whose `hanging_up` flag is
already set, once its handling is past the wait for the inbound DMA counter,
leaves the whole channel table as it was: the channel keeps its closing
state, queue, current packet, `hanging_up`, `io_error` and reference count,
no marker is queued, and the only effect is the release of the reference of
the hardware channel the packet came with. This holds whether or not the
packet came on the channel's own hardware channel and whatever the count. -/
theorem hangup_repeated (B : Nat) (s : genmsg_state) (req : h2c_GenericMessaging)
    (cmd_chan : sphcs_cmd_chan) (env : cmd_env) (c : channel_data)
    (hl : chan_lookup s.channel_hash req.card_client_id = some c)
    (hh : c.hanging_up = true) (hreq : req.hangup = true) (hconn : req.connect = false)
    (hsl : req.service_list_req = false)
    (hw : c.n_read_dma_req = 0 ∨ env.wait_interrupted = true) :
    ∃ r, process_genmsg_command B s req cmd_chan env = some r ∧
      r.2.channel_hash = s.channel_hash ∧
      r.2.channel_ida = s.channel_ida ∧
      chan_lookup r.2.channel_hash req.card_client_id = some c ∧
      r.2.log = s.log ++ [.cmd_chan_put cmd_chan] := by
  have hid := chan_lookup_id hl
  have hsame : chan_store s.channel_hash c = s.channel_hash := chan_store_same hl
  by_cases h0 : c.ref = 0
  · refine ⟨(0, { s with log := s.log ++ [.cmd_chan_put cmd_chan] }), ?_, rfl, rfl, hl, rfl⟩
    simp [process_genmsg_command, hreq, hconn, hsl, find_channel, hl, h0, emit]
  · by_cases hcc : c.cmd_chan = cmd_chan
    · have hwv : ∃ r, wait_event_interruptible (decide (c.n_read_dma_req = 0))
          env.wait_interrupted = some r := by
        unfold wait_event_interruptible
        rcases hw with hw | hw
        · simp [hw]
        · simp only [hw]; split <;> simp
      obtain ⟨rv, hrv⟩ := hwv
      refine ⟨(0, { s with log := s.log ++ [.cmd_chan_put cmd_chan] }), ?_, rfl, rfl, hl, rfl⟩
      simp [process_genmsg_command, hreq, hconn, hsl, find_channel, hl, h0, hcc, hrv,
        genmsg_hangup_rest, chan_lookup_store, hid, hh, channel_put, emit, set_channel,
        chan_store_store]
      rw [← hcc, ← hid, ← hh]
      exact hsame
    · refine ⟨(0, { s with log := s.log ++ [.cmd_chan_put cmd_chan] }), ?_, rfl, rfl, hl, rfl⟩
      simp [process_genmsg_command, hreq, hconn, hsl, find_channel, hl, h0, hcc,
        chan_lookup_store, hid, channel_put, emit, set_channel, chan_store_store]
      rw [← hid]
      exact hsame
/-! ## One read -/

theorem u32_small (a b : Nat) (hb : b ≤ a) (ha : a < U32_MOD) :
    (a + U32_MOD - b) % U32_MOD = a - b := by
  have : a + U32_MOD - b = (a - b) + U32_MOD := by omega
  rw [this, Nat.add_mod_right]
  exact Nat.mod_eq_of_lt (by omega)

/-- The body of a read on a data packet `pkt` at offset `off`, the copy to the
caller succeeding: `min size (bytes left in the packet)` bytes are returned. -/
theorem chan_read_current_data (s : genmsg_state) (c : channel_data) (pkt : pending_packet)
    (size : Nat) (hcur : c.current_read_packet = some pkt) (hp : data_packet pkt) (hoff : c.current_read_size < pkt.dma_data.msg.size + 1)
    (hsize : 1 ≤ size) :
    chan_read_current s c pkt size 0
      = (⟨(min size (pkt.dma_data.msg.size + 1 - c.current_read_size) : Nat),
          ((packet_payload pkt).drop c.current_read_size).take
            (min size (pkt.dma_data.msg.size + 1 - c.current_read_size))⟩,
         { s with
           channel_hash := chan_store s.channel_hash
             (chan_after_read c pkt c.current_read_size
               (min size (pkt.dma_data.msg.size + 1 - c.current_read_size))
               c.pending_read_packets),
           log := s.log ++ pages_after_read pkt c.current_read_size
               (min size (pkt.dma_data.msg.size + 1 - c.current_read_size)) }) := by
  obtain ⟨hv, hsz, hlen⟩ := hp
  cases hpage : pkt.dma_data.vptr with
  | none => simp [hpage] at hv
  | some page =>
    have hU : (2:Nat) ^ 12 < U32_MOD := by norm_num [U32_MOD]
    have hrs : (pkt.dma_data.msg.size + 1 + U32_MOD - c.current_read_size) % U32_MOD
        = pkt.dma_data.msg.size + 1 - c.current_read_size :=
      u32_small _ _ (by omega) (by omega)
    have hne : pkt.dma_data.msg.size + 1 - c.current_read_size ≠ 0 := by omega
    have hmin : (if size < pkt.dma_data.msg.size + 1 - c.current_read_size then size
        else pkt.dma_data.msg.size + 1 - c.current_read_size)
        = min size (pkt.dma_data.msg.size + 1 - c.current_read_size) := by
      split <;> omega
    have hn1 : 1 ≤ min size (pkt.dma_data.msg.size + 1 - c.current_read_size) := by omega
    have hmod : (c.current_read_size + min size (pkt.dma_data.msg.size + 1 - c.current_read_size))
        % U32_MOD
        = c.current_read_size + min size (pkt.dma_data.msg.size + 1 - c.current_read_size) :=
      Nat.mod_eq_of_lt (by omega)
    have hdata : (page.drop c.current_read_size).take
          (min size (pkt.dma_data.msg.size + 1 - c.current_read_size))
        = ((packet_payload pkt).drop c.current_read_size).take
          (min size (pkt.dma_data.msg.size + 1 - c.current_read_size)) := by
      simp only [packet_payload, hpage, Option.getD_some, List.drop_take, List.take_take]
      congr 1
      omega
    simp only [chan_read_current, hpage, hrs, hne, if_false, hmin, Nat.min_zero, Nat.zero_min,
      Nat.sub_zero, hmod, hdata]
    by_cases hfin : c.current_read_size + min size (pkt.dma_data.msg.size + 1 - c.current_read_size)
        ≥ pkt.dma_data.msg.size + 1
    · have hn0 : min size (pkt.dma_data.msg.size + 1 - c.current_read_size) ≠ 0 := by omega
      simp [hfin, hn0, chan_after_read, pages_after_read, emit, set_channel, hcur]
    · have hn0 : min size (pkt.dma_data.msg.size + 1 - c.current_read_size) ≠ 0 := by omega
      simp [hfin, hn0, chan_after_read, pages_after_read, emit, set_channel, hcur]

/-- A read that finds a current data packet. -/
theorem read_from_current (s : genmsg_state) (f : file) (c : channel_data)
    (pkt : pending_packet) (size : Nat) (i : Bool)
    (hf : is_channel_file f = true) (hl : chan_lookup s.channel_hash f.channel = some c)
    (hio : c.io_error = false) (hcur : c.current_read_packet = some pkt)
    (hp : data_packet pkt) (hoff : c.current_read_size < pkt.dma_data.msg.size + 1)
    (hsize : 1 ≤ size) :
    sphcs_genmsg_chan_read s f size i 0
      = some (⟨(min size (pkt.dma_data.msg.size + 1 - c.current_read_size) : Nat),
          ((packet_payload pkt).drop c.current_read_size).take
            (min size (pkt.dma_data.msg.size + 1 - c.current_read_size))⟩,
         { s with
           channel_hash := chan_store s.channel_hash
             (chan_after_read c pkt c.current_read_size
               (min size (pkt.dma_data.msg.size + 1 - c.current_read_size))
               c.pending_read_packets),
           log := s.log ++ pages_after_read pkt c.current_read_size
               (min size (pkt.dma_data.msg.size + 1 - c.current_read_size)) }) := by
  simp only [sphcs_genmsg_chan_read, hf, hl, hio, hcur,
    chan_read_current_data s c pkt size hcur hp hoff hsize]
  simp

/-- A read that finds no current packet and a data packet at the head of the
queue. -/
theorem read_from_queue (s : genmsg_state) (f : file) (c : channel_data)
    (pkt : pending_packet) (rest : List pending_packet) (size : Nat) (i : Bool)
    (hf : is_channel_file f = true) (hl : chan_lookup s.channel_hash f.channel = some c)
    (hio : c.io_error = false) (hcur : c.current_read_packet = none)
    (hq : c.pending_read_packets = pkt :: rest)
    (hp : data_packet pkt) (hsize : 1 ≤ size) :
    sphcs_genmsg_chan_read s f size i 0
      = some (⟨(min size (pkt.dma_data.msg.size + 1) : Nat),
          (packet_payload pkt).take (min size (pkt.dma_data.msg.size + 1))⟩,
         { s with
           channel_hash := chan_store s.channel_hash
             (chan_after_read c pkt 0 (min size (pkt.dma_data.msg.size + 1)) rest),
           log := s.log ++ pages_after_read pkt 0 (min size (pkt.dma_data.msg.size + 1)) }) := by
  have h := chan_read_current_data s
    { c with current_read_packet := some pkt, pending_read_packets := rest,
             current_read_size := 0 } pkt size rfl hp (by simp) hsize
  simp only [sphcs_genmsg_chan_read, hf, hl, hio, hcur, hq, wait_event_interruptible]
  simp only [List.isEmpty_cons, Bool.not_false, if_true, Bool.not_true, Bool.false_eq_true,
    if_false, lt_self_iff_false]
  simp only [hio] at h
  rw [h]
  simp [chan_after_read, hio]

/-- A read that finds no current packet and the hangup marker at the head of
the queue: it returns 0, frees the marker and returns no page. -/
theorem read_marker (s : genmsg_state) (f : file) (c : channel_data)
    (pkt : pending_packet) (rest : List pending_packet) (size : Nat) (i : Bool) (nc : Nat)
    (hf : is_channel_file f = true) (hl : chan_lookup s.channel_hash f.channel = some c)
    (hio : c.io_error = false) (hcur : c.current_read_packet = none)
    (hq : c.pending_read_packets = pkt :: rest)
    (hv : pkt.dma_data.vptr = none) (hm : pkt.is_hangup_command = true) :
    sphcs_genmsg_chan_read s f size i nc
      = some (⟨0, []⟩,
         { s with
           channel_hash := chan_store s.channel_hash
             { c with pending_read_packets := rest, current_read_packet := none,
                      current_read_size := 0 } }) := by
  simp [sphcs_genmsg_chan_read, hf, hl, hio, hcur, hq, wait_event_interruptible,
    chan_read_current, hv, hm, set_channel]

/-- A read that finds neither a current packet nor a queued one sleeps. -/
theorem read_sleeps (s : genmsg_state) (f : file) (c : channel_data) (size nc : Nat)
    (hf : is_channel_file f = true) (hl : chan_lookup s.channel_hash f.channel = some c)
    (hio : c.io_error = false) (hcur : c.current_read_packet = none)
    (hq : c.pending_read_packets = []) :
    sphcs_genmsg_chan_read s f size false nc = none := by
  simp [sphcs_genmsg_chan_read, hf, hl, hio, hcur, hq, wait_event_interruptible]
theorem data_packet_payload_length {p : pending_packet} (hp : data_packet p) :
    (packet_payload p).length = p.dma_data.msg.size + 1 := by
  obtain ⟨_, _, hlen⟩ := hp
  simp [packet_payload, hlen]

/-- The channel after a read took `n` bytes of the data packet `pkt` at
offset `off`, with the data packets `rest` behind it: it is ready again, and
its unread bytes are the former ones without the first `n`. -/
theorem after_read_ready (s : genmsg_state) (f : file) (c : channel_data)
    (pkt : pending_packet) (off n : Nat) (rest tail : List pending_packet)
    (log : List genmsg_effect)
    (hf : is_channel_file f = true) (hl : chan_lookup s.channel_hash f.channel = some c)
    (hio : c.io_error = false) (hp : data_packet pkt)
    (hoff : off < pkt.dma_data.msg.size + 1)
    (hn : n ≤ pkt.dma_data.msg.size + 1 - off)
    (hdata : ∀ p ∈ rest, data_packet p) :
    read_ready { s with channel_hash := chan_store s.channel_hash
                          (chan_after_read c pkt off n (rest ++ tail)),
                        log := log } f
      (chan_after_read c pkt off n (rest ++ tail)) rest tail ∧
    unread (chan_after_read c pkt off n (rest ++ tail)) rest
      = ((packet_payload pkt).drop off ++ (rest.map packet_payload).flatten).drop n ∧
    (if n = pkt.dma_data.msg.size + 1 - off
      then (chan_after_read c pkt off n (rest ++ tail)).current_read_packet = none
      else (chan_after_read c pkt off n (rest ++ tail)).current_read_packet = some pkt) ∧
    (chan_after_read c pkt off n (rest ++ tail)).channel_id = c.channel_id := by
  have hid := chan_lookup_id hl
  have hlen := data_packet_payload_length hp
  have hdl : ((packet_payload pkt).drop off).length = pkt.dma_data.msg.size + 1 - off := by
    simp [hlen]
  by_cases hfin : off + n ≥ pkt.dma_data.msg.size + 1
  · have hneq : n = pkt.dma_data.msg.size + 1 - off := by omega
    have hca : chan_after_read c pkt off n (rest ++ tail)
        = { c with pending_read_packets := rest ++ tail, current_read_packet := none,
                   current_read_size := 0 } := by
      simp [chan_after_read, hfin]
    rw [hca]
    refine ⟨⟨hf, chan_lookup_store (by simpa using hid) (by simp [hl]), by simpa using hio,
      rfl, hdata, by simp⟩, ?_, by simp [hneq], rfl⟩
    simp only [unread, List.nil_append]
    rw [List.drop_append_of_le_length (by rw [hdl]; omega)]
    rw [List.drop_drop, List.drop_of_length_le (by rw [hlen]; omega)]
    simp
  · have hneq : n ≠ pkt.dma_data.msg.size + 1 - off := by omega
    have hca : chan_after_read c pkt off n (rest ++ tail)
        = { c with pending_read_packets := rest ++ tail, current_read_packet := some pkt,
                   current_read_size := off + n } := by
      simp only [chan_after_read, hfin, if_false]
    rw [hca]
    refine ⟨⟨hf, chan_lookup_store (by simpa using hid) (by simp [hl]), by simpa using hio,
      rfl, hdata, ?_⟩, ?_, by simp [hneq], rfl⟩
    · intro p hp'
      simp only [Option.some.injEq] at hp'
      subst hp'
      exact ⟨hp, by simp; omega⟩
    · simp only [unread]
      rw [List.drop_append_of_le_length (by rw [hdl]; omega)]
      simp [List.drop_drop, Nat.add_comm]

/-- One read with a non-empty buffer on a ready channel that has a packet to
read from, the copy to the caller succeeding. -/
theorem read_one (s : genmsg_state) (f : file) (c : channel_data)
    (queue tail : List pending_packet) (size : Nat) (i : Bool)
    (hr : read_ready s f c queue tail) (hsize : 1 ≤ size)
    (hav : packet_remaining c queue ≠ 0) :
    ∃ s' c' queue' pkt,
      next_packet c queue = some pkt ∧
      sphcs_genmsg_chan_read s f size i 0
        = some (⟨(min size (packet_remaining c queue) : Nat),
                 (unread c queue).take (min size (packet_remaining c queue))⟩, s') ∧
      read_ready s' f c' queue' tail ∧
      unread c' queue' = (unread c queue).drop (min size (packet_remaining c queue)) ∧
      min size (packet_remaining c queue) ≤ (unread c queue).length ∧
      s'.log = s.log ++
        (if size ≥ packet_remaining c queue then [.page_free pkt.dma_data.dma_page_hndl]
         else []) ∧
      (if size ≥ packet_remaining c queue then c'.current_read_packet = none
       else c'.current_read_packet = some pkt) ∧
      c.current_read_packet.toList ++ queue = pkt :: queue' := by
  obtain ⟨hf, hl, hio, hq, hdata, hcur⟩ := hr
  cases hc : c.current_read_packet with
  | some pkt =>
    obtain ⟨hp, hoff⟩ := hcur pkt hc
    have hlen := data_packet_payload_length hp
    have hrem : packet_remaining c queue = pkt.dma_data.msg.size + 1 - c.current_read_size := by
      simp [packet_remaining, hc]
    have hun : unread c queue = (packet_payload pkt).drop c.current_read_size
        ++ (queue.map packet_payload).flatten := by simp [unread, hc]
    have hdl : ((packet_payload pkt).drop c.current_read_size).length
        = pkt.dma_data.msg.size + 1 - c.current_read_size := by simp [hlen]
    rw [hrem, hun]
    have hnle : min size (pkt.dma_data.msg.size + 1 - c.current_read_size)
        ≤ pkt.dma_data.msg.size + 1 - c.current_read_size := Nat.min_le_right _ _
    obtain ⟨h1, h2, h3, _⟩ := after_read_ready s f c pkt c.current_read_size
      (min size (pkt.dma_data.msg.size + 1 - c.current_read_size)) queue tail
      (s.log ++ pages_after_read pkt c.current_read_size
        (min size (pkt.dma_data.msg.size + 1 - c.current_read_size)))
      hf hl hio hp hoff hnle hdata
    refine ⟨_, _, queue, pkt, by simp [next_packet, hc], ?_, h1, h2, ?_, ?_, ?_, by simp⟩
    · rw [read_from_current s f c pkt size i hf hl hio hc hp hoff hsize, hq]
      rw [List.take_append_of_le_length (by rw [hdl]; exact hnle)]
    · simp only [List.length_append, hdl]; omega
    · simp only [pages_after_read]
      congr 1
      by_cases hge : size ≥ pkt.dma_data.msg.size + 1 - c.current_read_size
      · rw [if_pos hge, if_pos (by omega)]
      · rw [if_neg hge, if_neg (by omega)]
    · by_cases hge : size ≥ pkt.dma_data.msg.size + 1 - c.current_read_size
      · rw [if_pos hge]; rw [if_pos (by omega)] at h3; exact h3
      · rw [if_neg hge]; rw [if_neg (by omega)] at h3; exact h3
  | none =>
    cases hqq : queue with
    | nil => simp [packet_remaining, hc, hqq] at hav
    | cons pkt rest =>
      have hp : data_packet pkt := hdata pkt (by simp [hqq])
      have hrest : ∀ p ∈ rest, data_packet p := fun p hp' => hdata p (by simp [hqq, hp'])
      have hlen := data_packet_payload_length hp
      have hrem : packet_remaining c (pkt :: rest) = pkt.dma_data.msg.size + 1 - 0 := by
        simp [packet_remaining, hc]
      have hun : unread c (pkt :: rest) = (packet_payload pkt).drop 0
          ++ (rest.map packet_payload).flatten := by simp [unread, hc]
      rw [hrem, hun]
      have hnle : min size (pkt.dma_data.msg.size + 1 - 0) ≤ pkt.dma_data.msg.size + 1 - 0 :=
        Nat.min_le_right _ _
      obtain ⟨h1, h2, h3, _⟩ := after_read_ready s f c pkt 0
        (min size (pkt.dma_data.msg.size + 1 - 0)) rest tail
        (s.log ++ pages_after_read pkt 0 (min size (pkt.dma_data.msg.size + 1 - 0)))
        hf hl hio hp (by omega) hnle hrest
      refine ⟨_, _, rest, pkt, by simp [next_packet, hc], ?_, h1, h2, ?_, ?_, ?_, by simp⟩
      · rw [read_from_queue s f c pkt (rest ++ tail) size i hf hl hio hc
          (by rw [hq, hqq]; rfl) hp hsize]
        rw [List.take_append_of_le_length (by simp [hlen])]
        simp
      · simp only [List.length_append, List.drop_zero, hlen]; omega
      · simp only [pages_after_read]
        congr 1
        by_cases hge : size ≥ pkt.dma_data.msg.size + 1 - 0
        · rw [if_pos hge, if_pos (by omega)]
        · rw [if_neg hge, if_neg (by omega)]
      · by_cases hge : size ≥ pkt.dma_data.msg.size + 1 - 0
        · rw [if_pos hge]; rw [if_pos (by omega)] at h3; exact h3
        · rw [if_neg hge]; rw [if_neg (by omega)] at h3; exact h3

theorem read_ready_exhausted {s : genmsg_state} {f : file} {c : channel_data}
    {queue tail : List pending_packet} (hr : read_ready s f c queue tail)
    (h0 : packet_remaining c queue = 0) :
    c.current_read_packet = none ∧ queue = [] := by
  obtain ⟨_, _, _, _, _, hcur⟩ := hr
  cases hc : c.current_read_packet with
  | some p =>
    have := (hcur p hc).2
    simp [packet_remaining, hc] at h0
    omega
  | none =>
    cases queue with
    | nil => exact ⟨rfl, rfl⟩
    | cons p rest => simp [packet_remaining, hc] at h0

/-- Successive reads on a ready channel whose queue holds data packets only:
every read returns at least one byte, as many as its return value says; the
channel is ready again after them, and the bytes returned, put end to end and
followed by the bytes still unread, are the bytes that were unread before. -/
theorem read_seq_stream (f : file) (sizes : List Nat) :
    ∀ (s : genmsg_state) (c : channel_data) (queue : List pending_packet),
      read_ready s f c queue [] → (∀ x ∈ sizes, 1 ≤ x) →
      (∃ c' queue', read_ready (chan_read_seq s f sizes).2 f c' queue' [] ∧
        ((chan_read_seq s f sizes).1.map (fun r => r.data)).flatten ++ unread c' queue'
          = unread c queue) ∧
      ∀ r ∈ (chan_read_seq s f sizes).1, r.ret = (r.data.length : Int) ∧ 0 < r.ret := by
  induction sizes with
  | nil =>
    intro s c queue hr _
    exact ⟨⟨c, queue, hr, by simp [chan_read_seq]⟩, by simp [chan_read_seq]⟩
  | cons size rest ih =>
    intro s c queue hr hs
    have hsize : 1 ≤ size := hs size (by simp)
    have hrest : ∀ x ∈ rest, 1 ≤ x := fun x hx => hs x (by simp [hx])
    by_cases hav : packet_remaining c queue = 0
    · obtain ⟨hcur, hq⟩ := read_ready_exhausted hr hav
      have hr0 := hr
      obtain ⟨hf, hl, hio, hpq, _, _⟩ := hr
      have := read_sleeps s f c size 0 hf hl hio hcur (by simpa [hq] using hpq)
      simp only [chan_read_seq, this]
      exact ⟨⟨c, queue, hr0, by simp⟩, by simp⟩
    · obtain ⟨s', c', queue', pkt, _, hread, hr', hun, hle, _, _, _⟩ :=
        read_one s f c queue [] size false hr hsize hav
      obtain ⟨⟨c'', queue'', hr'', hcat⟩, ihr⟩ := ih s' c' queue' hr' hrest
      have hn1 : 1 ≤ min size (packet_remaining c queue) := by omega
      simp only [chan_read_seq, hread, List.map_cons, List.flatten_cons, List.mem_cons]
      constructor
      · refine ⟨c'', queue'', hr'', ?_⟩
        rw [List.append_assoc, hcat, hun, List.take_append_drop]
      · intro r hrm
        rcases hrm with hrm | hrm
        · subst hrm
          simp only [List.length_take]
          constructor
          · congr 1; omega
          · exact_mod_cast hn1
        · exact ihr r hrm

/-- Successive reads on a ready channel, at least as many as there are unread
bytes: some first `n` of them return every unread byte in order, each at
least one byte; after them the data packets are gone, their pages (and no
others) are back in the pool, and the queue is what stood behind them. -/
theorem read_seq_drain (f : file) (tail : List pending_packet) (sizes : List Nat) :
    ∀ (s : genmsg_state) (c : channel_data) (queue : List pending_packet),
      read_ready s f c queue tail → (∀ x ∈ sizes, 1 ≤ x) →
      (unread c queue).length ≤ sizes.length →
      ∃ n ds s' c',
        n ≤ sizes.length ∧
        chan_read_seq s f (sizes.take n) = (ds, s') ∧ ds.length = n ∧
        (ds.map (fun r => r.data)).flatten = unread c queue ∧
        (∀ r ∈ ds, r.ret = (r.data.length : Int) ∧ 0 < r.ret) ∧
        chan_lookup s'.channel_hash f.channel = some c' ∧
        c'.pending_read_packets = tail ∧ c'.current_read_packet = none ∧
        c'.io_error = false ∧
        s'.log = s.log ++ (c.current_read_packet.toList ++ queue).map
          (fun p => genmsg_effect.page_free p.dma_data.dma_page_hndl) := by
  induction sizes with
  | nil =>
    intro s c queue hr _ hlen
    have hav : packet_remaining c queue = 0 := by
      by_contra hne
      obtain ⟨_, _, _, pkt, _, _, _, _, hle, _⟩ := read_one s f c queue tail 1 false hr le_rfl hne
      simp only [List.length_nil, Nat.le_zero] at hlen
      omega
    obtain ⟨hcur, hq⟩ := read_ready_exhausted hr hav
    obtain ⟨_, hl, hio, hpq, _, _⟩ := hr
    subst hq
    exact ⟨0, [], s, c, le_rfl, rfl, rfl, by simp [unread, hcur], by simp, hl,
      by simpa using hpq, hcur, hio, by simp [hcur]⟩
  | cons size rest ih =>
    intro s c queue hr hs hlen
    have hsize : 1 ≤ size := hs size (by simp)
    have hrest : ∀ x ∈ rest, 1 ≤ x := fun x hx => hs x (by simp [hx])
    by_cases hav : packet_remaining c queue = 0
    · obtain ⟨hcur, hq⟩ := read_ready_exhausted hr hav
      obtain ⟨_, hl, hio, hpq, _, _⟩ := hr
      subst hq
      exact ⟨0, [], s, c, Nat.zero_le _, rfl, rfl, by simp [unread, hcur], by simp, hl,
        by simpa using hpq, hcur, hio, by simp [hcur]⟩
    · obtain ⟨s', c', queue', pkt, _, hread, hr', hun, hle, hlog, hcur', hq'⟩ :=
        read_one s f c queue tail size false hr hsize hav
      have hn1 : 1 ≤ min size (packet_remaining c queue) := by omega
      have hlen' : (unread c' queue').length ≤ rest.length := by
        rw [hun, List.length_drop]
        simp only [List.length_cons] at hlen
        omega
      obtain ⟨n, ds, s'', c'', hn, hseq, hdl, hdata, hrets, hl'', hp'', hc'', hio'', hlog''⟩ :=
        ih s' c' queue' hr' hrest hlen'
      refine ⟨n + 1, ⟨(min size (packet_remaining c queue) : Nat),
          (unread c queue).take (min size (packet_remaining c queue))⟩ :: ds, s'', c'',
        by simpa using hn, ?_, by simp [hdl], ?_, ?_, hl'', hp'', hc'', hio'', ?_⟩
      · simp [chan_read_seq, hread, hseq]
      · simp only [List.map_cons, List.flatten_cons, hdata, hun, List.take_append_drop]
      · intro r hrm
        simp only [List.mem_cons] at hrm
        rcases hrm with hrm | hrm
        · subst hrm
          simp only [List.length_take]
          constructor
          · congr 1; omega
          · exact_mod_cast hn1
        · exact hrets r hrm
      · rw [hlog'', hlog, hq', List.append_assoc]
        congr 1
        by_cases hge : size ≥ packet_remaining c queue
        · rw [if_pos hge] at hcur' ⊢
          simp [hcur']
        · rw [if_neg hge] at hcur' ⊢
          simp [hcur']
theorem close_hangup_exactly_once_witness :
    ∃ s', close_run 4095 1 demo_cmd_chan (demo_state demo_channel)
        [.release_preclose, .hangup demo_hangup demo_env, .release_notify false,
         .hangup demo_hangup demo_env, .release_finish, .hangup demo_hangup demo_env] = some s' ∧
      s'.log.count (.set_close_done 1) = (demo_state demo_channel).log.count (.set_close_done 1) + 1 ∧
      s'.log.count (.owner_put 1) = (demo_state demo_channel).log.count (.owner_put 1) + 1 ∧
      s'.log.count (.kfree_channel 1) = (demo_state demo_channel).log.count (.kfree_channel 1) + 1 ∧
      s'.log.countP genmsg_effect.is_fault
        = (demo_state demo_channel).log.countP genmsg_effect.is_fault ∧
      chan_lookup s'.channel_hash 1 = none :=
  close_hangup_exactly_once 4095 (demo_state demo_channel) 1 demo_channel _
    (by decide) (by decide) (by decide) (by decide) (by decide) (by decide) (by decide)
    (by decide)
theorem release_final_check_witness :
    chan_lookup (sphcs_genmsg_chan_release_finish (demo_state demo_channel) 1).channel_hash 1
        = some { demo_channel with closing := _chnl_close_ready } ∧
      chan_lookup (sphcs_genmsg_chan_release_finish
          (demo_state { demo_channel with hanging_up := true }) 1).channel_hash 1 = none :=
  ⟨((release_final_check 4095 (demo_state demo_channel) 1 demo_channel
      (by decide) (by decide) (by decide)).2 (by decide)).2.1,
   ((release_final_check 4095 (demo_state { demo_channel with hanging_up := true }) 1
      { demo_channel with hanging_up := true }
      (by decide) (by decide) (by decide)).1 (by decide)).2.1⟩

theorem hangup_first_packet_witness :
    ∃ r, process_genmsg_command 4095
        (demo_state { demo_channel with closing := _chnl_close_ready })
        demo_hangup demo_cmd_chan demo_env = some r ∧
      chan_ref r.2 1 + 1
        = chan_ref (demo_state { demo_channel with closing := _chnl_close_ready }) 1 := by
  obtain ⟨r, hr, _, _, h3⟩ := hangup_first_packet 4095
    (demo_state { demo_channel with closing := _chnl_close_ready })
    demo_hangup demo_cmd_chan demo_env { demo_channel with closing := _chnl_close_ready }
    (by decide) (by decide) (by decide) (by decide) (by decide) (by decide) (by decide)
    (by decide) (by decide)
  exact ⟨r, hr, (h3 (by decide)).2.2⟩

theorem hangup_repeated_witness :
    ∃ r, process_genmsg_command 4095
        (demo_state { demo_channel with hanging_up := true })
        demo_hangup demo_cmd_chan demo_env = some r ∧
      r.2.channel_hash = (demo_state { demo_channel with hanging_up := true }).channel_hash := by
  obtain ⟨r, hr, h1, _⟩ := hangup_repeated 4095
    (demo_state { demo_channel with hanging_up := true })
    demo_hangup demo_cmd_chan demo_env { demo_channel with hanging_up := true }
    (by decide) (by decide) (by decide) (by decide) (by decide) (by decide)
  exact ⟨r, hr, h1⟩

/-- Claim C5, as amended. An open channel whose `hanging_up` and `io_error`
flags are clear, with the data packets P1..Pk in its queue and no current
packet, receives a hangup packet on its own hardware channel, no inbound DMA
being in flight and the marker being allocated. Afterwards the queue is
P1..Pk followed by the marker. Of any series of reads with non-empty buffers
whose copies succeed, at least as many as the packets have bytes, some first
`n` return all bytes of P1..Pk in order, each read at least one byte, and
return the pages of P1..Pk to the pool; the read after them, whatever its
buffer, returns 0, empties the queue and leaves the log as it is: it returns
no page. -/
theorem hangup_marker_behind_data (B : Nat) (s : genmsg_state) (req : h2c_GenericMessaging)
    (cmd_chan : sphcs_cmd_chan) (env : cmd_env) (c : channel_data) (f : file)
    (sizes : List Nat)
    (hf : is_channel_file f = true) (hfc : f.channel = req.card_client_id)
    (hl : chan_lookup s.channel_hash req.card_client_id = some c) (href : 1 ≤ c.ref)
    (hopen : c.closing = _chnl_open) (hh : c.hanging_up = false) (hio : c.io_error = false)
    (hcur : c.current_read_packet = none)
    (hdata : ∀ p ∈ c.pending_read_packets, data_packet p)
    (hreq : req.hangup = true) (hconn : req.connect = false)
    (hsl : req.service_list_req = false) (hcc : c.cmd_chan = cmd_chan)
    (hn : c.n_read_dma_req = 0) (halloc : env.pend_alloc = true)
    (hs : ∀ x ∈ sizes, 1 ≤ x)
    (hlen : ((c.pending_read_packets.map packet_payload).flatten).length ≤ sizes.length) :
    ∃ r c1, process_genmsg_command B s req cmd_chan env = some r ∧
      chan_lookup r.2.channel_hash req.card_client_id = some c1 ∧
      c1.pending_read_packets = c.pending_read_packets ++ [queued_hangup_marker req cmd_chan] ∧
      ∃ n ds s1, n ≤ sizes.length ∧
        chan_read_seq r.2 f (sizes.take n) = (ds, s1) ∧ ds.length = n ∧
        (ds.map (fun d => d.data)).flatten = (c.pending_read_packets.map packet_payload).flatten ∧
        (∀ d ∈ ds, d.ret = (d.data.length : Int) ∧ 0 < d.ret) ∧
        s1.log = r.2.log ++ c.pending_read_packets.map
          (fun p => genmsg_effect.page_free p.dma_data.dma_page_hndl) ∧
        ∀ (size : Nat) (i : Bool) (nc : Nat),
          ∃ s2 c2, sphcs_genmsg_chan_read s1 f size i nc = some (⟨0, []⟩, s2) ∧
            s2.log = s1.log ∧
            chan_lookup s2.channel_hash req.card_client_id = some c2 ∧
            c2.pending_read_packets = [] ∧ c2.current_read_packet = none := by
  have hid := chan_lookup_id hl
  rw [hangup_open B s req cmd_chan env c hl href hh hreq hconn hsl hcc hn hopen]
  simp only [halloc, if_true]
  let c1 : channel_data :=
    { c with hanging_up := true,
             pending_read_packets := c.pending_read_packets ++ [queued_hangup_marker req cmd_chan] }
  have hl1 : chan_lookup (chan_store s.channel_hash c1) req.card_client_id = some c1 :=
    chan_lookup_store (by simpa using hid) (by simp [hl])
  refine ⟨_, c1, rfl, hl1, rfl, ?_⟩
  have hr : read_ready
      { s with channel_hash := chan_store s.channel_hash c1,
               log := s.log ++ [.cmd_chan_put cmd_chan, .destroy_cb_clear cmd_chan] }
      f c1 c.pending_read_packets [queued_hangup_marker req cmd_chan] :=
    ⟨hf, by rw [hfc]; exact hl1, by simpa using hio, rfl, hdata, by simp [c1, hcur]⟩
  have hun : unread c1 c.pending_read_packets
      = (c.pending_read_packets.map packet_payload).flatten := by
    simp [unread, c1, hcur]
  obtain ⟨n, ds, s1, cd, hnle, hseq, hdl, hflat, hrets, hld, hpd, hcd, hiod, hlogd⟩ :=
    read_seq_drain f [queued_hangup_marker req cmd_chan] sizes _ c1 c.pending_read_packets hr hs
      (by rw [hun]; exact hlen)
  refine ⟨n, ds, s1, hnle, hseq, hdl, by rw [hflat, hun], hrets, ?_, ?_⟩
  · rw [hlogd]; simp [c1, hcur]
  · intro size i nc
    have hidd := chan_lookup_id hld
    have := read_marker s1 f cd (queued_hangup_marker req cmd_chan) [] size i nc hf hld hiod hcd
      hpd rfl rfl
    let c2 : channel_data :=
      { cd with pending_read_packets := [], current_read_packet := none, current_read_size := 0 }
    refine ⟨_, c2, this, rfl, ?_, rfl, rfl⟩
    rw [← hfc]
    exact chan_lookup_store (by simpa using hidd) (by simp [hld])

theorem hangup_marker_behind_data_witness :
    ∃ r c1, process_genmsg_command 4095
        (demo_state { demo_channel with pending_read_packets := [demo_packet] })
        demo_hangup demo_cmd_chan demo_env = some r ∧
      chan_lookup r.2.channel_hash 1 = some c1 ∧
      c1.pending_read_packets = [demo_packet, queued_hangup_marker demo_hangup demo_cmd_chan] := by
  obtain ⟨r, c1, hr, hl, hq, _⟩ := hangup_marker_behind_data 4095
    (demo_state { demo_channel with pending_read_packets := [demo_packet] })
    demo_hangup demo_cmd_chan demo_env
    { demo_channel with pending_read_packets := [demo_packet] } demo_file [1, 1, 1]
    (by decide) (by decide) (by decide) (by decide) (by decide) (by decide) (by decide)
    (by decide) (by decide) (by decide) (by decide) (by decide) (by decide) (by decide)
    (by decide) (by decide) (by decide)
  exact ⟨r, c1, hr, hl, hq⟩
/-- Claim C5 as stated fails at three inputs. (1) An open channel with one
data packet queued and `io_error` set: the hangup packet is processed and the
marker queued, yet a read with a buffer of 4 bytes returns `-EIO` and no
byte. (2) The same channel with `io_error` clear but `hanging_up` already set
(the marker of the first hangup packet could not be allocated): the hangup
packet queues no marker, a read returns the two bytes and the read that
follows sleeps instead of returning 0. (3) With both flags clear, a read whose
copy to the caller faults returns `-EFAULT`, not the bytes. -/
theorem hangup_marker_behind_data_counterexample :
    ((process_genmsg_command 4095
        (demo_state { demo_channel with pending_read_packets := [demo_packet], io_error := true })
        demo_hangup demo_cmd_chan demo_env).bind
      (fun r => (sphcs_genmsg_chan_read r.2 demo_file 4 false 0).map
        (fun x => (r.1, (chan_lookup r.2.channel_hash 1).map (fun c => c.pending_read_packets),
                   x.1))))
      = some (0, some [demo_packet, queued_hangup_marker demo_hangup demo_cmd_chan],
              ⟨-EIO_errno, []⟩) ∧
    ((process_genmsg_command 4095
        (demo_state { demo_channel with pending_read_packets := [demo_packet],
                                        hanging_up := true })
        demo_hangup demo_cmd_chan demo_env).bind
      (fun r => (sphcs_genmsg_chan_read r.2 demo_file 4 false 0).map
        (fun x => ((chan_lookup r.2.channel_hash 1).map (fun c => c.pending_read_packets),
                   x.1, (sphcs_genmsg_chan_read x.2 demo_file 4 false 0).map (fun y => y.1)))))
      = some (some [demo_packet], ⟨2, [10, 20]⟩, none) ∧
    ((process_genmsg_command 4095
        (demo_state { demo_channel with pending_read_packets := [demo_packet] })
        demo_hangup demo_cmd_chan demo_env).bind
      (fun r => (sphcs_genmsg_chan_read r.2 demo_file 4 false 2).map (fun x => x.1)))
      = some ⟨-EFAULT_errno, []⟩ := by
  refine ⟨by decide, by decide, by decide⟩
/-- Claim C7, as amended. On a channel whose `io_error` flag is clear, whose
queue holds data packets (each with a payload of its 12-bit size field + 1
bytes) and whose current packet, if any, is a data packet not yet read to its
end: (1) a read with a buffer of at least one byte whose copy succeeds, when
there is a packet to read from, returns `min(buffer size, bytes left in that
packet)` bytes, the next unread ones; the packet is removed and its page
returned to the pool when that was its last byte, and stays the current
packet with nothing returned to the pool otherwise; the channel is then in
such a state again, its unread bytes being the former ones without those
returned. (2) For every series of such reads, every read that returns,
returns at least one byte, and the bytes returned, put end to end and
followed by the bytes still unread, are the payloads of the packets in
arrival order: no byte is duplicated, dropped or reordered. -/
theorem stream_reads_in_order (s : genmsg_state) (f : file) (c : channel_data)
    (queue : List pending_packet) (sizes : List Nat)
    (hr : read_ready s f c queue []) (hs : ∀ x ∈ sizes, 1 ≤ x) :
    (∀ (size : Nat) (i : Bool), 1 ≤ size → packet_remaining c queue ≠ 0 →
      ∃ s' c' queue' pkt,
        next_packet c queue = some pkt ∧
        sphcs_genmsg_chan_read s f size i 0
          = some (⟨(min size (packet_remaining c queue) : Nat),
                   (unread c queue).take (min size (packet_remaining c queue))⟩, s') ∧
        read_ready s' f c' queue' [] ∧
        unread c' queue' = (unread c queue).drop (min size (packet_remaining c queue)) ∧
        s'.log = s.log ++
          (if size ≥ packet_remaining c queue then [.page_free pkt.dma_data.dma_page_hndl]
           else []) ∧
        (if size ≥ packet_remaining c queue then c'.current_read_packet = none
         else c'.current_read_packet = some pkt)) ∧
    (∃ c' queue', read_ready (chan_read_seq s f sizes).2 f c' queue' [] ∧
      ((chan_read_seq s f sizes).1.map (fun r => r.data)).flatten ++ unread c' queue'
        = unread c queue) ∧
    (∀ r ∈ (chan_read_seq s f sizes).1, r.ret = (r.data.length : Int) ∧ 0 < r.ret) := by
  refine ⟨?_, (read_seq_stream f sizes s c queue hr hs).1,
    (read_seq_stream f sizes s c queue hr hs).2⟩
  intro size i hsize hav
  obtain ⟨s', c', queue', pkt, h1, h2, h3, h4, _, h6, h7, _⟩ :=
    read_one s f c queue [] size i hr hsize hav
  exact ⟨s', c', queue', pkt, h1, h2, h3, h4, h6, h7⟩

theorem stream_reads_in_order_witness :
    ((chan_read_seq (demo_state { demo_channel with pending_read_packets := [demo_packet] })
        demo_file [1, 5, 1]).1.map (fun r => r.ret)) = [1, 1] ∧
    ∀ r ∈ (chan_read_seq (demo_state { demo_channel with pending_read_packets := [demo_packet] })
        demo_file [1, 5, 1]).1, r.ret = (r.data.length : Int) ∧ 0 < r.ret :=
  ⟨by decide,
   (stream_reads_in_order (demo_state { demo_channel with pending_read_packets := [demo_packet] })
      demo_file { demo_channel with pending_read_packets := [demo_packet] } [demo_packet]
      [1, 5, 1] (by unfold read_ready; decide) (by decide)).2.2⟩

/-- Claim C7 as stated fails on a channel whose `io_error` flag is set: with
one data packet of two bytes queued, a read with a buffer of 4 bytes returns
`-EIO` and no byte, not `min(4, 2)` bytes, and leaves the packet queued. -/
theorem stream_reads_in_order_counterexample :
    (sphcs_genmsg_chan_read
        (demo_state { demo_channel with pending_read_packets := [demo_packet], io_error := true })
        demo_file 4 false 0).map
      (fun x => (x.1, (chan_lookup x.2.channel_hash 1).map (fun c => c.pending_read_packets)))
      = some (⟨-EIO_errno, []⟩, some [demo_packet]) := by
  decide
/-! ## The service registry -/

/-- Two C strings compare equal over the length of the second plus its NUL
exactly when they are the same string. -/
theorem memcmp_cstring (a b : List Nat) (ha : 0 ∉ a) (hb : 0 ∉ b) :
    memcmp (a ++ [0]) (b ++ [0]) (b.length + 1) = 0 ↔ a = b := by
  induction a generalizing b with
  | nil =>
    cases b with
    | nil => simp [memcmp]
    | cons y ys =>
      have hy : y ≠ 0 := fun h => hb (by simp [h])
      have hy' : ¬ (0 = y) := fun h => hy h.symm
      simp [memcmp, hy']
      omega
  | cons x xs ih =>
    have hx : x ≠ 0 := fun h => ha (by simp [h])
    cases b with
    | nil => simp [memcmp, hx]
    | cons y ys =>
      have hxs : 0 ∉ xs := fun h => ha (by simp [h])
      have hys : 0 ∉ ys := fun h => hb (by simp [h])
      by_cases hxy : x = y
      · subst hxy
        simp [memcmp, ih ys hxs hys]
      · simp [memcmp, hxy]
        omega

theorem ida_simple_get_none (ida : List Nat) (start stop : Nat) :
    ida_simple_get ida start stop = none ↔ ∀ i, start ≤ i → i < stop → i ∈ ida := by
  unfold ida_simple_get
  rw [List.find?_eq_none]
  simp only [List.mem_range', decide_eq_true_eq, not_not]
  constructor
  · intro h i h1 h2
    exact h i ⟨i - start, by omega, by omega⟩
  · rintro h i ⟨k, hk, rfl⟩
    exact h _ (by omega) (by omega)

theorem ida_simple_get_some {ida : List Nat} {start stop id : Nat}
    (h : ida_simple_get ida start stop = some id) :
    start ≤ id ∧ id < stop ∧ id ∉ ida := by
  unfold ida_simple_get at h
  have hm := List.mem_of_find?_eq_some h
  have hp := List.find?_some h
  simp only [List.mem_range'] at hm
  obtain ⟨k, hk, rfl⟩ := hm
  exact ⟨by omega, by omega, by simpa using hp⟩

/-- An allocator that holds each id once and only ids below `n` has a free
id below `n` exactly when it holds fewer than `n` ids. -/
theorem ida_full_iff (ida : List Nat) (n : Nat) (hnd : ida.Nodup) (hb : ∀ i ∈ ida, i < n) :
    (∀ i, i < n → i ∈ ida) ↔ ida.length = n := by
  have hsub : ida ⊆ List.range n := fun i hi => List.mem_range.mpr (hb i hi)
  have hle : ida.length ≤ n := by
    have := List.Subperm.length_le (List.subperm_of_subset hnd hsub)
    simpa using this
  constructor
  · intro h
    have hsub' : List.range n ⊆ ida := fun i hi => h i (List.mem_range.mp hi)
    have := List.Subperm.length_le (List.subperm_of_subset (List.nodup_range n) hsub')
    simp only [List.length_range] at this
    omega
  · intro h i hi
    have hperm : ida.Perm (List.range n) := by
      apply List.Subperm.perm_of_length_le (List.subperm_of_subset hnd hsub)
      simp [h]
    exact hperm.symm.subset (List.mem_range.mpr hi)
/-- In a well-formed registry the scan of `add_service` finds a slot exactly
when some slot holds the very name that is being added. -/
theorem add_service_exists_iff (l : sphcs_genmsg_service_list) (name : List Nat)
    (hwf : registry_wf l) (hname : 0 ∉ name) :
    add_service_exists l (name ++ [0]) name.length = true ↔
      ∃ i, l.service_name i = some (name ++ [0]) := by
  obtain ⟨_, hb, hocc, hstr, _⟩ := hwf
  unfold add_service_exists
  rw [List.any_eq_true]
  constructor
  · rintro ⟨i, _, hi⟩
    cases hs : l.service_name i with
    | none => simp [hs] at hi
    | some stored =>
      obtain ⟨nm, rfl, hnm, _⟩ := hstr i stored hs
      simp only [hs, decide_eq_true_eq] at hi
      have := (memcmp_cstring nm name hnm hname).mp hi
      exact ⟨i, by rw [← this]; exact hs⟩
  · rintro ⟨i, hi⟩
    have hmem : i ∈ l.ida := hocc i (by simp [hi])
    refine ⟨i, List.mem_range.mpr (hb i hmem), ?_⟩
    simp only [hi, decide_eq_true_eq]
    exact (memcmp_cstring name name hname hname).mpr rfl

theorem ida_insert_remove (ida : List Nat) (id : Nat) :
    ida_simple_remove (ida_insert ida id) id = ida := by
  simp [ida_simple_remove, ida_insert]

/-- Adding a name that is registered, with an id free: `-EEXIST`, and the
registry is what it was. -/
theorem add_service_duplicate (l : sphcs_genmsg_service_list) (name : List Nat)
    (service : service_data) (hwf : registry_wf l) (hname : 0 ∉ name)
    (hreg : ∃ i, l.service_name i = some (name ++ [0]))
    (hfree : l.ida.length < SPH_MAX_GENERIC_SERVICES) :
    add_service l (name ++ [0]) name.length service = (-EEXIST_errno, l) := by
  have hfull := ida_full_iff l.ida SPH_MAX_GENERIC_SERVICES hwf.1 hwf.2.1
  cases hget : ida_simple_get l.ida 0 SPH_MAX_GENERIC_SERVICES with
  | none =>
    have := (ida_simple_get_none l.ida 0 SPH_MAX_GENERIC_SERVICES).mp hget
    have := hfull.mp (fun i hi => this i (Nat.zero_le _) hi)
    omega
  | some id =>
    have hex : add_service_exists { l with ida := ida_insert l.ida id } (name ++ [0])
        name.length = true := by
      have := (add_service_exists_iff l name hwf hname).mpr hreg
      simpa [add_service_exists] using this
    simp only [add_service, hget, hex, if_true, ida_insert_remove]

/-- Adding any name when every id is allocated: `-ENOSPC`, and the registry is
what it was. -/
theorem add_service_full (l : sphcs_genmsg_service_list) (buf : List Nat) (len : Nat)
    (service : service_data) (hwf : registry_wf l)
    (hfull : l.ida.length = SPH_MAX_GENERIC_SERVICES) :
    add_service l buf len service = (-ENOSPC_errno, l) := by
  have h := (ida_full_iff l.ida SPH_MAX_GENERIC_SERVICES hwf.1 hwf.2.1).mpr hfull
  have hget : ida_simple_get l.ida 0 SPH_MAX_GENERIC_SERVICES = none :=
    (ida_simple_get_none _ _ _).mpr (fun i _ hi => h i hi)
  simp [add_service, hget]

/-- Adding a name that is not registered, with an id free. -/
theorem add_service_fresh (l : sphcs_genmsg_service_list) (name : List Nat)
    (service : service_data) (hwf : registry_wf l) (hname : 0 ∉ name)
    (hreg : ¬ ∃ i, l.service_name i = some (name ++ [0]))
    (hfree : l.ida.length < SPH_MAX_GENERIC_SERVICES) :
    ∃ id, id < SPH_MAX_GENERIC_SERVICES ∧ id ∉ l.ida ∧
      ida_simple_get l.ida 0 SPH_MAX_GENERIC_SERVICES = some id ∧
      add_service l (name ++ [0]) name.length service
        = ((id : Int),
           { l with
             ida := id :: l.ida,
             service_name := Function.update l.service_name id (some (name ++ [0])),
             service_name_len := Function.update l.service_name_len id name.length,
             service_data := Function.update l.service_data id (some service),
             num_services := (l.num_services + 1) % U32_MOD }) := by
  have hfull := ida_full_iff l.ida SPH_MAX_GENERIC_SERVICES hwf.1 hwf.2.1
  cases hget : ida_simple_get l.ida 0 SPH_MAX_GENERIC_SERVICES with
  | none =>
    have := (ida_simple_get_none l.ida 0 SPH_MAX_GENERIC_SERVICES).mp hget
    have := hfull.mp (fun i hi => this i (Nat.zero_le _) hi)
    omega
  | some id =>
    obtain ⟨_, hlt, hnot⟩ := ida_simple_get_some hget
    have hex : add_service_exists { l with ida := ida_insert l.ida id } (name ++ [0])
        name.length = false := by
      have h := (add_service_exists_iff l name hwf hname).not.mpr hreg
      simpa [add_service_exists] using h
    refine ⟨id, hlt, hnot, rfl, ?_⟩
    simp only [add_service, hget, hex]
    simp [ida_insert]
theorem registered_count_le (l : sphcs_genmsg_service_list) :
    registered_count l ≤ SPH_MAX_GENERIC_SERVICES := by
  unfold registered_count
  have := List.length_filter_le (fun i => (l.service_name i).isSome)
    (List.range SPH_MAX_GENERIC_SERVICES)
  simpa using this

theorem filter_range_flip (p q : Nat → Bool) (n id : Nat) (hid : id < n)
    (hp : p id = false) (hq : q id = true) (hrest : ∀ j, j ≠ id → q j = p j) :
    ((List.range n).filter q).length = ((List.range n).filter p).length + 1 := by
  induction n with
  | zero => omega
  | succ k ih =>
    simp only [List.range_succ, List.filter_append, List.length_append]
    by_cases hk : id = k
    · subst hk
      have hsame : (List.range id).filter q = (List.range id).filter p := by
        apply List.filter_congr
        intro j hj
        exact hrest j (by have := List.mem_range.mp hj; omega)
      simp [hsame, hp, hq]
    · have := ih (by omega)
      have hqk : q k = p k := hrest k (fun h => hk h.symm)
      simp only [List.filter_cons, List.filter_nil, hqk]
      omega

/-- The registry that `init_service_list` makes is well-formed. -/
theorem registry_wf_init : registry_wf init_service_list := by
  refine ⟨by simp [init_service_list], by simp [init_service_list],
    by simp [init_service_list], by simp [init_service_list], ?_⟩
  simp [init_service_list, registered_count]

/-- A successful `add_service` of a C string keeps the registry well-formed. -/
theorem registry_wf_add (l : sphcs_genmsg_service_list) (name : List Nat)
    (service : service_data) (id : Nat) (hwf : registry_wf l) (hname : 0 ∉ name)
    (hlt : id < SPH_MAX_GENERIC_SERVICES) (hnot : id ∉ l.ida) :
    registry_wf
      { l with
        ida := id :: l.ida,
        service_name := Function.update l.service_name id (some (name ++ [0])),
        service_name_len := Function.update l.service_name_len id name.length,
        service_data := Function.update l.service_data id (some service),
        num_services := (l.num_services + 1) % U32_MOD } ∧
    (l.num_services + 1) % U32_MOD = l.num_services + 1 := by
  obtain ⟨hnd, hb, hocc, hstr, hnum⟩ := hwf
  have hnone : l.service_name id = none := by
    cases h : l.service_name id with
    | none => rfl
    | some x => exact absurd (hocc id (by simp [h])) hnot
  have hle := registered_count_le l
  have hmod : (l.num_services + 1) % U32_MOD = l.num_services + 1 := by
    apply Nat.mod_eq_of_lt
    rw [hnum]
    have : SPH_MAX_GENERIC_SERVICES + 1 < U32_MOD := by
      norm_num [SPH_MAX_GENERIC_SERVICES, U32_MOD]
    omega
  refine ⟨⟨List.nodup_cons.mpr ⟨hnot, hnd⟩, ?_, ?_, ?_, ?_⟩, hmod⟩
  · intro i hi
    simp only [List.mem_cons] at hi
    rcases hi with rfl | hi
    · exact hlt
    · exact hb i hi
  · intro i hi
    by_cases hii : i = id
    · simp [hii]
    · simp only [Function.update_noteq hii] at hi
      exact List.mem_cons_of_mem _ (hocc i hi)
  · intro i stored hs
    by_cases hii : i = id
    · subst hii
      simp only [Function.update_same, Option.some.injEq] at hs
      exact ⟨name, hs.symm, hname, by simp⟩
    · simp only [Function.update_noteq hii] at hs ⊢
      exact hstr i stored hs
  · show (l.num_services + 1) % U32_MOD = _
    rw [hmod, hnum]
    unfold registered_count
    symm
    apply filter_range_flip _ _ _ id hlt
    · simp [hnone]
    · simp
    · intro j hj
      simp [Function.update_noteq hj]

/-- Claim C10. For a well-formed registry and a C string `name`:
`add_service` succeeds exactly when no slot holds that very name (the same
bytes and the same length: a stored name that is a proper prefix or an
extension of `name` does not count) and fewer than 288 ids are allocated. On
success it returns an id below 288 that was not allocated, allocates it,
stores the name, its length and the service in that slot, adds one to
`num_services`, leaves every other slot as it was, and the registry is
well-formed again. -/
theorem add_service_spec (l : sphcs_genmsg_service_list) (name : List Nat)
    (service : service_data) (hwf : registry_wf l) (hname : 0 ∉ name) :
    (0 ≤ (add_service l (name ++ [0]) name.length service).1 ↔
      (∀ i, l.service_name i ≠ some (name ++ [0])) ∧
        l.ida.length < SPH_MAX_GENERIC_SERVICES) ∧
    (0 ≤ (add_service l (name ++ [0]) name.length service).1 →
      ∃ id : Nat,
        (add_service l (name ++ [0]) name.length service).1 = (id : Int) ∧
        id < SPH_MAX_GENERIC_SERVICES ∧ id ∉ l.ida ∧
        (add_service l (name ++ [0]) name.length service).2.ida = id :: l.ida ∧
        (add_service l (name ++ [0]) name.length service).2.service_name id
          = some (name ++ [0]) ∧
        (add_service l (name ++ [0]) name.length service).2.service_name_len id
          = name.length ∧
        (add_service l (name ++ [0]) name.length service).2.service_data id = some service ∧
        (add_service l (name ++ [0]) name.length service).2.num_services
          = l.num_services + 1 ∧
        (∀ j, j ≠ id →
          (add_service l (name ++ [0]) name.length service).2.service_name j
            = l.service_name j ∧
          (add_service l (name ++ [0]) name.length service).2.service_name_len j
            = l.service_name_len j ∧
          (add_service l (name ++ [0]) name.length service).2.service_data j
            = l.service_data j) ∧
        registry_wf (add_service l (name ++ [0]) name.length service).2) := by
  have hlen : l.ida.length ≤ SPH_MAX_GENERIC_SERVICES := by
    have hsub : l.ida ⊆ List.range SPH_MAX_GENERIC_SERVICES :=
      fun i hi => List.mem_range.mpr (hwf.2.1 i hi)
    have := List.Subperm.length_le (List.subperm_of_subset hwf.1 hsub)
    simpa using this
  by_cases hfree : l.ida.length < SPH_MAX_GENERIC_SERVICES
  · by_cases hreg : ∃ i, l.service_name i = some (name ++ [0])
    · rw [add_service_duplicate l name service hwf hname hreg hfree]
      obtain ⟨i, hi⟩ := hreg
      constructor
      · constructor
        · intro h; simp [EEXIST_errno] at h
        · intro h; exact absurd hi (h.1 i)
      · intro h; simp [EEXIST_errno] at h
    · obtain ⟨id, hlt, hnot, _, heq⟩ := add_service_fresh l name service hwf hname hreg hfree
      obtain ⟨hwf', hmod⟩ := registry_wf_add l name service id hwf hname hlt hnot
      rw [heq]
      constructor
      · constructor
        · intro _
          exact ⟨fun i hi => hreg ⟨i, hi⟩, hfree⟩
        · intro _
          exact Int.natCast_nonneg id
      · intro _
        refine ⟨id, rfl, hlt, hnot, rfl, by simp, by simp, by simp, hmod, ?_, hwf'⟩
        intro j hj
        simp [Function.update_noteq hj]
  · have hfull : l.ida.length = SPH_MAX_GENERIC_SERVICES := by omega
    rw [add_service_full l _ _ service hwf hfull]
    constructor
    · constructor
      · intro h; simp [ENOSPC_errno] at h
      · intro h; exact absurd h.2 hfree
    · intro h; simp [ENOSPC_errno] at h
theorem registry_wf_demo : registry_wf demo_service_list :=
  (registry_wf_add init_service_list [65] demo_service 0 registry_wf_init
    (by decide) (by decide) (by decide)).1

theorem registry_wf_full : registry_wf full_service_list := by
  unfold registry_wf registered_count
  simp only [full_service_list]
  refine ⟨List.nodup_range _, ?_, ?_, ?_, ?_⟩
  · intro i hi
    exact List.mem_range.mp hi
  · intro i hi
    by_cases h : i < SPH_MAX_GENERIC_SERVICES
    · exact List.mem_range.mpr h
    · simp [h] at hi
  · intro i stored hs
    by_cases h : i < SPH_MAX_GENERIC_SERVICES
    · simp only [h, if_true, Option.some.injEq] at hs ⊢
      refine ⟨full_name i, hs.symm, ?_, by simp [full_name]⟩
      simp only [full_name, List.mem_cons, List.mem_singleton, List.not_mem_nil, or_false]
      omega
    · simp [h] at hs
  · rw [List.filter_eq_self.mpr]
    · simp
    · intro i hi
      simp [List.mem_range.mp hi]

/-- Claim C9, as amended. In a well-formed registry that holds the C string
`name`: while fewer than 288 ids are allocated `add_service` of that name
returns `-EEXIST`; when all 288 are allocated it returns the allocator's
`-ENOSPC` instead; in both cases the registry after the call is the registry
before it: names, lengths, services, `num_services` and the allocated ids. -/
theorem add_service_registered (l : sphcs_genmsg_service_list) (name : List Nat)
    (service : service_data) (i : Nat) (hwf : registry_wf l) (hname : 0 ∉ name)
    (hreg : l.service_name i = some (name ++ [0])) :
    (l.ida.length < SPH_MAX_GENERIC_SERVICES →
      add_service l (name ++ [0]) name.length service = (-EEXIST_errno, l)) ∧
    (l.ida.length = SPH_MAX_GENERIC_SERVICES →
      add_service l (name ++ [0]) name.length service = (-ENOSPC_errno, l)) ∧
    (add_service l (name ++ [0]) name.length service).2 = l := by
  have h1 := add_service_duplicate l name service hwf hname ⟨i, hreg⟩
  have h2 := add_service_full l (name ++ [0]) name.length service hwf
  refine ⟨h1, h2, ?_⟩
  have hlen : l.ida.length ≤ SPH_MAX_GENERIC_SERVICES := by
    have hsub : l.ida ⊆ List.range SPH_MAX_GENERIC_SERVICES :=
      fun i hi => List.mem_range.mpr (hwf.2.1 i hi)
    have := List.Subperm.length_le (List.subperm_of_subset hwf.1 hsub)
    simpa using this
  by_cases hfree : l.ida.length < SPH_MAX_GENERIC_SERVICES
  · rw [h1 hfree]
  · rw [h2 (by omega)]

theorem add_service_registered_witness :
    add_service demo_service_list ([65] ++ [0]) [65].length demo_service
      = (-EEXIST_errno, demo_service_list) :=
  (add_service_registered demo_service_list [65] demo_service 0 registry_wf_demo
    (by decide) (by decide)).1 (by decide)

/-- Claim C9 as stated fails when every id is allocated: in the registry with
all 288 slots taken, the first of them by the name `[1, 1]`, `add_service` of
that very name returns `-ENOSPC`, which is not `-EEXIST`. -/
theorem add_service_registered_counterexample :
    full_service_list.service_name 0 = some ([1, 1] ++ [0]) ∧
    (add_service full_service_list ([1, 1] ++ [0]) 2 demo_service).1 = -ENOSPC_errno ∧
    -ENOSPC_errno ≠ -EEXIST_errno := by
  refine ⟨by decide, ?_, by decide⟩
  rw [add_service_full full_service_list _ _ demo_service registry_wf_full
    (by simp only [full_service_list, List.length_range])]

theorem add_service_spec_witness :
    0 ≤ (add_service init_service_list ([65] ++ [0]) [65].length demo_service).1 ↔
      (∀ i, init_service_list.service_name i ≠ some ([65] ++ [0])) ∧
        init_service_list.ida.length < SPH_MAX_GENERIC_SERVICES :=
  (add_service_spec init_service_list [65] demo_service registry_wf_init (by decide)).1
/-! ## Steps that leave the reference counts alone -/

theorem frame_refl (g : genmsg_state) : frame g g := ⟨rfl, rfl, id⟩

theorem frame_trans {g1 g2 g3 : genmsg_state} (h12 : frame g1 g2) (h23 : frame g2 g3) :
    frame g1 g3 :=
  ⟨h23.1.trans h12.1, h23.2.1.trans h12.2.1, fun h => h12.2.2 (h23.2.2 h)⟩

theorem frame_emit {g g1 : genmsg_state} (e : genmsg_effect) (h : frame g g1)
    (he : e ≠ .assert_failed 169) : frame g (emit g1 e) := by
  refine ⟨h.1, h.2.1, ?_⟩
  intro hm
  simp only [emit_log, List.mem_append, List.mem_singleton] at hm
  rcases hm with hm | hm
  · exact h.2.2 hm
  · exact absurd hm.symm he

theorem frame_log {g g1 : genmsg_state} (l : List genmsg_effect) (h : frame g g1)
    (hl : genmsg_effect.assert_failed 169 ∉ l) : frame g { g1 with log := g1.log ++ l } := by
  refine ⟨h.1, h.2.1, ?_⟩
  intro hm
  simp only [List.mem_append] at hm
  rcases hm with hm | hm
  · exact h.2.2 hm
  · exact absurd hm hl

theorem frame_service_list {g g1 : genmsg_state} (l : sphcs_genmsg_service_list)
    (h : frame g g1) : frame g { g1 with service_list := l } :=
  ⟨h.1, h.2.1, h.2.2⟩

theorem chan_store_keys_same {h : List channel_data} {c' : channel_data}
    (hk : ∀ c, chan_lookup h c'.channel_id = some c → c'.key = c.key) :
    (chan_store h c').map channel_data.key = h.map channel_data.key := by
  induction h with
  | nil => simp [chan_store]
  | cons x xs ih =>
    by_cases hx : x.channel_id = c'.channel_id
    · have := hk x (by simp [chan_lookup, hx])
      simp [chan_store, hx, this]
    · simp only [chan_store, hx, if_false, List.map_cons]
      rw [ih]
      intro c hc
      exact hk c (by simpa [chan_lookup, hx] using hc)

theorem frame_set_channel {g g1 : genmsg_state} (c' : channel_data) (h : frame g g1)
    (hk : ∀ c, chan_lookup g1.channel_hash c'.channel_id = some c → c'.key = c.key) :
    frame g (set_channel g1 c') := by
  refine ⟨?_, h.2.1, h.2.2⟩
  rw [← h.1]
  exact chan_store_keys_same hk

/-- A step that is a frame keeps the invariant. -/
theorem driver_inv_held_frame {held : Nat → Nat} {d : driver_state} {g' : genmsg_state}
    (hinv : driver_inv_held held d) (hf : frame d.g g') :
    driver_inv_held held { d with g := g' } := by
  obtain ⟨h1, h2, h3, h4, h5, h6, h7⟩ := hinv
  obtain ⟨hk, hi, hl⟩ := hf
  unfold driver_inv_held
  simp only [hk, hi]
  exact ⟨h1, h2, h3, h4, h5, h6, fun h => h7 (hl h)⟩

theorem driver_inv_frame {d : driver_state} {g' : genmsg_state} (hinv : driver_inv d)
    (hf : frame d.g g') : driver_inv { d with g := g' } :=
  driver_inv_held_frame hinv hf

theorem frame_of_eq {g g' : genmsg_state} (h1 : g'.channel_hash = g.channel_hash)
    (h2 : g'.channel_ida = g.channel_ida) (h3 : g'.log = g.log) : frame g g' := by
  refine ⟨by simp [table_keys, h1], h2, ?_⟩
  rw [h3]
  exact id

theorem register_state (g : genmsg_state) (f : file) (name_len : Nat) (name : List Nat)
    (env : register_env) :
    ∃ l, (process_register_service g f name_len name env).2.1 = { g with service_list := l } := by
  unfold process_register_service
  split
  · exact ⟨_, rfl⟩
  split
  · exact ⟨_, rfl⟩
  split
  · exact ⟨_, rfl⟩
  split
  · exact ⟨_, rfl⟩
  split
  · exact ⟨_, rfl⟩
  dsimp only
  split
  · exact ⟨_, rfl⟩
  split
  · exact ⟨_, rfl⟩
  split
  · exact ⟨_, rfl⟩
  · exact ⟨_, rfl⟩

theorem frame_register (g : genmsg_state) (f : file) (name_len : Nat) (name : List Nat)
    (env : register_env) : frame g (process_register_service g f name_len name env).2.1 := by
  obtain ⟨l, hl⟩ := register_state g f name_len name env
  rw [hl]
  exact frame_service_list _ (frame_refl g)

theorem frame_delete_service_drain (B : Nat) (l : List pending_packet) :
    ∀ g g1 : genmsg_state, frame g g1 → frame g (delete_service_drain B g1 l) := by
  induction l with
  | nil => intro g g1 h; exact h
  | cons p rest ih =>
    intro g g1 h
    simp only [delete_service_drain]
    apply ih
    exact frame_emit _ (frame_emit _ (frame_emit _ h (by simp)) (by simp)) (by simp)

theorem frame_delete_service (B : Nat) (g : genmsg_state) (id : Nat) :
    frame g (delete_service B g id) := by
  unfold delete_service
  apply frame_service_list
  split
  · exact frame_refl g
  · apply frame_service_list
    exact frame_delete_service_drain B _ g g (frame_refl g)

theorem frame_service_release (B : Nat) (g : genmsg_state) (f : file) :
    frame g (sphcs_genmsg_release B g f).2 := by
  unfold sphcs_genmsg_release
  repeat' split
  all_goals first
    | exact frame_refl g
    | exact frame_delete_service B g _
theorem key_of_lookup {h : List channel_data} {id : Nat} {c c' : channel_data}
    (hl : chan_lookup h id = some c) (hk : c'.key = c.key) :
    ∀ c0, chan_lookup h c'.channel_id = some c0 → c'.key = c0.key := by
  intro c0 h0
  have hid : c'.channel_id = c.channel_id := congrArg chan_key.id hk
  rw [hid, chan_lookup_id hl, hl] at h0
  cases h0
  exact hk

theorem frame_chan_read_current (s : genmsg_state) (c : channel_data) (pkt : pending_packet)
    (size nc : Nat)
    (hk : ∀ c0, chan_lookup s.channel_hash c.channel_id = some c0 → c.key = c0.key) :
    frame s (chan_read_current s c pkt size nc).2 := by
  unfold chan_read_current
  dsimp only
  split
  · apply frame_set_channel
    · split
      · exact frame_refl s
      · exact frame_emit _ (frame_refl s) (by simp)
    · intro c0 h0
      have : chan_lookup s.channel_hash c.channel_id = some c0 := by
        split at h0 <;> simpa using h0
      exact hk c0 this
  · split
    · apply frame_set_channel
      · split
        · exact frame_refl s
        · exact frame_emit _ (frame_refl s) (by simp)
      · intro c0 h0
        have : chan_lookup s.channel_hash c.channel_id = some c0 := by
          split at h0 <;> simpa using h0
        exact hk c0 this
    · split_ifs <;> dsimp only <;> apply frame_set_channel <;>
        first
        | exact frame_refl s
        | exact frame_emit _ (frame_refl s) (by simp)
        | (intro c0 h0; exact hk c0 (by simpa using h0))

theorem frame_chan_read {s : genmsg_state} {f : file} {size : Nat} {i : Bool} {nc : Nat}
    {r : read_result × genmsg_state} (h : sphcs_genmsg_chan_read s f size i nc = some r) :
    frame s r.2 := by
  unfold sphcs_genmsg_chan_read at h
  split at h
  · cases h; exact frame_refl s
  split at h
  · cases h; exact frame_emit _ (frame_refl s) (by simp)
  rename_i c hl
  split at h
  · cases h; exact frame_refl s
  split at h
  · cases h
    exact frame_chan_read_current s c _ size nc (key_of_lookup hl rfl)
  split at h
  · cases h
  split at h
  · cases h; exact frame_refl s
  split at h
  · cases h; exact frame_emit _ (frame_refl s) (by simp)
  · cases h
    exact frame_chan_read_current s _ _ size nc (key_of_lookup hl rfl)

theorem write_keeps_trans {a b c : write_loop_result} (h1 : write_keeps a b)
    (h2 : write_keeps b c) : write_keeps a c :=
  ⟨h2.1.trans h1.1, h2.2.1.trans h1.2.1, fun h => h1.2.2.1 (h2.2.2.1 h), h2.2.2.2.1.trans h1.2.2.2.1,
    h2.2.2.2.2.trans h1.2.2.2.2⟩

theorem chan_write_loop_keeps (fuel : Nat) (env : Nat → write_env) (buf : List Nat) (size : Nat) :
    ∀ (round : Nat) (r : write_loop_result),
      write_keeps r (chan_write_loop fuel env buf size round r) := by
  induction fuel with
  | zero => intro round r; exact ⟨rfl, rfl, id, rfl, rfl⟩
  | succ n ih =>
    intro round r
    obtain ⟨s, c, nw, ret⟩ := r
    unfold chan_write_loop
    dsimp only
    split
    · exact ⟨rfl, rfl, id, rfl, rfl⟩
    split
    · rename_i hh
      split at hh
      · split at hh
        · cases hh; exact ⟨rfl, rfl, id, rfl, rfl⟩
        · cases hh
      · cases hh
    rename_i s1 c1 hh
    have h1 : write_keeps ⟨s, c, nw, ret⟩ ⟨s1, c1, nw, ret⟩ := by
      split at hh
      · split at hh
        · cases hh
        · cases hh; exact ⟨rfl, rfl, by simp [emit], rfl, rfl⟩
      · cases hh; exact ⟨rfl, rfl, id, rfl, rfl⟩
    clear hh
    split
    · rename_i c2 ret2 hp
      have h2 : c2.key = c1.key ∧ c2.io_error = c1.io_error := by
        split at hp
        · cases hp
        · split at hp
          · cases hp; exact ⟨rfl, rfl⟩
          · cases hp
      exact write_keeps_trans h1 ⟨rfl, rfl, id, h2⟩
    rename_i c2 ret2 hp
    have h2 : c2.key = c1.key ∧ c2.io_error = c1.io_error := by
      split at hp
      · cases hp; exact ⟨rfl, rfl⟩
      · split at hp
        · cases hp
        · cases hp; exact ⟨rfl, rfl⟩
    clear hp
    split
    · exact write_keeps_trans h1 ⟨rfl, rfl, id, h2⟩
    split
    · exact write_keeps_trans h1 ⟨rfl, rfl, by simp [emit], h2⟩
    split
    · refine write_keeps_trans h1 (write_keeps_trans ?_ (ih _ _))
      exact ⟨rfl, rfl, by simp [emit], h2⟩
    · exact write_keeps_trans h1 ⟨rfl, rfl, by simp [emit], h2⟩

theorem frame_chan_write (s : genmsg_state) (f : file) (buf : List Nat) (size : Nat)
    (env : Nat → write_env) : frame s (sphcs_genmsg_chan_write s f buf size env).2 := by
  unfold sphcs_genmsg_chan_write
  split
  · exact frame_refl s
  split
  · exact frame_emit _ (frame_refl s) (by simp)
  rename_i c hl
  split
  · exact frame_refl s
  split
  · exact frame_refl s
  have hk := chan_write_loop_keeps size env buf size 0 ⟨s, c, 0, 0⟩
  have hf : frame s (set_channel (chan_write_loop size env buf size 0 ⟨s, c, 0, 0⟩).s
      (chan_write_loop size env buf size 0 ⟨s, c, 0, 0⟩).c) := by
    apply frame_set_channel
    · exact ⟨by unfold table_keys; rw [hk.1], hk.2.1, hk.2.2.1⟩
    · rw [hk.1]
      exact key_of_lookup hl hk.2.2.2.1
  dsimp only
  split <;> exact hf
theorem frame_handle_cmd_dma_failed (B : Nat) {g g1 : genmsg_state}
    (dma_data : genmsg_dma_command_data) (h : frame g g1) :
    frame g (handle_cmd_dma_failed B g1 dma_data) := by
  unfold handle_cmd_dma_failed
  apply frame_emit _ _ (by simp)
  apply frame_emit _ _ (by simp)
  split
  · exact frame_emit _ (frame_emit _ h (by simp)) (by simp)
  split
  · exact h
  dsimp only
  split
  · exact frame_emit _ (frame_emit _ h (by simp)) (by simp)
  rename_i c hl
  apply frame_set_channel _ (frame_emit _ h (by simp))
  apply key_of_lookup hl
  split <;> simp only [channel_data.key]

theorem frame_cmd_dma_complete (B : Nat) (g : genmsg_state)
    (dma_data : genmsg_dma_command_data) (status : dma_status) (alloc : Bool) :
    frame g (sphcs_genmsg_cmd_dma_complete_callback B g dma_data status alloc).2 := by
  unfold sphcs_genmsg_cmd_dma_complete_callback
  split
  · exact frame_handle_cmd_dma_failed B _ (frame_refl g)
  split
  · dsimp only
    split
    · split
      · exact frame_handle_cmd_dma_failed B _ (frame_refl g)
      · exact frame_service_list _ (frame_refl g)
    · exact frame_handle_cmd_dma_failed B _ (frame_refl g)
  split
  · exact frame_handle_cmd_dma_failed B _ (frame_refl g)
  split
  · exact frame_emit _ (frame_refl g) (by simp)
  rename_i c hl
  split
  · exact frame_handle_cmd_dma_failed B _ (frame_refl g)
  dsimp only
  apply frame_emit _ _ (by simp)
  apply frame_emit _ _ (by simp)
  apply frame_set_channel _ (frame_refl g)
  apply key_of_lookup hl
  split <;> simp only [channel_data.key]

theorem frame_response_dma_complete (g : genmsg_state) (user_data : dma_req_user_data)
    (status : dma_status) : frame g (chan_response_dma_completed g user_data status).2 := by
  unfold chan_response_dma_completed
  split
  · exact frame_emit _ (frame_refl g) (by simp)
  rename_i c hl
  dsimp only
  split_ifs <;> dsimp only <;> apply frame_set_channel
  · exact frame_emit _ (frame_refl g) (by simp)
  · exact key_of_lookup hl rfl
  · exact frame_emit _ (frame_emit _ (frame_refl g) (by simp)) (by simp)
  · exact key_of_lookup hl rfl

theorem frame_service_list_dma_complete (g : genmsg_state) (user_data : dma_req_user_data)
    (status : dma_status) : frame g (send_service_list_dma_completed_chan g user_data status).2 := by
  unfold send_service_list_dma_completed_chan
  exact frame_emit _ (frame_emit _ (frame_emit _ (frame_refl g) (by simp)) (by simp)) (by simp)

theorem frame_send_service_list (g : genmsg_state) (cmd_chan : sphcs_cmd_chan) (env : cmd_env) :
    frame g (send_service_list_to_host g cmd_chan env).2 := by
  unfold send_service_list_to_host send_service_list_fail
  repeat' split
  all_goals first
    | exact frame_emit _ (frame_emit _ (frame_refl g) (by simp)) (by simp)

theorem frame_release_notify {g g' : genmsg_state} {channel : Nat} {i : Bool}
    (h : sphcs_genmsg_chan_release_notify g channel i = some g') : frame g g' := by
  unfold sphcs_genmsg_chan_release_notify at h
  split at h
  · cases h; exact frame_emit _ (frame_refl g) (by simp)
  split at h
  · cases h
  cases h
  apply frame_emit _ _ (by simp)
  split
  · exact frame_emit _ (frame_refl g) (by simp)
  · exact frame_refl g
theorem driver_inv_held_iff (held : Nat → Nat) (d : driver_state) :
    driver_inv_held held d ↔
      (d.g.channel_hash.map (fun c => c.channel_id)).Nodup ∧
      (∀ c ∈ d.g.channel_hash,
        c.channel_id ∈ d.g.channel_ida ∧
        c.ref = (if c.closing = _chnl_close_done then 0 else 1)
          + parked_on d.parked c.channel_id + held c.channel_id ∧
        (c.closing = _chnl_close_done → c.hanging_up = true) ∧ 1 ≤ c.ref) ∧
      (∀ p ∈ d.parked, ∃ c ∈ d.g.channel_hash, c.channel_id = p.channel) ∧
      genmsg_effect.assert_failed 169 ∉ d.g.log := by
  unfold driver_inv_held table_keys
  simp only [List.map_map, List.mem_map, forall_exists_index, and_imp,
    forall_apply_eq_imp_iff₂, exists_exists_and_eq_and, channel_data.key]
  constructor
  · rintro ⟨h1, h2, h3, h4, h5, h6, h7⟩
    exact ⟨h1, fun c hc => ⟨h2 c hc, h3 c hc, h4 c hc, h5 c hc⟩, h6, h7⟩
  · rintro ⟨h1, h2, h6, h7⟩
    exact ⟨h1, fun c hc => (h2 c hc).1, fun c hc => (h2 c hc).2.1,
      fun c hc => (h2 c hc).2.2.1, fun c hc => (h2 c hc).2.2.2, h6, h7⟩

theorem mem_chan_store {h : List channel_data} {c' x : channel_data}
    (hnd : (h.map (fun c => c.channel_id)).Nodup)
    (hx : x ∈ chan_store h c') : x = c' ∨ (x ∈ h ∧ x.channel_id ≠ c'.channel_id) := by
  induction h with
  | nil => simp [chan_store] at hx
  | cons y ys ih =>
    simp only [List.map_cons, List.nodup_cons, List.mem_map, not_exists, not_and] at hnd
    unfold chan_store at hx
    by_cases hy : y.channel_id = c'.channel_id
    · simp only [hy, if_true, List.mem_cons] at hx
      rcases hx with hx | hx
      · exact Or.inl hx
      · right
        refine ⟨List.mem_cons_of_mem _ hx, ?_⟩
        intro he
        exact hnd.1 x hx (he.trans hy.symm)
    · simp only [hy, if_false, List.mem_cons] at hx
      rcases hx with hx | hx
      · right
        subst hx
        exact ⟨List.mem_cons_self _ _, hy⟩
      · rcases ih hnd.2 hx with h1 | h1
        · exact Or.inl h1
        · exact Or.inr ⟨List.mem_cons_of_mem _ h1.1, h1.2⟩

theorem hash_del_ids_nodup {h : List channel_data} (id : Nat)
    (hnd : (h.map (fun c => c.channel_id)).Nodup) :
    ((hash_del h id).map (fun c => c.channel_id)).Nodup := by
  unfold hash_del
  exact List.Nodup.sublist ((List.eraseP_sublist h).map _) hnd

theorem mem_hash_del {h : List channel_data} {id : Nat} {x : channel_data}
    (hnd : (h.map (fun c => c.channel_id)).Nodup) (hx : x ∈ hash_del h id) :
    x ∈ h ∧ x.channel_id ≠ id := by
  induction h with
  | nil => simp [hash_del] at hx
  | cons y ys ih =>
    simp only [List.map_cons, List.nodup_cons, List.mem_map, not_exists, not_and] at hnd
    by_cases hy : y.channel_id = id
    · simp only [hash_del, List.eraseP_cons, hy, decide_True, cond_true] at hx
      refine ⟨List.mem_cons_of_mem _ hx, ?_⟩
      intro he
      exact hnd.1 x hx (he.trans hy.symm)
    · simp only [hash_del, List.eraseP_cons, hy, decide_False, cond_false, List.mem_cons] at hx
      rcases hx with hx | hx
      · subst hx
        exact ⟨List.mem_cons_self _ _, hy⟩
      · have := ih hnd.2 (by simpa [hash_del] using hx)
        exact ⟨List.mem_cons_of_mem _ this.1, this.2⟩

theorem mem_lookup {h : List channel_data} {c : channel_data} (hc : c ∈ h) :
    ∃ c0, chan_lookup h c.channel_id = some c0 := by
  unfold chan_lookup
  cases hf : h.find? (fun x => decide (x.channel_id = c.channel_id)) with
  | some c0 => exact ⟨c0, rfl⟩
  | none =>
    rw [List.find?_eq_none] at hf
    have := hf c hc
    simp at this

theorem mem_store_of_mem {h : List channel_data} {c' x : channel_data} (hx : x ∈ h)
    (hne : x.channel_id ≠ c'.channel_id) : x ∈ chan_store h c' := by
  induction h with
  | nil => simp at hx
  | cons y ys ih =>
    unfold chan_store
    rcases List.mem_cons.mp hx with hx | hx
    · subst hx
      simp [hne]
    · by_cases hy : y.channel_id = c'.channel_id
      · simp [hy, hx]
      · simp only [hy, if_false]
        exact List.mem_cons_of_mem _ (ih hx)
theorem driver_inv_update {held held' : Nat → Nat} {d : driver_state} {g' : genmsg_state}
    {parked' : List parked_hangup} {id : Nat} {c : channel_data} (c' : channel_data)
    (hinv : driver_inv_held held d)
    (hl : chan_lookup d.g.channel_hash id = some c)
    (hh : g'.channel_hash = chan_store d.g.channel_hash c')
    (hida : g'.channel_ida = d.g.channel_ida)
    (hlog : genmsg_effect.assert_failed 169 ∈ g'.log → genmsg_effect.assert_failed 169 ∈ d.g.log)
    (hid : c'.channel_id = id)
    (href : c'.ref = (if c'.closing = _chnl_close_done then 0 else 1)
      + parked_on parked' id + held' id)
    (hdone : c'.closing = _chnl_close_done → c'.hanging_up = true)
    (hpos : 1 ≤ c'.ref)
    (hother : ∀ j, j ≠ id → parked_on parked' j + held' j = parked_on d.parked j + held j)
    (hpark : ∀ p ∈ parked', p ∈ d.parked ∨ p.channel = id) :
    driver_inv_held held' { g := g', parked := parked' } := by
  rw [driver_inv_held_iff] at hinv ⊢
  obtain ⟨h1, h2, h3, h4⟩ := hinv
  dsimp only
  have hmem : c' ∈ g'.channel_hash := by
    rw [hh]
    have := chan_lookup_store_self hl hid
    exact chan_lookup_mem this
  refine ⟨?_, ?_, ?_, fun h => h4 (hlog h)⟩
  · rw [hh, chan_store_ids]; exact h1
  · intro x hx
    rw [hh] at hx
    rcases mem_chan_store h1 hx with hx | ⟨hx, hne⟩
    · subst hx
      have hc := h2 c (chan_lookup_mem hl)
      rw [chan_lookup_id hl] at hc
      rw [hida, hid]
      exact ⟨hc.1, href, hdone, hpos⟩
    · have hc := h2 x hx
      rw [hid] at hne
      rw [hida]
      refine ⟨hc.1, ?_, hc.2.2.1, hc.2.2.2⟩
      have := hother _ hne
      omega
  · intro p hp
    rcases hpark p hp with hp | hp
    · obtain ⟨x, hx, hxid⟩ := h3 p hp
      by_cases hne : x.channel_id = id
      · exact ⟨c', hmem, by rw [hid, ← hne, hxid]⟩
      · refine ⟨x, ?_, hxid⟩
        rw [hh]
        exact mem_store_of_mem hx (by rw [hid]; exact hne)
    · exact ⟨c', hmem, by rw [hid, hp]⟩

theorem driver_inv_delete {held held' : Nat → Nat} {d : driver_state} {g' : genmsg_state}
    {parked' : List parked_hangup} (id : Nat)
    (hinv : driver_inv_held held d)
    (hh : g'.channel_hash = hash_del d.g.channel_hash id)
    (hida : g'.channel_ida = ida_simple_remove d.g.channel_ida id)
    (hlog : genmsg_effect.assert_failed 169 ∈ g'.log → genmsg_effect.assert_failed 169 ∈ d.g.log)
    (hother : ∀ j, j ≠ id → parked_on parked' j + held' j = parked_on d.parked j + held j)
    (hpark : ∀ p ∈ parked', p ∈ d.parked ∧ p.channel ≠ id) :
    driver_inv_held held' { g := g', parked := parked' } := by
  rw [driver_inv_held_iff] at hinv ⊢
  obtain ⟨h1, h2, h3, h4⟩ := hinv
  dsimp only
  refine ⟨?_, ?_, ?_, fun h => h4 (hlog h)⟩
  · rw [hh]; exact hash_del_ids_nodup id h1
  · intro x hx
    rw [hh] at hx
    obtain ⟨hx, hne⟩ := mem_hash_del h1 hx
    have hc := h2 x hx
    rw [hida]
    refine ⟨?_, ?_, hc.2.2.1, hc.2.2.2⟩
    · unfold ida_simple_remove
      exact (List.mem_erase_of_ne hne).mpr hc.1
    · have := hother _ hne
      omega
  · intro p hp
    obtain ⟨hp, hne⟩ := hpark p hp
    obtain ⟨x, hx, hxid⟩ := h3 p hp
    refine ⟨x, ?_, hxid⟩
    rw [hh]
    unfold hash_del
    rw [List.mem_eraseP_of_neg]
    · exact hx
    · simp [hxid, hne]

theorem parked_on_fresh {held : Nat → Nat} {d : driver_state} {id : Nat}
    (hinv : driver_inv_held held d) (hfresh : id ∉ d.g.channel_ida) :
    parked_on d.parked id = 0 := by
  rw [driver_inv_held_iff] at hinv
  obtain ⟨_, h2, h3, _⟩ := hinv
  unfold parked_on
  rw [List.count_eq_zero]
  intro hm
  obtain ⟨p, hp, hpid⟩ := List.mem_map.mp hm
  obtain ⟨x, hx, hxid⟩ := h3 p hp
  apply hfresh
  rw [← hpid, ← hxid]
  exact (h2 x hx).1

theorem driver_inv_add {held : Nat → Nat} {d : driver_state} {g' : genmsg_state}
    (id : Nat) (c' : channel_data)
    (hinv : driver_inv_held held d)
    (hfresh : id ∉ d.g.channel_ida)
    (hh : g'.channel_hash = c' :: d.g.channel_hash)
    (hida : g'.channel_ida = ida_insert d.g.channel_ida id)
    (hlog : genmsg_effect.assert_failed 169 ∈ g'.log → genmsg_effect.assert_failed 169 ∈ d.g.log)
    (hid : c'.channel_id = id) (href : c'.ref = 1) (hcl : c'.closing = _chnl_open)
    (hheld : held id = 0) :
    driver_inv_held held { g := g', parked := d.parked } := by
  have hp0 := parked_on_fresh hinv hfresh
  rw [driver_inv_held_iff] at hinv ⊢
  obtain ⟨h1, h2, h3, h4⟩ := hinv
  dsimp only
  refine ⟨?_, ?_, ?_, fun h => h4 (hlog h)⟩
  · rw [hh]
    simp only [List.map_cons, List.nodup_cons, List.mem_map, not_exists, not_and]
    refine ⟨?_, h1⟩
    intro x hx he
    apply hfresh
    rw [← hid, ← he]
    exact (h2 x hx).1
  · intro x hx
    rw [hh] at hx
    rw [hida]
    unfold ida_insert
    rcases List.mem_cons.mp hx with hx | hx
    · subst hx
      refine ⟨by simp [hid], ?_, by simp [hcl], by omega⟩
      rw [hid, hp0, hheld, href, hcl]
      simp
    · have hc := h2 x hx
      exact ⟨List.mem_cons_of_mem _ hc.1, hc.2⟩
  · intro p hp
    obtain ⟨x, hx, hxid⟩ := h3 p hp
    exact ⟨x, by rw [hh]; exact List.mem_cons_of_mem _ hx, hxid⟩
theorem driver_inv_held_congr {held held' : Nat → Nat} {d : driver_state}
    (h : ∀ j, held j = held' j) (hinv : driver_inv_held held d) : driver_inv_held held' d := by
  have : held = held' := funext h
  rw [← this]
  exact hinv

theorem inv_emit {held : Nat → Nat} {g : genmsg_state} {P : List parked_hangup}
    (e : genmsg_effect) (hinv : driver_inv_held held ⟨g, P⟩) (he : e ≠ .assert_failed 169) :
    driver_inv_held held ⟨emit g e, P⟩ :=
  driver_inv_held_frame hinv (frame_emit e (frame_refl g) he)

theorem inv_lookup {held : Nat → Nat} {g : genmsg_state} {P : List parked_hangup} {id : Nat}
    {c : channel_data} (hinv : driver_inv_held held ⟨g, P⟩)
    (hl : chan_lookup g.channel_hash id = some c) :
    c.ref = (if c.closing = _chnl_close_done then 0 else 1) + parked_on P id + held id ∧
    (c.closing = _chnl_close_done → c.hanging_up = true) ∧ 1 ≤ c.ref := by
  rw [driver_inv_held_iff] at hinv
  have := hinv.2.1 c (chan_lookup_mem hl)
  rw [chan_lookup_id hl] at this
  exact this.2

theorem inv_set {held : Nat → Nat} {g : genmsg_state} {P : List parked_hangup} {id : Nat}
    {c : channel_data} (c' : channel_data) (hinv : driver_inv_held held ⟨g, P⟩)
    (hl : chan_lookup g.channel_hash id = some c) (hid : c'.channel_id = c.channel_id)
    (href : c'.ref = c.ref) (hcl : c'.closing = c.closing)
    (hh : c.hanging_up = true → c'.hanging_up = true) :
    driver_inv_held held ⟨set_channel g c', P⟩ := by
  have hc := inv_lookup hinv hl
  refine driver_inv_update _ hinv hl rfl rfl (fun h => h) (hid.trans (chan_lookup_id hl)) ?_ ?_ ?_
    (fun _ _ => rfl) (fun p hp => Or.inl hp)
  · rw [href, hcl]; exact hc.1
  · rw [hcl]; exact fun h => hh (hc.2.1 h)
  · rw [href]; exact hc.2.2

theorem inv_set_closing {held : Nat → Nat} {g : genmsg_state} {P : List parked_hangup}
    {id : Nat} {c : channel_data} (c' : channel_data) (hinv : driver_inv_held held ⟨g, P⟩)
    (hl : chan_lookup g.channel_hash id = some c) (hid : c'.channel_id = c.channel_id)
    (href : c'.ref = c.ref) (hcl : c.closing ≠ _chnl_close_done)
    (hcl' : c'.closing ≠ _chnl_close_done) :
    driver_inv_held held ⟨set_channel g c', P⟩ := by
  have hc := inv_lookup hinv hl
  refine driver_inv_update _ hinv hl rfl rfl (fun h => h) (hid.trans (chan_lookup_id hl)) ?_ ?_ ?_
    (fun _ _ => rfl) (fun p hp => Or.inl hp)
  · rw [href, if_neg hcl']; rw [if_neg hcl] at hc; exact hc.1
  · exact fun h => absurd h hcl'
  · rw [href]; exact hc.2.2

theorem inv_set_done {held : Nat → Nat} {g : genmsg_state} {P : List parked_hangup}
    {id : Nat} {c : channel_data} (c' : channel_data) (hinv : driver_inv_held held ⟨g, P⟩)
    (hl : chan_lookup g.channel_hash id = some c) (hid : c'.channel_id = c.channel_id)
    (href : c'.ref = c.ref) (hcl : c.closing ≠ _chnl_close_done)
    (hcl' : c'.closing = _chnl_close_done) (hh : c'.hanging_up = true) :
    driver_inv_held (held_inc held id) ⟨set_channel g c', P⟩ := by
  have hc := inv_lookup hinv hl
  refine driver_inv_update _ hinv hl rfl rfl (fun h => h) (hid.trans (chan_lookup_id hl)) ?_ ?_ ?_
    ?_ (fun p hp => Or.inl hp)
  · rw [href, if_pos hcl']; rw [if_neg hcl] at hc
    simp only [held_inc, if_true]
    omega
  · exact fun _ => hh
  · rw [href]; exact hc.2.2
  · intro j hj
    simp [held_inc, hj]

theorem inv_put {held : Nat → Nat} {g : genmsg_state} {P : List parked_hangup} {id : Nat}
    {c : channel_data} (hinv : driver_inv_held held ⟨g, P⟩)
    (hl : chan_lookup g.channel_hash id = some c) (hheld : 1 ≤ held id) :
    driver_inv_held (held_dec held id) ⟨channel_put g id, P⟩ ∧
    (2 ≤ held id →
      chan_lookup (channel_put g id).channel_hash id = some { c with ref := c.ref - 1 }) := by
  have hc := inv_lookup hinv hl
  have hid := chan_lookup_id hl
  by_cases h1 : c.ref = 1
  · have hdone : c.closing = _chnl_close_done := by
      by_contra hne
      rw [if_neg hne] at hc
      omega
    have hp0 : parked_on P id = 0 := by
      rw [if_pos hdone] at hc; omega
    have hh1 : held id = 1 := by
      rw [if_pos hdone] at hc; omega
    constructor
    · rw [channel_put_last g id c hl h1]
      refine driver_inv_delete id hinv ?_ ?_ ?_ ?_ ?_
      · simp [free_channel, set_channel, emit, hid, hash_del_store, hdone, hc.2.1 hdone]
      · simp [free_channel, set_channel, emit, hid, hdone, hc.2.1 hdone]
      · simp [free_channel, set_channel, emit, hdone, hc.2.1 hdone]
      · intro j hj
        simp [held_dec, hj]
      · intro p hp
        refine ⟨hp, ?_⟩
        intro he
        have : 0 < parked_on P id := by
          unfold parked_on
          rw [List.count_pos_iff]
          exact List.mem_map.mpr ⟨p, hp, he⟩
        omega
    · intro h2; omega
  · have h2 : 2 ≤ c.ref := by omega
    rw [channel_put_many g id c hl h2]
    constructor
    · refine driver_inv_update { c with ref := c.ref - 1 } hinv hl rfl rfl (fun h => h) hid ?_ ?_ ?_
        ?_ (fun p hp => Or.inl hp)
      · simp only [held_dec, if_true]
        have := hc.1
        show c.ref - 1 = _
        omega
      · exact hc.2.1
      · show 1 ≤ c.ref - 1
        omega
      · intro j hj
        simp [held_dec, hj]
    · intro _
      exact chan_lookup_store_self hl hid
theorem inv_find_channel {held : Nat → Nat} {g g1 : genmsg_state} {P : List parked_hangup}
    {id : Nat} {c : channel_data} (hinv : driver_inv_held held ⟨g, P⟩)
    (hf : find_channel g id = (some c, g1)) :
    driver_inv_held (held_inc held id) ⟨g1, P⟩ ∧ c.channel_id = id ∧
    chan_lookup g1.channel_hash id = some c := by
  unfold find_channel at hf
  split at hf
  · cases hf
  rename_i c0 hl
  split at hf
  · cases hf
  cases hf
  have hc := inv_lookup hinv hl
  have hid := chan_lookup_id hl
  refine ⟨?_, hid, chan_lookup_store_self hl hid⟩
  refine driver_inv_update { c0 with ref := c0.ref + 1 } hinv hl rfl rfl (fun h => h)
    hid ?_ hc.2.1 ?_ ?_ (fun p hp => Or.inl hp)
  · simp only [held_inc, if_true]
    have := hc.1
    show c0.ref + 1 = _
    omega
  · show 1 ≤ c0.ref + 1
    omega
  · intro j hj
    simp [held_inc, hj]

theorem find_channel_none {g g1 : genmsg_state} {id : Nat}
    (hf : find_channel g id = (none, g1)) : g1 = g := by
  unfold find_channel at hf
  split at hf
  · cases hf; rfl
  split at hf
  · cases hf; rfl
  · cases hf

theorem parked_on_cons (p : parked_hangup) (P : List parked_hangup) (j : Nat) :
    parked_on (p :: P) j = parked_on P j + (if p.channel = j then 1 else 0) := by
  unfold parked_on
  simp only [List.map_cons, List.count_cons, beq_iff_eq]

theorem parked_on_erase {p : parked_hangup} {P : List parked_hangup} (hp : p ∈ P) (j : Nat) :
    parked_on P j = parked_on (P.erase p) j + (if p.channel = j then 1 else 0) := by
  induction P with
  | nil => simp at hp
  | cons q Q ih =>
    by_cases hq : q = p
    · subst hq
      rw [List.erase_cons_head, parked_on_cons]
    · have hp' : p ∈ Q := by
        rcases List.mem_cons.mp hp with h | h
        · exact absurd h.symm hq
        · exact h
      rw [List.erase_cons_tail (by simpa using hq), parked_on_cons, parked_on_cons, ih hp']
      omega

theorem inv_park {held : Nat → Nat} {g : genmsg_state} {P : List parked_hangup} {id : Nat}
    {c : channel_data} (p : parked_hangup) (hinv : driver_inv_held held ⟨g, P⟩)
    (hl : chan_lookup g.channel_hash id = some c) (hp : p.channel = id)
    (hheld : 1 ≤ held id) :
    driver_inv_held (held_dec held id) ⟨g, p :: P⟩ := by
  have hc := inv_lookup hinv hl
  refine driver_inv_update c hinv hl (chan_store_same hl).symm rfl (fun h => h)
    (chan_lookup_id hl) ?_ hc.2.1 hc.2.2 ?_ ?_
  · rw [parked_on_cons, if_pos hp]
    simp only [held_dec, if_true]
    have := hc.1
    omega
  · intro j hj
    have : ¬ p.channel = j := by rw [hp]; exact fun h => hj h.symm
    rw [parked_on_cons, if_neg this]
    simp [held_dec, hj]
  · intro q hq
    rcases List.mem_cons.mp hq with h | h
    · right; rw [h]; exact hp
    · left; exact h

theorem inv_unpark {held : Nat → Nat} {g : genmsg_state} {P : List parked_hangup}
    {c : channel_data} (p : parked_hangup) (hinv : driver_inv_held held ⟨g, P⟩)
    (hl : chan_lookup g.channel_hash p.channel = some c) (hp : p ∈ P) :
    driver_inv_held (held_inc held p.channel) ⟨g, P.erase p⟩ := by
  have hc := inv_lookup hinv hl
  refine driver_inv_update c hinv hl (chan_store_same hl).symm rfl (fun h => h)
    (chan_lookup_id hl) ?_ hc.2.1 hc.2.2 ?_ ?_
  · have := parked_on_erase hp p.channel
    rw [if_pos rfl] at this
    simp only [held_inc, if_true]
    have := hc.1
    omega
  · intro j hj
    have hne : ¬ p.channel = j := fun h => hj h.symm
    have := parked_on_erase hp j
    rw [if_neg hne] at this
    simp only [held_inc, if_neg hj]
    omega
  · intro q hq
    left
    exact List.mem_of_mem_erase hq
theorem inv_hangup_rest {held : Nat → Nat} {g : genmsg_state} {P : List parked_hangup}
    {id : Nat} {c : channel_data} (req : h2c_GenericMessaging) (cmd_chan : sphcs_cmd_chan)
    (alloc : Bool) (hinv : driver_inv_held held ⟨g, P⟩)
    (hl : chan_lookup g.channel_hash id = some c) (hheld : 1 ≤ held id) :
    driver_inv_held (held_dec held id) ⟨(genmsg_hangup_rest g id req cmd_chan alloc).2, P⟩ := by
  have hc := inv_lookup hinv hl
  have hid := chan_lookup_id hl
  have h1 := inv_emit (.cmd_chan_put cmd_chan) hinv (by simp)
  have hl1 : chan_lookup (emit g (.cmd_chan_put cmd_chan)).channel_hash id = some c := hl
  unfold genmsg_hangup_rest
  simp only [emit_channel_hash, hl]
  split
  · exact (inv_put h1 hl1 hheld).1
  rename_i hh
  generalize hs3 : emit (if c.n_read_dma_req > 0 then
      emit (emit g (.cmd_chan_put cmd_chan)) (.assert_failed 1441)
    else emit g (.cmd_chan_put cmd_chan)) (.destroy_cb_clear c.cmd_chan) = s3
  have h3 : driver_inv_held held ⟨s3, P⟩ := by
    rw [← hs3]
    apply inv_emit _ _ (by simp)
    split
    · exact inv_emit _ h1 (by simp)
    · exact h1
  have hl3 : chan_lookup s3.channel_hash id = some c := by
    rw [← hs3]
    simp only [emit_channel_hash]
    split <;> exact hl
  have hput : ∀ c' : channel_data, c'.channel_id = c.channel_id → c'.ref = c.ref →
      c'.closing = c.closing → c'.hanging_up = true →
      driver_inv_held (held_dec held id) ⟨channel_put (set_channel s3 c') id, P⟩ := by
    intro c' h1' h2' h3' h4'
    have hs := inv_set c' h3 hl3 h1' h2' h3' (fun _ => h4')
    exact (inv_put hs (chan_lookup_store_self hl3 (h1'.trans hid)) hheld).1
  split
  · split
    · exact hput _ rfl rfl rfl rfl
    · exact hput _ rfl rfl rfl rfl
  split
  · exact hput _ rfl rfl rfl rfl
  split
  · rename_i hno hnp hr
    have hs := inv_set_done { c with hanging_up := true, closing := _chnl_close_done }
      h3 hl3 rfl rfl (by rw [hr]; simp) rfl rfl
    have hls :=
      @chan_lookup_store_self _ _ _ { c with hanging_up := true, closing := _chnl_close_done }
        hl3 hid
    have he1 := inv_emit (.set_close_done id) hs (by simp)
    have he2 := inv_emit (.owner_put id) he1 (by simp)
    have hi : 2 ≤ held_inc held id id := by simp only [held_inc, if_true]; omega
    have hp1 := inv_put he2 hls (by omega)
    have hp2 := inv_put hp1.1 (hp1.2 hi) (by simp only [held_dec, held_inc, if_true]; omega)
    refine driver_inv_held_congr ?_ hp2.1
    intro j
    by_cases hj : j = id
    · simp only [held_dec, held_inc, hj, if_true]; omega
    · simp only [held_dec, held_inc, hj, if_false]
  · rename_i hno hnp hnr
    exfalso
    have hd : c.closing = _chnl_close_done := by
      cases hcl : c.closing <;> simp_all
    exact hh (hc.2.1 hd)
theorem frame_accept_done (B : Nat) {g g1 : genmsg_state} (pend : pending_packet)
    (channel : Option channel_data) (ret : Int) (h : frame g g1) :
    frame g (accept_done B g1 pend channel ret).2 := by
  unfold accept_done
  apply frame_emit _ _ (by simp)
  dsimp only
  split
  · cases channel
    · exact frame_emit _ (frame_emit _ h (by simp)) (by simp)
    · exact frame_emit _ (frame_emit _ (frame_emit _ h (by simp)) (by simp)) (by simp)
  · cases channel
    · exact frame_emit _ h (by simp)
    · exact frame_emit _ (frame_emit _ h (by simp)) (by simp)

theorem inv_accept_done (B : Nat) {held : Nat → Nat} {g1 : genmsg_state}
    {P : List parked_hangup} (pend : pending_packet)
    (channel : Option channel_data) (ret : Int) (h : driver_inv_held held ⟨g1, P⟩) :
    driver_inv_held held ⟨(accept_done B g1 pend channel ret).2, P⟩ :=
  driver_inv_held_frame h (frame_accept_done B pend channel ret (frame_refl g1))

theorem inv_accept {B : Nat} {d : driver_state} {f : file} {env : accept_env}
    {r : Int × Option Int × genmsg_state} (hinv : driver_inv d)
    (h : process_accept_client B d.g f env = some r) : driver_inv { d with g := r.2.2 } := by
  unfold process_accept_client at h
  split at h
  · cases h; exact hinv
  split at h
  · cases h; exact driver_inv_frame hinv (frame_emit _ (frame_refl _) (by simp))
  split at h
  · cases h
  split at h
  · cases h; exact hinv
  split at h
  · cases h; exact driver_inv_frame hinv (frame_emit _ (frame_refl _) (by simp))
  rename_i pend rest hpc
  dsimp only at h
  split at h
  · cases h
    apply driver_inv_frame hinv
    refine frame_accept_done B pend none (-ENOMEM_errno) ?_
    exact frame_service_list _ (frame_refl _)
  split at h
  · cases h
    apply driver_inv_frame hinv
    refine frame_accept_done B pend none (-ENOSPC_errno) ?_
    exact frame_service_list _ (frame_refl _)
  rename_i id hida
  have hfresh := (ida_simple_get_some hida).2.2
  split at h
  · cases h
    apply driver_inv_frame hinv
    refine frame_accept_done B pend none env.fd ?_
    refine ⟨?_, ?_, fun h => h⟩
    · simp [table_keys, hash_add, hash_del, accept_new_channel]
    · simp [ida_simple_remove, ida_insert]
  split at h
  · cases h
    apply driver_inv_frame hinv
    refine frame_accept_done B pend none (env.copy_ret : Int) ?_
    refine ⟨?_, ?_, fun h => h⟩
    · simp [table_keys, hash_add, hash_del, accept_new_channel, set_channel, chan_store]
    · simp [ida_simple_remove, ida_insert, set_channel]
  · cases h
    refine inv_accept_done B pend (some _) 0 ?_
    refine driver_inv_add id { accept_new_channel pend id with fd := env.fd, ref := 1 }
      hinv hfresh ?_ rfl (fun h => h) rfl rfl rfl rfl
    simp [hash_add, accept_new_channel, set_channel, chan_store]
theorem inv_release_pending_packets {held : Nat → Nat} {P : List parked_hangup}
    (l : List pending_packet) :
    ∀ g : genmsg_state, driver_inv_held held ⟨g, P⟩ →
      driver_inv_held held ⟨release_pending_packets g l, P⟩ := by
  induction l with
  | nil => intro g h; exact h
  | cons p rest ih =>
    intro g h
    unfold release_pending_packets
    apply ih
    split
    · exact h
    · exact inv_emit _ h (by simp)

theorem inv_release_preclose {d : driver_state} {channel : Nat} {c : channel_data}
    (hinv : driver_inv d) (hl : chan_lookup d.g.channel_hash channel = some c)
    (hcl : c.closing = _chnl_open) :
    driver_inv { d with g := sphcs_genmsg_chan_release_preclose d.g channel } := by
  unfold sphcs_genmsg_chan_release_preclose
  simp only [hl]
  apply inv_release_pending_packets
  exact inv_set_closing _ hinv hl rfl rfl (by rw [hcl]; simp) (by simp)

theorem inv_release_finish {d : driver_state} {channel : Nat} {c : channel_data}
    (hinv : driver_inv d) (hl : chan_lookup d.g.channel_hash channel = some c)
    (hcl : c.closing = _chnl_preclose) :
    driver_inv { d with g := sphcs_genmsg_chan_release_finish d.g channel } := by
  have hid := chan_lookup_id hl
  have hne : c.closing ≠ _chnl_close_done := by rw [hcl]; simp
  unfold sphcs_genmsg_chan_release_finish
  simp only [hl]
  split
  · rename_i hh
    have hs := inv_set_done { c with closing := _chnl_close_done }
      hinv hl rfl rfl hne rfl hh
    have hls := @chan_lookup_store_self _ _ _ { c with closing := _chnl_close_done } hl hid
    have he1 := inv_emit (.set_close_done channel) hs (by simp)
    have he2 := inv_emit (.owner_put channel) he1 (by simp)
    have hp := (inv_put he2 hls (by simp [held_inc])).1
    refine driver_inv_held_congr ?_ hp
    intro j
    by_cases hj : j = channel
    · simp [held_dec, held_inc, hj]
    · simp [held_dec, held_inc, hj]
  · exact inv_set_closing _ hinv hl rfl rfl hne (by simp)

theorem inv_hangup_park {d : driver_state} {req : h2c_GenericMessaging}
    {cmd_chan : sphcs_cmd_chan} {c : channel_data} {g1 : genmsg_state}
    (hinv : driver_inv d) (hf : find_channel d.g req.card_client_id = (some c, g1)) :
    driver_inv { g := g1, parked := ⟨c.channel_id, req, cmd_chan⟩ :: d.parked } := by
  obtain ⟨h1, hid, hl1⟩ := inv_find_channel hinv hf
  have hp := inv_park ⟨c.channel_id, req, cmd_chan⟩ h1 hl1 hid (by simp [held_inc])
  refine driver_inv_held_congr ?_ hp
  intro j
  by_cases hj : j = req.card_client_id
  · simp [held_dec, held_inc, hj]
  · simp [held_dec, held_inc, hj]

theorem inv_hangup_resume {d : driver_state} {p : parked_hangup} {c : channel_data}
    (alloc : Bool) (hinv : driver_inv d) (hp : p ∈ d.parked)
    (hl : chan_lookup d.g.channel_hash p.channel = some c) :
    driver_inv { g := (genmsg_hangup_rest d.g p.channel p.req p.cmd_chan alloc).2,
                 parked := d.parked.erase p } := by
  have h1 := inv_unpark p hinv hl hp
  have h2 := inv_hangup_rest p.req p.cmd_chan alloc h1 hl (by simp [held_inc])
  refine driver_inv_held_congr ?_ h2
  intro j
  by_cases hj : j = p.channel
  · simp [held_dec, held_inc, hj]
  · simp [held_dec, held_inc, hj]
theorem frame_genmsg_fetch (B : Nat) (g : genmsg_state) (req : h2c_GenericMessaging)
    (cmd_chan : sphcs_cmd_chan) (channel : Option Nat) (env : cmd_env) :
    frame g (genmsg_fetch B g req cmd_chan channel env).2 := by
  unfold genmsg_fetch
  split
  · exact frame_emit _ (frame_emit _ (frame_refl g) (by simp)) (by simp)
  dsimp only
  split
  · rename_i s1 hb
    apply frame_handle_cmd_dma_failed
    split at hb
    · cases hb
    split at hb
    · cases hb
    rename_i c hl
    simp only [Prod.mk.injEq] at hb
    rw [← hb.2]
    exact frame_set_channel _ (frame_refl g) (key_of_lookup hl rfl)
  · rename_i s1 hb
    have hs1 : frame g s1 := by
      split at hb
      · cases hb; exact frame_refl g
      split at hb
      · cases hb; exact frame_emit _ (frame_refl g) (by simp)
      rename_i c hl
      simp only [Prod.mk.injEq] at hb
      rw [← hb.2]
      exact frame_set_channel _ (frame_refl g) (key_of_lookup hl rfl)
    split
    · exact frame_handle_cmd_dma_failed B _ (frame_emit _ hs1 (by simp))
    · exact frame_emit _ hs1 (by simp)

theorem held_dec_inc (held : Nat → Nat) (id : Nat) (j : Nat) :
    held_dec (held_inc held id) id j = held j := by
  by_cases hj : j = id
  · simp [held_dec, held_inc, hj]
  · simp [held_dec, held_inc, hj]

theorem inv_command {B : Nat} {d : driver_state} {req : h2c_GenericMessaging}
    {cmd_chan : sphcs_cmd_chan} {env : cmd_env} {r : Int × genmsg_state}
    (hinv : driver_inv d) (h : process_genmsg_command B d.g req cmd_chan env = some r) :
    driver_inv { d with g := r.2 } := by
  unfold process_genmsg_command at h
  split at h
  · cases h; exact driver_inv_frame hinv (frame_emit _ (frame_refl _) (by simp))
  split at h
  · cases h; exact driver_inv_frame hinv (frame_send_service_list _ _ _)
  split at h
  · split at h
    · rename_i s1 hf
      cases h
      rw [find_channel_none hf]
      apply driver_inv_frame hinv
      apply frame_emit _ _ (by simp)
      split
      · exact frame_emit _ (frame_refl _) (by simp)
      · exact frame_refl _
    · rename_i c s1 hf
      obtain ⟨h1, hid, hl1⟩ := inv_find_channel hinv hf
      rw [← hid] at h1 hl1
      have hput := inv_put h1 hl1 (by simp [held_inc])
      have hput0 : driver_inv_held (fun _ => 0) ⟨channel_put s1 c.channel_id, d.parked⟩ :=
        driver_inv_held_congr (held_dec_inc _ _) hput.1
      split at h
      · cases h
        exact inv_emit _ hput0 (by simp)
      split at h
      · split at h
        · cases h
        · cases h
          have h2 := inv_hangup_rest req cmd_chan env.pend_alloc h1 hl1 (by simp [held_inc])
          exact driver_inv_held_congr (held_dec_inc _ _) h2
      · cases h
        have h3 := driver_inv_held_frame hput0
          (frame_genmsg_fetch B _ req cmd_chan (some c.channel_id) env)
        exact h3
  split at h
  · cases h; exact driver_inv_frame hinv (frame_emit _ (frame_refl _) (by simp))
  · cases h; exact driver_inv_frame hinv (frame_genmsg_fetch _ _ _ _ _ _)

theorem driver_inv_init : driver_inv driver_init := by
  unfold driver_inv driver_inv_held driver_init table_keys
  simp

theorem driver_inv_step {B : Nat} {d d' : driver_state} (hinv : driver_inv d)
    (hs : driver_step B d d') : driver_inv d' := by
  cases hs with
  | register f name_len name env => exact driver_inv_frame hinv (frame_register _ _ _ _ _)
  | service_release f => exact driver_inv_frame hinv (frame_service_release _ _ _)
  | accept f env r h => exact inv_accept hinv h
  | read f size i nc r h => exact driver_inv_frame hinv (frame_chan_read h)
  | write f buf size env => exact driver_inv_frame hinv (frame_chan_write _ _ _ _ _)
  | release_preclose channel c hl hcl => exact inv_release_preclose hinv hl hcl
  | release_notify channel c i g' hl hcl h => exact driver_inv_frame hinv (frame_release_notify h)
  | release_finish channel c hl hcl => exact inv_release_finish hinv hl hcl
  | command req cmd_chan env r h => exact inv_command hinv h
  | hangup_park req cmd_chan c g1 _ _ _ hf _ => exact inv_hangup_park hinv hf
  | hangup_resume p c i alloc hp hl _ => exact inv_hangup_resume alloc hinv hp hl
  | cmd_chan_get cmd_chan => exact driver_inv_frame hinv (frame_emit _ (frame_refl _) (by simp))
  | cmd_dma_complete dma_data status alloc =>
    exact driver_inv_frame hinv (frame_cmd_dma_complete _ _ _ _ _)
  | response_dma_complete user_data status =>
    exact driver_inv_frame hinv (frame_response_dma_complete _ _ _)
  | service_list_dma_complete user_data status =>
    exact driver_inv_frame hinv (frame_service_list_dma_complete _ _ _)

theorem driver_inv_reachable {B : Nat} {d : driver_state} (h : driver_reachable B d) :
    driver_inv d := by
  unfold driver_reachable at h
  induction h with
  | refl => exact driver_inv_init
  | tail _ hs ih => exact driver_inv_step ih hs
theorem option_eq_getD {α : Type} (o : Option α) (x : α) (h : o.isSome = true) :
    o = some (o.getD x) := by
  cases o with
  | none => simp at h
  | some v => rfl

set_option maxRecDepth 1000000 in
theorem trace_reachable : driver_reachable 4095 trace_d7 := by
  unfold driver_reachable
  have h1 : driver_step 4095 driver_init trace_d1 :=
    driver_step.register driver_init trace_service_file 1 [65] trace_register_env
  have h2 : driver_step 4095 trace_d1 trace_d2 :=
    driver_step.cmd_dma_complete trace_d1 trace_connect dma_status.SPHCS_DMA_STATUS_DONE true
  have h3 : driver_step 4095 trace_d2 trace_d3 :=
    driver_step.accept trace_d2 trace_registered_file trace_accept_env _
      (option_eq_getD _ _ (by decide))
  have h4 : driver_step 4095 trace_d3 trace_d4 :=
    driver_step.command trace_d3 demo_hangup demo_cmd_chan demo_env _
      (option_eq_getD _ _ (by decide))
  have h5 : driver_step 4095 trace_d4 trace_d5 :=
    driver_step.release_preclose trace_d4 1
      ((chan_lookup trace_d4.g.channel_hash 1).getD demo_channel)
      (option_eq_getD _ _ (by decide)) (by decide)
  have h6 : driver_step 4095 trace_d5 trace_d6 :=
    driver_step.release_notify trace_d5 1
      ((chan_lookup trace_d5.g.channel_hash 1).getD demo_channel) false _
      (option_eq_getD _ _ (by decide)) (by decide) (option_eq_getD _ _ (by decide))
  have h7 : driver_step 4095 trace_d6 trace_d7 :=
    driver_step.release_finish trace_d6 1
      ((chan_lookup trace_d6.g.channel_hash 1).getD demo_channel)
      (option_eq_getD _ _ (by decide)) (by decide)
  exact ((((((Relation.ReflTransGen.single h1).tail h2).tail h3).tail h4).tail h5).tail h6).tail h7
/-! ## The assertion of `free_channel` -/

/-- The log records a failure of the assertion at line 169 exactly when
`free_channel` runs on a channel that is not both in `_chnl_close_done` and
hanging up. -/
theorem free_channel_log (s : genmsg_state) (c : channel_data) :
    genmsg_effect.assert_failed 169 ∈ (free_channel s c).log ↔
      genmsg_effect.assert_failed 169 ∈ s.log ∨
        ¬ (c.closing = _chnl_close_done ∧ c.hanging_up = true) := by
  unfold free_channel
  by_cases h : c.closing = _chnl_close_done ∧ c.hanging_up = true
  · simp [emit, h]
  · simp [emit, h]

theorem io_refl (g : genmsg_state) : io_keeps g g :=
  fun c hc => ⟨c, hc, rfl, fun h => h⟩

theorem io_trans {g1 g2 g3 : genmsg_state} (h12 : io_keeps g1 g2) (h23 : io_keeps g2 g3) :
    io_keeps g1 g3 := by
  intro c3 h3
  obtain ⟨c2, h2, hid2, hio2⟩ := h23 c3 h3
  obtain ⟨c1, h1, hid1, hio1⟩ := h12 c2 h2
  exact ⟨c1, h1, hid1.trans hid2, fun h => hio2 (hio1 h)⟩

theorem io_of_hash {g g1 g' : genmsg_state} (h : io_keeps g g1)
    (hh : g'.channel_hash = g1.channel_hash) : io_keeps g g' := by
  intro c hc
  rw [hh] at hc
  exact h c hc

theorem io_emit {g g1 : genmsg_state} (e : genmsg_effect) (h : io_keeps g g1) :
    io_keeps g (emit g1 e) :=
  io_of_hash h rfl

theorem io_service_list {g g1 : genmsg_state} (l : sphcs_genmsg_service_list)
    (h : io_keeps g g1) : io_keeps g { g1 with service_list := l } :=
  io_of_hash h rfl

theorem mem_chan_store_weak {h : List channel_data} {c' x : channel_data}
    (hx : x ∈ chan_store h c') : x = c' ∨ x ∈ h := by
  induction h with
  | nil => simp [chan_store] at hx
  | cons y ys ih =>
    unfold chan_store at hx
    by_cases hy : y.channel_id = c'.channel_id
    · simp only [hy, if_true, List.mem_cons] at hx
      rcases hx with hx | hx
      · exact Or.inl hx
      · exact Or.inr (List.mem_cons_of_mem _ hx)
    · simp only [hy, if_false, List.mem_cons] at hx
      rcases hx with hx | hx
      · exact Or.inr (by rw [hx]; exact List.mem_cons_self _ _)
      · rcases ih hx with h1 | h1
        · exact Or.inl h1
        · exact Or.inr (List.mem_cons_of_mem _ h1)

theorem io_set {g g1 : genmsg_state} {id : Nat} {c : channel_data} (c' : channel_data)
    (h : io_keeps g g1) (hl : chan_lookup g1.channel_hash id = some c)
    (hid : c'.channel_id = c.channel_id)
    (hio : c.io_error = true → c'.io_error = true) : io_keeps g (set_channel g1 c') := by
  intro x hx
  rcases mem_chan_store_weak hx with hx | hx
  · subst hx
    obtain ⟨c0, h0, hid0, hio0⟩ := h c (chan_lookup_mem hl)
    exact ⟨c0, h0, hid0.trans hid.symm, fun h => hio (hio0 h)⟩
  · exact h x hx

theorem io_del {g g1 g' : genmsg_state} (id : Nat) (h : io_keeps g g1)
    (hh : g'.channel_hash = hash_del g1.channel_hash id) : io_keeps g g' := by
  intro x hx
  rw [hh] at hx
  exact h x (List.mem_of_mem_eraseP hx)

theorem io_free_channel {g g1 : genmsg_state} (c : channel_data) (h : io_keeps g g1) :
    io_keeps g (free_channel g1 c) := by
  refine io_del c.channel_id h ?_
  unfold free_channel
  split <;> rfl

theorem io_channel_put {g g1 : genmsg_state} (id : Nat) (h : io_keeps g g1) :
    io_keeps g (channel_put g1 id) := by
  unfold channel_put
  split
  · exact io_emit _ h
  rename_i c hl
  split
  · exact io_emit _ h
  split
  · exact io_free_channel _ (io_set _ h hl rfl (fun h => h))
  · exact io_set _ h hl rfl (fun h => h)

theorem io_find_channel {g g1 : genmsg_state} (id : Nat) (h : io_keeps g g1) :
    io_keeps g (find_channel g1 id).2 := by
  unfold find_channel
  split
  · exact h
  rename_i c hl
  split
  · exact h
  · exact io_set _ h hl rfl (fun h => h)

theorem io_release_pending_packets (l : List pending_packet) :
    ∀ g g1 : genmsg_state, io_keeps g g1 → io_keeps g (release_pending_packets g1 l) := by
  induction l with
  | nil => intro g g1 h; exact h
  | cons p rest ih =>
    intro g g1 h
    unfold release_pending_packets
    apply ih
    split
    · exact h
    · exact io_emit _ h

theorem io_release_preclose (g : genmsg_state) (channel : Nat) :
    io_keeps g (sphcs_genmsg_chan_release_preclose g channel) := by
  unfold sphcs_genmsg_chan_release_preclose
  split
  · exact io_emit _ (io_refl g)
  rename_i c hl
  apply io_release_pending_packets
  exact io_set _ (io_refl g) hl rfl (fun h => h)

theorem io_release_notify {g g' : genmsg_state} {channel : Nat} {i : Bool}
    (h : sphcs_genmsg_chan_release_notify g channel i = some g') : io_keeps g g' := by
  unfold sphcs_genmsg_chan_release_notify at h
  split at h
  · cases h; exact io_emit _ (io_refl g)
  split at h
  · cases h
  cases h
  apply io_emit
  split
  · exact io_emit _ (io_refl g)
  · exact io_refl g

theorem io_release_finish (g : genmsg_state) (channel : Nat) :
    io_keeps g (sphcs_genmsg_chan_release_finish g channel) := by
  unfold sphcs_genmsg_chan_release_finish
  split
  · exact io_emit _ (io_refl g)
  rename_i c hl
  dsimp only
  split
  · apply io_channel_put
    apply io_emit
    apply io_emit
    exact io_set _ (io_refl g) hl rfl (fun h => h)
  · exact io_set _ (io_refl g) hl rfl (fun h => h)
theorem io_register (g : genmsg_state) (f : file) (name_len : Nat) (name : List Nat)
    (env : register_env) : io_keeps g (process_register_service g f name_len name env).2.1 := by
  obtain ⟨l, hl⟩ := register_state g f name_len name env
  rw [hl]
  exact io_service_list _ (io_refl g)

theorem io_delete_service_drain (B : Nat) (l : List pending_packet) :
    ∀ g g1 : genmsg_state, io_keeps g g1 → io_keeps g (delete_service_drain B g1 l) := by
  induction l with
  | nil => intro g g1 h; exact h
  | cons p rest ih =>
    intro g g1 h
    simp only [delete_service_drain]
    apply ih
    exact io_emit _ (io_emit _ (io_emit _ h))

theorem io_delete_service (B : Nat) (g : genmsg_state) (id : Nat) :
    io_keeps g (delete_service B g id) := by
  unfold delete_service
  apply io_service_list
  split
  · exact io_refl g
  · apply io_service_list
    exact io_delete_service_drain B _ g g (io_refl g)

theorem io_service_release (B : Nat) (g : genmsg_state) (f : file) :
    io_keeps g (sphcs_genmsg_release B g f).2 := by
  unfold sphcs_genmsg_release
  repeat' split
  all_goals first
    | exact io_refl g
    | exact io_delete_service B g _

theorem io_chan_read_current (s : genmsg_state) (c c0 : channel_data) (pkt : pending_packet)
    (size nc : Nat) (hl : chan_lookup s.channel_hash c0.channel_id = some c0)
    (hid : c.channel_id = c0.channel_id) (hio : c0.io_error = true → c.io_error = true) :
    io_keeps s (chan_read_current s c pkt size nc).2 := by
  unfold chan_read_current
  dsimp only
  split
  · split
    · exact io_set _ (io_refl s) hl hid hio
    · exact io_set _ (io_emit _ (io_refl s)) hl hid hio
  · split
    · split
      · exact io_set _ (io_refl s) hl hid hio
      · exact io_set _ (io_emit _ (io_refl s)) hl hid hio
    · split_ifs <;> dsimp only <;> exact io_set _ (io_refl s) hl hid hio

theorem io_chan_read {s : genmsg_state} {f : file} {size : Nat} {i : Bool} {nc : Nat}
    {r : read_result × genmsg_state} (h : sphcs_genmsg_chan_read s f size i nc = some r) :
    io_keeps s r.2 := by
  unfold sphcs_genmsg_chan_read at h
  split at h
  · cases h; exact io_refl s
  split at h
  · cases h; exact io_emit _ (io_refl s)
  rename_i c hl
  have hl0 : chan_lookup s.channel_hash c.channel_id = some c := by
    rw [chan_lookup_id hl]; exact hl
  split at h
  · cases h; exact io_refl s
  split at h
  · cases h
    exact io_chan_read_current s c c _ size nc hl0 rfl (fun h => h)
  split at h
  · cases h
  split at h
  · cases h; exact io_refl s
  split at h
  · cases h; exact io_emit _ (io_refl s)
  · cases h
    exact io_chan_read_current s _ c _ size nc hl0 rfl (fun h => h)

theorem io_chan_write (s : genmsg_state) (f : file) (buf : List Nat) (size : Nat)
    (env : Nat → write_env) : io_keeps s (sphcs_genmsg_chan_write s f buf size env).2 := by
  unfold sphcs_genmsg_chan_write
  split
  · exact io_refl s
  split
  · exact io_emit _ (io_refl s)
  rename_i c hl
  split
  · exact io_refl s
  split
  · exact io_refl s
  have hk := chan_write_loop_keeps size env buf size 0 ⟨s, c, 0, 0⟩
  have hf : io_keeps s (set_channel (chan_write_loop size env buf size 0 ⟨s, c, 0, 0⟩).s
      (chan_write_loop size env buf size 0 ⟨s, c, 0, 0⟩).c) := by
    refine @io_set _ _ f.channel c _ (io_of_hash (io_refl s) hk.1) ?_ ?_ ?_
    · rw [hk.1]; exact hl
    · exact congrArg chan_key.id hk.2.2.2.1
    · rw [hk.2.2.2.2]; exact fun h => h
  dsimp only
  split <;> exact hf

theorem io_handle_cmd_dma_failed (B : Nat) {g g1 : genmsg_state}
    (dma_data : genmsg_dma_command_data) (h : io_keeps g g1) :
    io_keeps g (handle_cmd_dma_failed B g1 dma_data) := by
  unfold handle_cmd_dma_failed
  apply io_emit
  apply io_emit
  split
  · exact io_emit _ (io_emit _ h)
  split
  · exact h
  dsimp only
  split
  · exact io_emit _ (io_emit _ h)
  rename_i c hl
  refine io_set _ (io_emit _ h) hl ?_ ?_
  · split <;> rfl
  · split
    · exact fun _ => rfl
    · exact fun h => h

theorem io_cmd_dma_complete (B : Nat) (g : genmsg_state)
    (dma_data : genmsg_dma_command_data) (status : dma_status) (alloc : Bool) :
    io_keeps g (sphcs_genmsg_cmd_dma_complete_callback B g dma_data status alloc).2 := by
  unfold sphcs_genmsg_cmd_dma_complete_callback
  split
  · exact io_handle_cmd_dma_failed B _ (io_refl g)
  split
  · dsimp only
    split
    · split
      · exact io_handle_cmd_dma_failed B _ (io_refl g)
      · exact io_service_list _ (io_refl g)
    · exact io_handle_cmd_dma_failed B _ (io_refl g)
  split
  · exact io_handle_cmd_dma_failed B _ (io_refl g)
  split
  · exact io_emit _ (io_refl g)
  rename_i c hl
  split
  · exact io_handle_cmd_dma_failed B _ (io_refl g)
  dsimp only
  apply io_emit
  apply io_emit
  refine io_set _ (io_refl g) hl ?_ ?_
  · split <;> rfl
  · split <;> exact fun h => h

theorem io_response_dma_complete (g : genmsg_state) (user_data : dma_req_user_data)
    (status : dma_status) : io_keeps g (chan_response_dma_completed g user_data status).2 := by
  unfold chan_response_dma_completed
  split
  · exact io_emit _ (io_refl g)
  rename_i c hl
  dsimp only
  split_ifs <;> dsimp only
  · exact io_set _ (io_emit _ (io_refl g)) hl rfl (fun _ => rfl)
  · exact io_set _ (io_emit _ (io_emit _ (io_refl g))) hl rfl (fun h => h)

theorem io_service_list_dma_complete (g : genmsg_state) (user_data : dma_req_user_data)
    (status : dma_status) :
    io_keeps g (send_service_list_dma_completed_chan g user_data status).2 := by
  unfold send_service_list_dma_completed_chan
  exact io_emit _ (io_emit _ (io_emit _ (io_refl g)))

theorem io_send_service_list (g : genmsg_state) (cmd_chan : sphcs_cmd_chan) (env : cmd_env) :
    io_keeps g (send_service_list_to_host g cmd_chan env).2 := by
  unfold send_service_list_to_host send_service_list_fail
  repeat' split
  all_goals first
    | exact io_emit _ (io_emit _ (io_refl g))

theorem io_accept_done (B : Nat) {g g1 : genmsg_state} (pend : pending_packet)
    (channel : Option channel_data) (ret : Int) (h : io_keeps g g1) :
    io_keeps g (accept_done B g1 pend channel ret).2 := by
  unfold accept_done
  apply io_emit
  dsimp only
  split
  · cases channel
    · exact io_emit _ (io_emit _ h)
    · exact io_emit _ (io_emit _ (io_emit _ h))
  · cases channel
    · exact io_emit _ h
    · exact io_emit _ (io_emit _ h)
theorem io_genmsg_fetch (B : Nat) {g g1 : genmsg_state} (req : h2c_GenericMessaging)
    (cmd_chan : sphcs_cmd_chan) (channel : Option Nat) (env : cmd_env) (h : io_keeps g g1) :
    io_keeps g (genmsg_fetch B g1 req cmd_chan channel env).2 := by
  unfold genmsg_fetch
  split
  · exact io_emit _ (io_emit _ h)
  dsimp only
  split
  · rename_i s1 hb
    apply io_handle_cmd_dma_failed
    split at hb
    · cases hb
    split at hb
    · cases hb
    rename_i c hl
    simp only [Prod.mk.injEq] at hb
    rw [← hb.2]
    exact io_set _ h hl rfl (fun h => h)
  · rename_i s1 hb
    have hs1 : io_keeps g s1 := by
      split at hb
      · cases hb; exact h
      split at hb
      · cases hb; exact io_emit _ h
      rename_i c hl
      simp only [Prod.mk.injEq] at hb
      rw [← hb.2]
      exact io_set _ h hl rfl (fun h => h)
    split
    · exact io_handle_cmd_dma_failed B _ (io_emit _ hs1)
    · exact io_emit _ hs1

theorem io_hangup_rest {g g1 : genmsg_state} (id : Nat) (req : h2c_GenericMessaging)
    (cmd_chan : sphcs_cmd_chan) (alloc : Bool) (h : io_keeps g g1) :
    io_keeps g (genmsg_hangup_rest g1 id req cmd_chan alloc).2 := by
  unfold genmsg_hangup_rest
  dsimp only
  split
  · exact io_emit _ (io_emit _ h)
  rename_i c hl
  have hl1 : chan_lookup g1.channel_hash id = some c := hl
  split
  · exact io_channel_put _ (io_emit _ h)
  generalize hs3 : emit (if c.n_read_dma_req > 0 then
      emit (emit g1 (.cmd_chan_put cmd_chan)) (.assert_failed 1441)
    else emit g1 (.cmd_chan_put cmd_chan)) (.destroy_cb_clear c.cmd_chan) = s3
  have h3 : io_keeps g s3 := by
    rw [← hs3]
    apply io_emit
    split
    · exact io_emit _ (io_emit _ h)
    · exact io_emit _ h
  have hl3 : chan_lookup s3.channel_hash id = some c := by
    rw [← hs3]
    simp only [emit_channel_hash]
    split <;> exact hl1
  have hput : ∀ c' : channel_data, c'.channel_id = c.channel_id →
      (c.io_error = true → c'.io_error = true) →
      io_keeps g (channel_put (set_channel s3 c') id) := by
    intro c' h1' h2'
    exact io_channel_put _ (io_set _ h3 hl3 h1' h2')
  split
  · split
    · exact hput _ rfl (fun h => h)
    · exact hput _ rfl (fun h => h)
  split
  · exact hput _ rfl (fun h => h)
  split
  · apply io_channel_put
    apply io_channel_put
    apply io_emit
    apply io_emit
    exact io_set _ h3 hl3 rfl (fun h => h)
  · exact hput _ rfl (fun h => h)

theorem io_command {B : Nat} {g : genmsg_state} {req : h2c_GenericMessaging}
    {cmd_chan : sphcs_cmd_chan} {env : cmd_env} {r : Int × genmsg_state}
    (h : process_genmsg_command B g req cmd_chan env = some r) : io_keeps g r.2 := by
  unfold process_genmsg_command at h
  split at h
  · cases h; exact io_emit _ (io_refl g)
  split at h
  · cases h; exact io_send_service_list _ _ _
  split at h
  · have hfc := io_find_channel req.card_client_id (io_refl g)
    split at h
    · rename_i s1 hf
      rw [hf] at hfc
      cases h
      apply io_emit
      split
      · exact io_emit _ hfc
      · exact hfc
    · rename_i c s1 hf
      rw [hf] at hfc
      split at h
      · cases h
        exact io_emit _ (io_channel_put _ hfc)
      split at h
      · split at h
        · cases h
        · cases h
          exact io_hangup_rest _ _ _ _ hfc
      · cases h
        exact io_genmsg_fetch B _ _ _ _ (io_channel_put _ hfc)
  split at h
  · cases h; exact io_emit _ (io_refl g)
  · cases h; exact io_genmsg_fetch B _ _ _ _ (io_refl g)
theorem io_sticky_of_keeps {g g' : genmsg_state} {id : Nat} {c c' : channel_data}
    (hnd : (g.channel_hash.map (fun c => c.channel_id)).Nodup) (hk : io_keeps g g')
    (hl : chan_lookup g.channel_hash id = some c) (hio : c.io_error = true)
    (hl' : chan_lookup g'.channel_hash id = some c') : c'.io_error = true := by
  obtain ⟨c0, h0, hid0, hio0⟩ := hk c' (chan_lookup_mem hl')
  have heq : c0 = c := by
    apply List.inj_on_of_nodup_map hnd h0 (chan_lookup_mem hl)
    show c0.channel_id = c.channel_id
    rw [hid0, chan_lookup_id hl', chan_lookup_id hl]
  rw [heq] at hio0
  exact hio0 hio

theorem accept_table {B : Nat} {g : genmsg_state} {f : file} {env : accept_env}
    {r : Int × Option Int × genmsg_state} (h : process_accept_client B g f env = some r) :
    r.2.2.channel_hash = g.channel_hash ∨
    ∃ c : channel_data, c.channel_id ∉ g.channel_ida ∧
      r.2.2.channel_hash = c :: g.channel_hash := by
  unfold process_accept_client at h
  split at h
  · cases h; exact Or.inl rfl
  split at h
  · cases h; exact Or.inl rfl
  split at h
  · cases h
  split at h
  · cases h; exact Or.inl rfl
  split at h
  · cases h; exact Or.inl rfl
  rename_i pend rest hpc
  dsimp only at h
  split at h
  · cases h
    left
    simp [accept_done, emit]
  split at h
  · cases h
    left
    simp [accept_done, emit]
  rename_i id hida
  have hfresh := (ida_simple_get_some hida).2.2
  split at h
  · cases h
    left
    simp [accept_done, emit, hash_add, hash_del, accept_new_channel]
  split at h
  · cases h
    left
    simp [accept_done, emit, hash_add, hash_del, accept_new_channel, set_channel, chan_store]
  · cases h
    right
    refine ⟨{ accept_new_channel pend id with fd := env.fd, ref := 1 }, hfresh, ?_⟩
    simp [accept_done, emit, hash_add, accept_new_channel, set_channel, chan_store]

theorem io_error_sticky {B : Nat} {d d' : driver_state} {id : Nat} {c c' : channel_data}
    (hinv : driver_inv d) (hs : driver_step B d d')
    (hl : chan_lookup d.g.channel_hash id = some c) (hio : c.io_error = true)
    (hl' : chan_lookup d'.g.channel_hash id = some c') : c'.io_error = true := by
  have hi := (driver_inv_held_iff _ _).mp hinv
  have hnd := hi.1
  have key : ∀ g', io_keeps d.g g' → chan_lookup g'.channel_hash id = some c' →
      c'.io_error = true := fun g' hk hl2 => io_sticky_of_keeps hnd hk hl hio hl2
  cases hs with
  | register f name_len name env => exact key _ (io_register _ _ _ _ _) hl'
  | service_release f => exact key _ (io_service_release _ _ _) hl'
  | accept f env r h =>
    rcases accept_table h with ht | ⟨cn, hfresh, ht⟩
    · exact key _ (io_of_hash (io_refl _) ht) hl'
    · dsimp only at hl'
      rw [ht] at hl'
      have hne : cn.channel_id ≠ id := by
        intro he
        apply hfresh
        have := (hi.2.1 c (chan_lookup_mem hl)).1
        rw [chan_lookup_id hl] at this
        rw [he]
        exact this
      simp only [chan_lookup, List.find?_cons, hne, decide_False] at hl'
      have hl2 : chan_lookup d.g.channel_hash id = some c' := hl'
      rw [hl] at hl2
      cases hl2
      exact hio
  | read f size i nc r h => exact key _ (io_chan_read h) hl'
  | write f buf size env => exact key _ (io_chan_write _ _ _ _ _) hl'
  | release_preclose channel c0 _ _ => exact key _ (io_release_preclose _ _) hl'
  | release_notify channel c0 i g' _ _ h => exact key _ (io_release_notify h) hl'
  | release_finish channel c0 _ _ => exact key _ (io_release_finish _ _) hl'
  | command req cmd_chan env r h => exact key _ (io_command h) hl'
  | hangup_park req cmd_chan c0 g1 _ _ _ hf _ =>
    have := io_find_channel req.card_client_id (io_refl d.g)
    rw [hf] at this
    exact key _ this hl'
  | hangup_resume p c0 i alloc _ _ _ => exact key _ (io_hangup_rest _ _ _ _ (io_refl _)) hl'
  | cmd_chan_get cmd_chan => exact key _ (io_emit _ (io_refl _)) hl'
  | cmd_dma_complete dma_data status alloc => exact key _ (io_cmd_dma_complete _ _ _ _ _) hl'
  | response_dma_complete user_data status =>
    exact key _ (io_response_dma_complete _ _ _) hl'
  | service_list_dma_complete user_data status =>
    exact key _ (io_service_list_dma_complete _ _ _) hl'

theorem io_error_sticky_run {B : Nat} {id : Nat} {d d' : driver_state}
    (hsteps : Relation.ReflTransGen (driver_step_keeping B id) d d') :
    driver_inv d → (∃ c, chan_lookup d.g.channel_hash id = some c ∧ c.io_error = true) →
    driver_inv d' ∧ ∃ c', chan_lookup d'.g.channel_hash id = some c' ∧ c'.io_error = true := by
  induction hsteps with
  | refl => exact fun hinv h => ⟨hinv, h⟩
  | @tail d1 d2 _ hs ih =>
    intro hinv h
    obtain ⟨hinv1, c1, hl1, hio1⟩ := ih hinv h
    refine ⟨driver_inv_step hinv1 hs.1, ?_⟩
    cases hl2 : chan_lookup d2.g.channel_hash id with
    | none =>
      have := hs.2
      rw [hl2] at this
      simp at this
    | some c2 => exact ⟨c2, rfl, io_error_sticky hinv1 hs.1 hl1 hio1 hl2⟩

theorem read_io_error (s : genmsg_state) (f : file) (c : channel_data) (size : Nat)
    (i : Bool) (nc : Nat) (hf : is_channel_file f = true)
    (hl : chan_lookup s.channel_hash f.channel = some c) (hio : c.io_error = true) :
    sphcs_genmsg_chan_read s f size i nc = some (⟨-EIO_errno, []⟩, s) := by
  simp [sphcs_genmsg_chan_read, hf, hl, hio]

theorem write_io_error (s : genmsg_state) (f : file) (c : channel_data) (buf : List Nat)
    (size : Nat) (env : Nat → write_env) (hf : is_channel_file f = true)
    (hl : chan_lookup s.channel_hash f.channel = some c) (hio : c.io_error = true) :
    sphcs_genmsg_chan_write s f buf size env = (-EIO_errno, s) := by
  simp [sphcs_genmsg_chan_write, hf, hl, hio]
set_option maxRecDepth 1000000 in
theorem trace_e4_reachable : driver_reachable 4095 trace_e4 := by
  unfold driver_reachable
  have h1 : driver_step 4095 driver_init trace_d1 :=
    driver_step.register driver_init trace_service_file 1 [65] trace_register_env
  have h2 : driver_step 4095 trace_d1 trace_d2 :=
    driver_step.cmd_dma_complete trace_d1 trace_connect dma_status.SPHCS_DMA_STATUS_DONE true
  have h3 : driver_step 4095 trace_d2 trace_d3 :=
    driver_step.accept trace_d2 trace_registered_file trace_accept_env _
      (option_eq_getD _ _ (by decide))
  have h4 : driver_step 4095 trace_d3 trace_e4 :=
    driver_step.response_dma_complete trace_d3 trace_response
      dma_status.SPHCS_DMA_STATUS_FAILED
  exact (((Relation.ReflTransGen.single h1).tail h2).tail h3).tail h4

set_option maxRecDepth 1000000 in
theorem trace_e5_step : driver_step_keeping 4095 1 trace_e4 trace_e5 :=
  ⟨driver_step.command trace_e4 demo_data demo_cmd_chan demo_env _
      (option_eq_getD _ _ (by decide)), by decide⟩

/-- Claim C8, as amended. Let a channel of a reachable state of the driver
have `io_error` set. After any further actions of the driver that leave the
channel in the table, the flag is still set, and every read and every write
on a file of that channel returns `-EIO` and leaves the whole state as it is,
the log of calls to the DMA scheduler included: reads and writes start no
DMA transfer for the channel. -/
theorem io_error_fails_read_write (B : Nat) (d d' : driver_state) (id : Nat)
    (c : channel_data) (f : file)
    (hr : driver_reachable B d)
    (hl : chan_lookup d.g.channel_hash id = some c) (hio : c.io_error = true)
    (hsteps : Relation.ReflTransGen (driver_step_keeping B id) d d')
    (hf : is_channel_file f = true) (hfc : f.channel = id) :
    (∃ c', chan_lookup d'.g.channel_hash id = some c' ∧ c'.io_error = true) ∧
    (∀ size i nc, sphcs_genmsg_chan_read d'.g f size i nc = some (⟨-EIO_errno, []⟩, d'.g)) ∧
    (∀ buf size env, sphcs_genmsg_chan_write d'.g f buf size env = (-EIO_errno, d'.g)) := by
  obtain ⟨_, c', hl', hio'⟩ :=
    io_error_sticky_run hsteps (driver_inv_reachable hr) ⟨c, hl, hio⟩
  rw [← hfc] at hl'
  refine ⟨⟨c', by rw [← hfc]; exact hl', hio'⟩, ?_, ?_⟩
  · intro size i nc
    exact read_io_error _ f c' size i nc hf hl' hio'
  · intro buf size env
    exact write_io_error _ f c' buf size env hf hl' hio'

set_option maxRecDepth 1000000 in
theorem io_error_fails_read_write_witness :
    driver_reachable 4095 trace_e4 ∧
    (∃ c', chan_lookup trace_e5.g.channel_hash 1 = some c' ∧ c'.io_error = true) ∧
    (∀ size i nc,
      sphcs_genmsg_chan_read trace_e5.g demo_file size i nc
        = some (⟨-EIO_errno, []⟩, trace_e5.g)) ∧
    (∀ buf size env,
      sphcs_genmsg_chan_write trace_e5.g demo_file buf size env = (-EIO_errno, trace_e5.g)) :=
  ⟨trace_e4_reachable,
   io_error_fails_read_write 4095 trace_e4 trace_e5 1
     ((chan_lookup trace_e4.g.channel_hash 1).getD demo_channel) demo_file
     trace_e4_reachable (option_eq_getD _ _ (by decide)) (by decide)
     (Relation.ReflTransGen.single trace_e5_step) (by decide) (by decide)⟩

set_option maxRecDepth 1000000 in
/-- Claim C8 as stated fails on its last part. In the reachable state
`trace_e4` the channel 1 has `io_error` set; a data packet for channel 1 that
then arrives from the host is handled by `process_genmsg_command`, which does
not look at the flag: it counts one more inbound DMA on the channel and starts
the DMA that fetches the frame for it. -/
theorem io_error_fails_read_write_counterexample :
    (chan_lookup trace_e4.g.channel_hash 1).map (fun c => (c.io_error, c.n_read_dma_req))
      = some (true, 0) ∧
    (chan_lookup trace_e5.g.channel_hash 1).map (fun c => (c.io_error, c.n_read_dma_req))
      = some (true, 1) ∧
    trace_e5.g.log = trace_e4.g.log ++
      [.dma_h2c { vptr := some [0, 0, 0, 0], dma_page_hndl := 9, dma_addr := 0,
                  host_dma_addr := 8 * 2 ^ NNP_PAGE_SHIFT, channel := some 1, msg := demo_data,
                  cmd_chan := demo_cmd_chan } 2 true] := by
  decide

/-! ## Unregistering a service -/

theorem memcmp_eq_zero (a b : List Nat) (n : Nat) :
    memcmp a b n = 0 ↔ n ≤ a.length ∧ n ≤ b.length ∧ a.take n = b.take n := by
  induction n generalizing a b with
  | zero => simp [memcmp]
  | succ k ih =>
    cases a with
    | nil => simp [memcmp]
    | cons x xs =>
      cases b with
      | nil => simp [memcmp]
      | cons y ys =>
        by_cases hxy : x = y
        · subst hxy
          simp [memcmp, ih]
        · simp [memcmp, hxy]
          omega

theorem memcmp_name (stored N tail : List Nat) (hlen : stored.length = N.length) :
    memcmp (stored ++ [0]) (N ++ tail) N.length = 0 ↔ stored = N := by
  rw [memcmp_eq_zero]
  constructor
  · rintro ⟨_, _, h⟩
    rw [← hlen, List.take_left' rfl, hlen, List.take_left' rfl] at h
    exact h
  · intro h
    subst h
    simp [List.take_left' rfl]

theorem delete_service_drain_service_list (B : Nat) (l : List pending_packet) :
    ∀ s : genmsg_state, (delete_service_drain B s l).service_list = s.service_list := by
  induction l with
  | nil => intro s; rfl
  | cons p rest ih =>
    intro s
    simp only [delete_service_drain]
    rw [ih]
    rfl

theorem delete_service_list (B : Nat) (s : genmsg_state) (i : Nat) (stored : List Nat)
    (hreg : s.service_list.service_name i = some stored) :
    (delete_service B s i).service_list =
      { ida := ida_simple_remove s.service_list.ida i,
        service_name := Function.update s.service_list.service_name i none,
        service_name_len := Function.update s.service_list.service_name_len i 0,
        service_data := Function.update s.service_list.service_data i
          ((s.service_list.service_data i).map
            (fun (sd : service_data) => { sd with pending_connections := [] })),
        num_services := (s.service_list.num_services + U32_MOD - 1) % U32_MOD } := by
  unfold delete_service
  simp only [hreg, delete_service_drain_service_list]

theorem find_service_none (l : sphcs_genmsg_service_list) (buf : List Nat) (len : Nat) :
    find_service l buf len = none ↔
      ∀ j stored, j < SPH_MAX_GENERIC_SERVICES → l.service_name j = some stored →
        ¬ (l.service_name_len j = len ∧ memcmp stored buf len = 0) := by
  unfold find_service
  rw [List.find?_eq_none]
  constructor
  · intro h j stored hj hs hm
    have := h j (List.mem_range.mpr hj)
    simp [hs, hm.1, hm.2] at this
  · intro h j hj
    cases hs : l.service_name j with
    | none => simp
    | some stored =>
      have := h j stored (List.mem_range.mp hj) hs
      simp only [Bool.and_eq_true, decide_eq_true_eq]
      exact this

theorem find_unique {α : Type} (p : α → Bool) (xs : List α) (x : α) (hx : x ∈ xs)
    (hp : p x = true) (hu : ∀ y ∈ xs, p y = true → y = x) : xs.find? p = some x := by
  induction xs with
  | nil => simp at hx
  | cons y ys ih =>
    by_cases hy : p y = true
    · have := hu y (List.mem_cons_self _ _) hy
      rw [this]
      simp [List.find?_cons, hp]
    · have hxy : x ∈ ys := by
        rcases List.mem_cons.mp hx with h | h
        · rw [h] at hp; exact absurd hp hy
        · exact h
      simp only [List.find?_cons, Bool.not_eq_true] at hy ⊢
      rw [hy]
      exact ih hxy (fun z hz => hu z (List.mem_cons_of_mem _ hz))

theorem find_service_some (l : sphcs_genmsg_service_list) (buf : List Nat) (len i : Nat)
    (stored : List Nat) (hi : i < SPH_MAX_GENERIC_SERVICES)
    (hs : l.service_name i = some stored) (hlen : l.service_name_len i = len)
    (hm : memcmp stored buf len = 0)
    (hu : ∀ j st, j < SPH_MAX_GENERIC_SERVICES → l.service_name j = some st →
      l.service_name_len j = len → memcmp st buf len = 0 → j = i) :
    find_service l buf len = some i := by
  unfold find_service
  apply find_unique _ _ _ (List.mem_range.mpr hi)
  · simp [hs, hlen, hm]
  · intro j hj hp
    cases hsj : l.service_name j with
    | none => simp [hsj] at hp
    | some st =>
      simp only [hsj, Bool.and_eq_true, decide_eq_true_eq] at hp
      exact hu j st (List.mem_range.mp hj) hsj hp.1 hp.2

theorem registry_wf_name {l : sphcs_genmsg_service_list} (hwf : registry_wf l) {i : Nat}
    {N : List Nat} (hreg : l.service_name i = some (N ++ [0])) :
    0 ∉ N ∧ l.service_name_len i = N.length ∧ i ∈ l.ida ∧ i < SPH_MAX_GENERIC_SERVICES := by
  obtain ⟨_, hb, hocc, hstr, _⟩ := hwf
  obtain ⟨nm, heq, hnm, hlen⟩ := hstr i _ hreg
  have hN : N = nm := List.append_inj_left' heq rfl
  have hin : i ∈ l.ida := hocc i (by simp [hreg])
  rw [hN]
  exact ⟨hnm, hlen, hin, hb i hin⟩

theorem filter_range_drop (p q : Nat → Bool) (n id : Nat) (hid : id < n)
    (hp : p id = true) (hq : q id = false) (hrest : ∀ j, j ≠ id → q j = p j) :
    ((List.range n).filter q).length + 1 = ((List.range n).filter p).length :=
  (filter_range_flip q p n id hid hq hp (fun j hj => (hrest j hj).symm)).symm

theorem registry_wf_delete (l : sphcs_genmsg_service_list) (i : Nat) (N : List Nat)
    (sd : Option service_data)
    (hwf : registry_wf l) (hreg : l.service_name i = some (N ++ [0])) :
    registry_wf
      { ida := ida_simple_remove l.ida i,
        service_name := Function.update l.service_name i none,
        service_name_len := Function.update l.service_name_len i 0,
        service_data := Function.update l.service_data i sd,
        num_services := (l.num_services + U32_MOD - 1) % U32_MOD } ∧
    (l.num_services + U32_MOD - 1) % U32_MOD + 1 = l.num_services := by
  obtain ⟨_, _, hin, hlt⟩ := registry_wf_name hwf hreg
  obtain ⟨hnd, hb, hocc, hstr, hnum⟩ := hwf
  have hcount : registered_count
      { ida := ida_simple_remove l.ida i,
        service_name := Function.update l.service_name i none,
        service_name_len := Function.update l.service_name_len i 0,
        service_data := Function.update l.service_data i sd,
        num_services := (l.num_services + U32_MOD - 1) % U32_MOD } + 1
      = registered_count l := by
    unfold registered_count
    apply filter_range_drop _ _ _ i hlt
    · simp [hreg]
    · simp
    · intro j hj
      simp [Function.update_noteq hj]
  have hle := registered_count_le l
  have hmod : (l.num_services + U32_MOD - 1) % U32_MOD + 1 = l.num_services := by
    rw [hnum]
    unfold U32_MOD SPH_MAX_GENERIC_SERVICES at *
    omega
  refine ⟨⟨?_, ?_, ?_, ?_, ?_⟩, hmod⟩
  · exact hnd.erase i
  · intro j hj
    exact hb j (List.mem_of_mem_erase hj)
  · intro j hj
    by_cases hji : j = i
    · subst hji
      simp at hj
    · simp only [Function.update_noteq hji] at hj
      unfold ida_simple_remove
      exact (List.mem_erase_of_ne hji).mpr (hocc j hj)
  · intro j stored hs
    by_cases hji : j = i
    · subst hji
      simp at hs
    · simp only [Function.update_noteq hji] at hs ⊢
      exact hstr j stored hs
  · show (l.num_services + U32_MOD - 1) % U32_MOD = _
    omega

theorem registry_distinct_delete (l : sphcs_genmsg_service_list) (i : Nat)
    (ida : List Nat) (lens : Nat → Nat) (sds : Nat → Option service_data) (num : Nat)
    (hd : registry_distinct l) :
    registry_distinct
      { ida := ida, service_name := Function.update l.service_name i none,
        service_name_len := lens, service_data := sds, num_services := num } := by
  intro a b stored ha hb
  by_cases hai : a = i
  · subst hai; simp at ha
  by_cases hbi : b = i
  · subst hbi; simp at hb
  simp only [Function.update_noteq hai] at ha
  simp only [Function.update_noteq hbi] at hb
  exact hd a b stored ha hb

theorem registry_distinct_add (l : sphcs_genmsg_service_list) (id : Nat) (stored : List Nat)
    (ida : List Nat) (lens : Nat → Nat) (sds : Nat → Option service_data) (num : Nat)
    (hd : registry_distinct l) (hnew : ∀ j, l.service_name j ≠ some stored) :
    registry_distinct
      { ida := ida, service_name := Function.update l.service_name id (some stored),
        service_name_len := lens, service_data := sds, num_services := num } := by
  intro a b st ha hb
  by_cases hai : a = id
  · by_cases hbi : b = id
    · rw [hai, hbi]
    · subst hai
      simp only [Function.update_same, Option.some.injEq] at ha
      simp only [Function.update_noteq hbi] at hb
      rw [← ha] at hb
      exact absurd hb (hnew b)
  · simp only [Function.update_noteq hai] at ha
    by_cases hbi : b = id
    · subst hbi
      simp only [Function.update_same, Option.some.injEq] at hb
      rw [← hb] at ha
      exact absurd ha (hnew a)
    · simp only [Function.update_noteq hbi] at hb
      exact hd a b st ha hb

theorem registry_distinct_init : registry_distinct init_service_list := by
  intro i j stored hi
  simp [init_service_list] at hi

/-- Claim C11. In a well-formed registry whose names are distinct and in
which the C string `N` is registered in slot `i`: after `delete_service(i)`,
`find_service` of `N` finds nothing, `num_services` is one less, the id `i`
is free, and the name, the length and the service of every other slot are as
before; the registry is well-formed with distinct names again. A following
`add_service` of `N` succeeds, with an id below 288 that is free (it may be
`i` again), and `find_service` of `N` then finds that slot, which holds the
new service. -/
theorem delete_then_add (B : Nat) (s : genmsg_state) (N tail : List Nat) (i : Nat)
    (service : service_data)
    (hwf : registry_wf s.service_list) (hd : registry_distinct s.service_list)
    (hreg : s.service_list.service_name i = some (N ++ [0])) :
    find_service (delete_service B s i).service_list (N ++ tail) N.length = none ∧
    (delete_service B s i).service_list.num_services + 1 = s.service_list.num_services ∧
    i ∉ (delete_service B s i).service_list.ida ∧
    (∀ j, j ≠ i →
      (delete_service B s i).service_list.service_name j = s.service_list.service_name j ∧
      (delete_service B s i).service_list.service_name_len j
        = s.service_list.service_name_len j ∧
      (delete_service B s i).service_list.service_data j = s.service_list.service_data j) ∧
    registry_wf (delete_service B s i).service_list ∧
    registry_distinct (delete_service B s i).service_list ∧
    ∃ id : Nat,
      (add_service (delete_service B s i).service_list (N ++ [0]) N.length service).1
        = (id : Int) ∧
      id < SPH_MAX_GENERIC_SERVICES ∧ id ∉ (delete_service B s i).service_list.ida ∧
      find_service
        (add_service (delete_service B s i).service_list (N ++ [0]) N.length service).2
        (N ++ tail) N.length = some id ∧
      (add_service (delete_service B s i).service_list (N ++ [0]) N.length service).2.service_data
        id = some service := by
  obtain ⟨hN, hlen, hin, hlt⟩ := registry_wf_name hwf hreg
  rw [delete_service_list B s i _ hreg]
  obtain ⟨hwf', hnum⟩ := registry_wf_delete s.service_list i N
    ((s.service_list.service_data i).map
      (fun (sd : service_data) => { sd with pending_connections := [] })) hwf hreg
  have hd' := registry_distinct_delete s.service_list i
    (ida_simple_remove s.service_list.ida i)
    (Function.update s.service_list.service_name_len i 0)
    (Function.update s.service_list.service_data i
      ((s.service_list.service_data i).map
        (fun (sd : service_data) => { sd with pending_connections := [] })))
    ((s.service_list.num_services + U32_MOD - 1) % U32_MOD) hd
  generalize hl' :
    ({ ida := ida_simple_remove s.service_list.ida i,
       service_name := Function.update s.service_list.service_name i none,
       service_name_len := Function.update s.service_list.service_name_len i 0,
       service_data := Function.update s.service_list.service_data i
         ((s.service_list.service_data i).map
           (fun (sd : service_data) => { sd with pending_connections := [] })),
       num_services := (s.service_list.num_services + U32_MOD - 1) % U32_MOD }
      : sphcs_genmsg_service_list) = l' at hwf' hd' ⊢
  have hname' : ∀ j, l'.service_name j
      = Function.update s.service_list.service_name i none j := by
    intro j; rw [← hl']
  have hida' : l'.ida = ida_simple_remove s.service_list.ida i := by rw [← hl']
  have hnone : ∀ j, l'.service_name j ≠ some (N ++ [0]) := by
    intro j hj
    rw [hname'] at hj
    by_cases hji : j = i
    · subst hji; simp at hj
    · simp only [Function.update_noteq hji] at hj
      exact hji (hd j i _ hj hreg)
  have hnomatch : ∀ (l2 : sphcs_genmsg_service_list), registry_wf l2 →
      ∀ j st, l2.service_name j = some st → l2.service_name_len j = N.length →
        memcmp st (N ++ tail) N.length = 0 → st = N ++ [0] := by
    intro l2 hwf2 j st hs hl hm
    obtain ⟨nm, rfl, _, hnl⟩ := hwf2.2.2.2.1 j st hs
    rw [memcmp_name nm N tail (by rw [← hnl, hl])] at hm
    rw [hm]
  have hfree : i ∉ l'.ida := by
    rw [hida']
    unfold ida_simple_remove
    exact fun h => (List.Nodup.mem_erase_iff hwf.1).mp h |>.1 rfl
  refine ⟨?_, ?_, hfree, ?_, hwf', hd', ?_⟩
  · rw [find_service_none]
    rintro j st _ hs ⟨hl, hm⟩
    exact hnone j (by rw [hs, hnomatch l' hwf' j st hs hl hm])
  · rw [← hl']; exact hnum
  · intro j hj
    rw [← hl']
    simp [Function.update_noteq hj]
  · have hlen' : l'.ida.length < SPH_MAX_GENERIC_SERVICES := by
      have hsub : l'.ida ⊆ List.range SPH_MAX_GENERIC_SERVICES :=
        fun j hj => List.mem_range.mpr (hwf'.2.1 j hj)
      have h1 := List.Subperm.length_le (List.subperm_of_subset hwf.1
        (fun j hj => List.mem_range.mpr (hwf.2.1 j hj)))
      simp only [List.length_range] at h1
      rw [hida']
      unfold ida_simple_remove
      rw [List.length_erase_of_mem hin]
      have : 0 < s.service_list.ida.length := List.length_pos_of_mem hin
      omega
    obtain ⟨id, h2, h3, _, heq⟩ := add_service_fresh l' N service hwf' hN
      (fun ⟨j, hj⟩ => hnone j hj) hlen'
    have h10 := (registry_wf_add l' N service id hwf' hN h2 h3).1
    rw [heq]
    refine ⟨id, rfl, h2, h3, ?_, by simp⟩
    apply find_service_some _ _ _ id (N ++ [0]) h2 (by simp) (by simp)
    · exact (memcmp_name N N tail rfl).mpr rfl
    · intro j st _ hs hl hm
      by_contra hji
      have hst := hnomatch _ h10 j st hs hl hm
      simp only [Function.update_noteq hji] at hs
      exact hnone j (by rw [hs, hst])

theorem registry_distinct_demo : registry_distinct demo_service_list :=
  registry_distinct_add init_service_list 0 ([65] ++ [0]) _ _ _ _ registry_distinct_init
    (by intro j; simp [init_service_list])

theorem delete_then_add_witness :
    find_service (delete_service 4095 demo_registry_state 0).service_list
      ([65] ++ []) [65].length = none :=
  (delete_then_add 4095 demo_registry_state [65] [] 0 demo_service
    registry_wf_demo registry_distinct_demo (by simp [demo_registry_state, demo_service_list])).1

/-! ## Routing a connect frame -/

theorem find_service_registered (l : sphcs_genmsg_service_list) (N tail : List Nat) (i : Nat)
    (hwf : registry_wf l) (hd : registry_distinct l)
    (hreg : l.service_name i = some (N ++ [0])) :
    find_service l (N ++ tail) N.length = some i := by
  obtain ⟨_, hlen, _, hlt⟩ := registry_wf_name hwf hreg
  apply find_service_some l _ _ i (N ++ [0]) hlt hreg hlen
  · exact (memcmp_name N N tail rfl).mpr rfl
  · intro j st _ hs hl hm
    obtain ⟨nm, rfl, _, hnl⟩ := hwf.2.2.2.1 j st hs
    rw [memcmp_name nm N tail (by rw [← hnl, hl])] at hm
    rw [hm] at hs
    exact hd j i _ hs hreg

theorem find_service_unregistered (l : sphcs_genmsg_service_list) (N tail : List Nat)
    (hwf : registry_wf l) (hno : ∀ j, l.service_name j ≠ some (N ++ [0])) :
    find_service l (N ++ tail) N.length = none := by
  rw [find_service_none]
  rintro j st _ hs ⟨hl, hm⟩
  obtain ⟨nm, rfl, _, hnl⟩ := hwf.2.2.2.1 j st hs
  rw [memcmp_name nm N tail (by rw [← hnl, hl])] at hm
  rw [hm] at hs
  exact hno j hs

theorem connect_frame_queued (B : Nat) (s : genmsg_state) (d : genmsg_dma_command_data)
    (page N tail : List Nat) (i : Nat) (sd : service_data)
    (hwf : registry_wf s.service_list) (hd : registry_distinct s.service_list)
    (hconn : d.msg.connect = true) (hpage : d.vptr = some page)
    (hlen : page_u32 page = N.length) (hname : page.drop 4 = N ++ tail)
    (hreg : s.service_list.service_name i = some (N ++ [0]))
    (hsd : s.service_list.service_data i = some sd) :
    sphcs_genmsg_cmd_dma_complete_callback B s d dma_status.SPHCS_DMA_STATUS_DONE true
      = (0, queued_on s i sd d) := by
  have hf := find_service_registered s.service_list N tail i hwf hd hreg
  simp [sphcs_genmsg_cmd_dma_complete_callback, hconn, hpage, hlen, hname, hf, hsd, queued_on]

/-- Claim C12, as amended. A connect frame was fetched (the DMA did not
fail); its page holds the length of the name `N` in its first four bytes and
`N` after them. The registry is well-formed with distinct names. (1) If slot
`i` holds `N` and the service `sd`, and the pending-connection record is
allocated, the callback returns 0 and the only change of the state is that
the frame is appended at the tail of the queue of slot `i`: every other slot,
the channel table and the log are as before, so no acknowledgement is sent.
(2) If no slot holds `N` (slots that hold a proper prefix or an extension of
`N` do not count), the callback returns -1 and the only change of the state
is the log: the command head is updated, one acknowledgement with the connect
and no-such-service flags and the sentinel id is sent on the frame's hardware
channel, the page is returned to the pool and the reference on the hardware
channel is dropped; no queue and no channel changes. -/
theorem connect_frame_routed (B : Nat) (s : genmsg_state) (d : genmsg_dma_command_data)
    (page N tail : List Nat)
    (hwf : registry_wf s.service_list) (hd : registry_distinct s.service_list)
    (hconn : d.msg.connect = true) (hpage : d.vptr = some page)
    (hlen : page_u32 page = N.length) (hname : page.drop 4 = N ++ tail) :
    (∀ i sd, s.service_list.service_name i = some (N ++ [0]) →
      s.service_list.service_data i = some sd →
      sphcs_genmsg_cmd_dma_complete_callback B s d dma_status.SPHCS_DMA_STATUS_DONE true
        = (0, queued_on s i sd d)) ∧
    ((∀ j, s.service_list.service_name j ≠ some (N ++ [0])) →
      ∀ alloc,
        sphcs_genmsg_cmd_dma_complete_callback B s d dma_status.SPHCS_DMA_STATUS_DONE alloc
          = (-1, { s with log := s.log ++
              [.cmd_head_update d.cmd_chan,
               no_such_service_ack B d.cmd_chan,
               .page_free d.dma_page_hndl,
               .cmd_chan_put d.cmd_chan] })) := by
  constructor
  · intro i sd hreg hsd
    exact connect_frame_queued B s d page N tail i sd hwf hd hconn hpage hlen hname hreg hsd
  · intro hno alloc
    have hf := find_service_unregistered s.service_list N tail hwf hno
    simp [sphcs_genmsg_cmd_dma_complete_callback, hconn, hpage, hlen, hname, hf,
      handle_cmd_dma_failed, emit, no_such_service_ack, c2h_zero]

theorem connect_frame_routed_witness :
    sphcs_genmsg_cmd_dma_complete_callback 4095 demo_registry_state trace_connect
        dma_status.SPHCS_DMA_STATUS_DONE true
      = (0, queued_on demo_registry_state 0 demo_service trace_connect) :=
  (connect_frame_routed 4095 demo_registry_state trace_connect [1, 0, 0, 0, 65] [65] []
    registry_wf_demo registry_distinct_demo (by decide) (by decide) (by decide) (by decide)).1
    0 demo_service (by simp [demo_registry_state, demo_service_list])
    (by simp [demo_registry_state, demo_service_list])

/-- Claim C12 as stated fails when the pending-connection record cannot be
allocated: the service "A" is registered and a connect frame for "A" was
fetched, yet nothing is queued on the service and the acknowledgement with
the no-such-service flag and the sentinel id is sent. -/
theorem connect_frame_routed_counterexample :
    demo_registry_state.service_list.service_name 0 = some ([65] ++ [0]) ∧
    (fun r : Int × genmsg_state =>
        (r.1, (r.2.service_list.service_data 0).map (fun sd => sd.pending_connections),
         r.2.log))
      (sphcs_genmsg_cmd_dma_complete_callback 4095 demo_registry_state trace_connect
        dma_status.SPHCS_DMA_STATUS_DONE false)
      = (-1, some [],
         [.cmd_head_update demo_cmd_chan,
          no_such_service_ack 4095 demo_cmd_chan,
          .page_free 5,
          .cmd_chan_put demo_cmd_chan]) := by
  refine ⟨by simp [demo_registry_state, demo_service_list], ?_⟩
  decide

/-! ## Serialising the service list -/

theorem needed_size_fold (l : sphcs_genmsg_service_list) (hwf : registry_wf l) (n : Nat) :
    (List.range n).foldl (fun needed_size i =>
      match l.service_name i with
      | some _ => (needed_size + (l.service_name_len i + 1)) % U32_MOD
      | none => needed_size) 0
    = ((List.range n).filterMap l.service_name).flatten.length % U32_MOD := by
  induction n with
  | zero => simp [U32_MOD]
  | succ k ih =>
    rw [List.range_succ, List.foldl_append, ih, List.filterMap_append]
    cases hs : l.service_name k with
    | none => simp [hs]
    | some stored =>
      obtain ⟨nm, rfl, _, hlen⟩ := hwf.2.2.2.1 k _ hs
      simp [hs, hlen, Nat.add_assoc]

theorem fill_fold (l : sphcs_genmsg_service_list) (hwf : registry_wf l) (n : Nat) :
    (List.range n).foldl (fun (acc : List Nat × Nat) i =>
      match l.service_name i with
      | some stored => (acc.1 ++ stored.take (l.service_name_len i + 1), (acc.2 + 1) % U32_MOD)
      | none => acc) ([], 0)
    = (((List.range n).filterMap l.service_name).flatten,
       ((List.range n).filterMap l.service_name).length % U32_MOD) := by
  induction n with
  | zero => simp [U32_MOD]
  | succ k ih =>
    rw [List.range_succ, List.foldl_append, ih, List.filterMap_append]
    cases hs : l.service_name k with
    | none => simp [hs]
    | some stored =>
      obtain ⟨nm, rfl, _, hlen⟩ := hwf.2.2.2.1 k _ hs
      simp [hs, hlen]

theorem registered_names_length (l : sphcs_genmsg_service_list) :
    (registered_names l).length = registered_count l := by
  unfold registered_names registered_count
  generalize SPH_MAX_GENERIC_SERVICES = n
  induction n with
  | zero => simp
  | succ k ih =>
    rw [List.range_succ, List.filterMap_append, List.filter_append, List.length_append,
      List.length_append, ih]
    cases hs : l.service_name k <;> simp [hs]

theorem service_list_needed_size_eq (l : sphcs_genmsg_service_list) (hwf : registry_wf l)
    (hsmall : (service_list_bytes l).length < 2 ^ 31) :
    service_list_needed_size l = (service_list_bytes l).length := by
  have h : service_list_needed_size l = _ := needed_size_fold l hwf SPH_MAX_GENERIC_SERVICES
  rw [h]
  unfold service_list_bytes registered_names at hsmall ⊢
  apply Nat.mod_eq_of_lt
  unfold U32_MOD
  omega

theorem service_list_fill_eq (l : sphcs_genmsg_service_list) (hwf : registry_wf l) :
    service_list_fill l = (service_list_bytes l, l.num_services) := by
  have h : service_list_fill l = _ := fill_fold l hwf SPH_MAX_GENERIC_SERVICES
  rw [h]
  have hc := registered_names_length l
  have hle := registered_count_le l
  unfold service_list_bytes
  unfold registered_names at hc ⊢
  rw [hc, hwf.2.2.2.2]
  congr 1
  apply Nat.mod_eq_of_lt
  unfold U32_MOD SPH_MAX_GENERIC_SERVICES at *
  omega

theorem service_list_bytes_small (l : sphcs_genmsg_service_list) (hwf : registry_wf l)
    (hb : registry_bounded l) : (service_list_bytes l).length < 2 ^ 31 := by
  have key : ∀ n, ((List.range n).filterMap l.service_name).flatten.length
      ≤ n * (SPH_MAX_GENERIC_SERVICES + 1) := by
    intro n
    induction n with
    | zero => simp
    | succ k ih =>
      rw [List.range_succ, List.filterMap_append, List.flatten_append, List.length_append]
      cases hs : l.service_name k with
      | none =>
        simp only [List.filterMap_cons, hs, List.filterMap_nil, List.flatten_nil, List.length_nil]
        rw [Nat.succ_mul]
        omega
      | some stored =>
        obtain ⟨nm, rfl, _, hlen⟩ := hwf.2.2.2.1 k _ hs
        have := hb k
        simp only [List.filterMap_cons, hs, List.filterMap_nil, List.flatten_cons,
          List.flatten_nil, List.append_nil, List.length_append, List.length_singleton]
        rw [Nat.succ_mul]
        omega
  have := key SPH_MAX_GENERIC_SERVICES
  unfold service_list_bytes registered_names
  unfold SPH_MAX_GENERIC_SERVICES at *
  omega

theorem registered_names_cstring (l : sphcs_genmsg_service_list) (hwf : registry_wf l) :
    ∀ stored ∈ registered_names l, ∃ nm : List Nat, stored = nm ++ [0] ∧ 0 ∉ nm := by
  intro stored hs
  unfold registered_names at hs
  obtain ⟨i, _, hi⟩ := List.mem_filterMap.mp hs
  obtain ⟨nm, h1, h2, _⟩ := hwf.2.2.2.1 i stored hi
  exact ⟨nm, h1, h2⟩

theorem service_list_too_small_aux (l : sphcs_genmsg_service_list) (buf : List Nat)
    (bufsize out_service_count : Nat) (hwf : registry_wf l)
    (hsmall : (service_list_bytes l).length < 2 ^ 31)
    (hlt : bufsize < (service_list_bytes l).length) :
    build_service_list_packet l buf bufsize out_service_count
      = { ret := -((service_list_bytes l).length : Int), buf := buf,
          out_service_count := out_service_count } := by
  unfold build_service_list_packet
  rw [service_list_needed_size_eq l hwf hsmall]
  have hnot : ¬ bufsize ≥ (service_list_bytes l).length := by omega
  simp only [hnot, if_false]
  congr 1
  unfold int_of_u32 U32_MOD
  have h1 : (2 ^ 32 - (service_list_bytes l).length) % 2 ^ 32
      = 2 ^ 32 - (service_list_bytes l).length := Nat.mod_eq_of_lt (by omega)
  rw [h1]
  have h2 : ¬ 2 ^ 32 - (service_list_bytes l).length < 2 ^ 31 := by omega
  rw [if_neg h2]
  omega

/-- Claim C13. For a well-formed registry whose names with their NULs take
fewer than 2^31 bytes in all (as those of every registry built through
`process_register_service` do, see `service_list_bytes_small`), and a
`bufsize` smaller than that number `needed`: `build_service_list_packet`
returns `-needed` and leaves the buffer and `*out_service_count` as they
were. -/
theorem service_list_too_small (l : sphcs_genmsg_service_list) (buf : List Nat)
    (bufsize out_service_count : Nat) (hwf : registry_wf l)
    (hsmall : (service_list_bytes l).length < 2 ^ 31)
    (hlt : bufsize < (service_list_bytes l).length) :
    build_service_list_packet l buf bufsize out_service_count
      = { ret := -((service_list_bytes l).length : Int), buf := buf,
          out_service_count := out_service_count } :=
  service_list_too_small_aux l buf bufsize out_service_count hwf hsmall hlt

/-- Claim C14. For a well-formed registry whose names with their NULs take
fewer than 2^31 bytes in all, and a `bufsize` of at least that number
`needed`: `build_service_list_packet` returns `needed`, the buffer then
starts with every stored name followed by its NUL, in ascending slot order,
and goes on with its former bytes from offset `needed`, and
`*out_service_count` is the number of registered names. -/
theorem service_list_filled (l : sphcs_genmsg_service_list) (buf : List Nat)
    (bufsize out_service_count : Nat) (hwf : registry_wf l)
    (hsmall : (service_list_bytes l).length < 2 ^ 31)
    (hge : (service_list_bytes l).length ≤ bufsize) :
    build_service_list_packet l buf bufsize out_service_count
      = { ret := ((service_list_bytes l).length : Int),
          buf := service_list_bytes l ++ buf.drop (service_list_bytes l).length,
          out_service_count := (registered_names l).length } ∧
    (registered_names l).length = l.num_services ∧
    (∀ stored ∈ registered_names l, ∃ nm : List Nat, stored = nm ++ [0] ∧ 0 ∉ nm) := by
  have hnum : (registered_names l).length = l.num_services := by
    rw [registered_names_length, hwf.2.2.2.2]
  refine ⟨?_, hnum, registered_names_cstring l hwf⟩
  unfold build_service_list_packet
  rw [service_list_needed_size_eq l hwf hsmall, service_list_fill_eq l hwf]
  have hyes : bufsize ≥ (service_list_bytes l).length := hge
  simp only [hyes, if_true, hnum]

theorem service_list_bytes_demo : service_list_bytes demo_service_list = [65, 0] := by
  unfold service_list_bytes registered_names
  have : ∀ n, (List.range (n + 1)).filterMap demo_service_list.service_name = [[65, 0]] := by
    intro n
    induction n with
    | zero => simp [demo_service_list, List.range_succ]
    | succ k ih =>
      rw [List.range_succ, List.filterMap_append, ih]
      simp [demo_service_list, init_service_list]
  rw [show SPH_MAX_GENERIC_SERVICES = 287 + 1 from rfl, this]
  rfl

theorem service_list_too_small_witness :
    build_service_list_packet demo_service_list [9, 9, 9] 1 7
      = { ret := -((service_list_bytes demo_service_list).length : Int), buf := [9, 9, 9],
          out_service_count := 7 } :=
  service_list_too_small demo_service_list [9, 9, 9] 1 7 registry_wf_demo
    (by rw [service_list_bytes_demo]; decide) (by rw [service_list_bytes_demo]; decide)

theorem service_list_filled_witness :
    (build_service_list_packet demo_service_list [9, 9, 9] 3 7).buf = [65, 0, 9] :=
  (congrArg service_list_packet.buf
    (service_list_filled demo_service_list [9, 9, 9] 3 7 registry_wf_demo
      (by rw [service_list_bytes_demo]; decide)
      (by rw [service_list_bytes_demo]; decide)).1).trans
    (by rw [service_list_bytes_demo]; rfl)

/-! ## Connections are accepted in arrival order -/

theorem process_accept_client_split (B : Nat) (s : genmsg_state) (f : file) (env : accept_env) :
    process_accept_client B s f env =
      (accept_pop s f env).map (fun r =>
        match r.2.1 with
        | none => (r.1, none, r.2.2)
        | some pend => accept_channel B r.2.2 pend env) := by
  unfold process_accept_client accept_pop
  cases h1 : f.private_data with
  | none => rfl
  | some service =>
    dsimp only
    cases h2 : s.service_list.service_data service with
    | none => rfl
    | some sd =>
      dsimp only
      cases h3 : wait_event_interruptible (!sd.pending_connections.isEmpty)
          env.wait_interrupted with
      | none => rfl
      | some ret =>
        dsimp only
        by_cases h4 : ret ≠ 0
        · rw [if_pos h4, if_pos h4]; rfl
        · rw [if_neg h4, if_neg h4]
          cases h5 : sd.pending_connections with
          | nil => rfl
          | cons pend rest =>
            dsimp only [Option.map_some']
            unfold accept_channel
            by_cases ha : (!env.channel_alloc) = true
            · rw [if_pos ha, if_pos ha]
            · rw [if_neg ha, if_neg ha]
              dsimp only
              cases hi : ida_simple_get s.channel_ida 1 (B - 1) with
              | none => rfl
              | some id =>
                dsimp only
                by_cases hfd : env.fd < 0
                · rw [if_pos hfd, if_pos hfd]
                · rw [if_neg hfd, if_neg hfd]
                  by_cases hc : env.copy_ret ≠ 0
                  · rw [if_pos hc, if_pos hc]
                  · rw [if_neg hc, if_neg hc]

theorem handle_cmd_dma_failed_service_list (B : Nat) (s : genmsg_state)
    (d : genmsg_dma_command_data) :
    (handle_cmd_dma_failed B s d).service_list = s.service_list := by
  unfold handle_cmd_dma_failed
  simp only [emit_service_list]
  split
  · rfl
  split
  · rfl
  split
  · rfl
  · rfl

theorem accept_done_service_list (B : Nat) (s : genmsg_state) (pend : pending_packet)
    (channel : Option channel_data) (ret : Int) :
    (accept_done B s pend channel ret).2.service_list = s.service_list := by
  unfold accept_done
  cases channel <;> simp [emit]

theorem accept_channel_service_list (B : Nat) (s : genmsg_state) (pend : pending_packet)
    (env : accept_env) : (accept_channel B s pend env).2.2.service_list = s.service_list := by
  unfold accept_channel
  split
  · exact accept_done_service_list B s pend none (-ENOMEM_errno)
  split
  · exact accept_done_service_list B s pend none (-ENOSPC_errno)
  dsimp only
  split
  · exact accept_done_service_list B _ pend none env.fd
  split
  · exact accept_done_service_list B _ pend none (env.copy_ret : Int)
  · exact accept_done_service_list B _ pend (some _) 0

theorem arrive_state (B : Nat) (s : genmsg_state) (d : genmsg_dma_command_data)
    (N : List Nat) (i : Nat) (q : List pending_packet) (alloc : Bool)
    (hwf : registry_wf s.service_list) (hd : registry_distinct s.service_list)
    (hreg : s.service_list.service_name i = some (N ++ [0]))
    (hq : service_queue s i q) (hfr : connect_frame_for N d) :
    ∃ s', (sphcs_genmsg_cmd_dma_complete_callback B s d dma_status.SPHCS_DMA_STATUS_DONE alloc).2
        = s' ∧
      s'.service_list.ida = s.service_list.ida ∧
      s'.service_list.service_name = s.service_list.service_name ∧
      s'.service_list.service_name_len = s.service_list.service_name_len ∧
      s'.service_list.num_services = s.service_list.num_services ∧
      service_queue s' i (q ++ if alloc then [⟨d, false⟩] else []) := by
  obtain ⟨hconn, page, tail, hpage, hlen, hname⟩ := hfr
  obtain ⟨sd, hsd, hsq⟩ := hq
  have hf := find_service_registered s.service_list N tail i hwf hd hreg
  cases alloc with
  | true =>
    have h := connect_frame_queued B s d page N tail i sd hwf hd hconn hpage hlen hname
      hreg hsd
    rw [h]
    refine ⟨_, rfl, rfl, rfl, rfl, rfl, ?_⟩
    refine ⟨{ sd with pending_connections := sd.pending_connections ++ [⟨d, false⟩] },
      by simp [queued_on], ?_⟩
    simp [hsq]
  | false =>
    have h : sphcs_genmsg_cmd_dma_complete_callback B s d dma_status.SPHCS_DMA_STATUS_DONE false
        = (-1, handle_cmd_dma_failed B s d) := by
      simp [sphcs_genmsg_cmd_dma_complete_callback, hconn, hpage, hlen, hname, hf]
    rw [h]
    have hsl := handle_cmd_dma_failed_service_list B s d
    refine ⟨_, rfl, by rw [hsl], by rw [hsl], by rw [hsl], by rw [hsl], ?_⟩
    exact ⟨sd, by rw [hsl]; exact hsd, by simp [hsq]⟩

theorem registry_wf_fields {l l' : sphcs_genmsg_service_list} (hwf : registry_wf l)
    (h1 : l'.ida = l.ida) (h2 : l'.service_name = l.service_name)
    (h3 : l'.service_name_len = l.service_name_len) (h4 : l'.num_services = l.num_services) :
    registry_wf l' := by
  unfold registry_wf registered_count at hwf ⊢
  rw [h1, h2, h3, h4]
  exact hwf

theorem registry_distinct_fields {l l' : sphcs_genmsg_service_list} (hd : registry_distinct l)
    (h2 : l'.service_name = l.service_name) : registry_distinct l' := by
  unfold registry_distinct at hd ⊢
  rw [h2]
  exact hd

theorem accept_pop_empty (s : genmsg_state) (f : file) (env : accept_env) (i : Nat)
    (hf : f.private_data = some i) (hq : service_queue s i []) :
    accept_pop s f env = none ∨ ∃ ret, accept_pop s f env = some (ret, none, s) := by
  obtain ⟨sd, hsd, hsq⟩ := hq
  unfold accept_pop
  simp only [hf, hsd, hsq, wait_event_interruptible]
  cases env.wait_interrupted
  · left; simp
  · right; exact ⟨-ERESTARTSYS_errno, by simp [ERESTARTSYS_errno]⟩

theorem accept_pop_head (s : genmsg_state) (f : file) (env : accept_env) (i : Nat)
    (p : pending_packet) (rest : List pending_packet)
    (hf : f.private_data = some i) (hq : service_queue s i (p :: rest)) :
    ∃ s1, accept_pop s f env = some (0, some p, s1) ∧
      s1.service_list.ida = s.service_list.ida ∧
      s1.service_list.service_name = s.service_list.service_name ∧
      s1.service_list.service_name_len = s.service_list.service_name_len ∧
      s1.service_list.num_services = s.service_list.num_services ∧
      service_queue s1 i rest := by
  obtain ⟨sd, hsd, hsq⟩ := hq
  refine ⟨{ s with service_list := { s.service_list with service_data := Function.update s.service_list.service_data i (some { sd with pending_connections := rest }) } },
    ?_, rfl, rfl, rfl, rfl, ⟨{ sd with pending_connections := rest }, ?_, rfl⟩⟩
  · unfold accept_pop
    simp only [hf, hsd, hsq, wait_event_interruptible]
    simp
  · simp

theorem conn_run_fifo (B : Nat) (f : file) (i : Nat) (N : List Nat) (evs : List conn_event)
    (hf : f.private_data = some i) :
    ∀ (s : genmsg_state) (q : List pending_packet),
      registry_wf s.service_list → registry_distinct s.service_list →
      s.service_list.service_name i = some (N ++ [0]) → service_queue s i q →
      (∀ d alloc, conn_event.arrive d alloc ∈ evs → connect_frame_for N d) →
      ∃ rest, service_queue (conn_run B f s evs).2 i rest ∧
        (conn_run B f s evs).1 ++ rest = q ++ conn_arrivals evs := by
  induction evs with
  | nil =>
    intro s q _ _ _ hq _
    exact ⟨q, hq, by simp [conn_run, conn_arrivals]⟩
  | cons ev evs ih =>
    intro s q hwf hd hreg hq hev
    have hev' : ∀ d alloc, conn_event.arrive d alloc ∈ evs → connect_frame_for N d :=
      fun d alloc h => hev d alloc (List.mem_cons_of_mem _ h)
    cases ev with
    | arrive d alloc =>
      obtain ⟨s', hs', h1, h2, h3, h4, hq'⟩ := arrive_state B s d N i q alloc hwf hd hreg hq
        (hev d alloc (List.mem_cons_self _ _))
      obtain ⟨rest, hr1, hr2⟩ := ih s' _ (registry_wf_fields hwf h1 h2 h3 h4)
        (registry_distinct_fields hd h2) (by rw [h2]; exact hreg) hq' hev'
      simp only [conn_run]
      rw [hs']
      refine ⟨rest, hr1, ?_⟩
      rw [hr2]
      cases alloc <;> simp [conn_arrivals]
    | accept env =>
      cases q with
      | nil =>
        rcases accept_pop_empty s f env i hf hq with h | ⟨ret, h⟩
        · simp only [conn_run, h]
          exact ih s [] hwf hd hreg hq hev'
        · simp only [conn_run, h]
          exact ih s [] hwf hd hreg hq hev'
      | cons p rest0 =>
        obtain ⟨s1, hpop, h1, h2, h3, h4, hq1⟩ := accept_pop_head s f env i p rest0 hf hq
        have hsl := accept_channel_service_list B s1 p env
        obtain ⟨rest, hr1, hr2⟩ := ih (accept_channel B s1 p env).2.2 rest0
          (registry_wf_fields hwf (by rw [hsl, h1]) (by rw [hsl, h2]) (by rw [hsl, h3])
            (by rw [hsl, h4]))
          (registry_distinct_fields hd (by rw [hsl, h2]))
          (by rw [hsl, h2]; exact hreg)
          (by obtain ⟨sd, hsd, hsq⟩ := hq1; exact ⟨sd, by rw [hsl]; exact hsd, hsq⟩) hev'
        simp only [conn_run, hpop]
        refine ⟨rest, hr1, ?_⟩
        simp only [List.cons_append, hr2, conn_arrivals]

/-- Claim C15. A service is registered under the name `N` in slot `i` of a
well-formed registry with distinct names, and `q` is its queue of pending
connections. For every series of events, each a fetched connect frame for `N`
(handled by `sphcs_genmsg_cmd_dma_complete_callback`) or an accept on the
file of the service (handled by `process_accept_client`), the connections
that the accepts take, in the order in which they take them, followed by the
queue that is left, are the connections of `q` followed by the frames that
arrived, in arrival order: the k-th connection taken is the k-th that was
queued. -/
theorem accept_fifo (B : Nat) (s : genmsg_state) (f : file) (i : Nat) (N : List Nat)
    (q : List pending_packet) (evs : List conn_event)
    (hf : f.private_data = some i)
    (hwf : registry_wf s.service_list) (hd : registry_distinct s.service_list)
    (hreg : s.service_list.service_name i = some (N ++ [0])) (hq : service_queue s i q)
    (hev : ∀ d alloc, conn_event.arrive d alloc ∈ evs → connect_frame_for N d) :
    (∃ rest, service_queue (conn_run B f s evs).2 i rest ∧
      (conn_run B f s evs).1 ++ rest = q ++ conn_arrivals evs) ∧
    (∀ k p, (conn_run B f s evs).1.get? k = some p → (q ++ conn_arrivals evs).get? k = some p) ∧
    (∀ env, process_accept_client B s f env =
      (accept_pop s f env).map (fun r =>
        match r.2.1 with
        | none => (r.1, none, r.2.2)
        | some pend => accept_channel B r.2.2 pend env)) := by
  obtain ⟨rest, h1, h2⟩ := conn_run_fifo B f i N evs hf s q hwf hd hreg hq hev
  refine ⟨⟨rest, h1, h2⟩, ?_, fun env => process_accept_client_split B s f env⟩
  intro k p hk
  rw [← h2]
  rw [List.get?_eq_some] at hk ⊢
  obtain ⟨hlt, hget⟩ := hk
  refine ⟨by rw [List.length_append]; omega, ?_⟩
  rw [← hget]
  simp [List.getElem_append_left hlt]

theorem accept_fifo_witness :
    ∃ rest, service_queue
        (conn_run 4095 trace_registered_file demo_registry_state
          [.arrive trace_connect true, .accept trace_accept_env]).2 0 rest ∧
      (conn_run 4095 trace_registered_file demo_registry_state
          [.arrive trace_connect true, .accept trace_accept_env]).1 ++ rest
        = [] ++ conn_arrivals [.arrive trace_connect true, .accept trace_accept_env] :=
  (accept_fifo 4095 demo_registry_state trace_registered_file 0 [65] []
    [.arrive trace_connect true, .accept trace_accept_env] rfl
    registry_wf_demo registry_distinct_demo
    (by simp [demo_registry_state, demo_service_list])
    ⟨demo_service, by simp [demo_registry_state, demo_service_list], rfl⟩
    (by
      intro d alloc h
      simp only [List.mem_cons, conn_event.arrive.injEq, List.mem_singleton, reduceCtorEq,
        or_false, List.not_mem_nil] at h
      rw [h.1]
      exact ⟨rfl, [1, 0, 0, 0, 65], [], rfl, by decide, rfl⟩)).1

/-! ## What accept leaves behind -/

theorem accept_channel_ok (B : Nat) (s : genmsg_state) (pend : pending_packet)
    (env : accept_env) (id : Nat) (ha : env.channel_alloc = true)
    (hid : ida_simple_get s.channel_ida 1 (B - 1) = some id) (hfd : ¬ env.fd < 0)
    (hc : env.copy_ret = 0) :
    accept_channel B s pend env =
      (0, some env.fd,
       { channel_hash := accepted_channel pend id env.fd :: s.channel_hash,
         channel_ida := id :: s.channel_ida,
         service_list := s.service_list,
         log := s.log ++ [.destroy_cb_set pend.dma_data.cmd_chan id, connect_ack pend id,
                          .page_free pend.dma_data.dma_page_hndl] }) := by
  simp [accept_channel, ha, hid, hfd, hc, accept_done, emit, set_channel, chan_store, hash_add,
    ida_insert, accept_new_channel, accepted_channel, connect_ack, c2h_zero]

theorem accept_channel_rollback (B : Nat) (s : genmsg_state) (pend : pending_packet)
    (env : accept_env) (id : Nat) (ha : env.channel_alloc = true)
    (hid : ida_simple_get s.channel_ida 1 (B - 1) = some id)
    (hfail : env.fd < 0 ∨ env.copy_ret ≠ 0) :
    accept_channel B s pend env =
      (if env.fd < 0 then env.fd else (env.copy_ret : Int), none,
       { s with log := s.log ++ [connect_ack pend B, .cmd_chan_put pend.dma_data.cmd_chan,
                                 .page_free pend.dma_data.dma_page_hndl] }) := by
  by_cases hfd : env.fd < 0
  · simp [accept_channel, ha, hid, hfd, accept_done, emit, hash_add, hash_del,
      ida_insert, ida_simple_remove, accept_new_channel, connect_ack, c2h_zero]
  · have hc : env.copy_ret ≠ 0 := by
      rcases hfail with h | h
      · exact absurd h hfd
      · exact h
    simp [accept_channel, ha, hid, hfd, hc, accept_done, emit, set_channel, chan_store, hash_add,
      hash_del, ida_insert, ida_simple_remove, accept_new_channel, connect_ack, c2h_zero]

theorem accept_channel_success (B : Nat) (s : genmsg_state) (pend : pending_packet)
    (env : accept_env) (fd : Int)
    (h : (accept_channel B s pend env).2.1 = some fd) :
    ∃ id, ida_simple_get s.channel_ida 1 (B - 1) = some id ∧ fd = env.fd ∧
      accept_channel B s pend env =
        (0, some fd,
         { channel_hash := accepted_channel pend id fd :: s.channel_hash,
           channel_ida := id :: s.channel_ida,
           service_list := s.service_list,
           log := s.log ++ [.destroy_cb_set pend.dma_data.cmd_chan id, connect_ack pend id,
                            .page_free pend.dma_data.dma_page_hndl] }) := by
  cases ha : env.channel_alloc with
  | false => simp [accept_channel, ha] at h
  | true =>
    cases hid : ida_simple_get s.channel_ida 1 (B - 1) with
    | none => simp [accept_channel, ha, hid] at h
    | some id =>
      by_cases hfail : env.fd < 0 ∨ env.copy_ret ≠ 0
      · rw [accept_channel_rollback B s pend env id ha hid hfail] at h
        simp at h
      · have hfd : ¬ env.fd < 0 := fun h' => hfail (Or.inl h')
        have hc : env.copy_ret = 0 := by
          by_contra h'
          exact hfail (Or.inr h')
        rw [accept_channel_ok B s pend env id ha hid hfd hc] at h ⊢
        simp only [Option.some.injEq] at h
        exact ⟨id, rfl, h.symm, by rw [h]⟩

theorem accept_pop_some {s s1 : genmsg_state} {f : file} {env : accept_env} {ret : Int}
    {pend : pending_packet} (h : accept_pop s f env = some (ret, some pend, s1)) :
    ∃ i sd rest, f.private_data = some i ∧ s.service_list.service_data i = some sd ∧
      sd.pending_connections = pend :: rest ∧
      s1.channel_hash = s.channel_hash ∧ s1.channel_ida = s.channel_ida ∧ s1.log = s.log := by
  unfold accept_pop at h
  split at h
  · simp at h
  rename_i i hi
  split at h
  · simp at h
  rename_i sd hsd
  split at h
  · simp at h
  split at h
  · simp at h
  split at h
  · simp at h
  rename_i p rest hq
  simp only [Option.some.injEq, Prod.mk.injEq] at h
  obtain ⟨_, hp, hs⟩ := h
  rw [← hs]
  exact ⟨i, sd, rest, hi, hsd, by rw [hq, hp], rfl, rfl, rfl⟩

theorem accept_result {B : Nat} {s : genmsg_state} {f : file} {env : accept_env}
    {r : Int × Option Int × genmsg_state} (h : process_accept_client B s f env = some r) :
    (∃ ret s1, accept_pop s f env = some (ret, none, s1) ∧ r = (ret, none, s1)) ∨
    (∃ ret pend s1, accept_pop s f env = some (ret, some pend, s1) ∧
      r = accept_channel B s1 pend env) := by
  rw [process_accept_client_split] at h
  cases hp : accept_pop s f env with
  | none => simp [hp] at h
  | some x =>
    obtain ⟨ret, o, s1⟩ := x
    simp only [hp, Option.map_some', Option.some.injEq] at h
    cases o with
    | none => exact Or.inl ⟨ret, s1, rfl, h.symm⟩
    | some pend => exact Or.inr ⟨ret, pend, s1, rfl, h.symm⟩

/-- Claim C16. Let `process_accept_client` succeed, that is, return with the
descriptor written to the caller, in a state whose channels all have an
allocated id (as in every reachable state of the driver). Then it returns 0
and took the first connection `pend` off the queue of the service; the
channel table is the former one with one new channel at its head, whose id
`id` was free, is at least 1 and below the sentinel `B` minus one (so it is
neither 0 nor the sentinel) and is the id of no other channel; the channel is
open, with `hanging_up` and `io_error` clear, both DMA counters zero, an
empty queue, no current packet, a count of one, and the privilege flag, the
host client id and the hardware channel of the connect frame; `find_channel`
of `id` returns this channel, with a reference taken; and the log grew by the
destroy callback set on the hardware channel, the connect acknowledgement
carrying `id`, and the page of the frame returned to the pool. -/
theorem accept_creates_channel (B : Nat) (s : genmsg_state) (f : file) (env : accept_env)
    (r : Int × Option Int × genmsg_state) (fd : Int)
    (hids : ∀ c ∈ s.channel_hash, c.channel_id ∈ s.channel_ida)
    (h : process_accept_client B s f env = some r) (hok : r.2.1 = some fd) :
    ∃ i sd pend rest id,
      f.private_data = some i ∧ s.service_list.service_data i = some sd ∧
      sd.pending_connections = pend :: rest ∧
      r.1 = 0 ∧ 1 ≤ id ∧ id < B - 1 ∧ id ≠ 0 ∧ id ≠ B ∧ id ∉ s.channel_ida ∧
      (∀ c ∈ s.channel_hash, c.channel_id ≠ id) ∧
      r.2.2.channel_hash = accepted_channel pend id fd :: s.channel_hash ∧
      r.2.2.channel_ida = id :: s.channel_ida ∧
      chan_lookup r.2.2.channel_hash id = some (accepted_channel pend id fd) ∧
      (find_channel r.2.2 id).1 = some { accepted_channel pend id fd with ref := 2 } ∧
      r.2.2.log = s.log ++ [.destroy_cb_set pend.dma_data.cmd_chan id, connect_ack pend id,
                            .page_free pend.dma_data.dma_page_hndl] ∧
      (accepted_channel pend id fd).channel_id = id ∧
      (accepted_channel pend id fd).closing = _chnl_open ∧
      (accepted_channel pend id fd).hanging_up = false ∧
      (accepted_channel pend id fd).io_error = false ∧
      (accepted_channel pend id fd).n_read_dma_req = 0 ∧
      (accepted_channel pend id fd).n_write_dma_req = 0 ∧
      (accepted_channel pend id fd).pending_read_packets = [] ∧
      (accepted_channel pend id fd).current_read_packet = none ∧
      (accepted_channel pend id fd).ref = 1 ∧
      (accepted_channel pend id fd).is_privileged = pend.dma_data.msg.privileged ∧
      (accepted_channel pend id fd).host_client_id = pend.dma_data.msg.host_client_id ∧
      (accepted_channel pend id fd).cmd_chan = pend.dma_data.cmd_chan := by
  rcases accept_result h with ⟨ret, s1, _, hr⟩ | ⟨ret, pend, s1, hp, hr⟩
  · rw [hr] at hok
    simp at hok
  obtain ⟨i, sd, rest, hi, hsd, hq, hh, hida, hlog⟩ := accept_pop_some hp
  rw [hr] at hok
  obtain ⟨id, hid, hfd, heq⟩ := accept_channel_success B s1 pend env fd hok
  rw [hida] at hid
  obtain ⟨h1, h2, h3⟩ := ida_simple_get_some hid
  rw [hr, heq]
  refine ⟨i, sd, pend, rest, id, hi, hsd, hq, rfl, h1, h2, by omega, by omega, h3, ?_,
    by rw [hh], by rw [hida], ?_, ?_, by rw [hlog], ?_⟩
  · intro c hc he
    exact h3 (he ▸ hids c hc)
  · simp [chan_lookup, accepted_channel, accept_new_channel]
  · simp [find_channel, chan_lookup, accepted_channel, accept_new_channel]
  · simp [accepted_channel, accept_new_channel]

set_option maxRecDepth 1000000 in
theorem accept_creates_channel_witness :
    ∃ pend id, 1 ≤ id ∧
      trace_d3.g.channel_hash = accepted_channel pend id 7 :: trace_d2.g.channel_hash := by
  obtain ⟨_, _, pend, _, id, _, _, _, _, h1, _, _, _, _, _, h2, _⟩ :=
    accept_creates_channel 4095 trace_d2.g trace_registered_file trace_accept_env
      ((process_accept_client 4095 trace_d2.g trace_registered_file trace_accept_env).getD
        (0, none, trace_d2.g)) 7
      (by
        have h0 : trace_d2.g.channel_hash = [] := by decide
        rw [h0]
        simp)
      (option_eq_getD _ _ (by decide)) (by decide)
  exact ⟨pend, id, h1, h2⟩

/-- Claim C17. Let `process_accept_client` take the connection `pend` off the
queue of its service, allocate the channel and reserve the id `id` for it,
and then fail: `anon_inode_getfd` returns a negative value, or the copy of the
descriptor to the caller faults. Then the call returns with no descriptor
written, the channel table and the allocated channel ids are the ones before
the call, and the log grew by exactly the connect acknowledgement carrying
the sentinel `B`, the release of the reference on the hardware channel and
the return of the frame's page to the pool. -/
theorem accept_rolls_back (B : Nat) (s : genmsg_state) (f : file) (env : accept_env)
    (i : Nat) (pend : pending_packet) (rest : List pending_packet) (id : Nat)
    (hf : f.private_data = some i) (hq : service_queue s i (pend :: rest))
    (ha : env.channel_alloc = true)
    (hid : ida_simple_get s.channel_ida 1 (B - 1) = some id)
    (hfail : env.fd < 0 ∨ env.copy_ret ≠ 0) :
    ∃ r, process_accept_client B s f env = some r ∧
      r.1 = (if env.fd < 0 then env.fd else (env.copy_ret : Int)) ∧ r.2.1 = none ∧
      r.2.2.channel_hash = s.channel_hash ∧ r.2.2.channel_ida = s.channel_ida ∧
      r.2.2.log = s.log ++ [connect_ack pend B, .cmd_chan_put pend.dma_data.cmd_chan,
                            .page_free pend.dma_data.dma_page_hndl] := by
  obtain ⟨s1, hpop, _, _, _, _, _⟩ := accept_pop_head s f env i pend rest hf hq
  obtain ⟨_, _, _, _, _, _, hh, hida, hlog⟩ := accept_pop_some hpop
  rw [process_accept_client_split, hpop]
  simp only [Option.map_some']
  rw [← hida] at hid
  rw [accept_channel_rollback B s1 pend env id ha hid hfail]
  exact ⟨_, rfl, rfl, rfl, hh, hida, by rw [hlog]⟩

set_option maxRecDepth 1000000 in
theorem accept_rolls_back_witness :
    ∃ r, process_accept_client 4095 trace_d2.g trace_registered_file
        { trace_accept_env with copy_ret := 4 } = some r ∧
      r.1 = (4 : Int) ∧ r.2.1 = none ∧
      r.2.2.channel_hash = trace_d2.g.channel_hash ∧
      r.2.2.channel_ida = trace_d2.g.channel_ida ∧
      r.2.2.log = trace_d2.g.log ++
        [connect_ack ⟨trace_connect, false⟩ 4095, .cmd_chan_put demo_cmd_chan, .page_free 5] :=
  accept_rolls_back 4095 trace_d2.g trace_registered_file
    { trace_accept_env with copy_ret := 4 } 0 ⟨trace_connect, false⟩ [] 1 rfl
    ⟨(trace_d2.g.service_list.service_data 0).getD demo_service,
      option_eq_getD _ _ (by decide), by decide⟩
    rfl (by decide) (Or.inr (by decide))

/-! ## Unregistering a service with connections pending -/

theorem delete_service_drain_eq (B : Nat) (q : List pending_packet) :
    ∀ s : genmsg_state,
      delete_service_drain B s q = { s with log := s.log ++ q.flatMap (drain_reply B) } := by
  induction q with
  | nil => intro s; simp [delete_service_drain]
  | cons p rest ih =>
    intro s
    simp only [delete_service_drain]
    rw [ih]
    simp [emit, drain_reply, connect_ack, c2h_zero, List.flatMap_cons]

theorem drain_replies (B : Nat) (q : List pending_packet) :
    log_replies (q.flatMap (drain_reply B))
      = q.map (fun p => (p.dma_data.cmd_chan, negative_connect_reply B p.dma_data.cmd_chan)) ∧
    log_chan_puts (q.flatMap (drain_reply B)) = q.map (fun p => p.dma_data.cmd_chan) ∧
    log_pages_freed (q.flatMap (drain_reply B)) = q.map (fun p => p.dma_data.dma_page_hndl) := by
  induction q with
  | nil => simp [log_replies, log_chan_puts, log_pages_freed]
  | cons p rest ih =>
    simp only [List.flatMap_cons, List.map_cons]
    simp [drain_reply, connect_ack, log_replies, log_chan_puts, log_pages_freed, ih,
      negative_connect_reply]

theorem delete_service_effects (B : Nat) (s : genmsg_state) (i : Nat) (stored : List Nat)
    (sd : service_data)
    (hname : s.service_list.service_name i = some stored)
    (hsd : s.service_list.service_data i = some sd) :
    (delete_service B s i).log
      = s.log ++ sd.pending_connections.flatMap (drain_reply B) ∧
    log_replies (sd.pending_connections.flatMap (drain_reply B))
      = sd.pending_connections.map
          (fun p => (p.dma_data.cmd_chan, negative_connect_reply B p.dma_data.cmd_chan)) ∧
    log_chan_puts (sd.pending_connections.flatMap (drain_reply B))
      = sd.pending_connections.map (fun p => p.dma_data.cmd_chan) ∧
    log_pages_freed (sd.pending_connections.flatMap (drain_reply B))
      = sd.pending_connections.map (fun p => p.dma_data.dma_page_hndl) ∧
    service_queue (delete_service B s i) i [] ∧
    (delete_service B s i).service_list.service_name i = none ∧
    (delete_service B s i).channel_hash = s.channel_hash ∧
    (delete_service B s i).channel_ida = s.channel_ida := by
  have hstate : delete_service B s i =
      { s with
        log := s.log ++ sd.pending_connections.flatMap (drain_reply B),
        service_list := (delete_service B s i).service_list } := by
    unfold delete_service
    simp only [hname, hsd, delete_service_drain_eq]
  have hl := delete_service_list B s i stored hname
  obtain ⟨h1, h2, h3⟩ := drain_replies B sd.pending_connections
  refine ⟨by rw [hstate], h1, h2, h3, ?_, ?_, by rw [hstate], by rw [hstate]⟩
  · rw [service_queue, hl]
    exact ⟨{ sd with pending_connections := [] }, by simp [hsd], rfl⟩
  · rw [hl]
    simp

/-- Claim C19. For every service registered in slot `i`, with the queue `q`
of pending connections: `delete_service` adds to the log, for each connection
of `q` in queue order, the connect reply with the sentinel id on that
connection's hardware channel, the release of the reference on that hardware
channel and the return of the connection's page to the pool, and nothing
else. So the replies sent, the references released and the pages returned
are, in queue order, one per pending connection. Afterwards the queue of the
service is empty, the name of the slot is cleared, and the channel table is
untouched. -/
theorem delete_service_drains (B : Nat) (s : genmsg_state) (i : Nat) (stored : List Nat)
    (sd : service_data)
    (hname : s.service_list.service_name i = some stored)
    (hsd : s.service_list.service_data i = some sd) :
    (delete_service B s i).log
      = s.log ++ sd.pending_connections.flatMap (drain_reply B) ∧
    log_replies (sd.pending_connections.flatMap (drain_reply B))
      = sd.pending_connections.map
          (fun p => (p.dma_data.cmd_chan, negative_connect_reply B p.dma_data.cmd_chan)) ∧
    log_chan_puts (sd.pending_connections.flatMap (drain_reply B))
      = sd.pending_connections.map (fun p => p.dma_data.cmd_chan) ∧
    log_pages_freed (sd.pending_connections.flatMap (drain_reply B))
      = sd.pending_connections.map (fun p => p.dma_data.dma_page_hndl) ∧
    service_queue (delete_service B s i) i [] ∧
    (delete_service B s i).service_list.service_name i = none ∧
    (delete_service B s i).channel_hash = s.channel_hash ∧
    (delete_service B s i).channel_ida = s.channel_ida :=
  delete_service_effects B s i stored sd hname hsd

set_option maxRecDepth 1000000 in
theorem delete_service_drains_witness :
    trace_f3.log = trace_d2.g.log ++
      [connect_ack ⟨trace_connect, false⟩ 4095, .cmd_chan_put demo_cmd_chan, .page_free 5] :=
  (delete_service_drains 4095 trace_d2.g 0
    ((trace_d2.g.service_list.service_name 0).getD [])
    ((trace_d2.g.service_list.service_data 0).getD demo_service)
    (option_eq_getD _ _ (by decide)) (option_eq_getD _ _ (by decide))).1.trans (by decide)

/-- Claim C18, as amended. When a service is unregistered with connection
requests still queued on it, `delete_service` sends one reply per queued
request, in queue order, each on the hardware channel of its request; each
reply has the connect bit set and carries the sentinel id, and its
no-such-service flag is clear. -/
theorem unregister_fails_pending (B : Nat) (s : genmsg_state) (i : Nat) (stored : List Nat)
    (sd : service_data)
    (hname : s.service_list.service_name i = some stored)
    (hsd : s.service_list.service_data i = some sd) :
    ∃ added, (delete_service B s i).log = s.log ++ added ∧
      (log_replies added).map (fun r => r.1)
        = sd.pending_connections.map (fun p => p.dma_data.cmd_chan) ∧
      ∀ r ∈ log_replies added,
        r.2.connect = true ∧ r.2.card_client_id = B ∧ r.2.no_such_service = false := by
  obtain ⟨h1, h2, _⟩ := delete_service_effects B s i stored sd hname hsd
  refine ⟨_, h1, ?_, ?_⟩
  · rw [h2]
    simp [List.map_map, Function.comp]
  · intro r hr
    rw [h2] at hr
    obtain ⟨p, _, rfl⟩ := List.mem_map.mp hr
    simp [negative_connect_reply, c2h_zero]

set_option maxRecDepth 1000000 in
theorem unregister_fails_pending_witness :
    ∃ added, trace_f3.log = trace_d2.g.log ++ added ∧
      (log_replies added).map (fun r => r.1)
        = ((trace_d2.g.service_list.service_data 0).getD demo_service).pending_connections.map
            (fun p => p.dma_data.cmd_chan) ∧
      ∀ r ∈ log_replies added,
        r.2.connect = true ∧ r.2.card_client_id = 4095 ∧ r.2.no_such_service = false :=
  unregister_fails_pending 4095 trace_d2.g 0
    ((trace_d2.g.service_list.service_name 0).getD [])
    ((trace_d2.g.service_list.service_data 0).getD demo_service)
    (option_eq_getD _ _ (by decide)) (option_eq_getD _ _ (by decide))

set_option maxRecDepth 1000000 in
/-- Claim C18 as stated fails on the flag. In the reachable state `trace_d2`
the service "A" has one connection request queued; when the service is
unregistered, the one reply sent for it has the connect bit and the sentinel
id, and its no-such-service flag is clear. -/
theorem unregister_fails_pending_counterexample :
    ((trace_d2.g.service_list.service_data 0).map (fun sd => sd.pending_connections.length))
      = some 1 ∧
    (log_replies (trace_f3.log.drop trace_d2.g.log.length)).map
        (fun r => (r.1, r.2.connect, r.2.card_client_id, r.2.no_such_service))
      = [(demo_cmd_chan, true, 4095, false)] := by
  decide

/-! ## Messages that are dropped -/

theorem find_channel_fst_none {s : genmsg_state} {id : Nat}
    (h : (find_channel s id).1 = none) : find_channel s id = (none, s) := by
  unfold find_channel at h ⊢
  split
  · rfl
  split
  · rfl
  · rename_i c hl hr
    simp [hl, hr] at h

theorem command_unknown_channel (B : Nat) (s : genmsg_state) (req : h2c_GenericMessaging)
    (cmd_chan : sphcs_cmd_chan) (env : cmd_env)
    (hsl : req.service_list_req = false) (hconn : req.connect = false)
    (hnone : (find_channel s req.card_client_id).1 = none) :
    ∃ ret added, process_genmsg_command B s req cmd_chan env
        = some (ret, { s with log := s.log ++ added }) ∧
      (added = [.cmd_chan_put cmd_chan] ∨
        added = [.cmd_head_update cmd_chan, .cmd_chan_put cmd_chan]) := by
  have hf := find_channel_fst_none hnone
  unfold process_genmsg_command
  by_cases h1 : (!req.hangup && !req.service_list_req && decide (req.host_pfn = 0)) = true
  · rw [if_pos h1]
    exact ⟨-1, _, rfl, Or.inl rfl⟩
  · rw [if_neg h1]
    simp only [hsl, hconn, hf, Bool.false_eq_true, if_false, Bool.not_false, if_true]
    cases hh : req.hangup
    · exact ⟨0, _, by simp [emit], Or.inr rfl⟩
    · exact ⟨0, _, by simp [emit], Or.inl rfl⟩

theorem command_foreign_channel (B : Nat) (s : genmsg_state) (req : h2c_GenericMessaging)
    (cmd_chan : sphcs_cmd_chan) (env : cmd_env) (c : channel_data)
    (hsl : req.service_list_req = false) (hconn : req.connect = false)
    (hl : chan_lookup s.channel_hash req.card_client_id = some c) (href : 1 ≤ c.ref)
    (hcc : c.cmd_chan ≠ cmd_chan) :
    ∃ ret, process_genmsg_command B s req cmd_chan env
        = some (ret, { s with log := s.log ++ [.cmd_chan_put cmd_chan] }) := by
  have hid := chan_lookup_id hl
  have h0 : c.ref ≠ 0 := by omega
  have hf : find_channel s req.card_client_id
      = (some { c with ref := c.ref + 1 }, set_channel s { c with ref := c.ref + 1 }) := by
    simp [find_channel, hl, h0]
  have key : ∀ c1 : channel_data, c1 = { c with ref := c.ref + 1 } →
      channel_put (set_channel s c1) c.channel_id = s := by
    intro c1 hc1
    have hid1 : c1.channel_id = req.card_client_id := by rw [hc1]; exact hid
    have hl2 : chan_lookup (set_channel s c1).channel_hash c.channel_id = some c1 := by
      rw [hid]
      exact chan_lookup_store_self hl hid1
    have href1 : 2 ≤ c1.ref := by
      rw [hc1]
      show 2 ≤ c.ref + 1
      omega
    rw [channel_put_many _ _ _ hl2 href1]
    have hback : ({ c1 with ref := c1.ref - 1 } : channel_data) = c := by
      rw [hc1]
      cases c
      simp
    rw [hback]
    unfold set_channel
    simp only [chan_store_store _ _ _ (hid1.trans hid.symm), chan_store_same hl]
  have hput := key _ rfl
  unfold process_genmsg_command
  by_cases h1 : (!req.hangup && !req.service_list_req && decide (req.host_pfn = 0)) = true
  · rw [if_pos h1]
    exact ⟨-1, rfl⟩
  · rw [if_neg h1]
    refine ⟨0, ?_⟩
    simp only [hsl, hconn, Bool.false_eq_true, if_false, Bool.not_false, if_true, hf]
    rw [if_pos hcc]
    show some ((0 : Int), emit (channel_put (set_channel s { c with ref := c.ref + 1 })
      c.channel_id) (.cmd_chan_put cmd_chan)) = _
    rw [hput]
    rfl

theorem command_connect_hangup (B : Nat) (s : genmsg_state) (req : h2c_GenericMessaging)
    (cmd_chan : sphcs_cmd_chan) (env : cmd_env)
    (hsl : req.service_list_req = false) (hconn : req.connect = true)
    (hh : req.hangup = true) :
    process_genmsg_command B s req cmd_chan env
      = some (-1, { s with log := s.log ++ [.cmd_chan_put cmd_chan] }) := by
  simp [process_genmsg_command, hsl, hconn, hh, emit]

/-- Claim C20, as amended. Let an inbound packet have its
service-list-request bit clear, and either (a) have the connect bit clear and
a channel id that `find_channel` does not find, or (b) have the connect bit
clear and the id of a live channel that belongs to another hardware channel
than the one the packet arrived on, or (c) have the connect and the hangup
bit both set. Then `process_genmsg_command` drops it: the state after the
call is the state before it with a longer log, so the table of channels with
their states, flags, queues and counts, and the registry, are as before, and
the log grew by the release of the reference on the hardware channel only,
preceded in some cases by the update of the command head: no DMA is started
and nothing is queued. -/
theorem dropped_messages (B : Nat) (s : genmsg_state) (req : h2c_GenericMessaging)
    (cmd_chan : sphcs_cmd_chan) (env : cmd_env)
    (hsl : req.service_list_req = false)
    (hcase :
      (req.connect = false ∧ (find_channel s req.card_client_id).1 = none) ∨
      (req.connect = false ∧ ∃ c, chan_lookup s.channel_hash req.card_client_id = some c ∧
        1 ≤ c.ref ∧ c.cmd_chan ≠ cmd_chan) ∨
      (req.connect = true ∧ req.hangup = true)) :
    ∃ ret added, process_genmsg_command B s req cmd_chan env
        = some (ret, { s with log := s.log ++ added }) ∧
      (added = [.cmd_chan_put cmd_chan] ∨
        added = [.cmd_head_update cmd_chan, .cmd_chan_put cmd_chan]) := by
  rcases hcase with ⟨hconn, hnone⟩ | ⟨hconn, c, hl, href, hcc⟩ | ⟨hconn, hh⟩
  · exact command_unknown_channel B s req cmd_chan env hsl hconn hnone
  · obtain ⟨ret, h⟩ := command_foreign_channel B s req cmd_chan env c hsl hconn hl href hcc
    exact ⟨ret, _, h, Or.inl rfl⟩
  · exact ⟨-1, _, command_connect_hangup B s req cmd_chan env hsl hconn hh, Or.inl rfl⟩

theorem dropped_messages_witness :
    ∃ ret added, process_genmsg_command 4095 (demo_state demo_channel) demo_data
        demo_other_chan demo_env
        = some (ret, { demo_state demo_channel with
            log := (demo_state demo_channel).log ++ added }) ∧
      (added = [.cmd_chan_put demo_other_chan] ∨
        added = [.cmd_head_update demo_other_chan, .cmd_chan_put demo_other_chan]) :=
  dropped_messages 4095 (demo_state demo_channel) demo_data demo_other_chan demo_env
    (by decide) (Or.inr (Or.inl ⟨by decide, demo_channel, by decide, by decide, by decide⟩))

set_option maxRecDepth 1000000 in
/-- Claim C20 as stated fails for a packet with the connect and the hangup bit
set whose service-list-request bit is set too: `process_genmsg_command` tests
that bit first and, one service being registered, starts the DMA that sends
the service list to the host. -/
theorem dropped_messages_counterexample :
    demo_all_bits.connect = true ∧ demo_all_bits.hangup = true ∧
    (process_genmsg_command 4095 demo_registry_state demo_all_bits demo_cmd_chan demo_env).map
        (fun r => r.2.log)
      = some [.host_rb_update_free_space demo_cmd_chan,
              .dma_c2h { dma_page_hndl := 9, host_dma_page_hndl := 0,
                         dma_vptr := some [65, 0, 0, 0], xfer_size := 2, param1 := 1,
                         channel := none, cmd_chan := some demo_cmd_chan } true] := by
  decide

/-! ## A failed fetch of a data frame -/

theorem handle_cmd_dma_failed_data (B : Nat) (s : genmsg_state) (d : genmsg_dma_command_data)
    (ch : Nat) (c : channel_data)
    (hconn : d.msg.connect = false) (hch : d.channel = some ch)
    (hl : chan_lookup s.channel_hash ch = some c) :
    handle_cmd_dma_failed B s d =
      { s with
        channel_hash := chan_store s.channel_hash
          { c with io_error := (if c.closing = _chnl_open then true else c.io_error),
                   n_read_dma_req := (c.n_read_dma_req + U32_MOD - 1) % U32_MOD },
        log := s.log ++ [.cmd_head_update d.cmd_chan, .page_free d.dma_page_hndl,
                         .cmd_chan_put d.cmd_chan] } := by
  by_cases ho : c.closing = _chnl_open
  · simp [handle_cmd_dma_failed, hconn, hch, hl, ho, emit, set_channel]
  · simp [handle_cmd_dma_failed, hconn, hch, hl, ho, emit, set_channel]

/-- Claim C23, as amended. When the DMA fetch of a data frame for the channel
`ch` fails, with at least one inbound DMA counted on the channel, the
callback returns -1; it decrements the channel's `n_read_dma_req` by exactly
one; it sets the channel's `io_error` flag if the channel is open, and leaves
the flag as it is if the local close of the channel has begun; nothing else
of the channel changes. The command head is updated, the page is returned to
the pool and the reference on the hardware channel is dropped. -/
theorem fetch_failure_marks_channel (B : Nat) (s : genmsg_state)
    (d : genmsg_dma_command_data) (ch : Nat) (c : channel_data) (alloc : Bool)
    (hconn : d.msg.connect = false) (hch : d.channel = some ch)
    (hl : chan_lookup s.channel_hash ch = some c)
    (hn : 1 ≤ c.n_read_dma_req) (hu : c.n_read_dma_req < U32_MOD) :
    ∃ s', sphcs_genmsg_cmd_dma_complete_callback B s d dma_status.SPHCS_DMA_STATUS_FAILED alloc
        = (-1, s') ∧
      chan_lookup s'.channel_hash ch
        = some { c with io_error := (if c.closing = _chnl_open then true else c.io_error),
                        n_read_dma_req := c.n_read_dma_req - 1 } ∧
      s'.log = s.log ++ [.cmd_head_update d.cmd_chan, .page_free d.dma_page_hndl,
                         .cmd_chan_put d.cmd_chan] := by
  have hmod : (c.n_read_dma_req + U32_MOD - 1) % U32_MOD = c.n_read_dma_req - 1 := by
    unfold U32_MOD at *
    omega
  refine ⟨_, by simp [sphcs_genmsg_cmd_dma_complete_callback]; rfl, ?_, ?_⟩
  · rw [handle_cmd_dma_failed_data B s d ch c hconn hch hl, hmod]
    have hid : c.channel_id = ch := chan_lookup_id hl
    exact chan_lookup_store_self hl hid
  · rw [handle_cmd_dma_failed_data B s d ch c hconn hch hl]

theorem fetch_failure_marks_channel_witness :
    ∃ s', sphcs_genmsg_cmd_dma_complete_callback 4095
        (demo_state { demo_channel with n_read_dma_req := 1 }) demo_fetch
        dma_status.SPHCS_DMA_STATUS_FAILED true = (-1, s') ∧
      chan_lookup s'.channel_hash 1 = some { demo_channel with io_error := true } :=
  (fetch_failure_marks_channel 4095 (demo_state { demo_channel with n_read_dma_req := 1 })
    demo_fetch 1 { demo_channel with n_read_dma_req := 1 } true (by decide) (by decide)
    (by decide) (by decide) (by decide)).imp (fun _ h => ⟨h.1, h.2.1⟩)

/-- Claim C23 as stated fails on a channel whose local close has begun: the
fetch of a data frame for it fails, the counter goes from 1 to 0, and the
`io_error` flag stays clear. -/
theorem fetch_failure_marks_channel_counterexample :
    (fun r : Int × genmsg_state =>
        (r.1, (chan_lookup r.2.channel_hash 1).map (fun c => (c.io_error, c.n_read_dma_req))))
      (sphcs_genmsg_cmd_dma_complete_callback 4095 (demo_state demo_closing_channel) demo_fetch
        dma_status.SPHCS_DMA_STATUS_FAILED true)
      = (-1, some (false, 0)) := by
  decide

/-! ## A service list that does not fit a page -/

theorem send_service_list_overflow (s : genmsg_state) (cmd_chan : sphcs_cmd_chan)
    (env : cmd_env) (hwf : registry_wf s.service_list)
    (hbig : NNP_PAGE_SIZE < (service_list_bytes s.service_list).length)
    (hsmall : (service_list_bytes s.service_list).length < 2 ^ 31)
    (hpage : env.page_ret = 0) (hrb : env.rb_n = 1) (hchunk : env.rb_chunk_size = NNP_PAGE_SIZE) :
    send_service_list_to_host s cmd_chan env =
      (0, { s with log := s.log ++
        [.host_rb_update_free_space cmd_chan,
         .dma_c2h { dma_page_hndl := env.page_hndl, host_dma_page_hndl := 0,
                    dma_vptr := some env.page_vptr,
                    xfer_size := U32_MOD - (service_list_bytes s.service_list).length,
                    param1 := 0, channel := none, cmd_chan := some cmd_chan }
           (decide (0 ≤ env.dma_ret))] }) := by
  have hnum : ¬ s.service_list.num_services < 1 := by
    rw [hwf.2.2.2.2, ← registered_names_length]
    intro h
    have h0 : (registered_names s.service_list) = [] := by
      apply List.eq_nil_of_length_eq_zero
      omega
    unfold service_list_bytes at hbig
    rw [h0] at hbig
    simp at hbig
  have hpkt := service_list_too_small_aux s.service_list env.page_vptr NNP_PAGE_SIZE 0 hwf
    hsmall hbig
  unfold send_service_list_to_host
  rw [if_neg hnum, if_neg (by rw [hpage]; simp)]
  simp only [hpkt]
  have hx : ((-((service_list_bytes s.service_list).length : Int)) % (U32_MOD : Int)).toNat
      = U32_MOD - (service_list_bytes s.service_list).length := by
    unfold U32_MOD at *
    omega
  rw [hx]
  have hneg : ¬ ((U32_MOD - (service_list_bytes s.service_list).length : Nat) : Int) < 0 := by
    omega
  rw [if_neg hneg]
  have hok : ¬ (env.rb_n ≠ 1 ∨ env.rb_chunk_size ≠ NNP_PAGE_SIZE) := by
    rw [hrb, hchunk]; simp
  rw [if_neg hok]
  simp [emit]

theorem registry_wf_wide : registry_wf wide_service_list := by
  unfold registry_wf registered_count
  simp only [wide_service_list]
  refine ⟨List.nodup_range _, ?_, ?_, ?_, ?_⟩
  · intro i hi
    exact List.mem_range.mp hi
  · intro i hi
    by_cases h : i < SPH_MAX_GENERIC_SERVICES
    · exact List.mem_range.mpr h
    · simp [h] at hi
  · intro i stored hs
    by_cases h : i < SPH_MAX_GENERIC_SERVICES
    · simp only [h, if_true, Option.some.injEq] at hs ⊢
      refine ⟨wide_name i, hs.symm, ?_, by simp [wide_name, full_name]⟩
      simp only [wide_name, full_name, List.mem_append, List.mem_cons, List.mem_singleton,
        List.not_mem_nil, or_false, List.mem_replicate]
      omega
    · simp [h] at hs
  · rw [List.filter_eq_self.mpr]
    · simp
    · intro i hi
      simp [List.mem_range.mp hi]

theorem wide_service_list_bytes : (service_list_bytes wide_service_list).length = 4896 := by
  have key : ∀ n, n ≤ SPH_MAX_GENERIC_SERVICES →
      (((List.range n).filterMap wide_service_list.service_name).flatten).length = 17 * n := by
    intro n
    induction n with
    | zero => intro _; rfl
    | succ n ih =>
      intro hn
      have hlt : n < SPH_MAX_GENERIC_SERVICES := by omega
      rw [List.range_succ, List.filterMap_append, List.flatten_append, List.length_append,
        ih (by omega)]
      simp [wide_service_list, hlt, wide_name, full_name]
      omega
  have := key SPH_MAX_GENERIC_SERVICES (le_refl _)
  unfold service_list_bytes registered_names
  exact this

/-- Claim C24, the code at the failing input. With the 288 sixteen-byte names
of `wide_service_list` registered (4896 bytes with their NULs, more than the
4096 of a page) a service-list request whose page allocation succeeds sends no
response at all: `build_service_list_packet` returns -4896, the assignment to
the `u32 xfer_size` makes it 4294962400, the test `xfer_size < 0` of line 858
is false, and the driver starts a card-to-host DMA of that size from the page,
returning 0. -/
theorem service_list_overflow_no_failure :
    send_service_list_to_host wide_registry_state demo_cmd_chan demo_env
      = (0, { wide_registry_state with log :=
          [.host_rb_update_free_space demo_cmd_chan,
           .dma_c2h { dma_page_hndl := demo_env.page_hndl, host_dma_page_hndl := 0,
                      dma_vptr := some demo_env.page_vptr, xfer_size := 4294962400, param1 := 0,
                      channel := none, cmd_chan := some demo_cmd_chan } true] }) := by
  have h := send_service_list_overflow wide_registry_state demo_cmd_chan demo_env
    registry_wf_wide
    (by rw [show wide_registry_state.service_list = wide_service_list from rfl,
          wide_service_list_bytes]; decide)
    (by rw [show wide_registry_state.service_list = wide_service_list from rfl,
          wide_service_list_bytes]; decide) rfl rfl rfl
  rw [h, show wide_registry_state.service_list = wide_service_list from rfl,
    wide_service_list_bytes]
  rfl

/-! ## What the local close waits for -/

theorem release_notify_some (s : genmsg_state) (channel : Nat) (c : channel_data) (i : Bool)
    (hl : chan_lookup s.channel_hash channel = some c)
    (hw : c.n_write_dma_req = 0 ∨ i = true) :
    sphcs_genmsg_chan_release_notify s channel i
      = some { s with
          log := s.log ++ (if c.write_page_vptr.isSome then [.page_free c.write_page_hndl] else [])
            ++ [hangup_notice c] } := by
  rcases hw with hw | hw
  · cases hv : c.write_page_vptr <;>
      simp [sphcs_genmsg_chan_release_notify, hl, hw, wait_done, emit, hv, c2h_zero,
        hangup_notice]
  · subst hw
    by_cases h0 : c.n_write_dma_req = 0
    · cases hv : c.write_page_vptr <;>
        simp [sphcs_genmsg_chan_release_notify, hl, h0, wait_done, emit, hv, c2h_zero,
          hangup_notice]
    · cases hv : c.write_page_vptr <;>
        simp [sphcs_genmsg_chan_release_notify, hl, h0, wait_event_interruptible, emit, hv,
          c2h_zero, hangup_notice]

theorem release_notify_none (s : genmsg_state) (channel : Nat) (c : channel_data)
    (hl : chan_lookup s.channel_hash channel = some c) (hw : c.n_write_dma_req ≠ 0) :
    sphcs_genmsg_chan_release_notify s channel false = none := by
  simp [sphcs_genmsg_chan_release_notify, hl, hw, wait_event_interruptible]

/-- Claim C25, as amended. The middle part of `sphcs_genmsg_chan_release`
(lines 253-278) on a channel `c` of the table, in an execution where no signal
ends its wait: it stays asleep exactly while `n_write_dma_req` is not zero; so
when it emits the hangup notice (after the page of a write that was under way,
if any) `n_write_dma_req` is zero. It leaves the channel table as it is,
`n_read_dma_req` included, whatever its value: that counter is not waited
for. -/
theorem release_notice_waits_outbound (s : genmsg_state) (channel : Nat) (c : channel_data)
    (hl : chan_lookup s.channel_hash channel = some c) :
    (sphcs_genmsg_chan_release_notify s channel false = none ↔ c.n_write_dma_req ≠ 0) ∧
    (∀ s', sphcs_genmsg_chan_release_notify s channel false = some s' →
       c.n_write_dma_req = 0 ∧
       s'.channel_hash = s.channel_hash ∧
       s'.log = s.log ++
         (if c.write_page_vptr.isSome then [.page_free c.write_page_hndl] else []) ++
         [hangup_notice c]) := by
  by_cases hw : c.n_write_dma_req = 0
  · have h := release_notify_some s channel c false hl (Or.inl hw)
    rw [h]
    constructor
    · constructor
      · intro h0; exact absurd h0 (by simp)
      · intro h0; exact absurd hw h0
    · intro s' hs
      simp only [Option.some.injEq] at hs
      subst hs
      exact ⟨hw, rfl, rfl⟩
  · have h := release_notify_none s channel c hl hw
    rw [h]
    constructor
    · constructor
      · intro _; exact hw
      · intro _; rfl
    · intro s' hs
      exact absurd hs (by simp)

set_option maxRecDepth 1000000 in
theorem release_notice_waits_outbound_witness :
    sphcs_genmsg_chan_release_notify (demo_state demo_channel) 1 false
        ≠ none ∧
    sphcs_genmsg_chan_release_notify
        (demo_state { demo_channel with n_write_dma_req := 1 }) 1 false = none :=
  ⟨fun h => absurd ((release_notice_waits_outbound (demo_state demo_channel) 1 demo_channel
      (by decide)).1.mp h) (by decide),
   (release_notice_waits_outbound (demo_state { demo_channel with n_write_dma_req := 1 }) 1
      { demo_channel with n_write_dma_req := 1 } (by decide)).1.mpr (by decide)⟩

set_option maxRecDepth 1000000 in
/-- Claim C25 as stated fails: after a service was registered, a connection
accepted as channel 1 and a data packet for it dispatched (`trace_h4`), the
fetch of that packet is in flight, `n_read_dma_req = 1`; a local close of the
channel does not sleep: it emits the hangup notice with the counter still 1. -/
theorem release_notice_waits_outbound_counterexample :
    (chan_lookup (sphcs_genmsg_chan_release_preclose trace_h4.g 1).channel_hash 1).map
        (fun c => (c.n_read_dma_req, c.n_write_dma_req, c.closing))
      = some (1, 0, _chnl_preclose) ∧
    (sphcs_genmsg_chan_release_notify
        (sphcs_genmsg_chan_release_preclose trace_h4.g 1) 1 false).map
        (fun s => (s.log.getLast?,
                   (chan_lookup s.channel_hash 1).map (fun c => c.n_read_dma_req)))
      = some (some (.respq_msg demo_cmd_chan
                { c2h_zero with chan_id := 3, hangup := true, card_client_id := 1 }),
              some 1) := by
  decide

/-! ## The outbound counter when the scheduler refuses a request -/

set_option maxRecDepth 1000000 in
/-- Claim C26, the code at the failing input. On the channel 1 as
`process_accept_client` creates it, a write of two bytes whose
`sphcs_dma_sched_start_xfer_single` returns -1: the write returns -1, the
scheduler took no request, and `n_write_dma_req` is left at 1; a local close
of the channel that no signal interrupts then sleeps in the wait of line 257. -/
theorem write_submit_failure_leaks_counter :
    (sphcs_genmsg_chan_write (demo_state demo_channel) demo_file [1, 2] 2
        (fun _ => { demo_write_env with dma_ret := -1 })).1 = -1 ∧
    log_c2h_queued (sphcs_genmsg_chan_write (demo_state demo_channel) demo_file [1, 2] 2
        (fun _ => { demo_write_env with dma_ret := -1 })).2.log = [] ∧
    (chan_lookup (sphcs_genmsg_chan_write (demo_state demo_channel) demo_file [1, 2] 2
        (fun _ => { demo_write_env with dma_ret := -1 })).2.channel_hash 1).map
        (fun c => c.n_write_dma_req) = some 1 ∧
    (sphcs_genmsg_chan_release
        (sphcs_genmsg_chan_write (demo_state demo_channel) demo_file [1, 2] 2
          (fun _ => { demo_write_env with dma_ret := -1 })).2 demo_file false).isNone = true := by
  decide

/-! ## Return values when a user copy fails -/

set_option maxRecDepth 1000000 in
/-- Claim C28, the code at the failing input. On the channel 1 as
`process_accept_client` creates it, a write of four bytes whose
`copy_from_user` leaves three bytes uncopied: no DMA request is made, so no
byte is handed off, and the write returns 3, the value of `copy_from_user`. -/
theorem write_copy_failure_returns_remainder :
    (sphcs_genmsg_chan_write (demo_state demo_channel) demo_file [1, 2, 3, 4] 4
        (fun _ => { demo_write_env with copy_ret := 3 })).1 = 3 ∧
    (sphcs_genmsg_chan_write (demo_state demo_channel) demo_file [1, 2, 3, 4] 4
        (fun _ => { demo_write_env with copy_ret := 3 })).2.log
      = [.host_rb_update_free_space demo_cmd_chan] ∧
    log_c2h_queued (sphcs_genmsg_chan_write (demo_state demo_channel) demo_file [1, 2, 3, 4] 4
        (fun _ => { demo_write_env with copy_ret := 3 })).2.log = [] := by
  decide

set_option maxRecDepth 1000000 in
/-- Claim C29, the code at the failing input. With the service "A" registered
and a connect request pending on it (`trace_d2`), an accept whose
`copy_to_user` of the descriptor leaves all four bytes uncopied: no descriptor
is delivered, the channel is taken back out of the table, the host gets the
refusal, and the call returns 4, the value of `copy_to_user`. -/
theorem accept_copy_failure_returns_remainder :
    (process_accept_client 4095 trace_d2.g trace_registered_file
        { trace_accept_env with copy_ret := 4 }).map
        (fun r => (r.1, r.2.1, r.2.2.channel_hash.map (fun c => c.channel_id),
                   r.2.2.channel_ida))
      = some (4, none, [], []) ∧
    (process_accept_client 4095 trace_d2.g trace_registered_file
        { trace_accept_env with copy_ret := 4 }).map
        (fun r => log_replies (r.2.2.log.drop trace_d2.g.log.length))
      = some [(demo_cmd_chan, { c2h_zero with chan_id := 3, connect := true,
                                              card_client_id := 4095 })] := by
  decide

/-! ## The page and the hardware-channel reference of an inbound frame -/

theorem chan_store_queues (h : List channel_data) (c c' : channel_data)
    (hl : chan_lookup h c'.channel_id = some c)
    (hq : c'.pending_read_packets = c.pending_read_packets)
    (hc : c'.current_read_packet = c.current_read_packet) :
    (chan_store h c').map (fun c => (c.pending_read_packets, c.current_read_packet))
      = h.map (fun c => (c.pending_read_packets, c.current_read_packet)) := by
  induction h with
  | nil => rfl
  | cons x xs ih =>
    unfold chan_store
    by_cases hx : x.channel_id = c'.channel_id
    · have hxc : x = c := by
        simp [chan_lookup, List.find?_cons, hx] at hl
        exact hl
      subst hxc
      simp [hx, hq, hc]
    · simp only [hx, if_false, List.map_cons]
      simp only [chan_lookup, List.find?_cons, hx, decide_False] at hl
      rw [ih hl]

theorem handle_cmd_dma_failed_accounts (B : Nat) (s : genmsg_state)
    (d : genmsg_dma_command_data)
    (hdata : d.msg.connect = false →
      ∃ ch c, d.channel = some ch ∧ chan_lookup s.channel_hash ch = some c) :
    log_pages_freed ((handle_cmd_dma_failed B s d).log.drop s.log.length) = [d.dma_page_hndl] ∧
    log_chan_puts ((handle_cmd_dma_failed B s d).log.drop s.log.length) = [d.cmd_chan] ∧
    (handle_cmd_dma_failed B s d).service_list = s.service_list ∧
    channel_queues (handle_cmd_dma_failed B s d) = channel_queues s := by
  cases hconn : d.msg.connect with
  | true =>
    have h : handle_cmd_dma_failed B s d = { s with log := s.log ++
        [.cmd_head_update d.cmd_chan, no_such_service_ack B d.cmd_chan,
         .page_free d.dma_page_hndl, .cmd_chan_put d.cmd_chan] } := by
      simp [handle_cmd_dma_failed, hconn, emit, no_such_service_ack, c2h_zero]
    rw [h]
    simp [log_pages_freed, log_chan_puts, channel_queues, no_such_service_ack]
  | false =>
    obtain ⟨ch, c, hch, hl⟩ := hdata hconn
    rw [handle_cmd_dma_failed_data B s d ch c hconn hch hl]
    have hid : c.channel_id = ch := chan_lookup_id hl
    refine ⟨by simp [log_pages_freed], by simp [log_chan_puts], rfl, ?_⟩
    unfold channel_queues
    exact chan_store_queues s.channel_hash c _ (by simpa [hid] using hl) rfl rfl

/-- Claim C27. A call of `sphcs_genmsg_cmd_dma_complete_callback` for the
fetched frame `d`, where a data frame names a channel of the table and the
slot of the service that a connect frame names holds a service. (1) On every
path that drops the frame (DMA failure, no pending record allocated, unknown
service, channel no longer open) the callback returns -1, returns the page of
the frame to the pool exactly once, drops the reference on the hardware
channel exactly once, and no queue of a service or of a channel changes.
(2) When a connect frame is kept, the only change of the state is that the
frame is appended to the queue of the one service found: nothing is logged, so
the page is not returned and the reference not dropped; both stay with that
pending connection. (3) When a data frame is kept, the frame is appended to
the queue of its channel and to no other, its page is not returned, and the
reference on the hardware channel is dropped exactly once. -/
theorem inbound_completion_accounts (B : Nat) (s : genmsg_state)
    (d : genmsg_dma_command_data) (status : dma_status) (alloc : Bool)
    (hdata : d.msg.connect = false →
      ∃ ch c, d.channel = some ch ∧ chan_lookup s.channel_hash ch = some c)
    (hslot : d.msg.connect = true → ∀ i,
      find_service s.service_list ((d.vptr.getD []).drop 4) (page_u32 (d.vptr.getD [])) = some i →
      (s.service_list.service_data i).isSome = true) :
    (inbound_dropped s d status alloc = true →
      (sphcs_genmsg_cmd_dma_complete_callback B s d status alloc).1 = -1 ∧
      log_pages_freed (inbound_out B s d status alloc) = [d.dma_page_hndl] ∧
      log_chan_puts (inbound_out B s d status alloc) = [d.cmd_chan] ∧
      (sphcs_genmsg_cmd_dma_complete_callback B s d status alloc).2.service_list
        = s.service_list ∧
      channel_queues (sphcs_genmsg_cmd_dma_complete_callback B s d status alloc).2
        = channel_queues s) ∧
    (inbound_dropped s d status alloc = false → d.msg.connect = true →
      ∃ i sd,
        find_service s.service_list ((d.vptr.getD []).drop 4) (page_u32 (d.vptr.getD []))
          = some i ∧
        s.service_list.service_data i = some sd ∧
        sphcs_genmsg_cmd_dma_complete_callback B s d status alloc = (0, queued_on s i sd d)) ∧
    (inbound_dropped s d status alloc = false → d.msg.connect = false →
      ∃ c, chan_lookup s.channel_hash (d.channel.getD 0) = some c ∧
        (sphcs_genmsg_cmd_dma_complete_callback B s d status alloc).1 = 0 ∧
        log_pages_freed (inbound_out B s d status alloc) = [] ∧
        log_chan_puts (inbound_out B s d status alloc) = [d.cmd_chan] ∧
        (sphcs_genmsg_cmd_dma_complete_callback B s d status alloc).2.service_list
          = s.service_list ∧
        (sphcs_genmsg_cmd_dma_complete_callback B s d status alloc).2.channel_hash
          = chan_store s.channel_hash (data_queued c d)) := by
  have hf := handle_cmd_dma_failed_accounts B s d hdata
  refine ⟨?_, ?_, ?_⟩
  · intro hdrop
    have key : sphcs_genmsg_cmd_dma_complete_callback B s d status alloc
        = (-1, handle_cmd_dma_failed B s d) := by
      unfold sphcs_genmsg_cmd_dma_complete_callback
      by_cases hst : status = dma_status.SPHCS_DMA_STATUS_FAILED
      · rw [if_pos hst]
      · rw [if_neg hst]
        cases hconn : d.msg.connect with
        | true =>
          simp only [if_true]
          cases hfs : find_service s.service_list ((d.vptr.getD []).drop 4)
              (page_u32 (d.vptr.getD [])) with
          | none => rfl
          | some i =>
            cases alloc with
            | false => rfl
            | true => simp [inbound_dropped, hst, hconn, hfs] at hdrop
        | false =>
          simp only [Bool.false_eq_true, if_false]
          cases alloc with
          | false => rfl
          | true =>
            obtain ⟨ch, c, hch, hl⟩ := hdata hconn
            have hl0 : chan_lookup s.channel_hash (d.channel.getD 0) = some c := by
              rw [hch]; exact hl
            simp [inbound_dropped, hst, hconn, hl0] at hdrop
            simp [hl0, hdrop]
    unfold inbound_out
    rw [key]
    exact ⟨rfl, hf.1, hf.2.1, hf.2.2.1, hf.2.2.2⟩
  · intro hdrop hconn
    have hst : status ≠ dma_status.SPHCS_DMA_STATUS_FAILED := by
      intro h; simp [inbound_dropped, h] at hdrop
    have ha : alloc = true := by
      cases alloc
      · simp [inbound_dropped] at hdrop
      · rfl
    cases hfs : find_service s.service_list ((d.vptr.getD []).drop 4)
        (page_u32 (d.vptr.getD [])) with
    | none => simp [inbound_dropped, hconn, hfs] at hdrop
    | some i =>
      have hsd := hslot hconn i hfs
      cases hd : s.service_list.service_data i with
      | none => simp [hd] at hsd
      | some sd =>
        refine ⟨i, sd, rfl, hd, ?_⟩
        simp [sphcs_genmsg_cmd_dma_complete_callback, hst, hconn, hfs, ha, hd, queued_on]
  · intro hdrop hconn
    have hst : status ≠ dma_status.SPHCS_DMA_STATUS_FAILED := by
      intro h; simp [inbound_dropped, h] at hdrop
    have ha : alloc = true := by
      cases alloc
      · simp [inbound_dropped] at hdrop
      · rfl
    obtain ⟨ch, c, hch, hl⟩ := hdata hconn
    have hl0 : chan_lookup s.channel_hash (d.channel.getD 0) = some c := by
      rw [hch]; exact hl
    have hopen : c.closing = _chnl_open := by
      simp [inbound_dropped, hst, ha, hconn, hl0] at hdrop
      exact hdrop
    have key : sphcs_genmsg_cmd_dma_complete_callback B s d status alloc
        = (0, { s with channel_hash := chan_store s.channel_hash (data_queued c d),
                       log := s.log ++ [.cmd_head_update d.cmd_chan,
                                        .cmd_chan_put d.cmd_chan] }) := by
      by_cases hn : c.n_read_dma_req = 0
      · simp [sphcs_genmsg_cmd_dma_complete_callback, hst, hconn, ha, hl0, hopen, hn, emit,
          set_channel, data_queued]
      · simp [sphcs_genmsg_cmd_dma_complete_callback, hst, hconn, ha, hl0, hopen, hn, emit,
          set_channel, data_queued]
    refine ⟨c, hl0, ?_⟩
    unfold inbound_out
    rw [key]
    simp [log_pages_freed, log_chan_puts]

set_option maxRecDepth 1000000 in
theorem inbound_completion_accounts_witness :
    ∃ c, chan_lookup (demo_state demo_channel).channel_hash (demo_fetch.channel.getD 0) = some c ∧
      (sphcs_genmsg_cmd_dma_complete_callback 4095 (demo_state demo_channel) demo_fetch
        dma_status.SPHCS_DMA_STATUS_DONE true).1 = 0 ∧
      log_pages_freed (inbound_out 4095 (demo_state demo_channel) demo_fetch
        dma_status.SPHCS_DMA_STATUS_DONE true) = [] ∧
      log_chan_puts (inbound_out 4095 (demo_state demo_channel) demo_fetch
        dma_status.SPHCS_DMA_STATUS_DONE true) = [demo_fetch.cmd_chan] ∧
      (sphcs_genmsg_cmd_dma_complete_callback 4095 (demo_state demo_channel) demo_fetch
        dma_status.SPHCS_DMA_STATUS_DONE true).2.service_list
        = (demo_state demo_channel).service_list ∧
      (sphcs_genmsg_cmd_dma_complete_callback 4095 (demo_state demo_channel) demo_fetch
        dma_status.SPHCS_DMA_STATUS_DONE true).2.channel_hash
        = chan_store (demo_state demo_channel).channel_hash (data_queued c demo_fetch) :=
  (inbound_completion_accounts 4095 (demo_state demo_channel) demo_fetch
    dma_status.SPHCS_DMA_STATUS_DONE true
    (fun _ => ⟨1, demo_channel, by decide, by decide⟩)
    (fun h => absurd h (by decide))).2.2 (by decide) (by decide)

/-! ## The whole local close -/

theorem log_replies_append (a b : List genmsg_effect) :
    log_replies (a ++ b) = log_replies a ++ log_replies b := by
  induction a with
  | nil => rfl
  | cons e rest ih => cases e <;> simp [log_replies, ih]

theorem log_pages_freed_append (a b : List genmsg_effect) :
    log_pages_freed (a ++ b) = log_pages_freed a ++ log_pages_freed b := by
  induction a with
  | nil => rfl
  | cons e rest ih => cases e <;> simp [log_pages_freed, ih]

theorem log_replies_released (l : List pending_packet) :
    log_replies (released_pages l) = [] := by
  induction l with
  | nil => rfl
  | cons p rest ih =>
    cases hp : p.is_hangup_command <;> simp_all [released_pages, log_replies]

theorem log_pages_freed_released (l : List pending_packet) :
    log_pages_freed (released_pages l)
      = (l.filter (fun p => !p.is_hangup_command)).map (fun p => p.dma_data.dma_page_hndl) := by
  induction l with
  | nil => rfl
  | cons p rest ih =>
    cases hp : p.is_hangup_command <;> simp_all [released_pages, log_pages_freed]

theorem release_tail_quiet (c : channel_data) :
    log_replies (release_tail c) = [] ∧ log_pages_freed (release_tail c) = [] := by
  unfold release_tail
  by_cases hh : c.hanging_up = true
  · by_cases h1 : c.ref = 1 <;> simp [hh, h1, log_replies, log_pages_freed]
  · simp [hh, log_replies, log_pages_freed]

theorem release_finish_log (s : genmsg_state) (channel : Nat) (c : channel_data)
    (hnd : (s.channel_hash.map (fun c => c.channel_id)).Nodup)
    (hl : chan_lookup s.channel_hash channel = some c) (href : 1 ≤ c.ref) :
    (sphcs_genmsg_chan_release_finish s channel).log = s.log ++ release_tail c ∧
    chan_lookup (sphcs_genmsg_chan_release_finish s channel).channel_hash channel
      = (if c.hanging_up then
           (if c.ref = 1 then none
            else some { c with closing := _chnl_close_done, ref := c.ref - 1 })
         else some { c with closing := _chnl_close_ready }) := by
  have hid := chan_lookup_id hl
  unfold release_tail
  by_cases hh : c.hanging_up = true
  · by_cases h1 : c.ref = 1
    · rw [release_finish_last s channel c hl hh h1]
      refine ⟨by simp [hh, h1, hid], ?_⟩
      simpa [hh, h1] using chan_lookup_hash_del_self hnd
    · rw [release_finish_held s channel c hl hh (by omega)]
      refine ⟨by simp [hh, h1, hid], ?_⟩
      simpa [hh, h1] using chan_lookup_store (by simpa using hid) (by simp [hl])
  · have hh' : c.hanging_up = false := by simpa using hh
    rw [release_finish_clear s channel c hl hh']
    refine ⟨by simp [hh'], ?_⟩
    simpa [hh'] using chan_lookup_store (by simpa using hid) (by simp [hl])

/-- Claim C21. A local close of a channel `c` of the table, whose owning
reference is still there, returns 0 once the outbound counter is zero or a
signal arrived. Over the call the log grows by: one `page_free` for each data
packet of the queue and for the packet being read, in that order, and none for
a hangup marker; the page of a write that was under way, if any; the hangup
notice; and what the last section logs, which holds no reply and no page. So
the pages returned are exactly those, each once, and exactly one reply, the
notice, goes to the host: the hangup bit set, size 0, `card_client_id` the
channel id. The notice is the last entry of the log when the middle part ends,
with the channel still in `_chnl_preclose`; the last section, which enters
`_chnl_close_ready`, runs after it. Afterwards the channel, if it is still in
the table, has an empty queue and no current packet. -/
theorem release_drains_and_notifies (s : genmsg_state) (f : file) (c : channel_data)
    (interrupted : Bool) (hf : is_channel_file f = true) (hnd : table_nodup s)
    (hl : chan_lookup s.channel_hash f.channel = some c) (href : 1 ≤ c.ref)
    (hw : c.n_write_dma_req = 0 ∨ interrupted = true) :
    ∃ s1 s2,
      sphcs_genmsg_chan_release_notify (sphcs_genmsg_chan_release_preclose s f.channel)
        f.channel interrupted = some s1 ∧
      s1.log.getLast? = some (hangup_notice c) ∧
      (chan_lookup s1.channel_hash f.channel).map (fun c1 => c1.closing)
        = some _chnl_preclose ∧
      s2 = sphcs_genmsg_chan_release_finish s1 f.channel ∧
      sphcs_genmsg_chan_release s f interrupted = some (0, s2) ∧
      s2.log = s.log ++ released_pages (release_list c) ++
        (if c.write_page_vptr.isSome then [.page_free c.write_page_hndl] else []) ++
        [hangup_notice c] ++ release_tail c ∧
      log_pages_freed (s2.log.drop s.log.length)
        = ((release_list c).filter (fun p => !p.is_hangup_command)).map
            (fun p => p.dma_data.dma_page_hndl) ++
          (if c.write_page_vptr.isSome then [c.write_page_hndl] else []) ∧
      log_replies (s2.log.drop s.log.length)
        = [(c.cmd_chan, { c2h_zero with chan_id := c.cmd_chan.protocol_id, size := 0,
                                         hangup := true, card_client_id := c.channel_id })] ∧
      (∀ c2, chan_lookup s2.channel_hash f.channel = some c2 →
        c2.pending_read_packets = [] ∧ c2.current_read_packet = none ∧
        (c2.closing = _chnl_close_ready ∨ c2.closing = _chnl_close_done)) := by
  have hid : c.channel_id = f.channel := chan_lookup_id hl
  have hpre := release_preclose_eq s f.channel c hl
  have hl0 : chan_lookup (sphcs_genmsg_chan_release_preclose s f.channel).channel_hash f.channel
      = some { c with closing := _chnl_preclose, pending_read_packets := [],
                      current_read_packet := none } := by
    rw [hpre]
    exact chan_lookup_store (by simpa using hid) (by simp [hl])
  have hnot := release_notify_some (sphcs_genmsg_chan_release_preclose s f.channel) f.channel
    _ interrupted hl0 hw
  have hnd1 : ((chan_store s.channel_hash
      { c with closing := _chnl_preclose, pending_read_packets := [],
               current_read_packet := none }).map (fun c => c.channel_id)).Nodup := by
    rw [chan_store_ids]
    exact hnd
  have hfin := release_finish_log
    { (sphcs_genmsg_chan_release_preclose s f.channel) with
      log := (sphcs_genmsg_chan_release_preclose s f.channel).log ++
        (if c.write_page_vptr.isSome then [.page_free c.write_page_hndl] else []) ++
        [hangup_notice c] } f.channel
    { c with closing := _chnl_preclose, pending_read_packets := [],
             current_read_packet := none }
    (by rw [hpre]; exact hnd1) hl0 href
  have hnot1 : sphcs_genmsg_chan_release_notify (sphcs_genmsg_chan_release_preclose s f.channel)
      f.channel interrupted = some
        { (sphcs_genmsg_chan_release_preclose s f.channel) with
          log := (sphcs_genmsg_chan_release_preclose s f.channel).log ++
            (if c.write_page_vptr.isSome then [.page_free c.write_page_hndl] else []) ++
            [hangup_notice c] } := hnot
  have htail : release_tail { c with closing := _chnl_preclose, pending_read_packets := [],
                                     current_read_packet := none } = release_tail c := rfl
  rw [htail] at hfin
  have hlog : (sphcs_genmsg_chan_release_preclose s f.channel).log
      = s.log ++ released_pages (release_list c) := by
    rw [hpre]; rfl
  refine ⟨_, _, hnot1, by simp, ?_, rfl, ?_, ?_, ?_, ?_, ?_⟩
  · show (chan_lookup (sphcs_genmsg_chan_release_preclose s f.channel).channel_hash
      f.channel).map (fun c1 => c1.closing) = some _chnl_preclose
    rw [hl0]; rfl
  · unfold sphcs_genmsg_chan_release
    simp only [hf, Bool.not_true, Bool.false_eq_true, if_false]
    rw [hnot1]
  · rw [hfin.1, hlog]
  · rw [hfin.1, hlog]
    simp only [List.append_assoc, List.drop_left]
    rw [log_pages_freed_append, log_pages_freed_append, log_pages_freed_append,
      log_pages_freed_released, (release_tail_quiet c).2]
    cases c.write_page_vptr <;> simp [log_pages_freed, hangup_notice]
  · rw [hfin.1, hlog]
    simp only [List.append_assoc, List.drop_left]
    rw [log_replies_append, log_replies_append, log_replies_append,
      log_replies_released, (release_tail_quiet c).1]
    cases c.write_page_vptr <;> simp [log_replies, hangup_notice, c2h_zero]
  · intro c2 hc2
    rw [hfin.2] at hc2
    by_cases hh : c.hanging_up = true
    · by_cases h1 : c.ref = 1
      · simp [hh, h1] at hc2
      · simp only [hh, h1, if_true, if_false, Option.some.injEq] at hc2
        rw [← hc2]
        exact ⟨rfl, rfl, Or.inr rfl⟩
    · have hh' : c.hanging_up = false := by simpa using hh
      simp only [hh', Bool.false_eq_true, if_false, Option.some.injEq] at hc2
      rw [← hc2]
      exact ⟨rfl, rfl, Or.inl rfl⟩

set_option maxRecDepth 1000000 in
theorem release_drains_and_notifies_witness :
    ∃ s1 s2,
      sphcs_genmsg_chan_release_notify
        (sphcs_genmsg_chan_release_preclose (demo_state demo_busy_channel) demo_file.channel)
        demo_file.channel false = some s1 ∧
      s1.log.getLast? = some (hangup_notice demo_busy_channel) ∧
      (chan_lookup s1.channel_hash demo_file.channel).map (fun c1 => c1.closing)
        = some _chnl_preclose ∧
      s2 = sphcs_genmsg_chan_release_finish s1 demo_file.channel ∧
      sphcs_genmsg_chan_release (demo_state demo_busy_channel) demo_file false = some (0, s2) ∧
      s2.log = (demo_state demo_busy_channel).log ++
        released_pages (release_list demo_busy_channel) ++
        (if demo_busy_channel.write_page_vptr.isSome then
          [.page_free demo_busy_channel.write_page_hndl] else []) ++
        [hangup_notice demo_busy_channel] ++ release_tail demo_busy_channel ∧
      log_pages_freed (s2.log.drop (demo_state demo_busy_channel).log.length)
        = ((release_list demo_busy_channel).filter (fun p => !p.is_hangup_command)).map
            (fun p => p.dma_data.dma_page_hndl) ++
          (if demo_busy_channel.write_page_vptr.isSome then
            [demo_busy_channel.write_page_hndl] else []) ∧
      log_replies (s2.log.drop (demo_state demo_busy_channel).log.length)
        = [(demo_busy_channel.cmd_chan,
            { c2h_zero with chan_id := demo_busy_channel.cmd_chan.protocol_id, size := 0,
                            hangup := true,
                            card_client_id := demo_busy_channel.channel_id })] ∧
      (∀ c2, chan_lookup s2.channel_hash demo_file.channel = some c2 →
        c2.pending_read_packets = [] ∧ c2.current_read_packet = none ∧
        (c2.closing = _chnl_close_ready ∨ c2.closing = _chnl_close_done)) :=
  release_drains_and_notifies (demo_state demo_busy_channel) demo_file demo_busy_channel false
    (by decide) (by decide) (by decide) (by decide) (Or.inl (by decide))

/-! ## A write whose every step succeeds -/

theorem chan_write_round_ok (fuel : Nat) (env : Nat → write_env) (buf : List Nat)
    (size round : Nat) (s : genmsg_state) (c : channel_data) (nw : Nat) (ret : Int)
    (hok : write_env_ok (env round)) (hbuf : size ≤ buf.length)
    (hh : c.hanging_up = false) (hnw : nw < size) :
    ∃ s1 c1 pre req,
      chan_write_loop (fuel + 1) env buf size round ⟨s, c, nw, ret⟩
        = chan_write_next fuel env buf size round
            ⟨s1, c1, nw + min (size - nw) NNP_PAGE_SIZE, (env round).dma_ret⟩ ∧
      s1.channel_hash = s.channel_hash ∧
      s1.log = s.log ++ pre ++ [.dma_c2h req true] ∧ log_c2h pre = [] ∧
      req.channel = some c.channel_id ∧ req.xfer_size = min (size - nw) NNP_PAGE_SIZE ∧
      req.dma_vptr.map (List.take (min (size - nw) NNP_PAGE_SIZE))
        = some ((buf.drop nw).take (min (size - nw) NNP_PAGE_SIZE)) ∧
      c1.hanging_up = false ∧ c1.channel_id = c.channel_id ∧ c1.write_page_vptr = none ∧
      c1.write_host_page_valid = false ∧ c1.n_write_dma_req = c.n_write_dma_req + 1 := by
  obtain ⟨h1, h2, h3, h4, h5⟩ := hok
  have h3' : ¬ (env round).page_ret < 0 := by omega
  have h5' : ¬ (env round).dma_ret < 0 := by omega
  have hlen : ((buf.drop nw).take (min (size - nw) NNP_PAGE_SIZE)).length
      = min (size - nw) NNP_PAGE_SIZE := by
    rw [List.length_take, List.length_drop]
    omega
  have htake : ∀ pg : List Nat,
      ((buf.drop nw).take (min (size - nw) NNP_PAGE_SIZE) ++
          pg.drop (min (size - nw) NNP_PAGE_SIZE)).take (min (size - nw) NNP_PAGE_SIZE)
        = (buf.drop nw).take (min (size - nw) NNP_PAGE_SIZE) := by
    intro pg
    rw [List.take_append_of_le_length (by rw [hlen])]
    exact List.take_of_length_le (by rw [hlen])
  cases hv : c.write_host_page_valid <;> cases hp : c.write_page_vptr
  · unfold chan_write_loop
    simp only [hh, hv, hp, h1, h2, h3', h4, h5', h5, emit, Bool.false_eq_true, if_false,
      Bool.not_false, if_true, ne_eq, not_true_eq_false, or_self, decide_True, Nat.min_zero,
      Nat.zero_min, Nat.sub_zero, Option.map_some', not_false_eq_true, decide_eq_true_eq,
      CharP.cast_eq_zero, Bool.not_true]
    refine ⟨_, _, [.host_rb_update_free_space c.cmd_chan], _, rfl, rfl, rfl, rfl, rfl, rfl,
      ?_, rfl, rfl, rfl, rfl, rfl⟩
    simp only [Option.map_some', htake]
  · unfold chan_write_loop
    simp only [hh, hv, hp, h1, h2, h3', h4, h5', h5, emit, Bool.false_eq_true, if_false,
      Bool.not_false, if_true, ne_eq, not_true_eq_false, or_self, decide_True, Nat.min_zero,
      Nat.zero_min, Nat.sub_zero, Option.map_some', not_false_eq_true, decide_eq_true_eq,
      CharP.cast_eq_zero, Bool.not_true]
    refine ⟨_, _, [.host_rb_update_free_space c.cmd_chan], _, rfl, rfl, rfl, rfl, rfl, rfl,
      ?_, rfl, rfl, rfl, rfl, rfl⟩
    simp only [Option.map_some', htake]
  · unfold chan_write_loop
    simp only [hh, hv, hp, h1, h2, h3', h4, h5', h5, emit, Bool.false_eq_true, if_false,
      Bool.not_false, if_true, ne_eq, not_true_eq_false, or_self, decide_True, Nat.min_zero,
      Nat.zero_min, Nat.sub_zero, Option.map_some', not_false_eq_true, decide_eq_true_eq,
      CharP.cast_eq_zero, Bool.not_true]
    refine ⟨_, _, [], _, rfl, rfl, by rw [List.append_nil], rfl, rfl, rfl,
      ?_, rfl, rfl, rfl, rfl, rfl⟩
    simp only [Option.map_some', htake]
  · unfold chan_write_loop
    simp only [hh, hv, hp, h1, h2, h3', h4, h5', h5, emit, Bool.false_eq_true, if_false,
      Bool.not_false, if_true, ne_eq, not_true_eq_false, or_self, decide_True, Nat.min_zero,
      Nat.zero_min, Nat.sub_zero, Option.map_some', not_false_eq_true, decide_eq_true_eq,
      CharP.cast_eq_zero, Bool.not_true]
    refine ⟨_, _, [], _, rfl, rfl, by rw [List.append_nil], rfl, rfl, rfl,
      ?_, rfl, rfl, rfl, rfl, rfl⟩
    simp only [Option.map_some', htake]

theorem log_c2h_append (a b : List genmsg_effect) :
    log_c2h (a ++ b) = log_c2h a ++ log_c2h b := by
  induction a with
  | nil => rfl
  | cons e rest ih => cases e <;> simp [log_c2h, ih]

theorem c2h_view_append (a b : List genmsg_effect) :
    c2h_view (a ++ b) = c2h_view a ++ c2h_view b := by
  simp [c2h_view, log_c2h_append]

theorem write_chunks_last (ch : Nat) (buf : List Nat) (size nw : Nat) (hnw : nw < size)
    (hle : size - nw ≤ NNP_PAGE_SIZE) :
    write_chunks ch buf size nw = [write_chunk ch buf size nw] := by
  have hP : NNP_PAGE_SIZE = 4096 := rfl
  have h1 : (size - nw + (NNP_PAGE_SIZE - 1)) / NNP_PAGE_SIZE = 1 := by
    simp only [hP] at hle ⊢
    omega
  unfold write_chunks
  rw [h1]
  rfl

theorem write_chunks_more (ch : Nat) (buf : List Nat) (size nw : Nat)
    (hgt : NNP_PAGE_SIZE < size - nw) :
    write_chunks ch buf size nw
      = write_chunk ch buf size nw :: write_chunks ch buf size (nw + NNP_PAGE_SIZE) := by
  have hP : NNP_PAGE_SIZE = 4096 := rfl
  have h1 : (size - nw + (NNP_PAGE_SIZE - 1)) / NNP_PAGE_SIZE
      = (size - (nw + NNP_PAGE_SIZE) + (NNP_PAGE_SIZE - 1)) / NNP_PAGE_SIZE + 1 := by
    simp only [hP] at hgt ⊢
    omega
  unfold write_chunks
  rw [h1, List.range_succ_eq_map, List.map_cons, List.map_map]
  refine congrArg₂ List.cons rfl ?_
  apply List.map_congr_left
  intro i _
  show write_chunk ch buf size (nw + NNP_PAGE_SIZE * (i + 1))
    = write_chunk ch buf size (nw + NNP_PAGE_SIZE + NNP_PAGE_SIZE * i)
  rw [Nat.mul_succ, Nat.add_assoc, Nat.add_comm (NNP_PAGE_SIZE * i)]

theorem chan_write_loop_ok (env : Nat → write_env) (buf : List Nat) (size : Nat)
    (hok : ∀ i, write_env_ok (env i)) (hbuf : size ≤ buf.length) :
    ∀ (fuel round : Nat) (s : genmsg_state) (c : channel_data) (nw : Nat) (ret : Int),
      c.hanging_up = false → nw < size → size - nw ≤ fuel →
      ∃ out,
        (chan_write_loop fuel env buf size round ⟨s, c, nw, ret⟩).n_written = size ∧
        (chan_write_loop fuel env buf size round ⟨s, c, nw, ret⟩).s.channel_hash
          = s.channel_hash ∧
        (chan_write_loop fuel env buf size round ⟨s, c, nw, ret⟩).s.log = s.log ++ out ∧
        c2h_view out = write_chunks c.channel_id buf size nw ∧
        (chan_write_loop fuel env buf size round ⟨s, c, nw, ret⟩).c.channel_id
          = c.channel_id ∧
        (chan_write_loop fuel env buf size round ⟨s, c, nw, ret⟩).c.write_page_vptr = none ∧
        (chan_write_loop fuel env buf size round ⟨s, c, nw, ret⟩).c.write_host_page_valid
          = false ∧
        (chan_write_loop fuel env buf size round ⟨s, c, nw, ret⟩).c.n_write_dma_req
          = c.n_write_dma_req + (size - nw + (NNP_PAGE_SIZE - 1)) / NNP_PAGE_SIZE := by
  have hP : NNP_PAGE_SIZE = 4096 := rfl
  intro fuel
  induction fuel with
  | zero => intro round s c nw ret _ hnw hf; omega
  | succ n ih =>
    intro round s c nw ret hh hnw hf
    obtain ⟨s1, c1, pre, req, heq, hs1, hlog, hpre, hch, hx, hv, hh1, hid1, hp1, hv1, hn1⟩ :=
      chan_write_round_ok n env buf size round s c nw ret (hok round) hbuf hh hnw
    rw [heq]
    have hview : c2h_view (pre ++ [.dma_c2h req true]) = [write_chunk c.channel_id buf size nw] := by
      rw [c2h_view_append]
      simp only [c2h_view, hpre, List.map_nil, List.nil_append, log_c2h, List.map_cons,
        hch, hx, hv, write_chunk]
    unfold chan_write_next
    by_cases hlt : nw + min (size - nw) NNP_PAGE_SIZE < size
    · simp only [hlt, if_true]
      have hmin : min (size - nw) NNP_PAGE_SIZE = NNP_PAGE_SIZE := by
        rw [hP] at hlt ⊢
        omega
      rw [hmin] at hlt ⊢
      obtain ⟨out, g1, g2, g3, g4, g5, g6, g7, g8⟩ :=
        ih (round + 1) s1 c1 (nw + NNP_PAGE_SIZE) (env round).dma_ret hh1 hlt
          (by rw [hP] at hlt ⊢; omega)
      refine ⟨pre ++ [.dma_c2h req true] ++ out, g1, g2.trans hs1, ?_, ?_, g5.trans hid1, g6, g7,
        ?_⟩
      · rw [g3, hlog]; simp
      · rw [c2h_view_append, hview, g4, hid1]
        exact (write_chunks_more _ _ _ _ (by simp only [hP] at hlt ⊢; omega)).symm
      · rw [g8, hn1]
        simp only [hP] at hlt ⊢
        omega
    · simp only [hlt, if_false]
      have hmin : min (size - nw) NNP_PAGE_SIZE = size - nw := by
        rw [hP] at hlt ⊢
        omega
      have hle : size - nw ≤ NNP_PAGE_SIZE := by
        rw [hP] at hlt ⊢
        omega
      refine ⟨pre ++ [.dma_c2h req true], by rw [hmin]; omega, hs1, ?_, ?_, hid1, hp1, hv1, ?_⟩
      · rw [hlog]; simp
      · rw [hview, write_chunks_last _ _ _ _ hnw hle]
      · rw [hn1]
        simp only [hP] at hle ⊢
        omega

/-- Claim C22. A write of `n > 0` bytes, all of them in the caller's buffer,
on a channel of the table with `io_error` and `hanging_up` clear, where in
every round the host slot, the local page, the user copy and the DMA
submission succeed: the write returns `n`; the outbound requests it makes are,
in order, one for each `i` below `ceil(n / 4096)`, for this channel, of size
`min(n - 4096*i, 4096)`, carrying the caller bytes from `4096*i` on, and the
scheduler takes each; afterwards the channel holds no local page and no host
slot, and its outbound counter has grown by the number of requests. A write
of 0 bytes returns 0 and leaves the state, the log included, as it is. -/
theorem write_pushes_pages (s : genmsg_state) (f : file) (buf : List Nat) (n : Nat)
    (c : channel_data) (env : Nat → write_env)
    (hf : is_channel_file f = true) (hl : chan_lookup s.channel_hash f.channel = some c)
    (hio : c.io_error = false) (hh : c.hanging_up = false) (hn : 0 < n)
    (hbuf : n ≤ buf.length) (hok : ∀ i, write_env_ok (env i)) :
    (sphcs_genmsg_chan_write s f buf n env).1 = (n : Int) ∧
    c2h_view ((sphcs_genmsg_chan_write s f buf n env).2.log.drop s.log.length)
      = (List.range ((n + 4095) / 4096)).map (fun i =>
          (some c.channel_id, min (n - 4096 * i) 4096,
           some ((buf.drop (4096 * i)).take (min (n - 4096 * i) 4096)), true)) ∧
    (∃ c1, chan_lookup (sphcs_genmsg_chan_write s f buf n env).2.channel_hash f.channel
        = some c1 ∧
      c1.write_page_vptr = none ∧ c1.write_host_page_valid = false ∧
      c1.n_write_dma_req = c.n_write_dma_req + (n + 4095) / 4096) ∧
    sphcs_genmsg_chan_write s f buf 0 env = (0, s) := by
  have hid : c.channel_id = f.channel := chan_lookup_id hl
  obtain ⟨out, g1, g2, g3, g4, g5, g6, g7, g8⟩ :=
    chan_write_loop_ok env buf n hok hbuf n 0 s c 0 0 hh hn (by omega)
  have hn0 : n ≠ 0 := by omega
  have hw : sphcs_genmsg_chan_write s f buf n env
      = ((n : Int), set_channel (chan_write_loop n env buf n 0 ⟨s, c, 0, 0⟩).s
                      (chan_write_loop n env buf n 0 ⟨s, c, 0, 0⟩).c) := by
    unfold sphcs_genmsg_chan_write
    simp only [hf, Bool.not_true, Bool.false_eq_true, if_false, hl, hio, hn0, g1]
  refine ⟨by rw [hw], ?_, ?_, ?_⟩
  · rw [hw]
    show c2h_view ((chan_write_loop n env buf n 0 ⟨s, c, 0, 0⟩).s.log.drop s.log.length) = _
    rw [g3, List.drop_left, g4]
    unfold write_chunks write_chunk
    have hP : NNP_PAGE_SIZE = 4096 := rfl
    simp only [hP, Nat.sub_zero, Nat.zero_add]
  · rw [hw]
    refine ⟨(chan_write_loop n env buf n 0 ⟨s, c, 0, 0⟩).c, ?_, g6, g7, ?_⟩
    · show chan_lookup (chan_store (chan_write_loop n env buf n 0 ⟨s, c, 0, 0⟩).s.channel_hash
        _) f.channel = _
      rw [g2]
      exact chan_lookup_store (g5.trans hid) (by simp [hl])
    · rw [g8]
      rfl
  · unfold sphcs_genmsg_chan_write
    simp only [hf, Bool.not_true, Bool.false_eq_true, if_false, hl, hio, if_true]

set_option maxRecDepth 1000000 in
theorem write_pushes_pages_witness :
    (sphcs_genmsg_chan_write (demo_state demo_channel) demo_file [1, 2, 3] 3
        (fun _ => demo_write_env)).1 = ((3 : Nat) : Int) ∧
    c2h_view ((sphcs_genmsg_chan_write (demo_state demo_channel) demo_file [1, 2, 3] 3
        (fun _ => demo_write_env)).2.log.drop (demo_state demo_channel).log.length)
      = (List.range ((3 + 4095) / 4096)).map (fun i =>
          (some demo_channel.channel_id, min (3 - 4096 * i) 4096,
           some (([1, 2, 3].drop (4096 * i)).take (min (3 - 4096 * i) 4096)), true)) ∧
    (∃ c1, chan_lookup (sphcs_genmsg_chan_write (demo_state demo_channel) demo_file [1, 2, 3] 3
        (fun _ => demo_write_env)).2.channel_hash demo_file.channel = some c1 ∧
      c1.write_page_vptr = none ∧ c1.write_host_page_valid = false ∧
      c1.n_write_dma_req = demo_channel.n_write_dma_req + (3 + 4095) / 4096) ∧
    sphcs_genmsg_chan_write (demo_state demo_channel) demo_file [1, 2, 3] 0
      (fun _ => demo_write_env) = (0, demo_state demo_channel) :=
  write_pushes_pages (demo_state demo_channel) demo_file [1, 2, 3] 3 demo_channel
    (fun _ => demo_write_env) (by decide) (by decide) (by decide) (by decide) (by decide)
    (by decide) (fun _ => (by decide : write_env_ok demo_write_env))


/-! ## Scatter lists -/

theorem sg_bytes_cons (e : scatterlist) (l : List scatterlist) :
    sg_bytes (e :: l) = e.length + sg_bytes l := by
  simp [sg_bytes]

theorem sg_u32_cons {e : scatterlist} {l : List scatterlist} (h : sg_u32 (e :: l)) :
    e.length < U32_MOD ∧ sg_u32 l :=
  ⟨h e (List.mem_cons_self _ _), fun x hx => h x (List.mem_cons_of_mem _ hx)⟩

theorem join_src_spec (l : List scatterlist) :
    ∀ reg : region,
      (join_src reg l).1.length + sg_bytes (join_src reg l).2 = reg.length + sg_bytes l ∧
      (join_src reg l).2.length ≤ l.length ∧
      (reg.length < U32_MOD → (join_src reg l).1.length < U32_MOD) ∧
      (sg_u32 l → sg_u32 (join_src reg l).2) := by
  induction l with
  | nil => intro reg; exact ⟨rfl, le_refl _, fun h => h, fun h => h⟩
  | cons e rest ih =>
    intro reg
    unfold join_src
    split
    · rename_i hc
      obtain ⟨h1, h2, h3, h4⟩ := ih { reg with length := reg.length + e.length }
      refine ⟨?_, ?_, ?_, ?_⟩
      · rw [h1, sg_bytes_cons]
        simp only []
        omega
      · simp only [List.length_cons]; omega
      · intro _
        apply h3
        have := hc.2
        unfold U32_MAX at this
        unfold U32_MOD
        simp only []
        omega
      · intro hu
        exact h4 (sg_u32_cons hu).2
    · exact ⟨rfl, le_refl _, fun h => h, fun h => h⟩

theorem join_dst_spec (src_reg : region) (l : List scatterlist) :
    ∀ reg : region,
      (join_dst src_reg reg l).1.length + sg_bytes (join_dst src_reg reg l).2
        = reg.length + sg_bytes l ∧
      (join_dst src_reg reg l).2.length ≤ l.length ∧
      (reg.length < U32_MOD → (join_dst src_reg reg l).1.length < U32_MOD) ∧
      (sg_u32 l → sg_u32 (join_dst src_reg reg l).2) := by
  induction l with
  | nil => intro reg; exact ⟨rfl, le_refl _, fun h => h, fun h => h⟩
  | cons e rest ih =>
    intro reg
    unfold join_dst
    split
    · rename_i hc
      obtain ⟨h1, h2, h3, h4⟩ := ih { reg with length := reg.length + e.length }
      refine ⟨?_, ?_, ?_, ?_⟩
      · rw [h1, sg_bytes_cons]
        simp only []
        omega
      · simp only [List.length_cons]; omega
      · intro _
        apply h3
        have := hc.2.1
        unfold U32_MAX at this
        unfold U32_MOD
        simp only []
        omega
      · intro hu
        exact h4 (sg_u32_cons hu).2
    · exact ⟨rfl, le_refl _, fun h => h, fun h => h⟩

theorem skip_dst_spec (dst_offset : Nat) (l : List scatterlist) :
    ∀ curr : Nat, curr ≤ dst_offset → curr + sg_bytes l < U64_MOD →
      (skip_dst dst_offset curr l).1 + sg_bytes (skip_dst dst_offset curr l).2
        = curr + sg_bytes l ∧
      (skip_dst dst_offset curr l).1 ≤ dst_offset ∧
      (skip_dst dst_offset curr l).2.length ≤ l.length ∧
      (sg_u32 l → sg_u32 (skip_dst dst_offset curr l).2) ∧
      ((skip_dst dst_offset curr l).2 = [] → curr + sg_bytes l < dst_offset ∨ l = []) ∧
      (∀ e rest, (skip_dst dst_offset curr l).2 = e :: rest →
        dst_offset ≤ (skip_dst dst_offset curr l).1 + e.length) := by
  induction l with
  | nil =>
    intro curr hc _
    exact ⟨rfl, hc, le_refl _, fun h => h, fun _ => Or.inr rfl, fun e rest h => by cases h⟩
  | cons e rest ih =>
    intro curr hc hb
    rw [sg_bytes_cons] at hb
    have hmod : (curr + e.length) % U64_MOD = curr + e.length := Nat.mod_eq_of_lt (by omega)
    unfold skip_dst
    rw [hmod]
    by_cases hlt : curr + e.length < dst_offset
    · rw [if_pos hlt]
      obtain ⟨h1, h2, h3, h4, h5, h6⟩ := ih (curr + e.length) (by omega) (by omega)
      refine ⟨?_, h2, ?_, ?_, ?_, h6⟩
      · rw [h1, sg_bytes_cons]; omega
      · simp only [List.length_cons]; omega
      · intro hu; exact h4 (sg_u32_cons hu).2
      · intro hn
        rcases h5 hn with h | h
        · left; rw [sg_bytes_cons]; omega
        · left; rw [sg_bytes_cons, h]; simp [sg_bytes]; omega
    · rw [if_neg hlt]
      refine ⟨rfl, hc, le_refl _, fun h => h, fun h => (by cases h), ?_⟩
      intro e1 rest1 h
      simp only [List.cons.injEq] at h
      rw [← h.1]
      show dst_offset ≤ curr + e.length
      omega

theorem setup_src_none {st : lli_state} (h : setup_src st = none) :
    st.src_reg.length = 0 ∧ st.next_srcSgl = [] := by
  unfold setup_src at h
  by_cases h0 : st.src_reg.length = 0
  · rw [if_pos h0] at h
    cases hn : st.next_srcSgl with
    | nil => exact ⟨h0, rfl⟩
    | cons e rest => rw [hn] at h; cases h
  · rw [if_neg h0] at h; cases h

theorem setup_dst_none {st : lli_state} (h : setup_dst st = none) :
    st.dst_reg.length = 0 ∧ st.next_dstSgl = [] := by
  unfold setup_dst at h
  by_cases h0 : st.dst_reg.length = 0
  · rw [if_pos h0] at h
    cases hn : st.next_dstSgl with
    | nil => exact ⟨h0, rfl⟩
    | cons e rest => rw [hn] at h; cases h
  · rw [if_neg h0] at h; cases h

theorem setup_src_some {M : Nat} {st st1 : lli_state} (h : setup_src st = some st1)
    (hi : lli_inv M st) :
    lli_inv M st1 ∧ st1.total_size = st.total_size ∧
    st1.num_of_elements = st.num_of_elements ∧ st1.elems = st.elems ∧
    st1.dst_reg = st.dst_reg ∧ st1.next_dstSgl = st.next_dstSgl ∧
    st1.next_srcSgl.length + (if st.src_reg.length = 0 then 1 else 0)
      ≤ st.next_srcSgl.length := by
  obtain ⟨i1, i2, i3, i4, i5⟩ := hi
  unfold setup_src at h
  by_cases h0 : st.src_reg.length = 0
  · rw [if_pos h0] at h
    cases hn : st.next_srcSgl with
    | nil => rw [hn] at h; cases h
    | cons e rest =>
      rw [hn] at h
      simp only [Option.some.injEq] at h
      rw [hn] at i1 i5
      obtain ⟨j1, j2, j3, j4⟩ := join_src_spec rest { dma_address := e.dma_address,
                                                      length := e.length }
      have he := sg_u32_cons i1
      rw [sg_bytes_cons] at i5
      subst h
      refine ⟨⟨j4 he.2, i2, j3 he.1, i4, ?_⟩, rfl, rfl, rfl, rfl, rfl, ?_⟩
      · simp only []
        simp only [] at j1
        omega
      · simp only [h0, if_true, List.length_cons]
        omega
  · rw [if_neg h0] at h
    simp only [Option.some.injEq] at h
    subst h
    exact ⟨⟨i1, i2, i3, i4, i5⟩, rfl, rfl, rfl, rfl, rfl, by simp [h0]⟩

theorem setup_dst_some {M : Nat} {st st1 : lli_state} (h : setup_dst st = some st1)
    (hi : lli_inv M st) :
    lli_inv M st1 ∧ st1.total_size = st.total_size ∧
    st1.num_of_elements = st.num_of_elements ∧ st1.elems = st.elems ∧
    st1.src_reg = st.src_reg ∧ st1.next_srcSgl = st.next_srcSgl ∧
    st1.next_dstSgl.length + (if st.dst_reg.length = 0 then 1 else 0)
      ≤ st.next_dstSgl.length := by
  obtain ⟨i1, i2, i3, i4, i5⟩ := hi
  unfold setup_dst at h
  by_cases h0 : st.dst_reg.length = 0
  · rw [if_pos h0] at h
    cases hn : st.next_dstSgl with
    | nil => rw [hn] at h; cases h
    | cons e rest =>
      rw [hn] at h
      simp only [Option.some.injEq] at h
      rw [hn] at i2 i5
      obtain ⟨j1, j2, j3, j4⟩ := join_dst_spec st.src_reg rest
        { dma_address := e.dma_address, length := e.length }
      have he := sg_u32_cons i2
      rw [sg_bytes_cons] at i5
      subst h
      refine ⟨⟨i1, j4 he.2, i3, j3 he.1, ?_⟩, rfl, rfl, rfl, rfl, rfl, ?_⟩
      · simp only []
        simp only [] at j1
        omega
      · simp only [h0, if_true, List.length_cons]
        omega
  · rw [if_neg h0] at h
    simp only [Option.some.injEq] at h
    subst h
    exact ⟨⟨i1, i2, i3, i4, i5⟩, rfl, rfl, rfl, rfl, rfl, by simp [h0]⟩

theorem build_elem_spec (max : Nat) (f : Nat → data_elem → Option Nat) (st : lli_state)
    (M : Nat) (hi : lli_inv M st) (hM : M < U64_MOD) (hmax : max < U64_MOD)
    (hgo : max = 0 ∨ st.total_size < max) :
    ∃ e, (build_elem max f st).elems = st.elems ++ [e] ∧
      (build_elem max f st).total_size = st.total_size + e.size ∧
      (build_elem max f st).num_of_elements = (st.num_of_elements + 1) % U32_MOD ∧
      (build_elem max f st).next_srcSgl = st.next_srcSgl ∧
      (build_elem max f st).next_dstSgl = st.next_dstSgl ∧
      ((max = 0 ∨ (build_elem max f st).total_size < max) →
        lli_inv M (build_elem max f st) ∧
        ((build_elem max f st).src_reg.length = 0 ∨ (build_elem max f st).dst_reg.length = 0)) ∧
      (¬ (max = 0 ∨ (build_elem max f st).total_size < max) →
        (build_elem max f st).total_size = max ∧ max ≤ M) := by
  obtain ⟨i1, i2, i3, i4, i5⟩ := hi
  generalize hbe : build_elem max f st = r
  by_cases hlt : st.src_reg.length < st.dst_reg.length
  · have hm1 : (st.total_size + st.src_reg.length) % U64_MOD
        = st.total_size + st.src_reg.length := Nat.mod_eq_of_lt (by omega)
    by_cases hcap : max ≠ 0 ∧ st.total_size + st.src_reg.length ≥ max
    · have hlen : (max + U64_MOD - st.total_size) % U64_MOD % U32_MOD = max - st.total_size := by
        unfold U64_MOD U32_MOD at *
        omega
      have hm2 : (st.total_size + (max - st.total_size)) % U64_MOD = max := by
        unfold U64_MOD U32_MOD at *
        omega
      cases hb : st.lliBuf <;>
      · simp only [build_elem, put_elem, hb, hlt, if_true, hm1, hcap, ne_eq, not_false_eq_true,
          and_self, hlen, hm2] at hbe
        subst hbe
        clear hm1 hm2 hlen
        refine ⟨_, rfl, ?_, rfl, rfl, rfl, ?_, ?_⟩
        · simp only []; omega
        · intro h; exfalso; simp only [] at h; omega
        · intro _; exact ⟨rfl, by omega⟩
    · have hnc : ¬ (max ≠ 0 ∧ (st.total_size + st.src_reg.length) % U64_MOD ≥ max) := by
        rw [hm1]; exact hcap
      have hm3 : (st.dst_reg.length + U32_MOD - st.src_reg.length) % U32_MOD
          = st.dst_reg.length - st.src_reg.length := by
        unfold U32_MOD at *
        omega
      cases hb : st.lliBuf <;>
      · simp only [build_elem, put_elem, hb, hlt, if_true, hm1, hcap, if_false, hm3] at hbe
        subst hbe
        refine ⟨_, rfl, rfl, rfl, rfl, rfl, ?_, ?_⟩
        · intro _
          refine ⟨⟨i1, i2, ?_, ?_, ?_⟩, Or.inl rfl⟩
          · simp only []; unfold U32_MOD; omega
          · simp only []; omega
          · simp only []; omega
        · intro h; exfalso; simp only [] at h; omega
  · have hm1 : (st.total_size + st.dst_reg.length) % U64_MOD
        = st.total_size + st.dst_reg.length := Nat.mod_eq_of_lt (by omega)
    by_cases hcap : max ≠ 0 ∧ st.total_size + st.dst_reg.length ≥ max
    · have hlen : (max + U64_MOD - st.total_size) % U64_MOD % U32_MOD = max - st.total_size := by
        unfold U64_MOD U32_MOD at *
        omega
      have hm2 : (st.total_size + (max - st.total_size)) % U64_MOD = max := by
        unfold U64_MOD U32_MOD at *
        omega
      cases hb : st.lliBuf <;>
      · simp only [build_elem, put_elem, hb, hlt, if_false, hm1, hcap, ne_eq, not_false_eq_true,
          and_self, hlen, hm2, if_true] at hbe
        subst hbe
        clear hm1 hm2 hlen
        refine ⟨_, rfl, ?_, rfl, rfl, rfl, ?_, ?_⟩
        · simp only []; omega
        · intro h; exfalso; simp only [] at h; omega
        · intro _; exact ⟨rfl, by omega⟩
    · have hnc : ¬ (max ≠ 0 ∧ (st.total_size + st.dst_reg.length) % U64_MOD ≥ max) := by
        rw [hm1]; exact hcap
      have hm3 : (st.src_reg.length + U32_MOD - st.dst_reg.length) % U32_MOD
          = st.src_reg.length - st.dst_reg.length := by
        unfold U32_MOD at *
        omega
      cases hb : st.lliBuf <;>
      · simp only [build_elem, put_elem, hb, hlt, if_false, hm1, hcap, hm3] at hbe
        subst hbe
        refine ⟨_, rfl, rfl, rfl, rfl, rfl, ?_, ?_⟩
        · intro _
          refine ⟨⟨i1, i2, ?_, ?_, ?_⟩, Or.inr rfl⟩
          · simp only []; omega
          · simp only []; unfold U32_MOD; omega
          · simp only []; omega
        · intro h; exfalso; simp only [] at h; omega

theorem lli_loop_spec (max : Nat) (f : Nat → data_elem → Option Nat) (M : Nat)
    (hM : M < U64_MOD) (hmax : max < U64_MOD) :
    ∀ (fuel : Nat) (st : lli_state), lli_inv M st → (max = 0 ∨ st.total_size < max) →
      lli_measure st < fuel →
      ∃ st1 new, lli_loop max f fuel st = some st1 ∧
        st1.total_size = (if max = 0 then M else min M max) ∧
        st1.elems = st.elems ++ new ∧
        st1.total_size = st.total_size + (new.map (fun e => e.size)).sum ∧
        (new ≠ [] → st1.num_of_elements = (st.num_of_elements + new.length) % U32_MOD) ∧
        (new = [] → st1.num_of_elements = st.num_of_elements) := by
  intro fuel
  induction fuel with
  | zero => intro st _ _ h; omega
  | succ n ih =>
    intro st hi hgo hmu
    have htarget : ∀ t, t = M → (max = 0 ∨ t < max) → t = (if max = 0 then M else min M max) := by
      intro t ht hg
      by_cases h0 : max = 0
      · simp [h0, ht]
      · simp only [h0, if_false]
        omega
    unfold lli_loop
    cases hs : setup_src st with
    | none =>
      obtain ⟨h1, h2⟩ := setup_src_none hs
      refine ⟨st, [], rfl, ?_, by simp, by simp, fun h => absurd rfl h, fun _ => rfl⟩
      · apply htarget _ _ hgo
        obtain ⟨_, _, _, _, i5⟩ := hi
        rw [h1, h2] at i5
        simp [sg_bytes] at i5
        exact i5
    | some st1 =>
      obtain ⟨hi1, e1, e2, e3, e4, e5, e6⟩ := setup_src_some hs hi
      simp only []
      cases hd : setup_dst st1 with
      | none =>
        obtain ⟨h1, h2⟩ := setup_dst_none hd
        refine ⟨st1, [], rfl, ?_, by simp [e3], by simp [e1], fun h => absurd rfl h, fun _ => e2⟩
        · apply htarget _ _ (by rw [e1]; exact hgo)
          obtain ⟨_, _, _, _, i5⟩ := hi1
          rw [h1, h2] at i5
          simp [sg_bytes] at i5
          exact i5
      | some st2 =>
        obtain ⟨hi2, d1, d2, d3, d4, d5, d6⟩ := setup_dst_some hd hi1
        simp only []
        obtain ⟨e, b1, b2, b3, b4, b5, b6, b7⟩ := build_elem_spec max f st2 M hi2 hM hmax
          (by rw [d1, e1]; exact hgo)
        by_cases hc : max = 0 ∨ (build_elem max f st2).total_size < max
        · rw [if_pos hc]
          obtain ⟨hi3, hz⟩ := b6 hc
          have hmu3 : lli_measure (build_elem max f st2) < n := by
            unfold lli_measure at hmu ⊢
            rw [b4, b5, d5]
            rw [e4, e5] at d6
            rcases hz with hz | hz
            · simp only [hz, if_true]
              split_ifs at hmu e6 d6 ⊢ <;> omega
            · simp only [hz, if_true]
              split_ifs at hmu e6 d6 ⊢ <;> omega
          obtain ⟨st4, new, g1, g2, g3, g4, g5, g6⟩ := ih _ hi3 hc hmu3
          refine ⟨st4, e :: new, g1, g2, ?_, ?_, ?_, fun h => (by cases h)⟩
          · rw [g3, b1, d3, e3]; simp
          · rw [g4, b2, d1, e1]; simp only [List.map_cons, List.sum_cons]; omega
          · intro _
            by_cases hn : new = []
            · rw [g6 hn, b3, d2, e2, hn]; rfl
            · rw [g5 hn, b3, d2, e2]
              simp only [List.length_cons]
              unfold U32_MOD
              omega
        · rw [if_neg hc]
          obtain ⟨c1, c2⟩ := b7 hc
          refine ⟨_, [e], rfl, ?_, ?_, ?_, ?_, fun h => (by cases h)⟩
          · rw [c1]
            have h0 : max ≠ 0 := fun h => hc (Or.inl h)
            simp only [h0, if_false]
            omega
          · rw [b1, d3, e3]
          · rw [b2, d1, e1]; simp
          · intro _; rw [b3, d2, e2]; rfl

theorem setup_src_core {st1 st2 : lli_state} (h : lli_core st1 = lli_core st2) :
    (setup_src st1).map lli_core = (setup_src st2).map lli_core := by
  simp only [lli_core, Prod.mk.injEq] at h
  obtain ⟨h1, h2, h3, h4, h5, h6, h7⟩ := h
  unfold setup_src
  rw [h1, h3]
  split
  · cases st2.next_srcSgl with
    | nil => rfl
    | cons e rest => simp [lli_core, h2, h4, h5, h6, h7]
  · simp [lli_core, h1, h2, h3, h4, h5, h6, h7]

theorem setup_dst_core {st1 st2 : lli_state} (h : lli_core st1 = lli_core st2) :
    (setup_dst st1).map lli_core = (setup_dst st2).map lli_core := by
  simp only [lli_core, Prod.mk.injEq] at h
  obtain ⟨h1, h2, h3, h4, h5, h6, h7⟩ := h
  unfold setup_dst
  rw [h2, h4]
  split
  · cases st2.next_dstSgl with
    | nil => rfl
    | cons e rest => simp [lli_core, h1, h3, h5, h6, h7]
  · simp [lli_core, h1, h2, h3, h4, h5, h6, h7]

theorem build_elem_core (max : Nat) (f1 f2 : Nat → data_elem → Option Nat)
    {st1 st2 : lli_state} (h : lli_core st1 = lli_core st2) :
    lli_core (build_elem max f1 st1) = lli_core (build_elem max f2 st2) := by
  simp only [lli_core, Prod.mk.injEq] at h
  obtain ⟨h1, h2, h3, h4, h5, h6, h7⟩ := h
  unfold build_elem put_elem
  simp only [h1, h2, h3, h4, h5, h6, h7]
  cases st1.lliBuf <;> cases st2.lliBuf <;> split <;> rfl

theorem lli_loop_core (max : Nat) (f1 f2 : Nat → data_elem → Option Nat) :
    ∀ (fuel : Nat) (st1 st2 : lli_state), lli_core st1 = lli_core st2 →
      (lli_loop max f1 fuel st1).map lli_core = (lli_loop max f2 fuel st2).map lli_core := by
  intro fuel
  induction fuel with
  | zero => intro st1 st2 _; rfl
  | succ n ih =>
    intro st1 st2 h
    unfold lli_loop
    have hs := setup_src_core h
    cases hs1 : setup_src st1 with
    | none =>
      cases hs2 : setup_src st2 with
      | none => simp only [Option.map_some']; rw [h]
      | some b => rw [hs1, hs2] at hs; cases hs
    | some a =>
      cases hs2 : setup_src st2 with
      | none => rw [hs1, hs2] at hs; cases hs
      | some b =>
        rw [hs1, hs2] at hs
        simp only [Option.map_some', Option.some.injEq] at hs
        simp only []
        have hd := setup_dst_core hs
        cases hd1 : setup_dst a with
        | none =>
          cases hd2 : setup_dst b with
          | none => simp only [Option.map_some']; rw [hs]
          | some b2 => rw [hd1, hd2] at hd; cases hd
        | some a2 =>
          cases hd2 : setup_dst b with
          | none => rw [hd1, hd2] at hd; cases hd
          | some b2 =>
            rw [hd1, hd2] at hd
            simp only [Option.map_some', Option.some.injEq] at hd
            simp only []
            have hb := build_elem_core max f1 f2 hd
            have ht : (build_elem max f1 a2).total_size = (build_elem max f2 b2).total_size := by
              have := congrArg (fun c => c.2.2.2.2.1) hb
              exact this
            rw [ht]
            split
            · exact ih _ _ hb
            · simp only [Option.map_some']; rw [hb]

theorem dma_calc_and_gen_lli_core (src dst : List scatterlist) (p1 p2 : Option Nat)
    (dst_offset max : Nat) (f1 f2 : Nat → data_elem → Option Nat) :
    (dma_calc_and_gen_lli src dst p1 dst_offset max f1).map lli_view
      = (dma_calc_and_gen_lli src dst p2 dst_offset max f2).map lli_view := by
  have hmap : ∀ (a b : Option lli_state), a.map lli_core = b.map lli_core →
      (a.map (fun st => ({ num_of_elements := st.num_of_elements,
                           transfer_size := st.total_size,
                           elems := st.elems, calls := st.calls } : lli_result))).map lli_view
      = (b.map (fun st => ({ num_of_elements := st.num_of_elements,
                             transfer_size := st.total_size,
                             elems := st.elems, calls := st.calls } : lli_result))).map
          lli_view := by
    intro a b h
    cases a with
    | none => cases b with
      | none => rfl
      | some y => cases h
    | some x => cases b with
      | none => cases h
      | some y =>
        simp only [Option.map_some', Option.some.injEq, lli_core, Prod.mk.injEq] at h
        simp only [Option.map_some', lli_view, h.2.2.2.2.1, h.2.2.2.2.2.1, h.2.2.2.2.2.2]
  unfold dma_calc_and_gen_lli
  by_cases hpos : dst_offset > 0
  · simp only [hpos, if_true]
    rcases hsk : skip_dst dst_offset 0 dst with ⟨c, l⟩
    cases l with
    | nil => rfl
    | cons e rest =>
      simp only []
      exact hmap _ _ (lli_loop_core max f1 f2 _ _ _ rfl)
  · simp only [hpos, if_false]
    exact hmap _ _ (lli_loop_core max f1 f2 _ _ _ rfl)

end Genmsg
